import Mathlib

/-!
# TrenchBroom map parser: verification development

A shallow embedding of `src/src/IO/QuakeMapParser.cpp` (format detection, the
recursive entity / brush / face parser and the four entry points) together with
theorems about it.

Modelling conventions

* The parser is a state machine over `QuakeMapParser` (tokenizer, detected
  format, logger).  A member function returning `T` becomes a function
  `QuakeMapParser → Result T × QuakeMapParser`; a C++ exception is the
  `Result.thrown` outcome and leaves the state as it was at the throw.
* `while` loops take a counter; a loop that exhausts its counter yields
  `Result.outOfFuel`, which is neither a value nor an exception (a `catch`
  does not see it).  Theorems state how much fuel suffices.
* The input of the parser is the sequence of tokens that the tokenizer emits
  from the start of the text, followed by what it does at their end (an `Eof`
  token, or the exception for a character it cannot read).
* Numbers are exact: coordinates and texture parameters live in a commutative
  ring `R` with decidable equality (instantiated with `ℤ` in the examples).
* Classes that are only used, not defined, by the parser source (the tokenizer
  base class, `Vec3`, `Entity`, `Brush`, the geometry kernel, the sort
  comparators) are either fields of `Env` or small definitions marked
  `Modelled from the spec`.
-/

namespace TrenchBroom

/-! ## Tokens -/

/-- Token kinds of `QuakeMapToken`. -/
inductive TokenType where
  | Integer
  | Decimal
  | String
  | OParenthesis
  | CParenthesis
  | OBrace
  | CBrace
  | OBracket
  | CBracket
  | Comment
  | Eof
deriving DecidableEq, Repr

/-- Modelled from the spec: the `Token` class (not in the sources): kind, text, line and column. -/
structure Token where
  type : TokenType
  data : String
  line : Nat
  column : Nat
deriving DecidableEq, Repr

/-- What `emitToken` does once the tokens of the input are used up: it reports the end
of the input (line 98), or it throws on a character it cannot read (line 93). -/
inductive Ending where
  | eof (line column : Nat)
  | unexpectedCharacter (line column : Nat) (c : String)
deriving DecidableEq, Repr

/-- Modelled from the spec: the `Tokenizer` base class (not in the sources).  `input` is the
sequence of tokens `emitToken` produces from the start of the text, `ending` what it does
after them, `remaining` the part of `input` not yet emitted, and `pushed` the one token of
pushback. -/
structure Tokenizer where
  input : List Token
  ending : Ending
  remaining : List Token
  pushed : Option Token
deriving DecidableEq, Repr

/-- Exceptions: the two uses of `ParserException` (a character the tokenizer cannot read;
a token outside the expected set) and the kernel's `GeometryException`. -/
inductive Exception where
  | lexError (line column : Nat) (c : String)
  | unexpectedToken (line column : Nat) (expected : List TokenType) (actual : TokenType)
  | geometryException (what : String)
deriving DecidableEq, Repr

/-- `Model::MapFormat`. `Quake` is the spec's StandardA, `Valve` StandardB, `Hexen2`
StandardC and `Quake2` StandardD. -/
inductive MapFormat where
  | Unknown
  | Quake
  | Valve
  | Hexen2
  | Quake2
deriving DecidableEq, Repr

/-- One call `m_logger->error("Error parsing brush at line %u: %s", firstLine, e.what())`. -/
structure LogEntry where
  line : Nat
  what : String
deriving DecidableEq, Repr

/-- State of a `QuakeMapParser` object.  `m_logger = none` is the NULL logger; otherwise it
holds the diagnostics received so far, oldest first. -/
structure QuakeMapParser where
  m_logger : Option (List LogEntry)
  m_tokenizer : Tokenizer
  m_format : MapFormat
deriving DecidableEq, Repr

/-- Constructor `QuakeMapParser(str, logger)`: tokenizer at the start, format `Unknown`. -/
def QuakeMapParser.new (input : List Token) (ending : Ending) (logger : Option (List LogEntry)) :
    QuakeMapParser :=
  { m_logger := logger
    m_tokenizer := { input := input, ending := ending, remaining := input, pushed := none }
    m_format := MapFormat.Unknown }

/-! ## Outcomes and sequencing -/

/-- Outcome of running a member function. -/
inductive Result (α : Type) where
  | ok (a : α)
  | thrown (e : Exception)
  | outOfFuel
deriving DecidableEq, Repr

/-- A member function of the parser returning `α`. -/
def M (α : Type) : Type := QuakeMapParser → Result α × QuakeMapParser

/-- Normal return. -/
def M.ret {α : Type} (a : α) : M α := fun p => (Result.ok a, p)

/-- Sequencing: an exception or fuel exhaustion in the first part skips the second. -/
def M.andThen {α β : Type} (m : M α) (f : α → M β) : M β := fun p =>
  match m p with
  | (Result.ok a, p1) => f a p1
  | (Result.thrown e, p1) => (Result.thrown e, p1)
  | (Result.outOfFuel, p1) => (Result.outOfFuel, p1)

instance : Monad M where
  pure := M.ret
  bind := M.andThen

/-- The C++ `throw`. -/
def throwException {α : Type} (e : Exception) : M α := fun p => (Result.thrown e, p)

/-- A loop ran out of its counter. -/
def outOfFuel {α : Type} : M α := fun p => (Result.outOfFuel, p)

/-- The block `try { body } catch (...) { handler }`; the handler is given the exception in
flight so that it can rethrow it (`throw;`). -/
def tryCatchAll {α : Type} (body : M α) (handler : Exception → M α) : M α := fun p =>
  match body p with
  | (Result.thrown e, p1) => handler e p1
  | r => r

/-! ## Tokenizer operations -/

/-- Modelled from the spec: `Tokenizer::nextToken` (not in the sources): re-deliver the
pushed-back token if there is one, else emit the next token of the input; at the end of the
tokens, return an `Eof` token or throw the lexical error. -/
def nextToken : M Token := fun p =>
  match p.m_tokenizer.pushed with
  | some t => (Result.ok t, { p with m_tokenizer := { p.m_tokenizer with pushed := none } })
  | none =>
    match p.m_tokenizer.remaining with
    | t :: ts => (Result.ok t, { p with m_tokenizer := { p.m_tokenizer with remaining := ts } })
    | [] =>
      match p.m_tokenizer.ending with
      | Ending.eof l c => (Result.ok { type := TokenType.Eof, data := "", line := l, column := c }, p)
      | Ending.unexpectedCharacter l c ch => (Result.thrown (Exception.lexError l c ch), p)

/-- Modelled from the spec: `Tokenizer::pushToken` (not in the sources): the token is
re-delivered by the next `nextToken`. -/
def pushToken (t : Token) : M Unit := fun p =>
  (Result.ok (), { p with m_tokenizer := { p.m_tokenizer with pushed := some t } })

/-- Modelled from the spec: `Tokenizer::reset` (not in the sources): rewind to the start of
the input. -/
def reset : M Unit := fun p =>
  (Result.ok (), { p with m_tokenizer :=
    { p.m_tokenizer with remaining := p.m_tokenizer.input, pushed := none } })

/-- Modelled from the spec: `Parser::expect` (not in the sources): a token whose kind is not
in the expected set fails with `UnexpectedToken` carrying the token's line and column, the
expected kinds and the actual kind. -/
def expect (typeMask : List TokenType) (token : Token) : M Unit :=
  if token.type ∈ typeMask then pure ()
  else throwException (Exception.unexpectedToken token.line token.column typeMask token.type)

/-- Assignment `m_format = format`. -/
def setFormat (format : MapFormat) : M Unit := fun p =>
  (Result.ok (), { p with m_format := format })

/-- Read `m_format`. -/
def getFormat : M MapFormat := fun p => (Result.ok p.m_format, p)

/-- The call `m_logger->error(...)` guarded by `m_logger != NULL`. -/
def logError (entry : LogEntry) : M Unit := fun p =>
  match p.m_logger with
  | some log => (Result.ok (), { p with m_logger := some (log ++ [entry]) })
  | none => (Result.ok (), p)

/-! ## Geometry and model objects -/

/-- Modelled from the spec: `Vec3` (not in the sources), with exact components. -/
structure Vec3 (R : Type) where
  x : R
  y : R
  z : R
deriving DecidableEq, Repr

/-- Modelled from the spec: `operator-` of `Vec3` (not in the sources): the component-wise
difference `a - b`. -/
def Vec3.sub {R : Type} [CommRing R] (a b : Vec3 R) : Vec3 R :=
  { x := a.x - b.x, y := a.y - b.y, z := a.z - b.z }

/-- Modelled from the spec: `crossed` of `Vec3` (not in the sources): the cross product. -/
def crossed {R : Type} [CommRing R] (a b : Vec3 R) : Vec3 R :=
  { x := a.y * b.z - a.z * b.y, y := a.z * b.x - a.x * b.z, z := a.x * b.y - a.y * b.x }

/-- Modelled from the spec: `Vec3::null`: the vector is the zero vector. -/
def Vec3.null {R : Type} [CommRing R] [DecidableEq R] (v : Vec3 R) : Bool :=
  decide (v.x = 0) && decide (v.y = 0) && decide (v.z = 0)

/-- Modelled from the spec: `BBox3` (not in the sources), the validity volume; the parser only
hands it to the geometry kernel. -/
structure BBox3 (R : Type) where
  min : Vec3 R
  max : Vec3 R
deriving DecidableEq, Repr

/-- Modelled from the spec: the constructor arguments that only a `ValveBrushFace` receives
(explicit texture axes, the normal and the rotation). -/
structure ValveAxes (R : Type) where
  texAxisX : Vec3 R
  texAxisY : Vec3 R
  normal : Vec3 R
  rotation : R
deriving DecidableEq, Repr

/-- Modelled from the spec: `Model::BrushFace` (not in the sources).  `valve = none` is a
`QuakeBrushFace`, `valve = some _` a `ValveBrushFace`. -/
structure BrushFace (R : Type) where
  p1 : Vec3 R
  p2 : Vec3 R
  p3 : Vec3 R
  textureName : String
  valve : Option (ValveAxes R)
  xOffset : R
  yOffset : R
  rotation : R
  xScale : R
  yScale : R
  surfaceContents : Nat
  surfaceFlags : Nat
  surfaceValue : R
  filePosition : Nat × Nat
deriving DecidableEq, Repr

/-- Modelled from the spec: `Model::Brush` (not in the sources): the faces it was built
from, in the order given to the kernel, and its file position. -/
structure Brush (R : Type) where
  faces : List (BrushFace R)
  filePosition : Nat × Nat
deriving DecidableEq, Repr

/-- Modelled from the spec: `Model::Entity` (not in the sources): insertion-ordered
properties, owned brushes, file position. -/
structure Entity (R : Type) where
  properties : List (String × String)
  brushes : List (Brush R)
  filePosition : Nat × Nat
deriving DecidableEq, Repr

/-- Modelled from the spec: the `Entity` constructor (not in the sources): no properties, no
brushes. -/
def Entity.new {R : Type} : Entity R := { properties := [], brushes := [], filePosition := (0, 0) }

/-- Modelled from the spec: `Entity::addOrUpdateProperty`: a later duplicate key overwrites
the earlier value, a new key is appended. -/
def Entity.addOrUpdateProperty {R : Type} (e : Entity R) (key value : String) : Entity R :=
  if e.properties.any (fun kv => kv.1 == key) then
    { e with properties := e.properties.map (fun kv => if kv.1 == key then (key, value) else kv) }
  else
    { e with properties := e.properties ++ [(key, value)] }

/-- Modelled from the spec: `Entity::addBrush` (not in the sources): the brush joins the
entity's brushes. -/
def Entity.addBrush {R : Type} (e : Entity R) (b : Brush R) : Entity R :=
  { e with brushes := e.brushes ++ [b] }

/-- Modelled from the spec: `Entity::setFilePosition` (not in the sources): records the
source line range. -/
def Entity.setFilePosition {R : Type} (e : Entity R) (firstLine lineCount : Nat) : Entity R :=
  { e with filePosition := (firstLine, lineCount) }

/-- Modelled from the spec: `Model::Map` (the Document): format and owned entities. -/
structure Map (R : Type) where
  format : MapFormat
  entities : List (Entity R)
deriving DecidableEq, Repr

/-- Modelled from the spec: `Map::addEntity` (not in the sources): the entity joins the
Document's entities. -/
def Map.addEntity {R : Type} (m : Map R) (e : Entity R) : Map R :=
  { m with entities := m.entities ++ [e] }

/-- Modelled from the spec: `Model::BrushFace::NoTextureName` (not in the sources), the
no-texture name `"__TB_empty"`. -/
def NoTextureName : String := "__TB_empty"

/-- The collaborators of the parser whose code is not in the sources.
* `toFloat`, `toInteger`: the number a numeric token denotes (`Token::toFloat`, `toInteger`);
* `corrected`, `normalized`: the `Vec3` methods of these names, with the spec's law that the
  normalised cross product is null exactly when the cross product is the zero vector;
* `sortFaces d`: `std::sort` with `FaceWeightOrder(PlaneWeightOrder(d))`;
* `geometry`: the `Model::Brush` constructor, the geometry kernel: `some what` when it throws
  `GeometryException(what)`, `none` when it builds the brush. -/
structure Env (R : Type) [CommRing R] [DecidableEq R] where
  toFloat : Token → R
  toInteger : Token → Nat
  corrected : Vec3 R → Vec3 R
  normalized : Vec3 R → Vec3 R
  normalized_null : ∀ v : Vec3 R, (normalized v).null = v.null
  sortFaces : Bool → List (BrushFace R) → List (BrushFace R)
  geometry : BBox3 R → List (BrushFace R) → Option String

/-! ## The parser (QuakeMapParser.cpp, lines 139 to 451) -/

section Parser

variable {R : Type} [CommRing R] [DecidableEq R]

/-- The mask `Integer | Decimal`. -/
def numberMask : List TokenType := [TokenType.Integer, TokenType.Decimal]

/-- Source `parseVector` (lines 423 to 432): three numeric tokens, each read with
`toFloat`; the `for` loop of three iterations is written out. -/
def parseVector (env : Env R) : M (Vec3 R) := do
  let t0 ← nextToken
  expect numberMask t0
  let t1 ← nextToken
  expect numberMask t1
  let t2 ← nextToken
  expect numberMask t2
  pure { x := env.toFloat t0, y := env.toFloat t1, z := env.toFloat t2 }

/-- The loop of `detectFormat` (lines 220 to 222): read on until an opening parenthesis or
the end of the input. -/
def detectFormatSkip : Nat → Token → M Token
  | 0, _ => outOfFuel
  | fuel + 1, token =>
    if token.type ≠ TokenType.OParenthesis ∧ token.type ≠ TokenType.Eof then
      nextToken >>= detectFormatSkip fuel
    else
      pure token

/-- Body of the `for` loop of `detectFormat` (lines 228 to 230): one parenthesised point. -/
def detectFormatPoint (env : Env R) : M Unit := do
  let t ← nextToken
  expect [TokenType.OParenthesis] t
  let _ ← parseVector env
  let t ← nextToken
  expect [TokenType.CParenthesis] t

/-- Lines 219 to 222 of `detectFormat`: the first token and the loop that follows it. -/
def detectFormatFind (fuel : Nat) : M Token := do
  let token ← nextToken
  detectFormatSkip fuel token

/-- Lines 227 to 247 of `detectFormat`: the probe of the first face, run after the opening
parenthesis has been pushed back; the `for` loop of three iterations is written out.  As in
the source, the second `expect` of the last step (line 244) is given the token that
line 241 has read. -/
def detectFormatFace (env : Env R) : M MapFormat := do
  detectFormatPoint env
  detectFormatPoint env
  detectFormatPoint env
  let token ← nextToken
  expect [TokenType.String] token
  let token ← nextToken
  expect [TokenType.Integer, TokenType.Decimal, TokenType.OBracket] token
  if token.type = TokenType.OBracket then
    pure MapFormat.Valve
  else do
    let token ← nextToken
    expect numberMask token
    let token ← nextToken
    expect numberMask token
    let token ← nextToken
    expect numberMask token
    let token ← nextToken
    expect numberMask token
    let token ← nextToken
    expect [TokenType.Integer, TokenType.Decimal, TokenType.OParenthesis, TokenType.CBrace] token
    if token.type = TokenType.OParenthesis ∨ token.type = TokenType.CBrace then
      pure MapFormat.Quake
    else do
      expect [TokenType.Integer, TokenType.Decimal, TokenType.OParenthesis, TokenType.CBrace] token
      if token.type = TokenType.OParenthesis ∨ token.type = TokenType.CBrace then
        pure MapFormat.Hexen2
      else
        pure MapFormat.Quake2

/-- Source `detectFormat` (lines 217 to 248). -/
def detectFormat (env : Env R) (fuel : Nat) : M MapFormat := do
  let token ← detectFormatFind fuel
  if token.type = TokenType.Eof then
    pure MapFormat.Quake
  else do
    pushToken token
    detectFormatFace env

/-- Lines 361 to 378 of `parseFace`: the texture axes (Valve only) and the two offsets. -/
def parseFaceOffsets (env : Env R) : M (Option (Vec3 R × Vec3 R) × R × R) := do
  let format ← getFormat
  if format = MapFormat.Valve then do
    let t ← nextToken
    expect [TokenType.OBracket] t
    let texAxisX ← parseVector env
    let token ← nextToken
    expect numberMask token
    let xOffset := env.toFloat token
    let t ← nextToken
    expect [TokenType.CBracket] t
    let t ← nextToken
    expect [TokenType.OBracket] t
    let texAxisY ← parseVector env
    let token ← nextToken
    expect numberMask token
    let yOffset := env.toFloat token
    let t ← nextToken
    expect [TokenType.CBracket] t
    pure (some (texAxisX, texAxisY), xOffset, yOffset)
  else do
    let token ← nextToken
    expect numberMask token
    let xOffset := env.toFloat token
    let token ← nextToken
    expect numberMask token
    let yOffset := env.toFloat token
    pure (none, xOffset, yOffset)

/-- Lines 393 to 408 of `parseFace`: the trailing surface fields of the format.  `token` is
the token last read (the y scale); the result holds contents, flags, value and the token
last assigned to `token`. -/
def parseFaceSurface (env : Env R) (token : Token) : M (Nat × Nat × R × Token) := do
  let format ← getFormat
  if format = MapFormat.Quake2 then do
    let token ← nextToken
    expect [TokenType.Integer] token
    let surfaceContents := env.toInteger token
    let token ← nextToken
    expect [TokenType.Integer] token
    let surfaceFlags := env.toInteger token
    let token ← nextToken
    expect numberMask token
    let surfaceValue := env.toFloat token
    pure (surfaceContents, surfaceFlags, surfaceValue, token)
  else if format = MapFormat.Hexen2 then do
    let token ← nextToken
    expect numberMask token
    pure (0, 0, 0, token)
  else
    pure (0, 0, 0, token)

/-- Source `parseFace` (lines 334 to 421).  `none` is the NULL result. -/
def parseFace (env : Env R) (_worldBounds : BBox3 R) : M (Option (BrushFace R)) := do
  let token ← nextToken
  if token.type = TokenType.Eof then
    pure none
  else do
    expect [TokenType.OParenthesis] token
    let v1 ← parseVector env
    let p1 := env.corrected v1
    let token ← nextToken
    expect [TokenType.CParenthesis] token
    let token ← nextToken
    expect [TokenType.OParenthesis] token
    let v2 ← parseVector env
    let p2 := env.corrected v2
    let token ← nextToken
    expect [TokenType.CParenthesis] token
    let token ← nextToken
    expect [TokenType.OParenthesis] token
    let v3 ← parseVector env
    let p3 := env.corrected v3
    let token ← nextToken
    expect [TokenType.CParenthesis] token
    let token ← nextToken
    expect [TokenType.String] token
    let textureName := if token.data = NoTextureName then "" else token.data
    let normal := env.normalized (crossed (p3.sub p1) (p2.sub p1))
    if normal.null then
      pure none
    else do
      let (axes, xOffset, yOffset) ← parseFaceOffsets env
      let token ← nextToken
      expect numberMask token
      let rotation := env.toFloat token
      let token ← nextToken
      expect numberMask token
      let xScale := env.toFloat token
      let token ← nextToken
      expect numberMask token
      let yScale := env.toFloat token
      let format ← getFormat
      let valve : Option (ValveAxes R) :=
        if format = MapFormat.Valve then
          axes.map (fun a => { texAxisX := a.1, texAxisY := a.2, normal := normal, rotation := rotation })
        else none
      let (surfaceContents, surfaceFlags, surfaceValue, token) ← parseFaceSurface env token
      pure (some
        { p1 := p1, p2 := p2, p3 := p3, textureName := textureName, valve := valve
          xOffset := xOffset, yOffset := yOffset, rotation := rotation
          xScale := xScale, yScale := yScale
          surfaceContents := surfaceContents, surfaceFlags := surfaceFlags
          surfaceValue := surfaceValue, filePosition := (token.line, 1) })

/-- Source `createBrush` (lines 434 to 451): sort twice, hand the faces to the kernel; a
`GeometryException` is caught, logged when there is a logger, and gives NULL. -/
def createBrush (env : Env R) (worldBounds : BBox3 R) (faces : List (BrushFace R))
    (firstLine lineCount : Nat) : M (Option (Brush R)) :=
  let sortedFaces := env.sortFaces false (env.sortFaces true faces)
  match env.geometry worldBounds sortedFaces with
  | none => pure (some { faces := sortedFaces, filePosition := (firstLine, lineCount) })
  | some what => do
    logError { line := firstLine, what := what }
    pure none

/-- The `while` loop of `parseBrush` (lines 313 to 331); `faces` is the local face list. -/
def parseBrushLoop (env : Env R) (worldBounds : BBox3 R) (firstLine : Nat) :
    Nat → List (BrushFace R) → M (Option (Brush R))
  | 0, _ => outOfFuel
  | fuel + 1, faces => do
    let token ← nextToken
    if token.type = TokenType.Eof then
      pure none
    else if token.type = TokenType.OParenthesis then do
      pushToken token
      let face ← parseFace env worldBounds
      match face with
      | some f => parseBrushLoop env worldBounds firstLine fuel (faces ++ [f])
      | none => parseBrushLoop env worldBounds firstLine fuel faces
    else if token.type = TokenType.CBrace then
      createBrush env worldBounds faces firstLine (token.line - firstLine)
    else do
      expect [TokenType.OParenthesis, TokenType.CParenthesis] token
      parseBrushLoop env worldBounds firstLine fuel faces

/-- Source `parseBrush` (lines 301 to 332).  The line count `token.line() - firstLine` is a
natural-number difference: the lines of an input never decrease, so the `size_t`
subtraction of the source does not wrap. -/
def parseBrush (env : Env R) (fuel : Nat) (worldBounds : BBox3 R) : M (Option (Brush R)) := do
  let token ← nextToken
  if token.type = TokenType.Eof then
    pure none
  else do
    expect [TokenType.OBrace, TokenType.CBrace] token
    if token.type = TokenType.CBrace then
      pure none
    else
      parseBrushLoop env worldBounds token.line fuel []

/-- The loop `while (moreBrushes)` of `parseEntity` (lines 275 to 282). -/
def parseEntityBrushes (env : Env R) (fuel : Nat) (worldBounds : BBox3 R) :
    Nat → Entity R → M (Entity R)
  | 0, _ => outOfFuel
  | n + 1, entity => do
    let brush ← parseBrush env fuel worldBounds
    let entity := match brush with
      | some b => entity.addBrush b
      | none => entity
    let token ← nextToken
    expect [TokenType.OBrace, TokenType.CBrace] token
    pushToken token
    if token.type = TokenType.OBrace then
      parseEntityBrushes env fuel worldBounds n entity
    else
      pure entity

/-- The outer `while` loop of `parseEntity` (lines 263 to 292), with the `return entity` of
line 298 that follows it. -/
def parseEntityLoop (env : Env R) (fuel : Nat) (worldBounds : BBox3 R) (firstLine : Nat) :
    Nat → Entity R → M (Option (Entity R))
  | 0, _ => outOfFuel
  | n + 1, entity => do
    let token ← nextToken
    if token.type = TokenType.Eof then
      pure (some entity)
    else if token.type = TokenType.String then do
      let key := token.data
      let token ← nextToken
      expect [TokenType.String] token
      let value := token.data
      parseEntityLoop env fuel worldBounds firstLine n (entity.addOrUpdateProperty key value)
    else if token.type = TokenType.OBrace then do
      pushToken token
      let entity ← parseEntityBrushes env fuel worldBounds fuel entity
      parseEntityLoop env fuel worldBounds firstLine n entity
    else if token.type = TokenType.CBrace then
      pure (some (entity.setFilePosition firstLine (token.line - firstLine)))
    else do
      expect [TokenType.String, TokenType.OBrace, TokenType.CBrace] token
      parseEntityLoop env fuel worldBounds firstLine n entity

/-- Source `parseEntity` (lines 250 to 299).  The `catch (...)` of lines 293 to 296 deletes
the entity under construction and rethrows. -/
def parseEntity (env : Env R) (fuel : Nat) (worldBounds : BBox3 R) : M (Option (Entity R)) := do
  let token ← nextToken
  if token.type = TokenType.Eof then
    pure none
  else do
    expect [TokenType.OBrace, TokenType.CBrace] token
    if token.type = TokenType.CBrace then
      pure none
    else
      tryCatchAll (parseEntityLoop env fuel worldBounds token.line fuel Entity.new)
        (fun e => throwException e)

/-- The loop `while (entity != NULL)` of `doParseMap` (lines 146 to 149). -/
def doParseMapLoop (env : Env R) (fuel : Nat) (worldBounds : BBox3 R) :
    Nat → Option (Entity R) → Map R → M (Map R)
  | 0, _, _ => outOfFuel
  | _ + 1, none, map => pure map
  | n + 1, some entity, map => do
    let next ← parseEntity env fuel worldBounds
    doParseMapLoop env fuel worldBounds n next (map.addEntity entity)

/-- Source `doParseMap` (lines 139 to 155), the entry point parseDocument.  The
`catch (...)` deletes the map and rethrows. -/
def doParseMap (env : Env R) (fuel : Nat) (worldBounds : BBox3 R) : M (Map R) := do
  let format ← detectFormat env fuel
  setFormat format
  reset
  let map : Map R := { format := format, entities := [] }
  tryCatchAll
    (do
      let entity ← parseEntity env fuel worldBounds
      doParseMapLoop env fuel worldBounds fuel entity map)
    (fun e => throwException e)

/-- The loop `while (item != NULL)` shared by the three list entry points (lines 167 to 170,
187 to 190 and 207 to 210); `items` is the local result list. -/
def collectLoop {α : Type} (parseItem : M (Option α)) : Nat → Option α → List α → M (List α)
  | 0, _, _ => outOfFuel
  | _ + 1, none, items => pure items
  | n + 1, some item, items => do
    let next ← parseItem
    collectLoop parseItem n next (items ++ [item])

/-- The shape shared by `doParseEntities`, `doParseBrushes` and `doParseFaces`: detect the
format inside the `try`, return the empty list on `Unknown`, else reset and collect items
until one is NULL; the `catch (...)` clears the list, which is then returned. -/
def doParseList {α : Type} (env : Env R) (fuel : Nat) (parseItem : M (Option α)) : M (List α) :=
  tryCatchAll
    (do
      let format ← detectFormat env fuel
      setFormat format
      if format = MapFormat.Unknown then
        pure []
      else do
        reset
        let item ← parseItem
        collectLoop parseItem fuel item [])
    (fun _ => pure [])

/-- Source `doParseEntities` (lines 157 to 175), the entry point parseEntities. -/
def doParseEntities (env : Env R) (fuel : Nat) (worldBounds : BBox3 R) : M (List (Entity R)) :=
  doParseList env fuel (parseEntity env fuel worldBounds)

/-- Source `doParseBrushes` (lines 177 to 195), the entry point parseBrushes. -/
def doParseBrushes (env : Env R) (fuel : Nat) (worldBounds : BBox3 R) : M (List (Brush R)) :=
  doParseList env fuel (parseBrush env fuel worldBounds)

/-- Source `doParseFaces` (lines 197 to 215), the entry point parseFaces. -/
def doParseFaces (env : Env R) (fuel : Nat) (worldBounds : BBox3 R) : M (List (BrushFace R)) :=
  doParseList env fuel (parseFace env worldBounds)

end Parser

/-! ## Shapes of inputs and runs, used to state the theorems -/

/-- A numeric token: Integer or Decimal. -/
abbrev Token.isNumber (t : Token) : Prop :=
  t.type = TokenType.Integer ∨ t.type = TokenType.Decimal

/-- The five tokens of a parenthesised point `( x y z )`. -/
structure PointSrc where
  o : Token
  x : Token
  y : Token
  z : Token
  c : Token
deriving DecidableEq, Repr

/-- The point is a parenthesised numeric triple. -/
abbrev PointSrc.WellFormed (q : PointSrc) : Prop :=
  q.o.type = TokenType.OParenthesis ∧ q.x.isNumber ∧ q.y.isNumber ∧ q.z.isNumber ∧
    q.c.type = TokenType.CParenthesis

/-- The tokens of the point, in source order. -/
def PointSrc.tokens (q : PointSrc) : List Token := [q.o, q.x, q.y, q.z, q.c]

/-- The tokens of a sequence of key / value pairs, in source order. -/
def propertyTokens : List (Token × Token) → List Token
  | [] => []
  | kv :: rest => kv.1 :: kv.2 :: propertyTokens rest

/-- The entity after `addOrUpdateProperty` for each pair, in source order. -/
def addProperties {R : Type} (entity : Entity R) (pairs : List (Token × Token)) : Entity R :=
  pairs.foldl (fun e kv => e.addOrUpdateProperty kv.1.data kv.2.data) entity

/-- The parser state after `m_format = format; m_tokenizer.reset();`. -/
def QuakeMapParser.startOfParse (p : QuakeMapParser) (format : MapFormat) : QuakeMapParser :=
  { p with
    m_format := format
    m_tokenizer := { p.m_tokenizer with remaining := p.m_tokenizer.input, pushed := none } }

/-- `Collects parseItem p items q`: starting in state `p`, successive calls of `parseItem`
return the items of `items` (none of them NULL), one after the other, and leave the parser
in state `q`. -/
inductive Collects {α : Type} (parseItem : M (Option α)) :
    QuakeMapParser → List α → QuakeMapParser → Prop where
  | nil (p : QuakeMapParser) : Collects parseItem p [] p
  | cons {p p1 p2 : QuakeMapParser} {item : α} {items : List α} :
      parseItem p = (Result.ok (some item), p1) → Collects parseItem p1 items p2 →
      Collects parseItem p (item :: items) p2

/-- `RaisesDuring detect parseItem p items e q`: an entry-point call started in state `p`
raises `e` in state `q`, either during format detection (then `items` is empty) or, after a
successful detection and the reset, while parsing the item that follows the successfully
parsed `items`. -/
inductive RaisesDuring {α : Type} (detect : M MapFormat) (parseItem : M (Option α))
    (p : QuakeMapParser) : List α → Exception → QuakeMapParser → Prop where
  | inDetection {e : Exception} {q : QuakeMapParser} :
      detect p = (Result.thrown e, q) → RaisesDuring detect parseItem p [] e q
  | inItem {format : MapFormat} {p1 p2 q : QuakeMapParser} {items : List α} {e : Exception} :
      detect p = (Result.ok format, p1) → format ≠ MapFormat.Unknown →
      Collects parseItem (p1.startOfParse format) items p2 →
      parseItem p2 = (Result.thrown e, q) →
      RaisesDuring detect parseItem p items e q

/-- The tokens that follow the texture name of a face, in one of the three dialects that
`detectFormat` can return. -/
inductive FaceAttrs where
  | quake (xOffset yOffset rotation xScale yScale : Token)
  | valve (o1 x1 y1 z1 xOffset c1 o2 x2 y2 z2 yOffset c2 rotation xScale yScale : Token)
  | quake2 (xOffset yOffset rotation xScale yScale contents flags value : Token)
deriving DecidableEq, Repr

/-- The tokens, in source order. -/
def FaceAttrs.tokens : FaceAttrs → List Token
  | quake xo yo rot xs ys => [xo, yo, rot, xs, ys]
  | valve o1 x1 y1 z1 xo c1 o2 x2 y2 z2 yo c2 rot xs ys =>
    [o1, x1, y1, z1, xo, c1, o2, x2, y2, z2, yo, c2, rot, xs, ys]
  | quake2 xo yo rot xs ys sc sf sv => [xo, yo, rot, xs, ys, sc, sf, sv]

/-- The dialect the tokens are written in. -/
def FaceAttrs.format : FaceAttrs → MapFormat
  | quake .. => MapFormat.Quake
  | valve .. => MapFormat.Valve
  | quake2 .. => MapFormat.Quake2

/-- Every token has the kind the grammar of its dialect asks for. -/
def FaceAttrs.WellFormed : FaceAttrs → Prop
  | quake xo yo rot xs ys =>
    xo.isNumber ∧ yo.isNumber ∧ rot.isNumber ∧ xs.isNumber ∧ ys.isNumber
  | valve o1 x1 y1 z1 xo c1 o2 x2 y2 z2 yo c2 rot xs ys =>
    o1.type = TokenType.OBracket ∧ x1.isNumber ∧ y1.isNumber ∧ z1.isNumber ∧ xo.isNumber ∧
      c1.type = TokenType.CBracket ∧
    o2.type = TokenType.OBracket ∧ x2.isNumber ∧ y2.isNumber ∧ z2.isNumber ∧ yo.isNumber ∧
      c2.type = TokenType.CBracket ∧
    rot.isNumber ∧ xs.isNumber ∧ ys.isNumber
  | quake2 xo yo rot xs ys sc sf sv =>
    xo.isNumber ∧ yo.isNumber ∧ rot.isNumber ∧ xs.isNumber ∧ ys.isNumber ∧
      sc.type = TokenType.Integer ∧ sf.type = TokenType.Integer ∧ sv.isNumber

instance (a : FaceAttrs) : Decidable a.WellFormed := by
  cases a <;> unfold FaceAttrs.WellFormed <;> infer_instance

/-- The tokens of one face: three points, the texture name, the tokens after the name. -/
structure FaceSrc where
  pt1 : PointSrc
  pt2 : PointSrc
  pt3 : PointSrc
  texture : Token
  attrs : FaceAttrs
deriving DecidableEq, Repr

/-- The tokens of the face, in source order. -/
def FaceSrc.tokens (f : FaceSrc) : List Token :=
  f.pt1.tokens ++ (f.pt2.tokens ++ (f.pt3.tokens ++ f.texture :: f.attrs.tokens))

/-- The face is well-formed in the dialect `format`. -/
abbrev FaceSrc.WellFormed (format : MapFormat) (f : FaceSrc) : Prop :=
  f.pt1.WellFormed ∧ f.pt2.WellFormed ∧ f.pt3.WellFormed ∧ f.texture.type = TokenType.String ∧
    f.attrs.format = format ∧ f.attrs.WellFormed

/-- The vector a point's tokens denote. -/
def PointSrc.vec {R : Type} [CommRing R] [DecidableEq R] (env : Env R) (q : PointSrc) : Vec3 R :=
  { x := env.toFloat q.x, y := env.toFloat q.y, z := env.toFloat q.z }

/-- The cross product `crossed(p3 - p1, p2 - p1)` of the face's corrected points. -/
def FaceSrc.cross {R : Type} [CommRing R] [DecidableEq R] (env : Env R) (f : FaceSrc) : Vec3 R :=
  crossed ((env.corrected (f.pt3.vec env)).sub (env.corrected (f.pt1.vec env)))
    ((env.corrected (f.pt2.vec env)).sub (env.corrected (f.pt1.vec env)))

/-- The face is not degenerate: the cross product of its points is not the zero vector. -/
abbrev FaceSrc.NonDegenerate {R : Type} [CommRing R] [DecidableEq R] (env : Env R)
    (f : FaceSrc) : Prop :=
  (f.cross env).null = false

/-- The `BrushFace` a well-formed, non-degenerate face denotes: its points in source order,
its texture name (empty for the no-texture name), the values of its dialect's fields, and the
line of its last field. -/
def FaceSrc.face {R : Type} [CommRing R] [DecidableEq R] (env : Env R) (f : FaceSrc) :
    BrushFace R :=
  let p1 := env.corrected (f.pt1.vec env)
  let p2 := env.corrected (f.pt2.vec env)
  let p3 := env.corrected (f.pt3.vec env)
  let textureName := if f.texture.data = NoTextureName then "" else f.texture.data
  match f.attrs with
  | FaceAttrs.quake xo yo rot xs ys =>
    { p1 := p1, p2 := p2, p3 := p3, textureName := textureName, valve := none
      xOffset := env.toFloat xo, yOffset := env.toFloat yo, rotation := env.toFloat rot
      xScale := env.toFloat xs, yScale := env.toFloat ys
      surfaceContents := 0, surfaceFlags := 0, surfaceValue := 0
      filePosition := (ys.line, 1) }
  | FaceAttrs.valve _ x1 y1 z1 xo _ _ x2 y2 z2 yo _ rot xs ys =>
    { p1 := p1, p2 := p2, p3 := p3, textureName := textureName
      valve := some
        { texAxisX := ⟨env.toFloat x1, env.toFloat y1, env.toFloat z1⟩
          texAxisY := ⟨env.toFloat x2, env.toFloat y2, env.toFloat z2⟩
          normal := env.normalized (f.cross env)
          rotation := env.toFloat rot }
      xOffset := env.toFloat xo, yOffset := env.toFloat yo, rotation := env.toFloat rot
      xScale := env.toFloat xs, yScale := env.toFloat ys
      surfaceContents := 0, surfaceFlags := 0, surfaceValue := 0
      filePosition := (ys.line, 1) }
  | FaceAttrs.quake2 xo yo rot xs ys sc sf sv =>
    { p1 := p1, p2 := p2, p3 := p3, textureName := textureName, valve := none
      xOffset := env.toFloat xo, yOffset := env.toFloat yo, rotation := env.toFloat rot
      xScale := env.toFloat xs, yScale := env.toFloat ys
      surfaceContents := env.toInteger sc, surfaceFlags := env.toInteger sf
      surfaceValue := env.toFloat sv
      filePosition := (sv.line, 1) }

/-- The tokens of a sequence of faces, in source order. -/
def faceListTokens : List FaceSrc → List Token
  | [] => []
  | f :: fs => f.tokens ++ faceListTokens fs

/-- The tokens of one brush: `{`, its faces, `}`. -/
structure BrushSrc where
  o : Token
  faces : List FaceSrc
  c : Token
deriving DecidableEq, Repr

/-- The tokens of the brush, in source order. -/
def BrushSrc.tokens (b : BrushSrc) : List Token := b.o :: (faceListTokens b.faces ++ [b.c])

/-- The brush is written as `{`, faces, `}`; every face is well-formed in the dialect
`format` (StandardA, StandardB or StandardD) and, a separate condition, no face is
degenerate: the three points of each face are not collinear. -/
abbrev BrushSrc.WellFormedNonDegenerate {R : Type} [CommRing R] [DecidableEq R] (env : Env R)
    (format : MapFormat) (b : BrushSrc) : Prop :=
  b.o.type = TokenType.OBrace ∧ b.c.type = TokenType.CBrace ∧
    ∀ f ∈ b.faces, f.WellFormed format ∧ f.NonDegenerate env

/-- The face list `createBrush` hands to the geometry kernel for this brush. -/
def BrushSrc.sortedFaces {R : Type} [CommRing R] [DecidableEq R] (env : Env R) (b : BrushSrc) :
    List (BrushFace R) :=
  env.sortFaces false (env.sortFaces true (b.faces.map (FaceSrc.face env)))

/-- The brush `createBrush` builds from this source when the kernel accepts it: the sorted
faces, and the file position (first line, number of lines spanned). -/
def BrushSrc.accepted {R : Type} [CommRing R] [DecidableEq R] (env : Env R) (b : BrushSrc) :
    Brush R :=
  { faces := b.sortedFaces env, filePosition := (b.o.line, b.c.line - b.o.line) }

/-- The result of `createBrush` for this source: the brush when the kernel accepts it, NULL
when it rejects it. -/
def BrushSrc.brush {R : Type} [CommRing R] [DecidableEq R] (env : Env R) (wb : BBox3 R)
    (b : BrushSrc) : Option (Brush R) :=
  match env.geometry wb (b.sortedFaces env) with
  | none => some (b.accepted env)
  | some _ => none

/-- The diagnostic logged when the kernel rejects the brush: its first line and the
kernel's description. -/
def BrushSrc.diagnostic {R : Type} [CommRing R] [DecidableEq R] (env : Env R) (wb : BBox3 R)
    (b : BrushSrc) : Option LogEntry :=
  match env.geometry wb (b.sortedFaces env) with
  | none => none
  | some what => some { line := b.o.line, what := what }

/-- The tokens of a sequence of brushes, in source order. -/
def brushListTokens : List BrushSrc → List Token
  | [] => []
  | b :: bs => b.tokens ++ brushListTokens bs

/-- The logger after the diagnostics of the rejected brushes among `bs` were added. -/
def logAfter {R : Type} [CommRing R] [DecidableEq R] (env : Env R) (wb : BBox3 R)
    (lg : Option (List LogEntry)) (bs : List BrushSrc) : Option (List LogEntry) :=
  lg.map (fun entries => entries ++ bs.filterMap (BrushSrc.diagnostic env wb))

/-- The entity after `addBrush` for each brush, in order. -/
def addBrushes {R : Type} (entity : Entity R) (brushes : List (Brush R)) : Entity R :=
  brushes.foldl Entity.addBrush entity

/-- The tokens of one entity: `{`, key / value pairs, brushes, `}`. -/
def entityTokens (eo : Token) (props : List (Token × Token)) (bs : List BrushSrc) (ec : Token) :
    List Token :=
  eo :: (propertyTokens props ++ (brushListTokens bs ++ [ec]))

/-- The format `detectFormat` finds in a document whose brushes are written in the dialect
`format`: without any face there is nothing to probe and the answer is `Quake`. -/
def documentFormat (format : MapFormat) (bs : List BrushSrc) : MapFormat :=
  if bs.all (fun b => b.faces.isEmpty) then MapFormat.Quake else format

/-- The entity `parseEntity` builds from the tokens `entityTokens eo props bs ec`: the
properties, the brushes the kernel accepts in source order, and the file position. -/
def parsedEntity {R : Type} [CommRing R] [DecidableEq R] (env : Env R) (wb : BBox3 R)
    (eo : Token) (props : List (Token × Token)) (bs : List BrushSrc) (ec : Token) : Entity R :=
  (addBrushes (addProperties Entity.new props) (bs.filterMap (BrushSrc.brush env wb))).setFilePosition
    eo.line (ec.line - eo.line)

/-! ## Example inputs -/

/-- Value of a string of decimal digits. -/
def digitsToNat (cs : List Char) : Nat := cs.foldl (fun n c => 10 * n + (c.toNat - 48)) 0

/-- Value of an integer literal with an optional minus sign. -/
def intOfText (s : String) : ℤ :=
  match s.data with
  | '-' :: cs => - (digitsToNat cs : ℤ)
  | cs => (digitsToNat cs : ℤ)

/-- An environment over `ℤ` for the examples: integer literals, `corrected` and `normalized`
leave a vector as it is, sorting keeps the order, and the kernel rejects a brush with fewer
than four faces (it cannot bound a finite region). -/
def exampleEnv : Env ℤ :=
  { toFloat := fun t => intOfText t.data
    toInteger := fun t => digitsToNat t.data.data
    corrected := fun v => v
    normalized := fun v => v
    normalized_null := fun _ => rfl
    sortFaces := fun _ faces => faces
    geometry := fun _ faces => if faces.length < 4 then some "brush is not closed" else none }

/-- A validity volume for the examples. -/
def exampleBounds : BBox3 ℤ := { min := ⟨-4096, -4096, -4096⟩, max := ⟨4096, 4096, 4096⟩ }

/-- An Integer token with text `n` on line `line`. -/
def num (n : String) (line : Nat) : Token := ⟨TokenType.Integer, n, line, 1⟩

/-- A punctuation token of kind `ty` on line `line`. -/
def sym (ty : TokenType) (line : Nat) : Token := ⟨ty, "", line, 1⟩

/-- A String token with text `s` on line `line`. -/
def str (s : String) (line : Nat) : Token := ⟨TokenType.String, s, line, 1⟩

/-- The point `( x y z )` on line `line`. -/
def examplePoint (x y z : String) (line : Nat) : PointSrc :=
  { o := sym TokenType.OParenthesis line, x := num x line, y := num y line, z := num z line
    c := sym TokenType.CParenthesis line }

/-- A StandardA face on line `line`: three points given by the texts of their coordinates,
the texture name `tex`, offsets 0 0, rotation 0 and scales 1 1. -/
def quakeFaceSrc (p1 p2 p3 : String × String × String) (tex : String) (line : Nat) : FaceSrc :=
  { pt1 := examplePoint p1.1 p1.2.1 p1.2.2 line, pt2 := examplePoint p2.1 p2.2.1 p2.2.2 line
    pt3 := examplePoint p3.1 p3.2.1 p3.2.2 line, texture := str tex line
    attrs := FaceAttrs.quake (num "0" line) (num "0" line) (num "0" line) (num "1" line)
      (num "1" line) }

/-- The face `( 0 0 0 ) ( 0 1 0 ) ( 1 0 0 ) TEXTURE 0 0 0 1 1` of the spec, on line `line`. -/
def exampleFaceSrc (line : Nat) : FaceSrc :=
  quakeFaceSrc ("0", "0", "0") ("0", "1", "0") ("1", "0", "0") "TEXTURE" line

/-- The tokens of `exampleFaceSrc line`. -/
def exampleFace (line : Nat) : List Token := (exampleFaceSrc line).tokens

/-- The face `( 0 0 0 ) ( 0 0 0 ) ( 1 0 0 ) TEXTURE 0 0 0 1 1`, whose first two points
coincide, on line `line`. -/
def degenerateFaceSrc (line : Nat) : FaceSrc :=
  quakeFaceSrc ("0", "0", "0") ("0", "0", "0") ("1", "0", "0") "TEXTURE" line

/-- The tokens of `degenerateFaceSrc line`. -/
def degenerateFace (line : Nat) : List Token := (degenerateFaceSrc line).tokens

/-- The six faces of the box from (-64, -64, -16) to (64, 64, 16), one per line from `line`
on. -/
def cubeFaces (line : Nat) : List FaceSrc :=
  [quakeFaceSrc ("-64", "-64", "-16") ("-64", "-63", "-16") ("-64", "-64", "-15") "TEXTURE" line,
   quakeFaceSrc ("-64", "-64", "-16") ("-64", "-64", "-15") ("-63", "-64", "-16") "TEXTURE"
     (line + 1),
   quakeFaceSrc ("-64", "-64", "-16") ("-63", "-64", "-16") ("-64", "-63", "-16") "TEXTURE"
     (line + 2),
   quakeFaceSrc ("64", "64", "16") ("64", "65", "16") ("65", "64", "16") "TEXTURE" (line + 3),
   quakeFaceSrc ("64", "64", "16") ("65", "64", "16") ("64", "64", "17") "TEXTURE" (line + 4),
   quakeFaceSrc ("64", "64", "16") ("64", "64", "17") ("64", "65", "16") "TEXTURE" (line + 5)]

/-- A brush with the single face `exampleFaceSrc`, on the three lines from `line` on: one
plane bounds no finite region, and the example kernel rejects it. -/
def exampleOpenBrush (line : Nat) : BrushSrc :=
  { o := sym TokenType.OBrace line, faces := [exampleFaceSrc (line + 1)]
    c := sym TokenType.CBrace (line + 2) }

/-- The box `cubeFaces` as a brush, on the eight lines from `line` on; the example kernel
accepts it. -/
def exampleClosedBrush (line : Nat) : BrushSrc :=
  { o := sym TokenType.OBrace line, faces := cubeFaces (line + 1)
    c := sym TokenType.CBrace (line + 7) }

/-- A brush on lines 1 to 9: the given faces on line 2, then the six faces of `cubeFaces` on
lines 3 to 8. -/
def exampleBrushWith (first : List FaceSrc) : BrushSrc :=
  { o := sym TokenType.OBrace 1, faces := first ++ cubeFaces 3, c := sym TokenType.CBrace 9 }

/-- A new parser with a logger on the given tokens, whose text ends on line `lastLine`. -/
def freshParser (tokens : List Token) (lastLine : Nat) : QuakeMapParser :=
  QuakeMapParser.new tokens (Ending.eof lastLine 1) (some [])

/-- The tokens of `{ "a" "b" }` on line 1 followed by `{ "k" }` on line 2: a complete entity,
then an entity whose key has no value. -/
def exampleTwoEntities : List Token :=
  [sym TokenType.OBrace 1, str "a" 1, str "b" 1, sym TokenType.CBrace 1,
    sym TokenType.OBrace 2, str "k" 2, sym TokenType.CBrace 2]

/-- The entity `{ "a" "b" }` of `exampleTwoEntities`. -/
def exampleFirstEntity : Entity ℤ :=
  { properties := [("a", "b")], brushes := [], filePosition := (1, 0) }

/-- The parser on `exampleTwoEntities` once `detectFormat` has read to the end. -/
def exampleTwoEntitiesDetected : QuakeMapParser :=
  ⟨some [], ⟨exampleTwoEntities, Ending.eof 2 1, [], none⟩, MapFormat.Unknown⟩

/-- The parser on `exampleTwoEntities` after the first entity has been parsed. -/
def exampleTwoEntitiesMiddle : QuakeMapParser :=
  ⟨some [], ⟨exampleTwoEntities, Ending.eof 2 1,
    [sym TokenType.OBrace 2, str "k" 2, sym TokenType.CBrace 2], none⟩, MapFormat.Quake⟩

/-- The parser on `exampleTwoEntities` when the second entity raises. -/
def exampleTwoEntitiesFailed : QuakeMapParser :=
  ⟨some [], ⟨exampleTwoEntities, Ending.eof 2 1, [], none⟩, MapFormat.Quake⟩

/-- The exception raised by the second entity of `exampleTwoEntities`. -/
def exampleMissingValue : Exception :=
  Exception.unexpectedToken 2 1 [TokenType.String] TokenType.CBrace

/-- A StandardB face on line `line`: three points given by the texts of their coordinates,
the texture name `tex`, the texture axes `[ 1 0 0 0 ]` and `[ 0 -1 0 0 ]`, rotation 0 and
scales 1 1. -/
def valveFaceSrc (p1 p2 p3 : String × String × String) (tex : String) (line : Nat) : FaceSrc :=
  { pt1 := examplePoint p1.1 p1.2.1 p1.2.2 line, pt2 := examplePoint p2.1 p2.2.1 p2.2.2 line
    pt3 := examplePoint p3.1 p3.2.1 p3.2.2 line, texture := str tex line
    attrs := FaceAttrs.valve (sym TokenType.OBracket line) (num "1" line) (num "0" line)
      (num "0" line) (num "0" line) (sym TokenType.CBracket line)
      (sym TokenType.OBracket line) (num "0" line) (num "-1" line) (num "0" line)
      (num "0" line) (sym TokenType.CBracket line) (num "0" line) (num "1" line)
      (num "1" line) }

/-- The tokens of `{ ( 0 0 0 ) ( 0 1 0 ) ( 1 0 0 ) TEXTURE [ } "x"`: a brush whose first face
breaks off after the opening bracket. -/
def exampleBracketOnly : List Token :=
  sym TokenType.OBrace 1 :: ((examplePoint "0" "0" "0" 2).tokens ++
    ((examplePoint "0" "1" "0" 2).tokens ++ ((examplePoint "1" "0" "0" 2).tokens ++
      str "TEXTURE" 2 :: sym TokenType.OBracket 2 :: [sym TokenType.CBrace 3, str "x" 3])))

/-- Modelled from the spec: `Entity::property` (not in the sources): the value the property
mapping holds for `key`, if it holds one. -/
def Entity.property {R : Type} (e : Entity R) (key : String) : Option String :=
  (e.properties.find? (fun kv => kv.1 == key)).map (fun kv => kv.2)

/-- The value of the last pair of `pairs` whose key is `key`, if there is such a pair. -/
def lastValue (pairs : List (Token × Token)) (key : String) : Option String :=
  (pairs.reverse.find? (fun kv => kv.1.data == key)).map (fun kv => kv.2.data)

/-- The tokens of a face up to and including its texture name. -/
structure FaceHead where
  pt1 : PointSrc
  pt2 : PointSrc
  pt3 : PointSrc
  texture : Token
deriving DecidableEq, Repr

/-- The tokens of the head of a face, in source order. -/
def FaceHead.tokens (h : FaceHead) : List Token :=
  h.pt1.tokens ++ (h.pt2.tokens ++ (h.pt3.tokens ++ [h.texture]))

/-- Three parenthesised numeric triples and a String texture name. -/
abbrev FaceHead.WellFormed (h : FaceHead) : Prop :=
  h.pt1.WellFormed ∧ h.pt2.WellFormed ∧ h.pt3.WellFormed ∧ h.texture.type = TokenType.String

/-- The cross product `crossed(p3 - p1, p2 - p1)` of the corrected points. -/
def FaceHead.cross {R : Type} [CommRing R] [DecidableEq R] (env : Env R) (h : FaceHead) : Vec3 R :=
  crossed ((env.corrected (h.pt3.vec env)).sub (env.corrected (h.pt1.vec env)))
    ((env.corrected (h.pt2.vec env)).sub (env.corrected (h.pt1.vec env)))

/-- The tokens between the texture name and the rotation: two bare offsets, or two bracketed
groups of a texture axis and an offset. -/
inductive OffsetsSrc where
  | bare (xOffset yOffset : Token)
  | axes (o1 x1 y1 z1 xOffset c1 o2 x2 y2 z2 yOffset c2 : Token)
deriving DecidableEq, Repr

/-- The tokens, in source order. -/
def OffsetsSrc.tokens : OffsetsSrc → List Token
  | bare xo yo => [xo, yo]
  | axes o1 x1 y1 z1 xo c1 o2 x2 y2 z2 yo c2 => [o1, x1, y1, z1, xo, c1, o2, x2, y2, z2, yo, c2]

/-- The tokens are what `parseFace` reads between the texture name and the rotation when
`m_format` is `format`: the bracketed groups for `Valve`, bare offsets for any other value. -/
def OffsetsSrc.WellFormed (format : MapFormat) : OffsetsSrc → Prop
  | bare xo yo => format ≠ MapFormat.Valve ∧ xo.isNumber ∧ yo.isNumber
  | axes o1 x1 y1 z1 xo c1 o2 x2 y2 z2 yo c2 =>
    format = MapFormat.Valve ∧
    o1.type = TokenType.OBracket ∧ x1.isNumber ∧ y1.isNumber ∧ z1.isNumber ∧ xo.isNumber ∧
      c1.type = TokenType.CBracket ∧
    o2.type = TokenType.OBracket ∧ x2.isNumber ∧ y2.isNumber ∧ z2.isNumber ∧ yo.isNumber ∧
      c2.type = TokenType.CBracket

instance (format : MapFormat) (a : OffsetsSrc) : Decidable (a.WellFormed format) := by
  cases a <;> unfold OffsetsSrc.WellFormed <;> infer_instance

/-- The texture axes (of the bracketed form only) and the two offsets the tokens denote. -/
def OffsetsSrc.values {R : Type} [CommRing R] [DecidableEq R] (env : Env R) :
    OffsetsSrc → Option (Vec3 R × Vec3 R) × R × R
  | bare xo yo => (none, env.toFloat xo, env.toFloat yo)
  | axes _ x1 y1 z1 xo _ _ x2 y2 z2 yo _ =>
    (some (⟨env.toFloat x1, env.toFloat y1, env.toFloat z1⟩,
        ⟨env.toFloat x2, env.toFloat y2, env.toFloat z2⟩),
      env.toFloat xo, env.toFloat yo)

/-- The tokens after the y scale: none, one field, or three fields. -/
inductive SurfaceSrc where
  | absent
  | flag (t : Token)
  | attrs (contents flags value : Token)
deriving DecidableEq, Repr

/-- The tokens, in source order. -/
def SurfaceSrc.tokens : SurfaceSrc → List Token
  | absent => []
  | flag t => [t]
  | attrs sc sf sv => [sc, sf, sv]

/-- The tokens are what `parseFace` reads after the y scale when `m_format` is `format`: two
Integer tokens and a numeric token for `Quake2`, one numeric token for `Hexen2`, nothing for
any other value. -/
def SurfaceSrc.WellFormed (format : MapFormat) : SurfaceSrc → Prop
  | absent => format ≠ MapFormat.Quake2 ∧ format ≠ MapFormat.Hexen2
  | flag t => format = MapFormat.Hexen2 ∧ t.isNumber
  | attrs sc sf sv =>
    format = MapFormat.Quake2 ∧ sc.type = TokenType.Integer ∧ sf.type = TokenType.Integer ∧
      sv.isNumber

instance (format : MapFormat) (a : SurfaceSrc) : Decidable (a.WellFormed format) := by
  cases a <;> unfold SurfaceSrc.WellFormed <;> infer_instance

/-- Surface contents, flags and value the tokens denote (0, 0, 0 unless there are three
fields), and the last token of the face, `yScale` being the token before them. -/
def SurfaceSrc.values {R : Type} [CommRing R] [DecidableEq R] (env : Env R) (yScale : Token) :
    SurfaceSrc → Nat × Nat × R × Token
  | absent => (0, 0, 0, yScale)
  | flag t => (0, 0, 0, t)
  | attrs sc sf sv => (env.toInteger sc, env.toInteger sf, env.toFloat sv, sv)

/-- The tokens of one face, for any value of `m_format`: head, offsets, rotation, the two
scales, surface fields. -/
structure FaceText where
  head : FaceHead
  offsets : OffsetsSrc
  rotation : Token
  xScale : Token
  yScale : Token
  surface : SurfaceSrc
deriving DecidableEq, Repr

/-- The tokens of the face, in source order. -/
def FaceText.tokens (f : FaceText) : List Token :=
  f.head.tokens ++ (f.offsets.tokens ++ f.rotation :: f.xScale :: f.yScale :: f.surface.tokens)

/-- The face is what `parseFace` reads as one face when `m_format` is `format`. -/
abbrev FaceText.WellFormed (format : MapFormat) (f : FaceText) : Prop :=
  f.head.WellFormed ∧ f.offsets.WellFormed format ∧ f.rotation.isNumber ∧ f.xScale.isNumber ∧
    f.yScale.isNumber ∧ f.surface.WellFormed format

/-- The `BrushFace` that `parseFace` builds from given points, the normal of their plane and
the attributes of a face: a `ValveBrushFace` when there are texture axes, a `QuakeBrushFace`
otherwise (lines 388 to 391), then the surface attributes and the file position (lines 410
to 418). -/
def buildFace {R : Type} [CommRing R] [DecidableEq R] (p1 p2 p3 normal : Vec3 R)
    (textureName : String) (axes : Option (Vec3 R × Vec3 R)) (xOffset yOffset rotation xScale
    yScale : R) (surface : Nat × Nat × R × Token) : BrushFace R :=
  { p1 := p1, p2 := p2, p3 := p3, textureName := textureName
    valve := axes.map (fun a =>
      { texAxisX := a.1, texAxisY := a.2, normal := normal, rotation := rotation })
    xOffset := xOffset, yOffset := yOffset, rotation := rotation
    xScale := xScale, yScale := yScale
    surfaceContents := surface.1, surfaceFlags := surface.2.1, surfaceValue := surface.2.2.1
    filePosition := (surface.2.2.2.line, 1) }

/-- The `BrushFace` a well-formed, non-degenerate face denotes. -/
def FaceText.face {R : Type} [CommRing R] [DecidableEq R] (env : Env R) (f : FaceText) :
    BrushFace R :=
  buildFace (env.corrected (f.head.pt1.vec env)) (env.corrected (f.head.pt2.vec env))
    (env.corrected (f.head.pt3.vec env)) (env.normalized (f.head.cross env))
    (if f.head.texture.data = NoTextureName then "" else f.head.texture.data)
    (f.offsets.values env).1 (f.offsets.values env).2.1 (f.offsets.values env).2.2
    (env.toFloat f.rotation) (env.toFloat f.xScale) (env.toFloat f.yScale)
    (f.surface.values env f.yScale)

/-- The head `( x y z ) ( x y z ) ( x y z ) tex` of a face on line `line`, the points given
by the texts of their coordinates. -/
def exampleHead (p1 p2 p3 : String × String × String) (tex : String) (line : Nat) : FaceHead :=
  { pt1 := examplePoint p1.1 p1.2.1 p1.2.2 line, pt2 := examplePoint p2.1 p2.2.1 p2.2.2 line
    pt3 := examplePoint p3.1 p3.2.1 p3.2.2 line, texture := str tex line }

/-- The face `( 0 0 0 ) ( 0 1 0 ) ( 1 0 0 ) tex 0 0 0 1 1` on line `line`, as read when
`m_format` is `Quake`. -/
def exampleFaceText (tex : String) (line : Nat) : FaceText :=
  { head := exampleHead ("0", "0", "0") ("0", "1", "0") ("1", "0", "0") tex line
    offsets := OffsetsSrc.bare (num "0" line) (num "0" line)
    rotation := num "0" line, xScale := num "1" line, yScale := num "1" line
    surface := SurfaceSrc.absent }

/-- The face `( 0 0 0 ) ( 0 0 0 ) ( 1 0 0 ) TEXTURE 0 0 0 1 1`, whose first two points
coincide, on line `line`. -/
def degenerateFaceText (line : Nat) : FaceText :=
  { head := exampleHead ("0", "0", "0") ("0", "0", "0") ("1", "0", "0") "TEXTURE" line
    offsets := OffsetsSrc.bare (num "0" line) (num "0" line)
    rotation := num "0" line, xScale := num "1" line, yScale := num "1" line
    surface := SurfaceSrc.absent }

/-- A Decimal token with text `s` on line `line`. -/
def dec (s : String) (line : Nat) : Token := ⟨TokenType.Decimal, s, line, 1⟩

/-- The six faces of the box from (-64, -64, -16) to (64, 64, 16) written as StandardB faces,
one per line from `line` on. -/
def valveCubeFaces (line : Nat) : List FaceSrc :=
  [valveFaceSrc ("-64", "-64", "-16") ("-64", "-63", "-16") ("-64", "-64", "-15") "TEXTURE" line,
   valveFaceSrc ("-64", "-64", "-16") ("-64", "-64", "-15") ("-63", "-64", "-16") "TEXTURE"
     (line + 1),
   valveFaceSrc ("-64", "-64", "-16") ("-63", "-64", "-16") ("-64", "-63", "-16") "TEXTURE"
     (line + 2),
   valveFaceSrc ("64", "64", "16") ("64", "65", "16") ("65", "64", "16") "TEXTURE" (line + 3),
   valveFaceSrc ("64", "64", "16") ("65", "64", "16") ("64", "64", "17") "TEXTURE" (line + 4),
   valveFaceSrc ("64", "64", "16") ("64", "64", "17") ("64", "65", "16") "TEXTURE" (line + 5)]

/-- A StandardB document on lines 1 to 10: one entity with the property
`"classname" "worldspawn"` and the box `valveCubeFaces` as its brush on lines 2 to 9. -/
def exampleValveDocument : List Token :=
  entityTokens (sym TokenType.OBrace 1) [(str "classname" 1, str "worldspawn" 1)]
    [{ o := sym TokenType.OBrace 2, faces := valveCubeFaces 3, c := sym TokenType.CBrace 9 }]
    (sym TokenType.CBrace 10)

/-- The entity of `exampleValveDocument`. -/
def exampleValveEntity : Entity ℤ :=
  { properties := [("classname", "worldspawn")]
    brushes := [{ faces := (valveCubeFaces 3).map (FaceSrc.face exampleEnv)
                  filePosition := (2, 7) }]
    filePosition := (1, 9) }

/-- An environment whose two comparators differ: with the flag on, faces are ordered by their
surface contents, with the flag off by their surface flags (insertion sort, which keeps the
order of equal faces); the kernel accepts every brush. -/
def twoKeyEnv : Env ℤ :=
  { exampleEnv with
    sortFaces := fun deterministic faces =>
      if deterministic then
        faces.insertionSort (fun a b => a.surfaceContents ≤ b.surfaceContents)
      else
        faces.insertionSort (fun a b => a.surfaceFlags ≤ b.surfaceFlags)
    geometry := fun _ _ => none }

/-- The face of `exampleFaceSrc 1` with the given surface contents and flags. -/
def faceWithKeys (contents flags : Nat) : BrushFace ℤ :=
  { (exampleFaceSrc 1).face exampleEnv with surfaceContents := contents, surfaceFlags := flags }

/-- The tokens of `} { "a" "b" }` on line 1: a closing brace where an entity is expected,
followed by an entity. -/
def exampleStrayBrace : List Token :=
  [sym TokenType.CBrace 1, sym TokenType.OBrace 1, str "a" 1, str "b" 1, sym TokenType.CBrace 1]

/-- The tokens of `{ "a" "b" } } { "c" "d" }`: an entity on line 1, a closing brace on line 2
and a further entity on line 3. -/
def exampleEntityThenBrace : List Token :=
  [sym TokenType.OBrace 1, str "a" 1, str "b" 1, sym TokenType.CBrace 1,
    sym TokenType.CBrace 2,
    sym TokenType.OBrace 3, str "c" 3, str "d" 3, sym TokenType.CBrace 3]

/-! ## The command processor (CommandProcessor.cpp) -/

/-- Modelled from the spec: the `Command` class (not in the sources; the spec names the
undo / redo stack as an external collaborator), as the processor uses it: a command has a
name and an undoable flag, and is either a `CommandGroup`, which holds its commands
(lines 32 to 42), or a command of some other type, which says itself whether it is
repeatable. -/
inductive Command where
  | simple (id : Nat) (name : String) (undoable : Bool) (repeatable : Bool)
  | group (name : String) (undoable : Bool) (commands : List Command)
deriving Repr

/-- Modelled from the spec: `Command::name` (not in the sources). -/
def Command.name : Command → String
  | simple _ name _ _ => name
  | group name _ _ => name

/-- Modelled from the spec: `Command::undoable` (not in the sources). -/
def Command.undoable : Command → Bool
  | simple _ _ undoable _ => undoable
  | group _ undoable _ => undoable

/-- The test `command->type() == CommandGroup::Type`. -/
def Command.isGroup : Command → Bool
  | simple .. => false
  | group .. => true

mutual
/-- Modelled from the spec: `Command::isRepeatable` (not in the sources), which for a group is
`CommandGroup::doIsRepeatable` (lines 68 to 76): every command of the group is repeatable. -/
def Command.isRepeatable : Command → Bool
  | Command.simple _ _ _ repeatable => repeatable
  | Command.group _ _ commands => Command.allRepeatable commands
/-- The loop of `CommandGroup::doIsRepeatable`. -/
def Command.allRepeatable : List Command → Bool
  | [] => true
  | command :: rest => if command.isRepeatable then Command.allRepeatable rest else false
end

/-- The notifiers of the processor. -/
inductive Notifier where
  | commandDo
  | commandDone
  | commandDoFailed
  | commandUndo
  | commandUndone
  | commandUndoFailed
deriving DecidableEq, Repr

/-- Outcome of a member function of the processor: it returns, it throws (a
`CommandProcessorException`, or what a command throws), it stops at an `assert` that does not
hold, or a loop of the model runs out of its counter. -/
inductive Outcome (α : Type) where
  | returned (a : α)
  | raised (what : String)
  | assertionFailed
  | outOfFuel
deriving DecidableEq, Repr

/-- What lies outside the processor, over a state `W` of the rest of the program (document,
observers, clock):
* `performDo`, `performUndo`: the methods of these names of a command, which return a
  boolean or throw;
* `collateWith last command`: `last->collateWith(command)`: `some merged` when it returns
  true, `merged` being the state of `last` afterwards, `none` when it returns false;
* `repeatCommand`: the method `repeat` of a command, which returns the clone;
* `notify`: a call of one of the processor's notifiers;
* `wxGetLocalTimeMillis`: the clock. -/
structure CommandEnv (W : Type) where
  performDo : Command → W → Outcome Bool × W
  performUndo : Command → W → Outcome Bool × W
  collateWith : Command → Command → W → Option Command × W
  repeatCommand : Command → W → Command × W
  notify : Notifier → Command → W → W
  wxGetLocalTimeMillis : W → Int × W

/-- State of a `CommandProcessor` object.  The stacks are vectors whose back is the end of
the list.  The declarations of the members are not in the sources; the counters are natural
numbers here. -/
structure CommandProcessor where
  m_lastCommandStack : List Command
  m_nextCommandStack : List Command
  m_groupedCommands : List Command
  m_lastCommandTimestamp : Int
  m_nextRepeatableCommand : Nat
  m_groupName : String
  m_groupUndoable : Bool
  m_groupLevel : Nat
deriving Repr

/-- Constructor `CommandProcessor()` (lines 96 to 100). -/
def CommandProcessor.new : CommandProcessor :=
  { m_lastCommandStack := [], m_nextCommandStack := [], m_groupedCommands := []
    m_lastCommandTimestamp := 0, m_nextRepeatableCommand := 0, m_groupName := ""
    m_groupUndoable := false, m_groupLevel := 0 }

/-- `CommandProcessor::CollationInterval` (line 94). -/
def CollationInterval : Int := 1000

/-- A member function of the processor returning `α`, run in a state of the processor and of
the rest of the program. -/
def P (W : Type) (α : Type) : Type :=
  CommandProcessor → W → Outcome α × CommandProcessor × W

/-- Normal return. -/
def P.ret {W α : Type} (a : α) : P W α := fun s w => (Outcome.returned a, s, w)

/-- Sequencing: anything but a normal return of the first part skips the second. -/
def P.andThen {W α β : Type} (m : P W α) (f : α → P W β) : P W β := fun s w =>
  match m s w with
  | (Outcome.returned a, s1, w1) => f a s1 w1
  | (Outcome.raised what, s1, w1) => (Outcome.raised what, s1, w1)
  | (Outcome.assertionFailed, s1, w1) => (Outcome.assertionFailed, s1, w1)
  | (Outcome.outOfFuel, s1, w1) => (Outcome.outOfFuel, s1, w1)

instance {W : Type} : Monad (P W) where
  pure := P.ret
  bind := P.andThen

/-- The C++ `throw CommandProcessorException(what)`. -/
def raise {W α : Type} (what : String) : P W α := fun s w => (Outcome.raised what, s, w)

/-- The C++ `assert(condition)`. -/
def assertThat {W : Type} (condition : Bool) : P W Unit := fun s w =>
  if condition then (Outcome.returned (), s, w) else (Outcome.assertionFailed, s, w)

/-- Read the members of the processor. -/
def getProcessor {W : Type} : P W CommandProcessor := fun s w => (Outcome.returned s, s, w)

/-- Assign to members of the processor. -/
def modifyProcessor {W : Type} (f : CommandProcessor → CommandProcessor) : P W Unit :=
  fun s w => (Outcome.returned (), f s, w)

/-- A call that returns a value and changes only the rest of the program. -/
def callOut {W α : Type} (f : W → α × W) : P W α := fun s w =>
  (Outcome.returned (f w).1, s, (f w).2)

/-- A call of a method of a command that returns a boolean or throws. -/
def callCommand {W : Type} (f : W → Outcome Bool × W) : P W Bool := fun s w =>
  ((f w).1, s, (f w).2)

section Processor

variable {W : Type}

/-- A call `notifier(command)` guarded by `command->type() != CommandGroup::Type`. -/
def notifyUnlessGroup (env : CommandEnv W) (notifier : Notifier) (command : Command) :
    P W Unit := fun s w =>
  if command.isGroup then (Outcome.returned (), s, w)
  else (Outcome.returned (), s, env.notify notifier command w)

/-- The loop of `findNextRepeatableCommand` (lines 352 to 360): walk down from `index` to
the first repeatable command; without one the result is the size of the stack.  (The index
is below the size of the stack when the `assert` of line 351 holds.) -/
def findNextRepeatableLoop (stack : List Command) : Nat → Nat
  | 0 => stack.length
  | index + 1 =>
    match stack[index]? with
    | some command =>
      if command.isRepeatable then index else findNextRepeatableLoop stack index
    | none => findNextRepeatableLoop stack index

/-- Source `findNextRepeatableCommand` (lines 350 to 361). -/
def findNextRepeatableCommand (fromIndex : Nat) : P W Nat := do
  let s ← getProcessor
  assertThat (decide (fromIndex ≤ s.m_lastCommandStack.length))
  pure (findNextRepeatableLoop s.m_lastCommandStack fromIndex)

/-- Source `findFirstRepeatableCommand` (lines 346 to 348). -/
def findFirstRepeatableCommand : P W Nat := do
  let s ← getProcessor
  findNextRepeatableCommand s.m_lastCommandStack.length

/-- The statement `m_nextRepeatableCommand = findFirstRepeatableCommand();`. -/
def updateNextRepeatableCommand : P W Unit := do
  let index ← findFirstRepeatableCommand
  modifyProcessor (fun s => { s with m_nextRepeatableCommand := index })

/-- Source `pushLastCommand` (lines 309 to 321). -/
def pushLastCommand (env : CommandEnv W) (command : Command) (collate : Bool) : P W Unit := do
  let s ← getProcessor
  assertThat (s.m_groupLevel == 0)
  let timestamp ← callOut env.wxGetLocalTimeMillis
  match s.m_lastCommandStack.getLast? with
  | some lastCommand =>
    if collate && decide (timestamp - s.m_lastCommandTimestamp ≤ CollationInterval) then do
      let merged ← callOut (env.collateWith lastCommand command)
      match merged with
      | some m =>
        modifyProcessor (fun s =>
          { s with m_lastCommandStack := s.m_lastCommandStack.dropLast ++ [m] })
      | none =>
        modifyProcessor (fun s =>
          { s with m_lastCommandStack := s.m_lastCommandStack ++ [command] })
    else
      modifyProcessor (fun s =>
        { s with m_lastCommandStack := s.m_lastCommandStack ++ [command] })
  | none =>
    modifyProcessor (fun s => { s with m_lastCommandStack := s.m_lastCommandStack ++ [command] })
  modifyProcessor (fun s => { s with m_lastCommandTimestamp := timestamp })

/-- Source `pushNextCommand` (lines 323 to 326). -/
def pushNextCommand (command : Command) : P W Unit := do
  let s ← getProcessor
  assertThat (s.m_groupLevel == 0)
  modifyProcessor (fun s => { s with m_nextCommandStack := s.m_nextCommandStack ++ [command] })

/-- Source `popLastCommand` (lines 328 to 335). -/
def popLastCommand : P W Command := do
  let s ← getProcessor
  assertThat (s.m_groupLevel == 0)
  match s.m_lastCommandStack.getLast? with
  | none => raise "Command stack is empty"
  | some lastCommand => do
    modifyProcessor (fun s => { s with m_lastCommandStack := s.m_lastCommandStack.dropLast })
    pure lastCommand

/-- Source `popNextCommand` (lines 337 to 344). -/
def popNextCommand : P W Command := do
  let s ← getProcessor
  assertThat (s.m_groupLevel == 0)
  match s.m_nextCommandStack.getLast? with
  | none => raise "Command stack is empty"
  | some nextCommand => do
    modifyProcessor (fun s => { s with m_nextCommandStack := s.m_nextCommandStack.dropLast })
    pure nextCommand

/-- Source `pushGroupedCommand` (lines 270 to 282). -/
def pushGroupedCommand (env : CommandEnv W) (command : Command) : P W Unit := do
  let s ← getProcessor
  assertThat (decide (0 < s.m_groupLevel))
  if s.m_groupUndoable && !command.undoable then
    raise "Cannot add one-shot command to undoable command group"
  else
    match s.m_groupedCommands.getLast? with
    | some lastCommand => do
      let merged ← callOut (env.collateWith lastCommand command)
      match merged with
      | some m =>
        modifyProcessor (fun s =>
          { s with m_groupedCommands := s.m_groupedCommands.dropLast ++ [m] })
      | none =>
        modifyProcessor (fun s =>
          { s with m_groupedCommands := s.m_groupedCommands ++ [command] })
    | none =>
      modifyProcessor (fun s => { s with m_groupedCommands := s.m_groupedCommands ++ [command] })

/-- Source `popGroupedCommand` (lines 284 to 291). -/
def popGroupedCommand : P W Command := do
  let s ← getProcessor
  assertThat (decide (0 < s.m_groupLevel))
  match s.m_groupedCommands.getLast? with
  | none => raise "Group command stack is empty"
  | some groupedCommand => do
    modifyProcessor (fun s => { s with m_groupedCommands := s.m_groupedCommands.dropLast })
    pure groupedCommand

/-- Source `createAndStoreCommandGroup` (lines 293 to 307). -/
def createAndStoreCommandGroup (env : CommandEnv W) : P W Unit := do
  let s ← getProcessor
  match s.m_groupedCommands.head? with
  | some front => do
    let groupName := if s.m_groupName.isEmpty then front.name else s.m_groupName
    modifyProcessor (fun s => { s with m_groupName := groupName })
    let group := Command.group groupName s.m_groupUndoable s.m_groupedCommands
    modifyProcessor (fun s => { s with m_groupedCommands := [] })
    pushLastCommand env group false
  | none => pure ()
  modifyProcessor (fun s => { s with m_groupName := "", m_groupUndoable := false })

/-- Source `beginGroup` (lines 262 to 268). -/
def beginGroup (name : String) (undoable : Bool) : P W Unit := do
  let s ← getProcessor
  if s.m_groupLevel == 0 then
    modifyProcessor (fun s => { s with m_groupName := name, m_groupUndoable := undoable })
  modifyProcessor (fun s => { s with m_groupLevel := s.m_groupLevel + 1 })

/-- Source `storeCommand` (lines 255 to 260). -/
def storeCommand (env : CommandEnv W) (command : Command) (collate : Bool) : P W Unit := do
  let s ← getProcessor
  if s.m_groupLevel == 0 then
    pushLastCommand env command collate
  else
    pushGroupedCommand env command

/-- Source `doCommand` (lines 229 to 240). -/
def doCommand (env : CommandEnv W) (command : Command) : P W Bool := do
  notifyUnlessGroup env Notifier.commandDo command
  let done ← callCommand (env.performDo command)
  if done then do
    notifyUnlessGroup env Notifier.commandDone command
    pure true
  else do
    notifyUnlessGroup env Notifier.commandDoFailed command
    pure false

/-- Source `undoCommand` (lines 242 to 253). -/
def undoCommand (env : CommandEnv W) (command : Command) : P W Bool := do
  notifyUnlessGroup env Notifier.commandUndo command
  let undone ← callCommand (env.performUndo command)
  if undone then do
    notifyUnlessGroup env Notifier.commandUndone command
    pure true
  else do
    notifyUnlessGroup env Notifier.commandUndoFailed command
    pure false

end Processor

section ProcessorOperations

variable {W : Type}

/-- Source `beginUndoableGroup` (lines 132 to 134). -/
def beginUndoableGroup (name : String) : P W Unit := beginGroup name true

/-- Source `beginOneShotGroup` (lines 136 to 138). -/
def beginOneShotGroup (name : String) : P W Unit := beginGroup name false

/-- Source `closeGroup` (lines 140 to 148). -/
def closeGroup (env : CommandEnv W) : P W Unit := do
  let s ← getProcessor
  if s.m_groupLevel == 0 then
    raise "Group stack is empty"
  else do
    modifyProcessor (fun s => { s with m_groupLevel := s.m_groupLevel - 1 })
    let s ← getProcessor
    if s.m_groupLevel == 0 then do
      createAndStoreCommandGroup env
      updateNextRepeatableCommand

/-- The loop of `undoGroup` (lines 151 to 152); the result of `performUndo` is not used. -/
def undoGroupLoop (env : CommandEnv W) : Nat → P W Unit
  | 0 => fun s w => (Outcome.outOfFuel, s, w)
  | fuel + 1 => do
    let s ← getProcessor
    if s.m_groupedCommands.isEmpty then
      pure ()
    else do
      let command ← popGroupedCommand
      let _ ← callCommand (env.performUndo command)
      undoGroupLoop env fuel

/-- Source `undoGroup` (lines 150 to 153); each turn of the loop pops one grouped command,
so the number of grouped commands plus one bounds the number of tests of the loop. -/
def undoGroup (env : CommandEnv W) : P W Unit := do
  let s ← getProcessor
  undoGroupLoop env (s.m_groupedCommands.length + 1)

/-- Source `submitCommand` (lines 155 to 164). -/
def submitCommand (env : CommandEnv W) (command : Command) : P W Bool := do
  let done ← doCommand env command
  if !done then
    pure false
  else do
    if !command.undoable then do
      modifyProcessor (fun s => { s with m_lastCommandStack := [], m_nextCommandStack := [] })
      updateNextRepeatableCommand
    pure true

/-- Source `submitAndStoreCommand(command, collate)` (lines 219 to 227). -/
def submitAndStoreCommandCollate (env : CommandEnv W) (command : Command) (collate : Bool) :
    P W Bool := do
  let submitted ← submitCommand env command
  if !submitted then
    pure false
  else do
    if command.undoable then
      storeCommand env command collate
    let s ← getProcessor
    if !s.m_nextCommandStack.isEmpty then
      modifyProcessor (fun s => { s with m_nextCommandStack := [] })
    pure true

/-- Source `submitAndStoreCommand(command)` (lines 166 to 173). -/
def submitAndStoreCommand (env : CommandEnv W) (command : Command) : P W Bool := do
  let stored ← submitAndStoreCommandCollate env command true
  if stored then do
    let s ← getProcessor
    if s.m_groupLevel == 0 && command.isRepeatable then
      updateNextRepeatableCommand
    pure true
  else
    pure false

/-- Source `undoLastCommand` (lines 175 to 186). -/
def undoLastCommand (env : CommandEnv W) : P W Bool := do
  let s ← getProcessor
  if decide (0 < s.m_groupLevel) then
    raise "Cannot undo individual commands of a command group"
  else do
    let command ← popLastCommand
    let undone ← undoCommand env command
    if undone then do
      pushNextCommand command
      updateNextRepeatableCommand
      pure true
    else
      pure false

/-- Source `redoNextCommand` (lines 188 to 199). -/
def redoNextCommand (env : CommandEnv W) : P W Bool := do
  let s ← getProcessor
  if decide (0 < s.m_groupLevel) then
    raise "Cannot redo while in a command group"
  else do
    let command ← popNextCommand
    let done ← doCommand env command
    if done then do
      pushLastCommand env command false
      updateNextRepeatableCommand
      pure true
    else
      pure false

/-- The statement `--m_nextRepeatableCommand` on a `size_t` of 64 bits. -/
def decrementIndex (index : Nat) : Nat := (index + (2 ^ 64 - 1)) % 2 ^ 64

/-- Source `repeatLastCommand` (lines 201 to 217).  The clone is never NULL here. -/
def repeatLastCommand (env : CommandEnv W) : P W Bool := do
  let s ← getProcessor
  assertThat (decide (s.m_nextRepeatableCommand < s.m_lastCommandStack.length))
  match s.m_lastCommandStack[s.m_nextRepeatableCommand]? with
  | none => fun s w => (Outcome.assertionFailed, s, w)
  | some command => do
    assertThat command.isRepeatable
    let clone ← callOut (env.repeatCommand command)
    let stored ← submitAndStoreCommandCollate env clone false
    if stored then do
      let s ← getProcessor
      let index ← findNextRepeatableCommand s.m_nextRepeatableCommand
      modifyProcessor (fun s => { s with m_nextRepeatableCommand := index })
      let s ← getProcessor
      if s.m_nextRepeatableCommand == s.m_lastCommandStack.length then
        modifyProcessor (fun s =>
          { s with m_nextRepeatableCommand := decrementIndex s.m_nextRepeatableCommand })
      pure true
    else
      pure false

/-- The public operations that change the processor. -/
inductive Operation where
  | beginUndoableGroup (name : String)
  | beginOneShotGroup (name : String)
  | closeGroup
  | undoGroup
  | submitCommand (command : Command)
  | submitAndStoreCommand (command : Command)
  | undoLastCommand
  | redoNextCommand
  | repeatLastCommand

/-- The state of the processor and of the rest of the program after a call of the operation,
however the call ends. -/
def Operation.after (env : CommandEnv W) (op : Operation) (s : CommandProcessor) (w : W) :
    CommandProcessor × W :=
  match op with
  | beginUndoableGroup name => (TrenchBroom.beginUndoableGroup name s w).2
  | beginOneShotGroup name => (TrenchBroom.beginOneShotGroup name s w).2
  | closeGroup => (TrenchBroom.closeGroup env s w).2
  | undoGroup => (TrenchBroom.undoGroup env s w).2
  | submitCommand command => (TrenchBroom.submitCommand env command s w).2
  | submitAndStoreCommand command => (TrenchBroom.submitAndStoreCommand env command s w).2
  | undoLastCommand => (TrenchBroom.undoLastCommand env s w).2
  | redoNextCommand => (TrenchBroom.redoNextCommand env s w).2
  | repeatLastCommand => (TrenchBroom.repeatLastCommand env s w).2

/-- The states of the processor reachable from its construction by calls of the public
operations, in any state of the rest of the program. -/
inductive Reachable (env : CommandEnv W) : CommandProcessor → Prop where
  | init : Reachable env CommandProcessor.new
  | step {s : CommandProcessor} (op : Operation) (w : W) :
      Reachable env s → Reachable env (op.after env s w).1

end ProcessorOperations

/-- The state of the rest of the program after the call `notifier(command)` guarded by
`command->type() != CommandGroup::Type`. -/
def notified {W : Type} (env : CommandEnv W) (notifier : Notifier) (command : Command) (w : W) :
    W :=
  if command.isGroup then w else env.notify notifier command w

/-- An environment for the examples, over a clock: `performDo` fails for a command named
`"stuck"` and `performUndo` for one named `"oneway"`, no two commands collate, a clone is the
command itself, and the observers do nothing. -/
def exampleCommandEnv : CommandEnv Nat :=
  { performDo := fun command w => (Outcome.returned (command.name != "stuck"), w + 1)
    performUndo := fun command w => (Outcome.returned (command.name != "oneway"), w + 1)
    collateWith := fun _ _ w => (none, w)
    repeatCommand := fun command w => (command, w)
    notify := fun _ _ w => w
    wxGetLocalTimeMillis := fun w => (w, w) }

/-- A processor with no group open and the given undo stack. -/
def processorWith (undoStack : List Command) : CommandProcessor :=
  { CommandProcessor.new with m_lastCommandStack := undoStack }

/-- What an operation may do to the group level and the grouped commands if it is to keep
`m_groupLevel = 0 → m_groupedCommands = []`: it leaves the level as it is, and with no
group open it leaves the grouped commands as they are. -/
def KeepsGroup (s s1 : CommandProcessor) : Prop :=
  s1.m_groupLevel = s.m_groupLevel ∧
    (s.m_groupLevel = 0 → s1.m_groupedCommands = s.m_groupedCommands)

/-- The processor and the rest of the program after the calls of the list, in order. -/
def afterOperations {W : Type} (env : CommandEnv W) :
    List Operation → CommandProcessor × W → CommandProcessor × W
  | [], state => state
  | op :: rest, state => afterOperations env rest (op.after env state.1 state.2)

/-- A session for the examples: a group of two commands is opened, filled and closed, and a
further `closeGroup` is refused. -/
def exampleGroupSession : List Operation :=
  [Operation.beginUndoableGroup "move",
   Operation.submitAndStoreCommand (Command.simple 1 "first" true true),
   Operation.submitAndStoreCommand (Command.simple 2 "second" true false),
   Operation.closeGroup,
   Operation.closeGroup]

/-! ## The tokenizer at the level of characters -/

/-- Modelled from the spec: the reading position of the `Tokenizer` base class (not in the
sources): the characters from `curPos()` to the end of the input, and the line and column
of `curPos()`. -/
structure Cursor where
  rest : List Char
  line : Nat
  column : Nat
deriving DecidableEq, Repr

/-- The position at the start of a text: line 1, column 1. -/
def Cursor.start (text : List Char) : Cursor := ⟨text, 1, 1⟩

/-- Modelled from the spec: `Tokenizer::curChar` (not in the sources): the character at the
position, none at the end of the input. -/
def Cursor.curChar (t : Cursor) : Option Char := t.rest.head?

/-- Modelled from the spec: `Tokenizer::advance` (not in the sources): move over one
character; a line feed starts a new line at column 1. -/
def Cursor.advance (t : Cursor) : Cursor :=
  match t.rest with
  | [] => t
  | c :: rest => if c = '\n' then ⟨rest, t.line + 1, 1⟩ else ⟨rest, t.line, t.column + 1⟩

/-- The position after `n` calls of `advance`. -/
def Cursor.advanceBy : Nat → Cursor → Cursor
  | 0, t => t
  | n + 1, t => Cursor.advanceBy n t.advance

/-- The loop of `discardWhile`: at most `fuel` characters. -/
def discardWhileLoop (allow : List Char) : Nat → Cursor → Cursor
  | 0, t => t
  | fuel + 1, t =>
    match t.rest with
    | [] => t
    | c :: _ => if c ∈ allow then discardWhileLoop allow fuel t.advance else t

/-- Modelled from the spec: `Tokenizer::discardWhile` (not in the sources): advance while the
current character is one of `allow`. -/
def discardWhile (allow : List Char) (t : Cursor) : Cursor :=
  discardWhileLoop allow t.rest.length t

/-- The loop of `discardUntil`: at most `fuel` characters. -/
def discardUntilLoop (delims : List Char) : Nat → Cursor → Cursor
  | 0, t => t
  | fuel + 1, t =>
    match t.rest with
    | [] => t
    | c :: _ => if c ∈ delims then t else discardUntilLoop delims fuel t.advance

/-- Modelled from the spec: `Tokenizer::discardUntil` (not in the sources): advance until the
current character is one of `delims` or the input ends. -/
def discardUntil (delims : List Char) (t : Cursor) : Cursor :=
  discardUntilLoop delims t.rest.length t

/-- What `emitToken` uses of the `Tokenizer` base class and does not define (the class is
not in the sources), as functions of the characters from the current position on:

* `Whitespace`: the constant passed as set of delimiters;
* `readQuotedString`: the length of the text up to the closing quote, over which it also
  advances; none when it throws;
* `readInteger`, `readDecimal`, `readString`, given the delimiters: the length of the text
  they advance over, none for NULL. -/
structure Scanner where
  Whitespace : List Char
  readQuotedString : List Char → Option Nat
  readInteger : List Char → List Char → Option Nat
  readDecimal : List Char → List Char → Option Nat
  readString : List Char → List Char → Option Nat

/-- The token `Token(type, c, c + length, offset(c), startLine, startColumn)` for `c` the
position of `t`. -/
def Cursor.token (start : Cursor) (type : TokenType) (t : Cursor) (length : Nat) : Token :=
  ⟨type, String.mk (t.rest.take length), start.line, start.column⟩

/-- How one turn of the loop of `emitToken` ends: with `break`, at a new position, or by
leaving the function with a token or an exception. -/
inductive Turn where
  | again (t : Cursor)
  | leave (result : Result Token) (t : Cursor)
deriving DecidableEq, Repr

/-- Source `QuakeMapTokenizer::emitToken`, the `switch (*c)` (lines 46 to 96), for the
character `c` at the position `t`.  The text of a punctuation token is its one character. -/
def emitTokenTurn (sc : Scanner) (c : Char) (t : Cursor) : Turn :=
  if c = '/' then
    if t.advance.curChar = some '/' then Turn.again (discardUntil ['\n', '\r'] t.advance)
    else Turn.again t.advance
  else if c = '{' then Turn.leave (Result.ok (t.token TokenType.OBrace t 1)) t.advance
  else if c = '}' then Turn.leave (Result.ok (t.token TokenType.CBrace t 1)) t.advance
  else if c = '(' then Turn.leave (Result.ok (t.token TokenType.OParenthesis t 1)) t.advance
  else if c = ')' then Turn.leave (Result.ok (t.token TokenType.CParenthesis t 1)) t.advance
  else if c = '[' then Turn.leave (Result.ok (t.token TokenType.OBracket t 1)) t.advance
  else if c = ']' then Turn.leave (Result.ok (t.token TokenType.CBracket t 1)) t.advance
  else if c = '"' then
    match sc.readQuotedString t.advance.rest with
    | some n =>
      Turn.leave (Result.ok (t.token TokenType.String t.advance n)) (t.advance.advanceBy (n + 1))
    | none => Turn.leave (Result.thrown (Exception.lexError t.line t.column "")) t.advance
  else if c = ' ' ∨ c = '\t' ∨ c = '\n' ∨ c = '\r' then
    Turn.again (discardWhile sc.Whitespace t)
  else
    match sc.readInteger sc.Whitespace t.rest with
    | some n => Turn.leave (Result.ok (t.token TokenType.Integer t n)) (t.advanceBy n)
    | none =>
      match sc.readDecimal sc.Whitespace t.rest with
      | some n => Turn.leave (Result.ok (t.token TokenType.Decimal t n)) (t.advanceBy n)
      | none =>
        match sc.readString sc.Whitespace t.rest with
        | some n => Turn.leave (Result.ok (t.token TokenType.String t n)) (t.advanceBy n)
        | none => Turn.leave (Result.thrown (Exception.lexError t.line t.column (String.mk [c]))) t

/-- Source `QuakeMapTokenizer::emitToken` (lines 41 to 99): the loop `while (!eof())` with a
counter for its turns, and the `Eof` token after it. -/
def emitTokenLoop (sc : Scanner) : Nat → Cursor → Result Token × Cursor
  | 0, t => (Result.outOfFuel, t)
  | fuel + 1, t =>
    match t.rest with
    | [] => (Result.ok ⟨TokenType.Eof, "", t.line, t.column⟩, t)
    | c :: _ =>
      match emitTokenTurn sc c t with
      | Turn.again t1 => emitTokenLoop sc fuel t1
      | Turn.leave result t1 => (result, t1)

/-- A call of `emitToken`: every turn of the loop that does not leave it moves over at least
one character (when the characters of the case labels are in `Whitespace`), so the number of
characters left plus one bounds the number of turns. -/
def emitToken (sc : Scanner) (t : Cursor) : Result Token × Cursor :=
  emitTokenLoop sc (t.rest.length + 1) t

/-- The tokens that at most `count` calls of `emitToken` give from a position on, up to the
`Eof` token or the exception that ends them (none when they are not at an end after `count`
calls). -/
def tokensFrom (sc : Scanner) : Nat → Cursor → List Token × Option Ending
  | 0, _ => ([], none)
  | count + 1, t =>
    match emitToken sc t with
    | (Result.ok token, t1) =>
      if token.type = TokenType.Eof then ([], some (Ending.eof token.line token.column))
      else ((token :: (tokensFrom sc count t1).1), (tokensFrom sc count t1).2)
    | (Result.thrown (Exception.lexError line column c), _) =>
      ([], some (Ending.unexpectedCharacter line column c))
    | _ => ([], none)

/-- The tokens of a text: each token other than `Eof` has at least one character when the
scanner reads as the spec says, so the length of the text plus one bounds their number. -/
def tokenize (sc : Scanner) (text : String) : List Token × Option Ending :=
  tokensFrom sc (text.length + 1) (Cursor.start text.data)

/-- The token with its line moved down by `k`. -/
def Token.shiftLine (k : Nat) (token : Token) : Token := { token with line := token.line + k }

/-- The position with its line moved down by `k`. -/
def Cursor.shiftLine (k : Nat) (t : Cursor) : Cursor := { t with line := t.line + k }

/-- The ending with its line moved down by `k`. -/
def Ending.shiftLine (k : Nat) : Ending → Ending
  | Ending.eof line column => Ending.eof (line + k) column
  | Ending.unexpectedCharacter line column c => Ending.unexpectedCharacter (line + k) column c

/-- The result of `emitToken` with the line it reports moved down by `k`. -/
def shiftResult (k : Nat) : Result Token → Result Token
  | Result.ok token => Result.ok (token.shiftLine k)
  | Result.thrown (Exception.lexError line column c) =>
    Result.thrown (Exception.lexError (line + k) column c)
  | r => r

/-- Whether a character is a decimal digit. -/
def isDigit (c : Char) : Bool := decide ('0'.toNat ≤ c.toNat ∧ c.toNat ≤ '9'.toNat)

/-- The text after an optional sign. -/
def dropSign : List Char → List Char
  | '-' :: rest => rest
  | '+' :: rest => rest
  | cs => cs

/-- Whether the characters from position `n` on start with a delimiter or are at an end. -/
def endsAt (delims : List Char) (cs : List Char) (n : Nat) : Bool :=
  match cs.drop n with
  | [] => true
  | c :: _ => decide (c ∈ delims)

/-- Modelled from the spec: a scanner for the examples (the `Tokenizer` base class is not in
the sources): whitespace is blank, tab, line feed and carriage return; a quoted string reads
to the closing quote, without escapes, and throws when there is none; an Integer is an
optional sign and one or more digits, a Decimal has in addition a point and a fractional
part of one or more digits, both up to a delimiter or the end of the input; a bare word is
one or more characters up to a delimiter. -/
def specScanner : Scanner :=
  { Whitespace := [' ', '\t', '\n', '\r']
    readQuotedString := fun cs =>
      if '"' ∈ cs then some (cs.takeWhile (fun c => c != '"')).length else none
    readInteger := fun delims cs =>
      let sign := cs.length - (dropSign cs).length
      let digits := ((dropSign cs).takeWhile isDigit).length
      if 0 < digits ∧ endsAt delims cs (sign + digits) = true then some (sign + digits) else none
    readDecimal := fun delims cs =>
      let sign := cs.length - (dropSign cs).length
      let digits := ((dropSign cs).takeWhile isDigit).length
      let fraction := (((dropSign cs).drop (digits + 1)).takeWhile isDigit).length
      if 0 < digits ∧ ((dropSign cs).drop digits).head? = some '.' ∧ 0 < fraction ∧
          endsAt delims cs (sign + digits + 1 + fraction) = true then
        some (sign + digits + 1 + fraction)
      else none
    readString := fun delims cs =>
      if 0 < (cs.takeWhile (fun c => decide (c ∉ delims))).length then
        some (cs.takeWhile (fun c => decide (c ∉ delims))).length
      else none }

/-- The parser `QuakeMapParser(str, logger)` on a text, with the tokens its tokenizer
produces (the empty list and the end of the input at line 0 when they do not end). -/
def QuakeMapParser.ofText (sc : Scanner) (text : String) (logger : Option (List LogEntry)) :
    QuakeMapParser :=
  QuakeMapParser.new (tokenize sc text).1 ((tokenize sc text).2.getD (Ending.eof 0 0)) logger

/-- The spec's literal StandardA example document. -/
def exampleStandardA : String :=
  "\x7b\n\"classname\" \"worldspawn\"\n\x7b\n( 0 0 0 ) ( 0 1 0 ) ( 1 0 0 ) TEXTURE 0 0 0 1 1\n\x7d\n\x7d\n"

/-- One turn of the loop with its position moved down by `k` lines. -/
def Turn.shiftLine (k : Nat) : Turn → Turn
  | Turn.again t => Turn.again (t.shiftLine k)
  | Turn.leave result t => Turn.leave (shiftResult k result) (t.shiftLine k)

/-- The characters of the case labels at lines 76 to 79 of `emitToken`. -/
def isBlank (c : Char) : Prop := c = ' ' ∨ c = '\t' ∨ c = '\n' ∨ c = '\r'

/-- The tokens and the ending with their lines moved down by `k`. -/
def shiftTokens (k : Nat) (tokens : List Token × Option Ending) : List Token × Option Ending :=
  (tokens.1.map (Token.shiftLine k), tokens.2.map (Ending.shiftLine k))

/-- The kind and the text of each token. -/
def kindsAndTexts (tokens : List Token) : List (TokenType × String) :=
  tokens.map (fun token => (token.type, token.data))

/-- The point `( x y z )` of the example document, on line 4 from column `column` on. -/
def standardAPoint (x y z : String) (column : Nat) : PointSrc :=
  { o := ⟨TokenType.OParenthesis, "(", 4, column⟩
    x := ⟨TokenType.Integer, x, 4, column + 2⟩
    y := ⟨TokenType.Integer, y, 4, column + 4⟩
    z := ⟨TokenType.Integer, z, 4, column + 6⟩
    c := ⟨TokenType.CParenthesis, ")", 4, column + 8⟩ }

/-- The face line `( 0 0 0 ) ( 0 1 0 ) ( 1 0 0 ) TEXTURE 0 0 0 1 1` of the example document. -/
def standardAFace : FaceSrc :=
  { pt1 := standardAPoint "0" "0" "0" 1
    pt2 := standardAPoint "0" "1" "0" 11
    pt3 := standardAPoint "1" "0" "0" 21
    texture := ⟨TokenType.String, "TEXTURE", 4, 31⟩
    attrs := FaceAttrs.quake ⟨TokenType.Integer, "0", 4, 39⟩ ⟨TokenType.Integer, "0", 4, 41⟩
      ⟨TokenType.Integer, "0", 4, 43⟩ ⟨TokenType.Integer, "1", 4, 45⟩
      ⟨TokenType.Integer, "1", 4, 47⟩ }

/-- The brush of the example document: lines 3 to 5. -/
def standardABrush : BrushSrc :=
  { o := ⟨TokenType.OBrace, "\x7b", 3, 1⟩
    faces := [standardAFace]
    c := ⟨TokenType.CBrace, "\x7d", 5, 1⟩ }

/-- The tokens of the example document, in source order. -/
def standardATokens : List Token :=
  entityTokens ⟨TokenType.OBrace, "\x7b", 1, 1⟩
    [(⟨TokenType.String, "classname", 2, 1⟩, ⟨TokenType.String, "worldspawn", 2, 13⟩)]
    [standardABrush] ⟨TokenType.CBrace, "\x7d", 6, 1⟩

/-- The face that the face line of the example document denotes: points (0,0,0), (0,1,0)
and (1,0,0), texture name `TEXTURE`, offsets 0 and 0, rotation 0, scales 1 and 1, no
surface fields, read up to line 4. -/
def standardAParsedFace (R : Type) [CommRing R] : BrushFace R :=
  { p1 := ⟨0, 0, 0⟩, p2 := ⟨0, 1, 0⟩, p3 := ⟨1, 0, 0⟩
    textureName := "TEXTURE"
    valve := none
    xOffset := 0, yOffset := 0, rotation := 0, xScale := 1, yScale := 1
    surfaceContents := 0, surfaceFlags := 0, surfaceValue := 0
    filePosition := (4, 1) }

/-! ## Allocation and release of the objects of the model -/

/-- Modelled from the spec: the objects that the parser has allocated with `new` and that
have not been released (the classes of the model and their destructors are not in the
sources).  `faces`, `brushes`, `entities` and `maps` count the live objects of each class.
An owner releases what it owns when it is deleted: a brush its faces, an entity its brushes,
a map its entities.  `entity` lists, for the entity last allocated and not yet added to a
map, the number of faces of each brush added to it; `map` lists the same for each entity
added to the map under construction. -/
structure Heap where
  faces : Nat
  brushes : Nat
  entities : Nat
  maps : Nat
  entity : List Nat
  map : List (List Nat)
deriving DecidableEq, Repr

/-- No live object. -/
def Heap.empty : Heap := ⟨0, 0, 0, 0, [], []⟩

/-- A member function of the parser returning `α`, with the heap next to the parser. -/
def T (α : Type) : Type := QuakeMapParser × Heap → Result α × (QuakeMapParser × Heap)

/-- Normal return. -/
def T.ret {α : Type} (a : α) : T α := fun s => (Result.ok a, s)

/-- Sequencing: an exception or fuel exhaustion in the first part skips the second. -/
def T.andThen {α β : Type} (m : T α) (f : α → T β) : T β := fun s =>
  match m s with
  | (Result.ok a, s1) => f a s1
  | (Result.thrown e, s1) => (Result.thrown e, s1)
  | (Result.outOfFuel, s1) => (Result.outOfFuel, s1)

instance : Monad T where
  pure := T.ret
  bind := T.andThen

/-- A part of the parser that allocates and releases nothing. -/
def T.lift {α : Type} (m : M α) : T α := fun s => ((m s.1).1, ((m s.1).2, s.2))

/-- A change of the heap. -/
def T.modifyHeap (f : Heap → Heap) : T Unit := fun s => (Result.ok (), (s.1, f s.2))

/-- The block `try { body } catch (...) { handler }` with the heap. -/
def T.tryCatchAll {α : Type} (body : T α) (handler : Exception → T α) : T α := fun s =>
  match body s with
  | (Result.thrown e, s1) => handler e s1
  | r => r

/-- `new Model::QuakeBrushFace(...)` or `new Model::ValveBrushFace(...)`. -/
def Heap.newFace (h : Heap) : Heap := { h with faces := h.faces + 1 }

/-- Modelled from the spec: `new Model::Brush(worldBounds, faces)` that returns: the brush
owns the faces. -/
def Heap.newBrush (h : Heap) : Heap := { h with brushes := h.brushes + 1 }

/-- Modelled from the spec: `new Model::Brush(worldBounds, faces)` that throws
`GeometryException`: the faces handed to the constructor are taken to be released with the
brush that was not built. -/
def Heap.rejectedBrush (h : Heap) (faces : Nat) : Heap := { h with faces := h.faces - faces }

/-- `new Model::ConfigurableEntity<...>()`: an entity without brushes. -/
def Heap.newEntity (h : Heap) : Heap := { h with entities := h.entities + 1, entity := [] }

/-- Modelled from the spec: `entity->addBrush(brush)`: the entity owns the brush. -/
def Heap.addBrush (h : Heap) (faces : Nat) : Heap := { h with entity := h.entity ++ [faces] }

/-- Modelled from the spec: `delete entity`: the entity, its brushes and their faces are
released. -/
def Heap.deleteEntity (h : Heap) : Heap :=
  { h with
    entities := h.entities - 1
    brushes := h.brushes - h.entity.length
    faces := h.faces - h.entity.sum
    entity := [] }

/-- `new Model::Map(m_format)`: a map without entities. -/
def Heap.newMap (h : Heap) : Heap := { h with maps := h.maps + 1, map := [] }

/-- Modelled from the spec: `map->addEntity(entity)`: the map owns the entity. -/
def Heap.addEntity (h : Heap) : Heap := { h with map := h.map ++ [h.entity], entity := [] }

/-- Modelled from the spec: `delete map`: the map, its entities, their brushes and the faces
of these are released. -/
def Heap.deleteMap (h : Heap) : Heap :=
  { h with
    maps := h.maps - 1
    entities := h.entities - h.map.length
    brushes := h.brushes - (h.map.map List.length).sum
    faces := h.faces - (h.map.map List.sum).sum
    map := [] }

namespace Tracked

section TrackedParser

variable {R : Type} [CommRing R] [DecidableEq R]

/-- Source `parseFace` (lines 334 to 421) with the heap: the face is allocated at lines 388
to 391, after the y scale and before the surface fields are read. -/
def parseFace (env : Env R) (_worldBounds : BBox3 R) : T (Option (BrushFace R)) := do
  let token ← T.lift nextToken
  if token.type = TokenType.Eof then
    pure none
  else do
    T.lift (expect [TokenType.OParenthesis] token)
    let v1 ← T.lift (parseVector env)
    let p1 := env.corrected v1
    let token ← T.lift nextToken
    T.lift (expect [TokenType.CParenthesis] token)
    let token ← T.lift nextToken
    T.lift (expect [TokenType.OParenthesis] token)
    let v2 ← T.lift (parseVector env)
    let p2 := env.corrected v2
    let token ← T.lift nextToken
    T.lift (expect [TokenType.CParenthesis] token)
    let token ← T.lift nextToken
    T.lift (expect [TokenType.OParenthesis] token)
    let v3 ← T.lift (parseVector env)
    let p3 := env.corrected v3
    let token ← T.lift nextToken
    T.lift (expect [TokenType.CParenthesis] token)
    let token ← T.lift nextToken
    T.lift (expect [TokenType.String] token)
    let textureName := if token.data = NoTextureName then "" else token.data
    let normal := env.normalized (crossed (p3.sub p1) (p2.sub p1))
    if normal.null then
      pure none
    else do
      let (axes, xOffset, yOffset) ← T.lift (parseFaceOffsets env)
      let token ← T.lift nextToken
      T.lift (expect numberMask token)
      let rotation := env.toFloat token
      let token ← T.lift nextToken
      T.lift (expect numberMask token)
      let xScale := env.toFloat token
      let token ← T.lift nextToken
      T.lift (expect numberMask token)
      let yScale := env.toFloat token
      let format ← T.lift getFormat
      let valve : Option (ValveAxes R) :=
        if format = MapFormat.Valve then
          axes.map (fun a => { texAxisX := a.1, texAxisY := a.2, normal := normal, rotation := rotation })
        else none
      T.modifyHeap Heap.newFace
      let (surfaceContents, surfaceFlags, surfaceValue, token) ←
        T.lift (parseFaceSurface env token)
      pure (some
        { p1 := p1, p2 := p2, p3 := p3, textureName := textureName, valve := valve
          xOffset := xOffset, yOffset := yOffset, rotation := rotation
          xScale := xScale, yScale := yScale
          surfaceContents := surfaceContents, surfaceFlags := surfaceFlags
          surfaceValue := surfaceValue, filePosition := (token.line, 1) })

/-- Source `createBrush` (lines 434 to 451) with the heap. -/
def createBrush (env : Env R) (worldBounds : BBox3 R) (faces : List (BrushFace R))
    (firstLine lineCount : Nat) : T (Option (Brush R)) :=
  let sortedFaces := env.sortFaces false (env.sortFaces true faces)
  match env.geometry worldBounds sortedFaces with
  | none => do
    T.modifyHeap Heap.newBrush
    pure (some { faces := sortedFaces, filePosition := (firstLine, lineCount) })
  | some what => do
    T.modifyHeap (fun h => h.rejectedBrush sortedFaces.length)
    T.lift (logError { line := firstLine, what := what })
    pure none

/-- The `while` loop of `parseBrush` (lines 313 to 331) with the heap: `faces` is a local
list of pointers, and no statement of the function releases what it points to. -/
def parseBrushLoop (env : Env R) (worldBounds : BBox3 R) (firstLine : Nat) :
    Nat → List (BrushFace R) → T (Option (Brush R))
  | 0, _ => T.lift outOfFuel
  | fuel + 1, faces => do
    let token ← T.lift nextToken
    if token.type = TokenType.Eof then
      pure none
    else if token.type = TokenType.OParenthesis then do
      T.lift (pushToken token)
      let face ← parseFace env worldBounds
      match face with
      | some f => parseBrushLoop env worldBounds firstLine fuel (faces ++ [f])
      | none => parseBrushLoop env worldBounds firstLine fuel faces
    else if token.type = TokenType.CBrace then
      createBrush env worldBounds faces firstLine (token.line - firstLine)
    else do
      T.lift (expect [TokenType.OParenthesis, TokenType.CParenthesis] token)
      parseBrushLoop env worldBounds firstLine fuel faces

/-- Source `parseBrush` (lines 301 to 332) with the heap. -/
def parseBrush (env : Env R) (fuel : Nat) (worldBounds : BBox3 R) : T (Option (Brush R)) := do
  let token ← T.lift nextToken
  if token.type = TokenType.Eof then
    pure none
  else do
    T.lift (expect [TokenType.OBrace, TokenType.CBrace] token)
    if token.type = TokenType.CBrace then
      pure none
    else
      parseBrushLoop env worldBounds token.line fuel []

/-- The loop `while (moreBrushes)` of `parseEntity` (lines 275 to 282) with the heap. -/
def parseEntityBrushes (env : Env R) (fuel : Nat) (worldBounds : BBox3 R) :
    Nat → Entity R → T (Entity R)
  | 0, _ => T.lift outOfFuel
  | n + 1, entity => do
    let brush ← parseBrush env fuel worldBounds
    match brush with
    | some b => T.modifyHeap (fun h => h.addBrush b.faces.length)
    | none => pure ()
    let entity := match brush with
      | some b => entity.addBrush b
      | none => entity
    let token ← T.lift nextToken
    T.lift (expect [TokenType.OBrace, TokenType.CBrace] token)
    T.lift (pushToken token)
    if token.type = TokenType.OBrace then
      parseEntityBrushes env fuel worldBounds n entity
    else
      pure entity

/-- The outer `while` loop of `parseEntity` (lines 263 to 292) with the heap. -/
def parseEntityLoop (env : Env R) (fuel : Nat) (worldBounds : BBox3 R) (firstLine : Nat) :
    Nat → Entity R → T (Option (Entity R))
  | 0, _ => T.lift outOfFuel
  | n + 1, entity => do
    let token ← T.lift nextToken
    if token.type = TokenType.Eof then
      pure (some entity)
    else if token.type = TokenType.String then do
      let key := token.data
      let token ← T.lift nextToken
      T.lift (expect [TokenType.String] token)
      let value := token.data
      parseEntityLoop env fuel worldBounds firstLine n (entity.addOrUpdateProperty key value)
    else if token.type = TokenType.OBrace then do
      T.lift (pushToken token)
      let entity ← parseEntityBrushes env fuel worldBounds fuel entity
      parseEntityLoop env fuel worldBounds firstLine n entity
    else if token.type = TokenType.CBrace then
      pure (some (entity.setFilePosition firstLine (token.line - firstLine)))
    else do
      T.lift (expect [TokenType.String, TokenType.OBrace, TokenType.CBrace] token)
      parseEntityLoop env fuel worldBounds firstLine n entity

/-- Source `parseEntity` (lines 250 to 299) with the heap: the entity is allocated at line
259, and the `catch (...)` of lines 293 to 296 deletes it and rethrows. -/
def parseEntity (env : Env R) (fuel : Nat) (worldBounds : BBox3 R) : T (Option (Entity R)) := do
  let token ← T.lift nextToken
  if token.type = TokenType.Eof then
    pure none
  else do
    T.lift (expect [TokenType.OBrace, TokenType.CBrace] token)
    if token.type = TokenType.CBrace then
      pure none
    else do
      T.modifyHeap Heap.newEntity
      T.tryCatchAll (parseEntityLoop env fuel worldBounds token.line fuel Entity.new)
        (fun e => do
          T.modifyHeap Heap.deleteEntity
          T.lift (throwException e))

/-- The loop `while (entity != NULL)` of `doParseMap` (lines 146 to 149) with the heap. -/
def doParseMapLoop (env : Env R) (fuel : Nat) (worldBounds : BBox3 R) :
    Nat → Option (Entity R) → Map R → T (Map R)
  | 0, _, _ => T.lift outOfFuel
  | _ + 1, none, map => pure map
  | n + 1, some entity, map => do
    T.modifyHeap Heap.addEntity
    let next ← parseEntity env fuel worldBounds
    doParseMapLoop env fuel worldBounds n next (map.addEntity entity)

/-- Source `doParseMap` (lines 139 to 155) with the heap: the map is allocated at line 143,
and the `catch (...)` of lines 151 to 154 deletes it and rethrows. -/
def doParseMap (env : Env R) (fuel : Nat) (worldBounds : BBox3 R) : T (Map R) := do
  let format ← T.lift (detectFormat env fuel)
  T.lift (setFormat format)
  T.lift reset
  let map : Map R := { format := format, entities := [] }
  T.modifyHeap Heap.newMap
  T.tryCatchAll
    (do
      let entity ← parseEntity env fuel worldBounds
      doParseMapLoop env fuel worldBounds fuel entity map)
    (fun e => do
      T.modifyHeap Heap.deleteMap
      T.lift (throwException e))

end TrackedParser

end Tracked

/-- A document whose brush has, after two faces, a word where a face or the closing brace
is expected. -/
def exampleStrayWord : String :=
  "\x7b\n\"classname\" \"worldspawn\"\n\x7b\n( 0 0 0 ) ( 0 1 0 ) ( 1 0 0 ) TEXTURE 0 0 0 1 1\n( 0 0 1 ) ( 1 0 1 ) ( 0 1 1 ) TEXTURE 0 0 0 1 1\noops\n\x7d\n\x7d\n"

/-- A document in the dialect with surface fields (eight numbers after the texture name)
whose first surface field is a Decimal where an Integer is required. -/
def exampleBadSurface : String :=
  "\x7b\n\"classname\" \"worldspawn\"\n\x7b\n( 0 0 0 ) ( 0 1 0 ) ( 1 0 0 ) TEXTURE 0 0 0 1 1 0.5 0 0\n\x7d\n\x7d\n"

/-- A document whose entity has, after its brush, a number where a brush or the closing
brace is expected. -/
def exampleStrayNumber : String :=
  "\x7b\n\"classname\" \"worldspawn\"\n\x7b\n( 0 0 0 ) ( 0 1 0 ) ( 1 0 0 ) TEXTURE 0 0 0 1 1\n\x7d\n7\n\x7d\n"

/-- An undo stack for the examples: the commands at the indices 0 and 2 are repeatable, those
at 1 and 3 are not. -/
def exampleRepeatableStack : List Command :=
  [Command.simple 1 "move" true true, Command.simple 2 "select" true false,
   Command.simple 3 "rotate" true true, Command.simple 4 "deselect" true false]

/-- What a call leaves as it is when it does not open or close a group: the name and the
undoable flag of the group, and the group level. -/
def KeepsHeader (s s1 : CommandProcessor) : Prop :=
  s1.m_groupName = s.m_groupName ∧ s1.m_groupUndoable = s.m_groupUndoable ∧
    s1.m_groupLevel = s.m_groupLevel

/-- Nested calls of `beginUndoableGroup(name)` (`undoable` true) and `beginOneShotGroup(name)`
(`undoable` false), outermost first. -/
def beginGroups {W : Type} : List (String × Bool) → P W Unit
  | [] => pure ()
  | (name, undoable) :: rest => do
    beginGroup name undoable
    beginGroups rest

/-- `count` calls of `closeGroup` in a row. -/
def closeGroups {W : Type} (env : CommandEnv W) : Nat → P W Unit
  | 0 => pure ()
  | count + 1 => do
    closeGroup env
    closeGroups env count

/-- The processor and the rest of the program after the nested `begins` and, inside the
innermost group, one call of `submitAndStoreCommand` for each of `commands`. -/
def groupSession {W : Type} (env : CommandEnv W) (s : CommandProcessor) (w : W)
    (begins : List (String × Bool)) (commands : List Command) : CommandProcessor × W :=
  afterOperations env (commands.map Operation.submitAndStoreCommand) (beginGroups begins s w).2

/-! ## RotateObjectsCommand (RotateObjectsCommand.cpp, lines 29 to 94) -/

/-- Modelled from the spec: `Axis::Type` (not in the sources): one of the three coordinate
axes. -/
inductive AxisType where
  | AX
  | AY
  | AZ
deriving DecidableEq, Repr

/-- What `performDo` uses and the sources do not define, over the numbers `K`:

* `Pi`: the constant `Math::Pi`;
* `PosX` to `NegZ`: the six constants of `Vec3f` of these names;
* `equals`: `Vec3f::equals`;
* `firstComponent`: `Vec3f::firstComponent`;
* `outOfRange`: what the conversion of a number to `unsigned int` gives when the integer
  part of the number is not a value of the type, a case that C++ leaves undefined and the
  compiler and the machine decide. -/
structure RotateEnv (K : Type) where
  Pi : K
  PosX : Vec3 K
  PosY : Vec3 K
  PosZ : Vec3 K
  NegX : Vec3 K
  NegY : Vec3 K
  NegZ : Vec3 K
  equals : Vec3 K → Vec3 K → Bool
  firstComponent : Vec3 K → AxisType
  outOfRange : K → Nat

/-- The calls that `performDo` makes on the entities, the brushes and the document, with
their arguments; the quaternion `Quat(angle, axis)` is given by its angle and its axis. -/
inductive RotateCall (K : Type) where
  | entityRotate90 (entity : Nat) (component : AxisType) (center : Vec3 K)
      (clockwise lockTextures : Bool)
  | updateEntity (entity : Nat)
  | brushRotate90 (brush : Nat) (component : AxisType) (center : Vec3 K)
      (clockwise lockTextures : Bool)
  | updateBrush (brush : Nat)
  | entityRotate (entity : Nat) (angle : K) (axis center : Vec3 K) (lockTextures : Bool)
  | brushRotate (brush : Nat) (angle : K) (axis center : Vec3 K) (lockTextures : Bool)
deriving DecidableEq, Repr

/-- The members of a `RotateObjectsCommand`; entities and brushes are given by numbers. -/
structure RotateObjectsCommand (K : Type) where
  m_entities : List Nat
  m_brushes : List Nat
  m_axis : Vec3 K
  m_angle : K
  m_clockwise : Bool
  m_center : Vec3 K
  m_lockTextures : Bool
deriving DecidableEq, Repr

section Rotate

variable {K : Type} [LinearOrderedField K] [FloorRing K]

/-- The loop `while (angle - 2.0f * Math::Pi >= 0.0f) angle -= 2.0f * Math::Pi;` (lines 35 and
36) with a counter for its turns. -/
def reduceAboveLoop (pi : K) : Nat → K → Option K
  | 0, _ => none
  | fuel + 1, angle =>
    if angle - 2 * pi ≥ 0 then reduceAboveLoop pi fuel (angle - 2 * pi) else some angle

/-- The loop `while (angle + 2.0f * Math::Pi <= 0.0f) angle += 2.0f * Math::Pi;` (lines 38 and
39) with a counter for its turns. -/
def reduceBelowLoop (pi : K) : Nat → K → Option K
  | 0, _ => none
  | fuel + 1, angle =>
    if angle + 2 * pi ≤ 0 then reduceBelowLoop pi fuel (angle + 2 * pi) else some angle

/-- Lines 34 to 40 of `performDo`. -/
def reduceAngle (pi : K) (fuel : Nat) (angle : K) : Option K :=
  if angle > 0 then reduceAboveLoop pi fuel angle
  else if angle < 0 then reduceBelowLoop pi fuel angle
  else some angle

/-- The angle after lines 30 to 32: `m_angle`, multiplied by -1 when the rotation is not
clockwise. -/
def signedAngle (cmd : RotateObjectsCommand K) : K :=
  if cmd.m_clockwise then cmd.m_angle else cmd.m_angle * -1

/-- The test of lines 52 and 53: the axis equals one of the six coordinate axes. -/
def isPrincipal (env : RotateEnv K) (axis : Vec3 K) : Bool :=
  env.equals axis env.PosX || env.equals axis env.PosY || env.equals axis env.PosZ ||
    env.equals axis env.NegX || env.equals axis env.NegY || env.equals axis env.NegZ

/-- The conversion `unsigned int quarters = 2.0f * m_angle / Math::Pi;` (line 54) for an
`unsigned int` of 32 bits.  The fractional part is dropped, towards zero; C++ defines the
result when the number lies strictly between -1 and `2 ^ 32`, and then it is the floor of
the number, or 0 for a number between -1 and 0.  For any other number, such as the one
that a negative `m_angle` of a quarter turn or more gives, the result is the one of the
platform, `env.outOfRange`. -/
def quarters (env : RotateEnv K) (cmd : RotateObjectsCommand K) : Nat :=
  if -1 < 2 * cmd.m_angle / env.Pi ∧ 2 * cmd.m_angle / env.Pi < 2 ^ 32 then
    Int.toNat ⌊2 * cmd.m_angle / env.Pi⌋
  else env.outOfRange (2 * cmd.m_angle / env.Pi)

/-- One turn of the loop of lines 60 to 74: `rotate90` and the update of every entity, then
of every brush. -/
def rotate90Calls (cmd : RotateObjectsCommand K) (component : AxisType) :
    List (RotateCall K) :=
  (cmd.m_entities.map (fun entity =>
      [RotateCall.entityRotate90 entity component cmd.m_center cmd.m_clockwise
        cmd.m_lockTextures, RotateCall.updateEntity entity])).flatten ++
    (cmd.m_brushes.map (fun brush =>
      [RotateCall.brushRotate90 brush component cmd.m_center cmd.m_clockwise
        cmd.m_lockTextures, RotateCall.updateBrush brush])).flatten

/-- Lines 78 to 91: the rotation `Quat(angle, m_axis)` and the update of every entity, then
of every brush. -/
def rotateCalls (cmd : RotateObjectsCommand K) (angle : K) : List (RotateCall K) :=
  (cmd.m_entities.map (fun entity =>
      [RotateCall.entityRotate entity angle cmd.m_axis cmd.m_center cmd.m_lockTextures,
        RotateCall.updateEntity entity])).flatten ++
    (cmd.m_brushes.map (fun brush =>
      [RotateCall.brushRotate brush angle cmd.m_axis cmd.m_center cmd.m_lockTextures,
        RotateCall.updateBrush brush])).flatten

/-- Source `RotateObjectsCommand::performDo` (lines 29 to 94) over exact numbers: the result
and the calls made on the objects, in order.  `fuel` bounds the turns of each of the two
`while` loops. -/
def performDo (env : RotateEnv K) (fuel : Nat) (cmd : RotateObjectsCommand K) :
    Outcome Bool × List (RotateCall K) :=
  match reduceAngle env.Pi fuel (signedAngle cmd) with
  | none => (Outcome.outOfFuel, [])
  | some reduced =>
    if reduced = 0 then (Outcome.returned false, [])
    else
      let angle := if reduced < 0 then 2 * env.Pi - reduced else reduced
      if angle > 0 then
        if isPrincipal env cmd.m_axis then
          if quarters env cmd > 0 then
            (Outcome.returned true,
              (List.replicate (quarters env cmd)
                (rotate90Calls cmd (env.firstComponent cmd.m_axis))).flatten ++
                rotateCalls cmd (angle - quarters env cmd * env.Pi / 2))
          else (Outcome.returned true, rotateCalls cmd angle)
        else (Outcome.returned true, rotateCalls cmd angle)
      else (Outcome.assertionFailed, [])

end Rotate

/-- An environment over the rationals for the examples: `22/7` for `Math::Pi`, the unit
vectors, exact equality, the first component that is not 0, and for a conversion out of
range the integer part of the number modulo `2 ^ 32`, which is what common machines give:
a negative number of quarter turns becomes a count close to `2 ^ 32`. -/
def exampleRotateEnv : RotateEnv ℚ :=
  { Pi := 22 / 7
    PosX := ⟨1, 0, 0⟩, PosY := ⟨0, 1, 0⟩, PosZ := ⟨0, 0, 1⟩
    NegX := ⟨-1, 0, 0⟩, NegY := ⟨0, -1, 0⟩, NegZ := ⟨0, 0, -1⟩
    equals := fun a b => decide (a = b)
    firstComponent := fun v =>
      if v.x ≠ 0 then AxisType.AX else if v.y ≠ 0 then AxisType.AY else AxisType.AZ
    outOfRange := fun x => Int.toNat ((if 0 ≤ x then ⌊x⌋ else ⌈x⌉) % 2 ^ 32) }

/-- A rotation of one entity and two brushes by the angle 1, counter-clockwise, about the
axis (1, 1, 0), which is none of the coordinate axes. -/
def exampleRotation : RotateObjectsCommand ℚ :=
  { m_entities := [1], m_brushes := [2, 3]
    m_axis := ⟨1, 1, 0⟩, m_angle := 1, m_clockwise := false
    m_center := ⟨0, 0, 0⟩, m_lockTextures := false }

/-! ## Parser states that differ in their logged diagnostics only -/

/-- The tokenizer has nothing left to deliver but the end of the input: no token remains,
none is pushed back, and the text ends without a lexical error. -/
def Tokenizer.atEnd (t : Tokenizer) : Bool :=
  t.remaining.isEmpty && t.pushed.isNone &&
    (match t.ending with
      | Ending.eof _ _ => true
      | Ending.unexpectedCharacter _ _ _ => false)

/-- Two parser states with the same tokenizer state and the same `m_format`, both with a
logger or both without one; the diagnostics that the loggers have received may differ. -/
def SameButLog (p q : QuakeMapParser) : Prop :=
  p.m_tokenizer = q.m_tokenizer ∧ p.m_format = q.m_format ∧
    p.m_logger.isSome = q.m_logger.isSome

/-- Two parser states on the same text (the same tokens and the same ending), both with a
logger or both without one; position, pushback, `m_format` and diagnostics may differ. -/
def SameText (p q : QuakeMapParser) : Prop :=
  p.m_tokenizer.input = q.m_tokenizer.input ∧ p.m_tokenizer.ending = q.m_tokenizer.ending ∧
    p.m_logger.isSome = q.m_logger.isSome

/-- A member function whose outcome does not depend on the diagnostics logged before it
runs, and which changes neither the text nor the presence of the logger: on two states that
differ in the logged diagnostics only it gives the same result and leaves two such states;
and it leaves a state on the same text as the one it started from. -/
def Regular {α : Type} (m : M α) : Prop :=
  (∀ p q, SameButLog p q → (m p).1 = (m q).1 ∧ SameButLog (m p).2 (m q).2) ∧
    ∀ p, SameText p (m p).2

/-- What the claim about a second call says of the entry point `entry`, for a first call
made in state `p` whose format detection gave `format`: when the detection of the second
call, run in the state the first call has left, gives `format` again, or when `format` is
`Quake` and the first call has left the tokenizer at the end of the input, the second call
returns what the first call returned and leaves the same `m_format`. -/
def SecondCallAgrees {α : Type} (detect : M MapFormat) (entry : M α) (format : MapFormat)
    (p : QuakeMapParser) : Prop :=
  ((detect (entry p).2).1 = Result.ok format ∨
      (format = MapFormat.Quake ∧ (entry p).2.m_tokenizer.atEnd = true)) →
    (entry (entry p).2).1 = (entry p).1 ∧
      (entry (entry p).2).2.m_format = (entry p).2.m_format

/-- A brush on the nine lines from `line` on whose first face is the degenerate face
`degenerateFaceSrc` and whose other faces are the six faces of the box `cubeFaces`. -/
def exampleDegenerateBox (line : Nat) : BrushSrc :=
  { o := sym TokenType.OBrace line
    faces := degenerateFaceSrc (line + 1) :: cubeFaces (line + 2)
    c := sym TokenType.CBrace (line + 8) }

/-- The tokens of a StandardA document on lines 1 to 14: one entity with the property
`"classname" "worldspawn"`, the one-face brush `exampleOpenBrush` on lines 3 to 5 and the
six-face box `exampleClosedBrush` on lines 6 to 13. -/
def exampleTwoBrushDocument : List Token :=
  entityTokens (sym TokenType.OBrace 1) [(str "classname" 2, str "worldspawn" 2)]
    [exampleOpenBrush 3, exampleClosedBrush 6] (sym TokenType.CBrace 14)

/-- The tokens of a StandardA document on lines 1 to 15: one entity with the property
`"classname" "worldspawn"`, the one-face brush `exampleOpenBrush` on lines 3 to 5 and the
brush `exampleDegenerateBox` on lines 6 to 14, which is the box of `exampleTwoBrushDocument`
with the degenerate face `( 0 0 0 ) ( 0 0 0 ) ( 1 0 0 ) TEXTURE 0 0 0 1 1` before its six
faces. -/
def exampleDegenerateDocument : List Token :=
  entityTokens (sym TokenType.OBrace 1) [(str "classname" 2, str "worldspawn" 2)]
    [exampleOpenBrush 3, exampleDegenerateBox 6] (sym TokenType.CBrace 15)

/-! ## Basic facts about the operations -/

section Lemmas

variable {R : Type} [CommRing R] [DecidableEq R]

@[simp] theorem M.bind_apply {α β : Type} (m : M α) (f : α → M β) (p : QuakeMapParser) :
    (m >>= f) p = match m p with
      | (Result.ok a, p1) => f a p1
      | (Result.thrown e, p1) => (Result.thrown e, p1)
      | (Result.outOfFuel, p1) => (Result.outOfFuel, p1) := rfl

@[simp] theorem M.pure_apply {α : Type} (a : α) (p : QuakeMapParser) :
    (pure a : M α) p = (Result.ok a, p) := rfl

@[simp] theorem nextToken_cons (lg : Option (List LogEntry)) (inp : List Token) (en : Ending)
    (t : Token) (ts : List Token) (fmt : MapFormat) :
    nextToken ⟨lg, ⟨inp, en, t :: ts, none⟩, fmt⟩ =
      (Result.ok t, ⟨lg, ⟨inp, en, ts, none⟩, fmt⟩) := rfl

@[simp] theorem nextToken_pushed (lg : Option (List LogEntry)) (inp : List Token) (en : Ending)
    (t : Token) (ts : List Token) (fmt : MapFormat) :
    nextToken ⟨lg, ⟨inp, en, ts, some t⟩, fmt⟩ =
      (Result.ok t, ⟨lg, ⟨inp, en, ts, none⟩, fmt⟩) := rfl

@[simp] theorem nextToken_eof (lg : Option (List LogEntry)) (inp : List Token) (l c : Nat)
    (fmt : MapFormat) :
    nextToken ⟨lg, ⟨inp, Ending.eof l c, [], none⟩, fmt⟩ =
      (Result.ok ⟨TokenType.Eof, "", l, c⟩, ⟨lg, ⟨inp, Ending.eof l c, [], none⟩, fmt⟩) := rfl

@[simp] theorem pushToken_apply (lg : Option (List LogEntry)) (inp : List Token) (en : Ending)
    (t : Token) (ts : List Token) (pd : Option Token) (fmt : MapFormat) :
    pushToken t ⟨lg, ⟨inp, en, ts, pd⟩, fmt⟩ =
      (Result.ok (), ⟨lg, ⟨inp, en, ts, some t⟩, fmt⟩) := rfl

@[simp] theorem setFormat_apply (lg : Option (List LogEntry)) (tk : Tokenizer)
    (fmt f : MapFormat) : setFormat f ⟨lg, tk, fmt⟩ = (Result.ok (), ⟨lg, tk, f⟩) := rfl

@[simp] theorem getFormat_apply (p : QuakeMapParser) :
    getFormat p = (Result.ok p.m_format, p) := rfl

@[simp] theorem reset_apply (lg : Option (List LogEntry)) (inp : List Token) (en : Ending)
    (ts : List Token) (pd : Option Token) (fmt : MapFormat) :
    reset ⟨lg, ⟨inp, en, ts, pd⟩, fmt⟩ = (Result.ok (), ⟨lg, ⟨inp, en, inp, none⟩, fmt⟩) := rfl

theorem setFormat_reset (format : MapFormat) (p : QuakeMapParser) :
    (setFormat format >>= fun _ => reset) p = (Result.ok (), p.startOfParse format) := rfl

@[simp] theorem tryCatchAll_rethrow {α : Type} (m : M α) :
    tryCatchAll m (fun e => throwException e) = m := by
  funext p
  unfold tryCatchAll throwException
  split <;> simp_all

theorem expect_ok {mask : List TokenType} {token : Token} (h : token.type ∈ mask)
    (p : QuakeMapParser) : expect mask token p = (Result.ok (), p) := by
  simp [expect, h]

theorem expect_fail {mask : List TokenType} {token : Token} (h : token.type ∉ mask)
    (p : QuakeMapParser) : expect mask token p =
      (Result.thrown (Exception.unexpectedToken token.line token.column mask token.type), p) := by
  simp [expect, h, throwException]

theorem mem_numberMask {t : Token} (h : t.isNumber) : t.type ∈ numberMask := by
  simpa [numberMask] using h

theorem bind_fst_ne {α β : Type} (m : M α) (f : α → M β) (b : β) (p : QuakeMapParser)
    (h : ∀ a p1, (f a p1).1 ≠ Result.ok b) : ((m >>= f) p).1 ≠ Result.ok b := by
  rw [M.bind_apply]
  split
  · exact h _ _
  · simp
  · simp

end Lemmas

/-! ## Format detection -/

section Detection

variable {R : Type} [CommRing R] [DecidableEq R]

theorem parseVector_run (env : Env R) (lg : Option (List LogEntry)) (inp : List Token)
    (en : Ending) (a b c : Token) (ts : List Token) (fmt : MapFormat)
    (ha : a.isNumber) (hb : b.isNumber) (hc : c.isNumber) :
    parseVector env ⟨lg, ⟨inp, en, a :: b :: c :: ts, none⟩, fmt⟩ =
      (Result.ok ⟨env.toFloat a, env.toFloat b, env.toFloat c⟩,
        ⟨lg, ⟨inp, en, ts, none⟩, fmt⟩) := by
  simp [parseVector, expect_ok (mem_numberMask ha), expect_ok (mem_numberMask hb),
    expect_ok (mem_numberMask hc)]

theorem detectFormatSkip_stop (fuel : Nat) (stop : Token)
    (hstop : stop.type = TokenType.OParenthesis ∨ stop.type = TokenType.Eof)
    (p : QuakeMapParser) :
    detectFormatSkip (fuel + 1) stop p = (Result.ok stop, p) := by
  rcases hstop with h | h <;> simp [detectFormatSkip, h]

theorem detectFormatSkip_run (lg : Option (List LogEntry)) (inp : List Token) (en : Ending)
    (fmt : MapFormat) (stop : Token) (rest : List Token)
    (hstop : stop.type = TokenType.OParenthesis ∨ stop.type = TokenType.Eof) :
    ∀ (pre : List Token) (t : Token) (fuel : Nat),
      (∀ x ∈ t :: pre, x.type ≠ TokenType.OParenthesis ∧ x.type ≠ TokenType.Eof) →
      pre.length + 1 < fuel →
      detectFormatSkip fuel t ⟨lg, ⟨inp, en, pre ++ stop :: rest, none⟩, fmt⟩ =
        (Result.ok stop, ⟨lg, ⟨inp, en, rest, none⟩, fmt⟩) := by
  intro pre
  induction pre with
  | nil =>
    intro t fuel ht hf
    obtain ⟨n, rfl⟩ : ∃ n, fuel = n + 2 := ⟨fuel - 2, by simp at hf; omega⟩
    have h1 := ht t (by simp)
    rcases hstop with h | h <;> simp [detectFormatSkip, h1.1, h1.2, h]
  | cons u pre ih =>
    intro t fuel ht hf
    obtain ⟨n, rfl⟩ : ∃ n, fuel = n + 1 := ⟨fuel - 1, by simp at hf; omega⟩
    have h1 := ht t (by simp)
    have h2 : ∀ x ∈ u :: pre, x.type ≠ TokenType.OParenthesis ∧ x.type ≠ TokenType.Eof :=
      fun x hx => ht x (List.mem_cons_of_mem _ hx)
    have := ih u n h2 (by simp at hf; omega)
    simp [detectFormatSkip, h1.1, h1.2, this]

/-- The search of `detectFormat` stops at the first opening parenthesis. -/
theorem detectFormatFind_run (lg : Option (List LogEntry)) (inp : List Token) (en : Ending)
    (fmt : MapFormat) (pre : List Token) (stop : Token) (rest : List Token) (fuel : Nat)
    (hpre : ∀ x ∈ pre, x.type ≠ TokenType.OParenthesis ∧ x.type ≠ TokenType.Eof)
    (hstop : stop.type = TokenType.OParenthesis ∨ stop.type = TokenType.Eof)
    (hfuel : pre.length < fuel) :
    detectFormatFind fuel ⟨lg, ⟨inp, en, pre ++ stop :: rest, none⟩, fmt⟩ =
      (Result.ok stop, ⟨lg, ⟨inp, en, rest, none⟩, fmt⟩) := by
  cases pre with
  | nil =>
    obtain ⟨n, rfl⟩ : ∃ n, fuel = n + 1 := ⟨fuel - 1, by simp at hfuel; omega⟩
    simp [detectFormatFind, detectFormatSkip_stop _ _ hstop]
  | cons u pre =>
    have := detectFormatSkip_run lg inp en fmt stop rest hstop pre u fuel hpre
      (by simpa using hfuel)
    simp [detectFormatFind, this]

theorem detectFormatSkip_eof (lg : Option (List LogEntry)) (inp : List Token) (l c : Nat)
    (fmt : MapFormat) :
    ∀ (pre : List Token) (t : Token) (fuel : Nat),
      (∀ x ∈ t :: pre, x.type ≠ TokenType.OParenthesis ∧ x.type ≠ TokenType.Eof) →
      pre.length + 1 < fuel →
      detectFormatSkip fuel t ⟨lg, ⟨inp, Ending.eof l c, pre, none⟩, fmt⟩ =
        (Result.ok ⟨TokenType.Eof, "", l, c⟩, ⟨lg, ⟨inp, Ending.eof l c, [], none⟩, fmt⟩) := by
  intro pre
  induction pre with
  | nil =>
    intro t fuel ht hf
    obtain ⟨n, rfl⟩ : ∃ n, fuel = n + 2 := ⟨fuel - 2, by simp at hf; omega⟩
    have h1 := ht t (by simp)
    simp [detectFormatSkip, h1.1, h1.2]
  | cons u pre ih =>
    intro t fuel ht hf
    obtain ⟨n, rfl⟩ : ∃ n, fuel = n + 1 := ⟨fuel - 1, by simp at hf; omega⟩
    have h1 := ht t (by simp)
    have h2 : ∀ x ∈ u :: pre, x.type ≠ TokenType.OParenthesis ∧ x.type ≠ TokenType.Eof :=
      fun x hx => ht x (List.mem_cons_of_mem _ hx)
    have := ih u n h2 (by simp at hf; omega)
    simp [detectFormatSkip, h1.1, h1.2, this]

/-- Without an opening parenthesis in the input, `detectFormat` reads to the end and
answers `Quake`. -/
theorem detectFormat_noParenthesis (env : Env R) (lg : Option (List LogEntry))
    (inp : List Token) (l c : Nat) (fmt : MapFormat) (pre : List Token) (fuel : Nat)
    (hpre : ∀ x ∈ pre, x.type ≠ TokenType.OParenthesis ∧ x.type ≠ TokenType.Eof)
    (hfuel : pre.length < fuel) :
    detectFormat env fuel ⟨lg, ⟨inp, Ending.eof l c, pre, none⟩, fmt⟩ =
      (Result.ok MapFormat.Quake, ⟨lg, ⟨inp, Ending.eof l c, [], none⟩, fmt⟩) := by
  cases pre with
  | nil =>
    obtain ⟨n, rfl⟩ : ∃ n, fuel = n + 1 := ⟨fuel - 1, by simp at hfuel; omega⟩
    simp [detectFormat, detectFormatFind, detectFormatSkip]
  | cons u pre =>
    have := detectFormatSkip_eof lg inp l c fmt pre u fuel hpre (by simpa using hfuel)
    simp [detectFormat, detectFormatFind, this]

theorem detectFormatPoint_run (env : Env R) (lg : Option (List LogEntry)) (inp : List Token)
    (en : Ending) (fmt : MapFormat) (q : PointSrc) (hq : q.WellFormed) (rest : List Token) :
    detectFormatPoint env ⟨lg, ⟨inp, en, q.x :: q.y :: q.z :: q.c :: rest, some q.o⟩, fmt⟩ =
      (Result.ok (), ⟨lg, ⟨inp, en, rest, none⟩, fmt⟩) ∧
    detectFormatPoint env ⟨lg, ⟨inp, en, q.tokens ++ rest, none⟩, fmt⟩ =
      (Result.ok (), ⟨lg, ⟨inp, en, rest, none⟩, fmt⟩) := by
  obtain ⟨ho, hx, hy, hz, hc⟩ := hq
  simp [detectFormatPoint, PointSrc.tokens, expect, ho, hc,
    parseVector_run env lg inp en _ _ _ _ fmt hx hy hz]

/-- The probe of the first face, up to and including the texture name: what remains of
`detectFormat` is the inspection of the tokens after the name. -/
theorem detectFormat_faceHead (env : Env R) (lg : Option (List LogEntry)) (inp : List Token)
    (en : Ending) (fmt : MapFormat) (pre : List Token) (pt1 pt2 pt3 : PointSrc)
    (tex n1 : Token) (rest : List Token) (fuel : Nat)
    (hpre : ∀ x ∈ pre, x.type ≠ TokenType.OParenthesis ∧ x.type ≠ TokenType.Eof)
    (h1 : pt1.WellFormed) (h2 : pt2.WellFormed) (h3 : pt3.WellFormed)
    (htex : tex.type = TokenType.String) (hn1 : n1.isNumber) (hfuel : pre.length < fuel) :
    detectFormat env fuel ⟨lg, ⟨inp, en,
        pre ++ (pt1.tokens ++ (pt2.tokens ++ (pt3.tokens ++ tex :: n1 :: rest))), none⟩, fmt⟩ =
      (do
        let token ← nextToken
        expect numberMask token
        let token ← nextToken
        expect numberMask token
        let token ← nextToken
        expect numberMask token
        let token ← nextToken
        expect numberMask token
        let token ← nextToken
        expect [TokenType.Integer, TokenType.Decimal, TokenType.OParenthesis, TokenType.CBrace]
          token
        if token.type = TokenType.OParenthesis ∨ token.type = TokenType.CBrace then
          pure MapFormat.Quake
        else do
          expect [TokenType.Integer, TokenType.Decimal, TokenType.OParenthesis,
            TokenType.CBrace] token
          if token.type = TokenType.OParenthesis ∨ token.type = TokenType.CBrace then
            pure MapFormat.Hexen2
          else
            pure MapFormat.Quake2 : M MapFormat) ⟨lg, ⟨inp, en, rest, none⟩, fmt⟩ := by
  have hfind : detectFormatFind fuel ⟨lg, ⟨inp, en,
      pre ++ (pt1.tokens ++ (pt2.tokens ++ (pt3.tokens ++ tex :: n1 :: rest))), none⟩, fmt⟩ =
      _ :=
    detectFormatFind_run lg inp en fmt pre pt1.o
      (pt1.x :: pt1.y :: pt1.z :: pt1.c :: (pt2.tokens ++ (pt3.tokens ++ tex :: n1 :: rest)))
      fuel hpre (Or.inl h1.1) hfuel
  have ho : pt1.o.type ≠ TokenType.Eof := by rw [h1.1]; decide
  have e1 : n1.type ∈ [TokenType.Integer, TokenType.Decimal, TokenType.OBracket] := by
    rcases hn1 with h | h <;> simp [h]
  have e2 : n1.type ≠ TokenType.OBracket := by
    rcases hn1 with h | h <;> simp [h]
  simp only [detectFormat, M.bind_apply, hfind, ho, if_false, pushToken_apply, detectFormatFace,
    (detectFormatPoint_run env lg inp en fmt pt1 h1 _).1,
    (detectFormatPoint_run env lg inp en fmt pt2 h2 _).2,
    (detectFormatPoint_run env lg inp en fmt pt3 h3 _).2, nextToken_cons,
    expect_ok (List.mem_singleton.mpr htex), expect_ok e1, e2]

theorem detectFormat_Quake_run (env : Env R) (lg : Option (List LogEntry)) (inp : List Token)
    (en : Ending) (fmt : MapFormat) (pre : List Token) (pt1 pt2 pt3 : PointSrc)
    (tex n1 n2 n3 n4 n5 next : Token) (rest : List Token) (fuel : Nat)
    (hpre : ∀ x ∈ pre, x.type ≠ TokenType.OParenthesis ∧ x.type ≠ TokenType.Eof)
    (h1 : pt1.WellFormed) (h2 : pt2.WellFormed) (h3 : pt3.WellFormed)
    (htex : tex.type = TokenType.String)
    (hn1 : n1.isNumber) (hn2 : n2.isNumber) (hn3 : n3.isNumber) (hn4 : n4.isNumber)
    (hn5 : n5.isNumber)
    (hnext : next.type = TokenType.OParenthesis ∨ next.type = TokenType.CBrace)
    (hfuel : pre.length < fuel) :
    detectFormat env fuel ⟨lg, ⟨inp, en,
        pre ++ (pt1.tokens ++ (pt2.tokens ++ (pt3.tokens ++
          tex :: n1 :: n2 :: n3 :: n4 :: n5 :: next :: rest))), none⟩, fmt⟩ =
      (Result.ok MapFormat.Quake, ⟨lg, ⟨inp, en, rest, none⟩, fmt⟩) := by
  have e6 : next.type ∈
      [TokenType.Integer, TokenType.Decimal, TokenType.OParenthesis, TokenType.CBrace] := by
    rcases hnext with h | h <;> simp [h]
  rw [detectFormat_faceHead env lg inp en fmt pre pt1 pt2 pt3 tex n1 _ fuel hpre h1 h2 h3 htex
    hn1 hfuel]
  simp only [M.bind_apply, nextToken_cons, expect_ok (mem_numberMask hn2),
    expect_ok (mem_numberMask hn3), expect_ok (mem_numberMask hn4),
    expect_ok (mem_numberMask hn5), expect_ok e6, hnext, if_true, M.pure_apply]

theorem detectFormat_Quake2_run (env : Env R) (lg : Option (List LogEntry)) (inp : List Token)
    (en : Ending) (fmt : MapFormat) (pre : List Token) (pt1 pt2 pt3 : PointSrc)
    (tex n1 n2 n3 n4 n5 n6 : Token) (rest : List Token) (fuel : Nat)
    (hpre : ∀ x ∈ pre, x.type ≠ TokenType.OParenthesis ∧ x.type ≠ TokenType.Eof)
    (h1 : pt1.WellFormed) (h2 : pt2.WellFormed) (h3 : pt3.WellFormed)
    (htex : tex.type = TokenType.String)
    (hn1 : n1.isNumber) (hn2 : n2.isNumber) (hn3 : n3.isNumber) (hn4 : n4.isNumber)
    (hn5 : n5.isNumber) (hn6 : n6.isNumber) (hfuel : pre.length < fuel) :
    detectFormat env fuel ⟨lg, ⟨inp, en,
        pre ++ (pt1.tokens ++ (pt2.tokens ++ (pt3.tokens ++
          tex :: n1 :: n2 :: n3 :: n4 :: n5 :: n6 :: rest))), none⟩, fmt⟩ =
      (Result.ok MapFormat.Quake2, ⟨lg, ⟨inp, en, rest, none⟩, fmt⟩) := by
  have e6 : n6.type ∈
      [TokenType.Integer, TokenType.Decimal, TokenType.OParenthesis, TokenType.CBrace] := by
    rcases hn6 with h | h <;> simp [h]
  have e7 : ¬ (n6.type = TokenType.OParenthesis ∨ n6.type = TokenType.CBrace) := by
    rcases hn6 with h | h <;> simp [h]
  rw [detectFormat_faceHead env lg inp en fmt pre pt1 pt2 pt3 tex n1 _ fuel hpre h1 h2 h3 htex
    hn1 hfuel]
  simp only [M.bind_apply, nextToken_cons, expect_ok (mem_numberMask hn2),
    expect_ok (mem_numberMask hn3), expect_ok (mem_numberMask hn4),
    expect_ok (mem_numberMask hn5), expect_ok e6, e7, if_false, M.pure_apply]

theorem detectFormatFace_range (env : Env R) (p : QuakeMapParser) (b : MapFormat)
    (hq : b ≠ MapFormat.Quake) (hv : b ≠ MapFormat.Valve) (hq2 : b ≠ MapFormat.Quake2) :
    (detectFormatFace env p).1 ≠ Result.ok b := by
  unfold detectFormatFace
  iterate 7 refine bind_fst_ne _ _ _ _ (fun _ _ => ?_)
  split
  · simpa [M.pure_apply] using Ne.symm hv
  · iterate 8 refine bind_fst_ne _ _ _ _ (fun _ _ => ?_)
    refine bind_fst_ne _ _ _ _ (fun token _ => ?_)
    refine bind_fst_ne _ _ _ _ (fun _ _ => ?_)
    by_cases hc : token.type = TokenType.OParenthesis ∨ token.type = TokenType.CBrace
    · simpa [hc, M.pure_apply] using Ne.symm hq
    · rw [if_neg hc]
      refine bind_fst_ne _ _ _ _ (fun _ _ => ?_)
      simpa [hc, M.pure_apply] using Ne.symm hq2

/-- The only formats `detectFormat` can return are `Quake`, `Valve` and `Quake2`. -/
theorem detectFormat_range (env : Env R) (fuel : Nat) (p : QuakeMapParser) (b : MapFormat)
    (hq : b ≠ MapFormat.Quake) (hv : b ≠ MapFormat.Valve) (hq2 : b ≠ MapFormat.Quake2) :
    (detectFormat env fuel p).1 ≠ Result.ok b := by
  unfold detectFormat
  refine bind_fst_ne _ _ _ _ (fun token _ => ?_)
  split
  · simpa [M.pure_apply] using Ne.symm hq
  · refine bind_fst_ne _ _ _ _ (fun _ _ => ?_)
    exact detectFormatFace_range env _ b hq hv hq2

theorem detectFormat_ne_Hexen2 (env : Env R) (fuel : Nat) (p : QuakeMapParser) :
    (detectFormat env fuel p).1 ≠ Result.ok MapFormat.Hexen2 :=
  detectFormat_range env fuel p MapFormat.Hexen2 (by decide) (by decide) (by decide)

theorem detectFormat_ne_Unknown (env : Env R) (fuel : Nat) {p p1 : QuakeMapParser}
    {format : MapFormat} (h : detectFormat env fuel p = (Result.ok format, p1)) :
    format ≠ MapFormat.Unknown := by
  intro hf
  subst hf
  exact detectFormat_range env fuel p MapFormat.Unknown (by decide) (by decide) (by decide)
    (by rw [h])

end Detection

/-! ## Claims about format detection -/

/-- C10: if the tokens up to the first opening parenthesis are followed by three parenthesised
numeric triples, a String texture name, exactly five numeric tokens and then an opening
parenthesis or a closing brace, `detectFormat` returns `Quake` (StandardA); it has then read
up to and including that last token. -/
theorem detectFormat_five_numbers_is_Quake {R : Type} [CommRing R] [DecidableEq R]
    (env : Env R) (lg : Option (List LogEntry)) (inp : List Token)
    (en : Ending) (fmt : MapFormat) (pre : List Token) (pt1 pt2 pt3 : PointSrc)
    (tex n1 n2 n3 n4 n5 next : Token) (rest : List Token) (fuel : Nat)
    (hpre : ∀ x ∈ pre, x.type ≠ TokenType.OParenthesis ∧ x.type ≠ TokenType.Eof)
    (h1 : pt1.WellFormed) (h2 : pt2.WellFormed) (h3 : pt3.WellFormed)
    (htex : tex.type = TokenType.String)
    (hn1 : n1.isNumber) (hn2 : n2.isNumber) (hn3 : n3.isNumber) (hn4 : n4.isNumber)
    (hn5 : n5.isNumber)
    (hnext : next.type = TokenType.OParenthesis ∨ next.type = TokenType.CBrace)
    (hfuel : pre.length < fuel) :
    detectFormat env fuel ⟨lg, ⟨inp, en,
        pre ++ (pt1.tokens ++ (pt2.tokens ++ (pt3.tokens ++
          tex :: n1 :: n2 :: n3 :: n4 :: n5 :: next :: rest))), none⟩, fmt⟩ =
      (Result.ok MapFormat.Quake, ⟨lg, ⟨inp, en, rest, none⟩, fmt⟩) :=
  detectFormat_Quake_run env lg inp en fmt pre pt1 pt2 pt3 tex n1 n2 n3 n4 n5 next rest fuel
    hpre h1 h2 h3 htex hn1 hn2 hn3 hn4 hn5 hnext hfuel

/-- C10 at the brush `{ ( 0 0 0 ) ( 0 1 0 ) ( 1 0 0 ) TEXTURE 0 0 0 1 1 }`. -/
theorem detectFormat_five_numbers_is_Quake_witness :
    detectFormat exampleEnv 2
        (freshParser (sym TokenType.OBrace 1 :: (exampleFace 2 ++ [sym TokenType.CBrace 3])) 3) =
      (Result.ok MapFormat.Quake,
        ⟨some [], ⟨sym TokenType.OBrace 1 :: (exampleFace 2 ++ [sym TokenType.CBrace 3]),
          Ending.eof 3 1, [], none⟩, MapFormat.Unknown⟩) :=
  detectFormat_five_numbers_is_Quake exampleEnv (some [])
    (sym TokenType.OBrace 1 :: (exampleFace 2 ++ [sym TokenType.CBrace 3])) (Ending.eof 3 1)
    MapFormat.Unknown [sym TokenType.OBrace 1]
    (examplePoint "0" "0" "0" 2) (examplePoint "0" "1" "0" 2) (examplePoint "1" "0" "0" 2)
    (str "TEXTURE" 2) (num "0" 2) (num "0" 2) (num "0" 2) (num "1" 2) (num "1" 2)
    (sym TokenType.CBrace 3) [] 2
    (by decide) (by decide) (by decide) (by decide) (by decide) (by decide) (by decide)
    (by decide) (by decide) (by decide) (by decide) (by decide)

/-- C3 (the code departs from the claim): `detectFormat` never returns `Hexen2` (StandardC),
whatever the input; at the brush `{ ( 0 0 0 ) ( 0 1 0 ) ( 1 0 0 ) TEXTURE 0 0 0 1 1 0 }`, whose
face has one further numeric token followed by a closing brace, it returns `Quake2`. -/
theorem detectFormat_never_Hexen2 :
    (∀ (R : Type) [CommRing R] [DecidableEq R] (env : Env R) (fuel : Nat) (p : QuakeMapParser),
      (detectFormat env fuel p).1 ≠ Result.ok MapFormat.Hexen2) ∧
    (detectFormat exampleEnv 2
        (freshParser (sym TokenType.OBrace 1 ::
          (exampleFace 2 ++ [num "0" 2, sym TokenType.CBrace 3])) 3)).1 =
      Result.ok MapFormat.Quake2 :=
  ⟨fun _ _ _ env fuel p => detectFormat_ne_Hexen2 env fuel p, by decide⟩

/-! ## Propagation of exceptions through the entry points -/

section Propagation

variable {R : Type} [CommRing R] [DecidableEq R]

theorem collectLoop_thrown {α : Type} (parseItem : M (Option α)) {e : Exception}
    {p p2 q : QuakeMapParser} {items : List α}
    (hitems : Collects parseItem p items p2) (hfail : parseItem p2 = (Result.thrown e, q)) :
    ∀ (n : Nat) (first : α) (acc : List α), items.length < n →
      collectLoop parseItem n (some first) acc p = (Result.thrown e, q) := by
  induction hitems with
  | nil p =>
    intro n first acc hn
    obtain ⟨k, rfl⟩ : ∃ k, n = k + 1 := ⟨n - 1, by omega⟩
    simp [collectLoop, hfail]
  | cons hitem _ ih =>
    intro n first acc hn
    obtain ⟨k, rfl⟩ : ∃ k, n = k + 1 := ⟨n - 1, by omega⟩
    simp only [List.length_cons] at hn
    simp [collectLoop, hitem, ih hfail k _ _ (by omega)]

theorem doParseMapLoop_thrown (env : Env R) (fuel : Nat) (wb : BBox3 R) {e : Exception}
    {p p2 q : QuakeMapParser} {ents : List (Entity R)}
    (hents : Collects (parseEntity env fuel wb) p ents p2)
    (hfail : parseEntity env fuel wb p2 = (Result.thrown e, q)) :
    ∀ (n : Nat) (first : Entity R) (map : Map R), ents.length < n →
      doParseMapLoop env fuel wb n (some first) map p = (Result.thrown e, q) := by
  induction hents with
  | nil p =>
    intro n first map hn
    obtain ⟨k, rfl⟩ : ∃ k, n = k + 1 := ⟨n - 1, by omega⟩
    simp [doParseMapLoop, hfail]
  | cons hitem _ ih =>
    intro n first map hn
    obtain ⟨k, rfl⟩ : ∃ k, n = k + 1 := ⟨n - 1, by omega⟩
    simp only [List.length_cons] at hn
    simp [doParseMapLoop, hitem, ih hfail k _ _ (by omega)]

theorem setFormat_run (format : MapFormat) (p : QuakeMapParser) :
    setFormat format p = (Result.ok (), { p with m_format := format }) := rfl

theorem reset_after_setFormat (format : MapFormat) (p : QuakeMapParser) :
    reset { p with m_format := format } = (Result.ok (), p.startOfParse format) := rfl

/-- An exception raised during a call of `doParseMap` reaches the caller. -/
theorem doParseMap_propagates (env : Env R) (fuel : Nat) (wb : BBox3 R) {p q : QuakeMapParser}
    {ents : List (Entity R)} {e : Exception}
    (h : RaisesDuring (detectFormat env fuel) (parseEntity env fuel wb) p ents e q)
    (hfuel : ents.length ≤ fuel) :
    doParseMap env fuel wb p = (Result.thrown e, q) := by
  cases h with
  | inDetection hd => simp [doParseMap, hd]
  | inItem hd _ hents hfail =>
    cases hents with
    | nil => simp [doParseMap, hd, setFormat_run, reset_after_setFormat, hfail]
    | cons hitem hrest =>
      simp only [List.length_cons] at hfuel
      simp [doParseMap, hd, setFormat_run, reset_after_setFormat, hitem,
        doParseMapLoop_thrown env fuel wb hrest hfail fuel _ _ (by omega)]

/-- An exception raised during a call of a list entry point is caught there: the call
returns the empty list. -/
theorem doParseList_catches {α : Type} (env : Env R) (fuel : Nat) (parseItem : M (Option α))
    {p q : QuakeMapParser} {items : List α} {e : Exception}
    (h : RaisesDuring (detectFormat env fuel) parseItem p items e q)
    (hfuel : items.length ≤ fuel) :
    doParseList env fuel parseItem p = (Result.ok [], q) := by
  cases h with
  | inDetection hd => simp [doParseList, tryCatchAll, hd]
  | inItem hd hfmt hents hfail =>
    cases hents with
    | nil => simp [doParseList, tryCatchAll, hd, hfmt, setFormat_run, reset_after_setFormat, hfail]
    | cons hitem hrest =>
      simp only [List.length_cons] at hfuel
      simp [doParseList, tryCatchAll, hd, hfmt, setFormat_run, reset_after_setFormat, hitem,
        collectLoop_thrown parseItem hrest hfail fuel _ _ (by omega)]

/-- A list entry point never raises. -/
theorem doParseList_not_thrown {α : Type} (env : Env R) (fuel : Nat) (parseItem : M (Option α))
    (p : QuakeMapParser) (e : Exception) :
    (doParseList env fuel parseItem p).1 ≠ Result.thrown e := by
  unfold doParseList tryCatchAll
  generalize (detectFormat env fuel >>= fun format => do
      setFormat format
      if format = MapFormat.Unknown then pure []
        else do
          reset
          let item ← parseItem
          collectLoop parseItem fuel item []) p = r
  rcases r with ⟨r1, r2⟩
  cases r1 <;> simp

end Propagation

/-! ## Claims about the propagation of exceptions -/

theorem exampleTwoEntities_raises :
    RaisesDuring (detectFormat exampleEnv 8) (parseEntity exampleEnv 8 exampleBounds)
      (freshParser exampleTwoEntities 2) [exampleFirstEntity] exampleMissingValue
      exampleTwoEntitiesFailed :=
  @RaisesDuring.inItem _ _ _ _ MapFormat.Quake exampleTwoEntitiesDetected
    exampleTwoEntitiesMiddle _ _ _ (by decide) (by decide)
    (@Collects.cons _ _ _ exampleTwoEntitiesMiddle _ _ _ (by decide) (Collects.nil _))
    (by decide)

/-- C7: if format detection succeeds and, after the reset, `parseEntity` returns the
entities `ents` one after the other and then raises `e`, `doParseMap` raises that same `e`
(so it returns no Document), however many entities `ents` holds. -/
theorem doParseMap_entity_error_propagates {R : Type} [CommRing R] [DecidableEq R]
    (env : Env R) (fuel : Nat) (wb : BBox3 R) (p p1 p2 q : QuakeMapParser) (format : MapFormat)
    (ents : List (Entity R)) (e : Exception)
    (hdetect : detectFormat env fuel p = (Result.ok format, p1))
    (hents : Collects (parseEntity env fuel wb) (p1.startOfParse format) ents p2)
    (hfail : parseEntity env fuel wb p2 = (Result.thrown e, q))
    (hfuel : ents.length ≤ fuel) :
    doParseMap env fuel wb p = (Result.thrown e, q) :=
  doParseMap_propagates env fuel wb
    (RaisesDuring.inItem hdetect (detectFormat_ne_Unknown env fuel hdetect) hents hfail) hfuel

/-- C7 at `{ "a" "b" } { "k" }`: the first entity is parsed, the second raises, and
`doParseMap` raises that exception. -/
theorem doParseMap_entity_error_propagates_witness :
    doParseMap exampleEnv 8 exampleBounds (freshParser exampleTwoEntities 2) =
      (Result.thrown exampleMissingValue, exampleTwoEntitiesFailed) :=
  doParseMap_entity_error_propagates exampleEnv 8 exampleBounds
    (freshParser exampleTwoEntities 2) exampleTwoEntitiesDetected exampleTwoEntitiesMiddle
    exampleTwoEntitiesFailed MapFormat.Quake [exampleFirstEntity] exampleMissingValue
    (by decide)
    (@Collects.cons _ _ _ exampleTwoEntitiesMiddle _ _ _ (by decide) (Collects.nil _))
    (by decide) (by decide)

/-- C8: for `doParseEntities`, `doParseBrushes` and `doParseFaces`, if the call raises `e`
at any point (in format detection, or in the item that follows the successfully parsed
`items`), the call returns the empty list. -/
theorem doParseList_error_gives_empty {R : Type} [CommRing R] [DecidableEq R]
    (env : Env R) (fuel : Nat) (wb : BBox3 R) (p : QuakeMapParser) :
    (∀ (items : List (Entity R)) (e : Exception) (q : QuakeMapParser),
      RaisesDuring (detectFormat env fuel) (parseEntity env fuel wb) p items e q →
      items.length ≤ fuel → doParseEntities env fuel wb p = (Result.ok [], q)) ∧
    (∀ (items : List (Brush R)) (e : Exception) (q : QuakeMapParser),
      RaisesDuring (detectFormat env fuel) (parseBrush env fuel wb) p items e q →
      items.length ≤ fuel → doParseBrushes env fuel wb p = (Result.ok [], q)) ∧
    (∀ (items : List (BrushFace R)) (e : Exception) (q : QuakeMapParser),
      RaisesDuring (detectFormat env fuel) (parseFace env wb) p items e q →
      items.length ≤ fuel → doParseFaces env fuel wb p = (Result.ok [], q)) :=
  ⟨fun _ _ _ h hf => doParseList_catches env fuel _ h hf,
   fun _ _ _ h hf => doParseList_catches env fuel _ h hf,
   fun _ _ _ h hf => doParseList_catches env fuel _ h hf⟩

/-- C8 at `{ "a" "b" } { "k" }`: the first entity is parsed, the second raises, and
`doParseEntities` returns the empty list. -/
theorem doParseList_error_gives_empty_witness :
    doParseEntities exampleEnv 8 exampleBounds (freshParser exampleTwoEntities 2) =
      (Result.ok [], exampleTwoEntitiesFailed) :=
  (doParseList_error_gives_empty exampleEnv 8 exampleBounds
    (freshParser exampleTwoEntities 2)).1 [exampleFirstEntity] exampleMissingValue
    exampleTwoEntitiesFailed exampleTwoEntities_raises (by decide)

/-- C6, counterexample: on `{ "k" }` the entity raises an unexpected-token error, and on an
input whose first character cannot be read the tokenizer raises a lexical error; in both
cases `doParseEntities` returns the empty list, as it does on the empty input. -/
theorem doParseEntities_swallows_errors :
    (parseEntity exampleEnv 4 exampleBounds
        ((freshParser [sym TokenType.OBrace 1, str "k" 1, sym TokenType.CBrace 1] 1).startOfParse
          MapFormat.Quake)).1 =
      Result.thrown (Exception.unexpectedToken 1 1 [TokenType.String] TokenType.CBrace) ∧
    (doParseEntities exampleEnv 4 exampleBounds
        (freshParser [sym TokenType.OBrace 1, str "k" 1, sym TokenType.CBrace 1] 1)).1 =
      Result.ok [] ∧
    (detectFormat exampleEnv 4
        (QuakeMapParser.new [] (Ending.unexpectedCharacter 1 1 "?") (some []))).1 =
      Result.thrown (Exception.lexError 1 1 "?") ∧
    (doParseEntities exampleEnv 4 exampleBounds
        (QuakeMapParser.new [] (Ending.unexpectedCharacter 1 1 "?") (some []))).1 =
      Result.ok [] ∧
    (doParseEntities exampleEnv 4 exampleBounds (freshParser [] 1)).1 = Result.ok [] := by
  decide

/-- C6, amended: an exception raised at any point of a `doParseMap` call (in format
detection, or in the entity that follows the successfully parsed `ents`) is raised to the
caller; `doParseEntities`, `doParseBrushes` and `doParseFaces` never raise. -/
theorem doParseMap_raises_and_lists_never_raise {R : Type} [CommRing R] [DecidableEq R]
    (env : Env R) (fuel : Nat) (wb : BBox3 R) (p : QuakeMapParser) :
    (∀ (ents : List (Entity R)) (e : Exception) (q : QuakeMapParser),
      RaisesDuring (detectFormat env fuel) (parseEntity env fuel wb) p ents e q →
      ents.length ≤ fuel → doParseMap env fuel wb p = (Result.thrown e, q)) ∧
    (∀ e : Exception, (doParseEntities env fuel wb p).1 ≠ Result.thrown e) ∧
    (∀ e : Exception, (doParseBrushes env fuel wb p).1 ≠ Result.thrown e) ∧
    (∀ e : Exception, (doParseFaces env fuel wb p).1 ≠ Result.thrown e) :=
  ⟨fun _ _ _ h hf => doParseMap_propagates env fuel wb h hf,
   fun e => doParseList_not_thrown env fuel _ p e,
   fun e => doParseList_not_thrown env fuel _ p e,
   fun e => doParseList_not_thrown env fuel _ p e⟩

/-- C6, amended, at `{ "a" "b" } { "k" }`: `doParseMap` raises the second entity's error. -/
theorem doParseMap_raises_and_lists_never_raise_witness :
    doParseMap exampleEnv 8 exampleBounds (freshParser exampleTwoEntities 2) =
      (Result.thrown exampleMissingValue, exampleTwoEntitiesFailed) :=
  (doParseMap_raises_and_lists_never_raise exampleEnv 8 exampleBounds
    (freshParser exampleTwoEntities 2)).1 [exampleFirstEntity] exampleMissingValue
    exampleTwoEntitiesFailed exampleTwoEntities_raises (by decide)

/-! ## Entities -/

section Entities

variable {R : Type} [CommRing R] [DecidableEq R]

theorem propertyTokens_length (pairs : List (Token × Token)) :
    (propertyTokens pairs).length = 2 * pairs.length := by
  induction pairs with
  | nil => rfl
  | cons kv rest ih => simp [propertyTokens, ih]; omega

theorem propertyTokens_types (pairs : List (Token × Token))
    (hp : ∀ kv ∈ pairs, kv.1.type = TokenType.String ∧ kv.2.type = TokenType.String) :
    ∀ x ∈ propertyTokens pairs, x.type = TokenType.String := by
  induction pairs with
  | nil => simp [propertyTokens]
  | cons kv rest ih =>
    intro x hx
    simp only [propertyTokens, List.mem_cons] at hx
    rcases hx with h | h | h
    · rw [h]; exact (hp kv (by simp)).1
    · rw [h]; exact (hp kv (by simp)).2
    · exact ih (fun kv2 h2 => hp kv2 (List.mem_cons_of_mem _ h2)) x h

/-- The loop of `parseEntity` stores a run of key / value pairs and goes on with what
follows them. -/
theorem parseEntityLoop_properties (env : Env R) (fuel : Nat) (wb : BBox3 R) (firstLine : Nat)
    (lg : Option (List LogEntry)) (inp : List Token) (en : Ending) (fmt : MapFormat)
    (rest : List Token) :
    ∀ (pairs : List (Token × Token)) (n : Nat) (entity : Entity R),
      (∀ kv ∈ pairs, kv.1.type = TokenType.String ∧ kv.2.type = TokenType.String) →
      parseEntityLoop env fuel wb firstLine (pairs.length + n) entity
          ⟨lg, ⟨inp, en, propertyTokens pairs ++ rest, none⟩, fmt⟩ =
        parseEntityLoop env fuel wb firstLine n (addProperties entity pairs)
          ⟨lg, ⟨inp, en, rest, none⟩, fmt⟩ := by
  intro pairs
  induction pairs with
  | nil => intro n entity _; simp [propertyTokens, addProperties]
  | cons kv pairs ih =>
    intro n entity hp
    have hk := hp kv (by simp)
    have hrest : ∀ kv2 ∈ pairs, kv2.1.type = TokenType.String ∧ kv2.2.type = TokenType.String :=
      fun kv2 h2 => hp kv2 (List.mem_cons_of_mem _ h2)
    have hn : (kv :: pairs).length + n = (pairs.length + n) + 1 := by simp; omega
    have hv : kv.2.type ∈ [TokenType.String] := List.mem_singleton.mpr hk.2
    rw [hn]
    simp [parseEntityLoop, propertyTokens, hk.1, expect_ok hv, ih n _ hrest, addProperties]

theorem parseEntityLoop_eof (env : Env R) (fuel : Nat) (wb : BBox3 R) (firstLine : Nat)
    (lg : Option (List LogEntry)) (inp : List Token) (l c : Nat) (fmt : MapFormat)
    (n : Nat) (entity : Entity R) :
    parseEntityLoop env fuel wb firstLine (n + 1) entity
        ⟨lg, ⟨inp, Ending.eof l c, [], none⟩, fmt⟩ =
      (Result.ok (some entity), ⟨lg, ⟨inp, Ending.eof l c, [], none⟩, fmt⟩) := by
  simp [parseEntityLoop]

theorem parseEntity_properties_eof (env : Env R) (fuel : Nat) (wb : BBox3 R)
    (lg : Option (List LogEntry)) (inp : List Token) (l c : Nat) (fmt : MapFormat)
    (o : Token) (pairs : List (Token × Token))
    (ho : o.type = TokenType.OBrace)
    (hp : ∀ kv ∈ pairs, kv.1.type = TokenType.String ∧ kv.2.type = TokenType.String)
    (hfuel : pairs.length < fuel) :
    parseEntity env fuel wb ⟨lg, ⟨inp, Ending.eof l c, o :: propertyTokens pairs, none⟩, fmt⟩ =
      (Result.ok (some (addProperties Entity.new pairs)),
        ⟨lg, ⟨inp, Ending.eof l c, [], none⟩, fmt⟩) := by
  obtain ⟨m, hm⟩ : ∃ m, fuel = pairs.length + (m + 1) := ⟨fuel - pairs.length - 1, by omega⟩
  have h := parseEntityLoop_properties env fuel wb o.line lg inp (Ending.eof l c) fmt []
    pairs (m + 1) Entity.new hp
  rw [List.append_nil, ← hm] at h
  simp [parseEntity, ho, expect, h, parseEntityLoop_eof]

theorem parseEntity_properties_brace_eof (env : Env R) (fuel : Nat) (wb : BBox3 R)
    (lg : Option (List LogEntry)) (inp : List Token) (l c : Nat) (fmt : MapFormat)
    (o b : Token) (pairs : List (Token × Token))
    (ho : o.type = TokenType.OBrace) (hb : b.type = TokenType.OBrace)
    (hp : ∀ kv ∈ pairs, kv.1.type = TokenType.String ∧ kv.2.type = TokenType.String)
    (hfuel : pairs.length < fuel) :
    parseEntity env fuel wb
        ⟨lg, ⟨inp, Ending.eof l c, o :: (propertyTokens pairs ++ [b]), none⟩, fmt⟩ =
      (Result.thrown (Exception.unexpectedToken l c [TokenType.OBrace, TokenType.CBrace]
          TokenType.Eof),
        ⟨lg, ⟨inp, Ending.eof l c, [], none⟩, fmt⟩) := by
  obtain ⟨m, hm⟩ : ∃ m, fuel = pairs.length + (m + 1) := ⟨fuel - pairs.length - 1, by omega⟩
  have h := parseEntityLoop_properties env fuel wb o.line lg inp (Ending.eof l c) fmt [b]
    pairs (m + 1) Entity.new hp
  rw [← hm] at h
  have hstep : parseEntityLoop env fuel wb o.line (m + 1) (addProperties Entity.new pairs)
      ⟨lg, ⟨inp, Ending.eof l c, [b], none⟩, fmt⟩ =
      (Result.thrown (Exception.unexpectedToken l c [TokenType.OBrace, TokenType.CBrace]
          TokenType.Eof),
        ⟨lg, ⟨inp, Ending.eof l c, [], none⟩, fmt⟩) := by
    obtain ⟨k, hk⟩ : ∃ k, fuel = k + 1 := ⟨fuel - 1, by omega⟩
    subst hk
    simp [parseEntityLoop, hb, parseEntityBrushes, parseBrush, expect, parseBrushLoop,
      throwException]
  simp [parseEntity, ho, expect, h, hstep]

theorem parseEntity_eof (env : Env R) (fuel : Nat) (wb : BBox3 R)
    (lg : Option (List LogEntry)) (inp : List Token) (l c : Nat) (fmt : MapFormat) :
    parseEntity env fuel wb ⟨lg, ⟨inp, Ending.eof l c, [], none⟩, fmt⟩ =
      (Result.ok none, ⟨lg, ⟨inp, Ending.eof l c, [], none⟩, fmt⟩) := by
  simp [parseEntity]

end Entities

/-! ## Claims about entities -/

/-- C2, the shortest failing input: on the input `{` alone `parseEntity` raises nothing and
returns the (empty) entity, and `doParseMap` returns a Document that holds it. -/
theorem parseEntity_unterminated_returns_entity :
    (parseEntity exampleEnv 2 exampleBounds (freshParser [sym TokenType.OBrace 1] 1)).1 =
      Result.ok (some Entity.new) ∧
    (doParseMap exampleEnv 2 exampleBounds (freshParser [sym TokenType.OBrace 1] 1)).1 =
      Result.ok { format := MapFormat.Quake, entities := [Entity.new] } := by
  decide

/-! ## Faces and brushes -/

section Brushes

variable {R : Type} [CommRing R] [DecidableEq R]

theorem parseVector_point (env : Env R) (lg : Option (List LogEntry)) (inp : List Token)
    (en : Ending) (fmt : MapFormat) (q : PointSrc) (hq : q.WellFormed) (rest : List Token) :
    parseVector env ⟨lg, ⟨inp, en, q.x :: q.y :: q.z :: rest, none⟩, fmt⟩ =
      (Result.ok (q.vec env), ⟨lg, ⟨inp, en, rest, none⟩, fmt⟩) :=
  parseVector_run env lg inp en q.x q.y q.z rest fmt hq.2.1 hq.2.2.1 hq.2.2.2.1

/-- `parseFace` on a well-formed, non-degenerate face whose opening parenthesis was pushed
back: it returns the face and has read exactly the tokens of the face. -/
theorem parseFace_pushed (env : Env R) (wb : BBox3 R) (lg : Option (List LogEntry))
    (inp : List Token) (en : Ending) (fmt : MapFormat) (f : FaceSrc) (rest : List Token)
    (hf : f.WellFormed fmt) (hn : f.NonDegenerate env) :
    parseFace env wb ⟨lg, ⟨inp, en,
        f.pt1.x :: f.pt1.y :: f.pt1.z :: f.pt1.c ::
          (f.pt2.tokens ++ (f.pt3.tokens ++ f.texture :: (f.attrs.tokens ++ rest))),
        some f.pt1.o⟩, fmt⟩ =
      (Result.ok (some (f.face env)), ⟨lg, ⟨inp, en, rest, none⟩, fmt⟩) := by
  obtain ⟨h1, h2, h3, htex, hfmt, hattrs⟩ := hf
  have hnull : (env.normalized (f.cross env)).null = false := by
    rw [env.normalized_null]; exact hn
  have ho1 : f.pt1.o.type ≠ TokenType.Eof := by rw [h1.1]; decide
  rcases f with ⟨pt1, pt2, pt3, texture, attrs⟩
  simp only at h1 h2 h3 htex hfmt hattrs hnull ho1
  have hnull2 := hnull
  unfold FaceSrc.cross at hnull2
  simp only at hnull2
  cases attrs with
  | quake xo yo rot xs ys =>
    obtain ⟨a1, a2, a3, a4, a5⟩ := hattrs
    subst hfmt
    simp [parseFace, ho1, expect_ok (List.mem_singleton.mpr h1.1),
      parseVector_point env lg inp en _ pt1 h1, parseVector_point env lg inp en _ pt2 h2,
      parseVector_point env lg inp en _ pt3 h3, PointSrc.tokens,
      expect_ok (List.mem_singleton.mpr h1.2.2.2.2),
      expect_ok (List.mem_singleton.mpr h2.1), expect_ok (List.mem_singleton.mpr h2.2.2.2.2),
      expect_ok (List.mem_singleton.mpr h3.1), expect_ok (List.mem_singleton.mpr h3.2.2.2.2),
      expect_ok (List.mem_singleton.mpr htex), hnull2, parseFaceOffsets, parseFaceSurface,
      FaceAttrs.tokens, FaceAttrs.format, expect_ok (mem_numberMask a1),
      expect_ok (mem_numberMask a2), expect_ok (mem_numberMask a3),
      expect_ok (mem_numberMask a4), expect_ok (mem_numberMask a5), FaceSrc.face]
  | valve o1 x1 y1 z1 xo c1 o2 x2 y2 z2 yo c2 rot xs ys =>
    obtain ⟨a1, a2, a3, a4, a5, a6, a7, a8, a9, a10, a11, a12, a13, a14, a15⟩ := hattrs
    subst hfmt
    simp [parseFace, ho1, expect_ok (List.mem_singleton.mpr h1.1),
      parseVector_point env lg inp en _ pt1 h1, parseVector_point env lg inp en _ pt2 h2,
      parseVector_point env lg inp en _ pt3 h3, PointSrc.tokens,
      expect_ok (List.mem_singleton.mpr h1.2.2.2.2),
      expect_ok (List.mem_singleton.mpr h2.1), expect_ok (List.mem_singleton.mpr h2.2.2.2.2),
      expect_ok (List.mem_singleton.mpr h3.1), expect_ok (List.mem_singleton.mpr h3.2.2.2.2),
      expect_ok (List.mem_singleton.mpr htex), hnull2, parseFaceOffsets, parseFaceSurface,
      FaceAttrs.tokens, FaceAttrs.format, expect_ok (List.mem_singleton.mpr a1),
      parseVector_run env lg inp en _ _ _ _ _ a2 a3 a4, expect_ok (mem_numberMask a5),
      expect_ok (List.mem_singleton.mpr a6), expect_ok (List.mem_singleton.mpr a7),
      parseVector_run env lg inp en _ _ _ _ _ a8 a9 a10, expect_ok (mem_numberMask a11),
      expect_ok (List.mem_singleton.mpr a12), expect_ok (mem_numberMask a13),
      expect_ok (mem_numberMask a14), expect_ok (mem_numberMask a15), FaceSrc.face,
      FaceSrc.cross]
  | quake2 xo yo rot xs ys sc sf sv =>
    obtain ⟨a1, a2, a3, a4, a5, a6, a7, a8⟩ := hattrs
    subst hfmt
    simp [parseFace, ho1, expect_ok (List.mem_singleton.mpr h1.1),
      parseVector_point env lg inp en _ pt1 h1, parseVector_point env lg inp en _ pt2 h2,
      parseVector_point env lg inp en _ pt3 h3, PointSrc.tokens,
      expect_ok (List.mem_singleton.mpr h1.2.2.2.2),
      expect_ok (List.mem_singleton.mpr h2.1), expect_ok (List.mem_singleton.mpr h2.2.2.2.2),
      expect_ok (List.mem_singleton.mpr h3.1), expect_ok (List.mem_singleton.mpr h3.2.2.2.2),
      expect_ok (List.mem_singleton.mpr htex), hnull2, parseFaceOffsets, parseFaceSurface,
      FaceAttrs.tokens, FaceAttrs.format, expect_ok (mem_numberMask a1),
      expect_ok (mem_numberMask a2), expect_ok (mem_numberMask a3),
      expect_ok (mem_numberMask a4), expect_ok (mem_numberMask a5),
      expect_ok (List.mem_singleton.mpr a6), expect_ok (List.mem_singleton.mpr a7),
      expect_ok (mem_numberMask a8), FaceSrc.face]

theorem faceTokens_append (f : FaceSrc) (tail : List Token) :
    f.tokens ++ tail =
      f.pt1.o :: f.pt1.x :: f.pt1.y :: f.pt1.z :: f.pt1.c ::
        (f.pt2.tokens ++ (f.pt3.tokens ++ f.texture :: (f.attrs.tokens ++ tail))) := by
  simp [FaceSrc.tokens, PointSrc.tokens]

theorem createBrush_run (env : Env R) (wb : BBox3 R) (lg : Option (List LogEntry))
    (tk : Tokenizer) (fmt : MapFormat) (b : BrushSrc) :
    createBrush env wb (b.faces.map (FaceSrc.face env)) b.o.line (b.c.line - b.o.line)
        ⟨lg, tk, fmt⟩ =
      (Result.ok (b.brush env wb), ⟨logAfter env wb lg [b], tk, fmt⟩) := by
  unfold createBrush BrushSrc.brush logAfter
  simp only [List.filterMap_cons, List.filterMap_nil, BrushSrc.diagnostic, BrushSrc.sortedFaces,
    BrushSrc.accepted]
  cases hg : env.geometry wb (env.sortFaces false (env.sortFaces true
      (b.faces.map (FaceSrc.face env)))) with
  | none => cases lg <;> simp
  | some what => cases lg <;> simp [logError]

/-- The loop of `parseBrush` reads a run of well-formed, non-degenerate faces and the closing
brace, and calls `createBrush` on the faces in source order. -/
theorem parseBrushLoop_faces (env : Env R) (wb : BBox3 R) (firstLine : Nat)
    (lg : Option (List LogEntry)) (inp : List Token) (en : Ending) (fmt : MapFormat)
    (c : Token) (rest : List Token) (hc : c.type = TokenType.CBrace) :
    ∀ (fs : List FaceSrc) (acc : List (BrushFace R)) (n : Nat),
      (∀ f ∈ fs, f.WellFormed fmt ∧ f.NonDegenerate env) → fs.length < n →
      parseBrushLoop env wb firstLine n acc
          ⟨lg, ⟨inp, en, faceListTokens fs ++ c :: rest, none⟩, fmt⟩ =
        createBrush env wb (acc ++ fs.map (FaceSrc.face env)) firstLine (c.line - firstLine)
          ⟨lg, ⟨inp, en, rest, none⟩, fmt⟩ := by
  intro fs
  induction fs with
  | nil =>
    intro acc n _ hn
    obtain ⟨k, rfl⟩ : ∃ k, n = k + 1 := ⟨n - 1, by simp at hn; omega⟩
    simp [parseBrushLoop, faceListTokens, hc]
  | cons f fs ih =>
    intro acc n hfs hn
    obtain ⟨k, rfl⟩ : ∃ k, n = k + 1 := ⟨n - 1, by simp at hn; omega⟩
    have hf := hfs f (by simp)
    have hrest : ∀ g ∈ fs, g.WellFormed fmt ∧ g.NonDegenerate env :=
      fun g hg => hfs g (List.mem_cons_of_mem _ hg)
    have ho : f.pt1.o.type = TokenType.OParenthesis := hf.1.1.1
    have hlist : faceListTokens (f :: fs) ++ c :: rest =
        f.pt1.o :: f.pt1.x :: f.pt1.y :: f.pt1.z :: f.pt1.c ::
          (f.pt2.tokens ++ (f.pt3.tokens ++ f.texture ::
            (f.attrs.tokens ++ (faceListTokens fs ++ c :: rest)))) := by
      rw [faceListTokens, List.append_assoc, faceTokens_append]
    have hface := parseFace_pushed env wb lg inp en fmt f (faceListTokens fs ++ c :: rest)
      hf.1 hf.2
    have hih := ih (acc ++ [f.face env]) k hrest (by simp at hn; omega)
    rw [hlist]
    simp only [parseBrushLoop, M.bind_apply, nextToken_cons, ho, pushToken_apply]
    simp only [reduceCtorEq, if_false, if_true, M.bind_apply, pushToken_apply]
    rw [hface]
    simp [hih]

theorem parseBrush_pushed (env : Env R) (fuel : Nat) (wb : BBox3 R)
    (lg : Option (List LogEntry)) (inp : List Token) (en : Ending) (fmt : MapFormat)
    (b : BrushSrc) (rest : List Token) (hb : b.WellFormedNonDegenerate env fmt)
    (hfuel : b.faces.length < fuel) :
    parseBrush env fuel wb
        ⟨lg, ⟨inp, en, faceListTokens b.faces ++ b.c :: rest, some b.o⟩, fmt⟩ =
      (Result.ok (b.brush env wb), ⟨logAfter env wb lg [b], ⟨inp, en, rest, none⟩, fmt⟩) := by
  obtain ⟨ho, hc, hfs⟩ := hb
  have h := parseBrushLoop_faces env wb b.o.line lg inp en fmt b.c rest hc b.faces [] fuel
    hfs hfuel
  simp [parseBrush, ho, expect, h, createBrush_run]

theorem parseBrush_run (env : Env R) (fuel : Nat) (wb : BBox3 R)
    (lg : Option (List LogEntry)) (inp : List Token) (en : Ending) (fmt : MapFormat)
    (b : BrushSrc) (rest : List Token) (hb : b.WellFormedNonDegenerate env fmt)
    (hfuel : b.faces.length < fuel) :
    parseBrush env fuel wb ⟨lg, ⟨inp, en, b.tokens ++ rest, none⟩, fmt⟩ =
      (Result.ok (b.brush env wb), ⟨logAfter env wb lg [b], ⟨inp, en, rest, none⟩, fmt⟩) := by
  obtain ⟨ho, hc, hfs⟩ := hb
  have h := parseBrushLoop_faces env wb b.o.line lg inp en fmt b.c rest hc b.faces [] fuel
    hfs hfuel
  simp [parseBrush, BrushSrc.tokens, ho, expect, h, createBrush_run]

theorem logAfter_cons (env : Env R) (wb : BBox3 R) (lg : Option (List LogEntry))
    (b : BrushSrc) (bs : List BrushSrc) :
    logAfter env wb (logAfter env wb lg [b]) bs = logAfter env wb lg (b :: bs) := by
  cases lg with
  | none => rfl
  | some entries =>
    simp only [logAfter, Option.map_some', List.filterMap_cons, List.filterMap_nil]
    cases BrushSrc.diagnostic env wb b <;> simp

/-- The loop `while (moreBrushes)` of `parseEntity` reads a run of well-formed brushes up to
the entity's closing brace, adds those the kernel accepts and logs those it rejects. -/
theorem parseEntityBrushes_run (env : Env R) (fuel : Nat) (wb : BBox3 R)
    (inp : List Token) (en : Ending) (fmt : MapFormat) (c : Token) (rest : List Token)
    (hc : c.type = TokenType.CBrace) :
    ∀ (bs : List BrushSrc) (b : BrushSrc) (n : Nat) (entity : Entity R)
      (lg : Option (List LogEntry)),
      (∀ x ∈ b :: bs, x.WellFormedNonDegenerate env fmt ∧ x.faces.length < fuel) → bs.length < n →
      parseEntityBrushes env fuel wb n entity
          ⟨lg, ⟨inp, en, faceListTokens b.faces ++ b.c :: (brushListTokens bs ++ c :: rest),
            some b.o⟩, fmt⟩ =
        (Result.ok (addBrushes entity ((b :: bs).filterMap (BrushSrc.brush env wb))),
          ⟨logAfter env wb lg (b :: bs), ⟨inp, en, rest, some c⟩, fmt⟩) := by
  intro bs
  induction bs with
  | nil =>
    intro b n entity lg hbs hn
    obtain ⟨k, rfl⟩ : ∃ k, n = k + 1 := ⟨n - 1, by simp at hn; omega⟩
    have hb := hbs b (by simp)
    have h := parseBrush_pushed env fuel wb lg inp en fmt b (c :: rest) hb.1 hb.2
    have hc2 : c.type ∈ [TokenType.OBrace, TokenType.CBrace] := by simp [hc]
    simp only [parseEntityBrushes, M.bind_apply, brushListTokens, List.nil_append, h,
      nextToken_cons, expect_ok hc2, pushToken_apply, hc]
    simp only [addBrushes, logAfter, List.filterMap_cons, List.filterMap_nil]
    cases b.brush env wb <;> simp
  | cons b2 bs ih =>
    intro b n entity lg hbs hn
    obtain ⟨k, rfl⟩ : ∃ k, n = k + 1 := ⟨n - 1, by simp at hn; omega⟩
    have hb := hbs b (by simp)
    have hb2 := hbs b2 (by simp)
    have hrest : ∀ x ∈ b2 :: bs, x.WellFormedNonDegenerate env fmt ∧ x.faces.length < fuel :=
      fun x hx => hbs x (List.mem_cons_of_mem _ hx)
    have hlist : brushListTokens (b2 :: bs) ++ c :: rest =
        b2.o :: (faceListTokens b2.faces ++ b2.c :: (brushListTokens bs ++ c :: rest)) := by
      simp [brushListTokens, BrushSrc.tokens]
    have h := parseBrush_pushed env fuel wb lg inp en fmt b
      (b2.o :: (faceListTokens b2.faces ++ b2.c :: (brushListTokens bs ++ c :: rest))) hb.1 hb.2
    have ho2 : b2.o.type ∈ [TokenType.OBrace, TokenType.CBrace] := by simp [hb2.1.1]
    rw [hlist]
    simp only [parseEntityBrushes, M.bind_apply, h, nextToken_cons, expect_ok ho2,
      pushToken_apply, hb2.1.1, if_true]
    refine (ih b2 k _ _ hrest (by simp at hn; omega)).trans ?_
    rw [logAfter_cons]
    simp only [addBrushes, List.filterMap_cons]
    cases b.brush env wb <;> simp

theorem logAfter_nil (env : Env R) (wb : BBox3 R) (lg : Option (List LogEntry)) :
    logAfter env wb lg [] = lg := by
  cases lg <;> simp [logAfter]

theorem brushListTokens_cons_append (b : BrushSrc) (bs : List BrushSrc) (tail : List Token) :
    brushListTokens (b :: bs) ++ tail =
      b.o :: (faceListTokens b.faces ++ b.c :: (brushListTokens bs ++ tail)) := by
  simp [brushListTokens, BrushSrc.tokens]

/-- `parseEntity` on a well-formed entity: properties, then brushes, then the closing
brace. -/
theorem parseEntity_run (env : Env R) (fuel : Nat) (wb : BBox3 R)
    (lg : Option (List LogEntry)) (inp : List Token) (en : Ending) (fmt : MapFormat)
    (eo ec : Token) (props : List (Token × Token)) (bs : List BrushSrc) (rest : List Token)
    (heo : eo.type = TokenType.OBrace) (hec : ec.type = TokenType.CBrace)
    (hprops : ∀ kv ∈ props, kv.1.type = TokenType.String ∧ kv.2.type = TokenType.String)
    (hbs : ∀ x ∈ bs, x.WellFormedNonDegenerate env fmt ∧ x.faces.length < fuel)
    (hfuel1 : props.length + 2 ≤ fuel) (hfuel2 : bs.length ≤ fuel) :
    parseEntity env fuel wb ⟨lg, ⟨inp, en, entityTokens eo props bs ec ++ rest, none⟩, fmt⟩ =
      (Result.ok (some (parsedEntity env wb eo props bs ec)),
        ⟨logAfter env wb lg bs, ⟨inp, en, rest, none⟩, fmt⟩) := by
  obtain ⟨m, hm⟩ : ∃ m, fuel = props.length + (m + 2) := ⟨fuel - props.length - 2, by omega⟩
  have hloop := parseEntityLoop_properties env fuel wb eo.line lg inp en fmt
    (brushListTokens bs ++ ec :: rest) props (m + 2) Entity.new hprops
  rw [← hm] at hloop
  have hlist : entityTokens eo props bs ec ++ rest =
      eo :: (propertyTokens props ++ (brushListTokens bs ++ ec :: rest)) := by
    simp [entityTokens]
  have hstep : parseEntityLoop env fuel wb eo.line (m + 2) (addProperties Entity.new props)
      ⟨lg, ⟨inp, en, brushListTokens bs ++ ec :: rest, none⟩, fmt⟩ =
      (Result.ok (some (parsedEntity env wb eo props bs ec)),
        ⟨logAfter env wb lg bs, ⟨inp, en, rest, none⟩, fmt⟩) := by
    cases bs with
    | nil =>
      simp [parseEntityLoop, brushListTokens, hec, parsedEntity, addBrushes, logAfter_nil]
    | cons b bs =>
      have hb := hbs b (by simp)
      have hrun := parseEntityBrushes_run env fuel wb inp en fmt ec rest hec bs b fuel
        (addProperties Entity.new props) lg hbs (by simpa using hfuel2)
      rw [brushListTokens_cons_append]
      simp only [parseEntityLoop, M.bind_apply, nextToken_cons, hb.1.1, pushToken_apply]
      simp only [reduceCtorEq, if_false, if_true, M.bind_apply, pushToken_apply]
      rw [hrun]
      simp [hec, parsedEntity]
  rw [hlist]
  simp [parseEntity, heo, expect, hloop, hstep]

theorem detectFormat_Valve_run (env : Env R) (lg : Option (List LogEntry)) (inp : List Token)
    (en : Ending) (fmt : MapFormat) (pre : List Token) (pt1 pt2 pt3 : PointSrc)
    (tex o1 : Token) (rest : List Token) (fuel : Nat)
    (hpre : ∀ x ∈ pre, x.type ≠ TokenType.OParenthesis ∧ x.type ≠ TokenType.Eof)
    (h1 : pt1.WellFormed) (h2 : pt2.WellFormed) (h3 : pt3.WellFormed)
    (htex : tex.type = TokenType.String) (ho1 : o1.type = TokenType.OBracket)
    (hfuel : pre.length < fuel) :
    detectFormat env fuel ⟨lg, ⟨inp, en,
        pre ++ (pt1.tokens ++ (pt2.tokens ++ (pt3.tokens ++ tex :: o1 :: rest))), none⟩, fmt⟩ =
      (Result.ok MapFormat.Valve, ⟨lg, ⟨inp, en, rest, none⟩, fmt⟩) := by
  have hfind : detectFormatFind fuel ⟨lg, ⟨inp, en,
      pre ++ (pt1.tokens ++ (pt2.tokens ++ (pt3.tokens ++ tex :: o1 :: rest))), none⟩, fmt⟩ =
      _ :=
    detectFormatFind_run lg inp en fmt pre pt1.o
      (pt1.x :: pt1.y :: pt1.z :: pt1.c :: (pt2.tokens ++ (pt3.tokens ++ tex :: o1 :: rest)))
      fuel hpre (Or.inl h1.1) hfuel
  have ho : pt1.o.type ≠ TokenType.Eof := by rw [h1.1]; decide
  have e1 : o1.type ∈ [TokenType.Integer, TokenType.Decimal, TokenType.OBracket] := by
    simp [ho1]
  simp only [detectFormat, M.bind_apply, hfind, ho, if_false, pushToken_apply, detectFormatFace,
    (detectFormatPoint_run env lg inp en fmt pt1 h1 _).1,
    (detectFormatPoint_run env lg inp en fmt pt2 h2 _).2,
    (detectFormatPoint_run env lg inp en fmt pt3 h3 _).2, nextToken_cons,
    expect_ok (List.mem_singleton.mpr htex), expect_ok e1, ho1, if_true, M.pure_apply]

/-- On a well-formed first face followed by an opening parenthesis or a closing brace,
`detectFormat` answers the dialect of the face. -/
theorem detectFormat_firstFace (env : Env R) (lg : Option (List LogEntry)) (inp : List Token)
    (en : Ending) (fmt0 fmt : MapFormat) (pre : List Token) (f : FaceSrc) (next : Token)
    (rest : List Token) (fuel : Nat)
    (hpre : ∀ x ∈ pre, x.type ≠ TokenType.OParenthesis ∧ x.type ≠ TokenType.Eof)
    (hf : f.WellFormed fmt)
    (hnext : next.type = TokenType.OParenthesis ∨ next.type = TokenType.CBrace)
    (hfuel : pre.length < fuel) :
    ∃ ts, detectFormat env fuel
        ⟨lg, ⟨inp, en, pre ++ (f.tokens ++ next :: rest), none⟩, fmt0⟩ =
      (Result.ok fmt, ⟨lg, ⟨inp, en, ts, none⟩, fmt0⟩) := by
  obtain ⟨h1, h2, h3, htex, hfmt, hattrs⟩ := hf
  rcases f with ⟨pt1, pt2, pt3, texture, attrs⟩
  simp only at h1 h2 h3 htex hfmt hattrs
  cases attrs with
  | quake xo yo rot xs ys =>
    obtain ⟨a1, a2, a3, a4, a5⟩ := hattrs
    subst hfmt
    refine ⟨rest, ?_⟩
    have := detectFormat_Quake_run env lg inp en fmt0 pre pt1 pt2 pt3 texture xo yo rot xs ys
      next rest fuel hpre h1 h2 h3 htex a1 a2 a3 a4 a5 hnext hfuel
    simpa [FaceSrc.tokens, FaceAttrs.tokens, FaceAttrs.format] using this
  | valve o1 x1 y1 z1 xo c1 o2 x2 y2 z2 yo c2 rot xs ys =>
    subst hfmt
    refine ⟨x1 :: y1 :: z1 :: xo :: c1 :: o2 :: x2 :: y2 :: z2 :: yo :: c2 :: rot :: xs ::
      ys :: next :: rest, ?_⟩
    have := detectFormat_Valve_run env lg inp en fmt0 pre pt1 pt2 pt3 texture o1
      (x1 :: y1 :: z1 :: xo :: c1 :: o2 :: x2 :: y2 :: z2 :: yo :: c2 :: rot :: xs ::
        ys :: next :: rest) fuel hpre h1 h2 h3 htex hattrs.1 hfuel
    simpa [FaceSrc.tokens, FaceAttrs.tokens, FaceAttrs.format] using this
  | quake2 xo yo rot xs ys sc sf sv =>
    obtain ⟨a1, a2, a3, a4, a5, a6, a7, a8⟩ := hattrs
    subst hfmt
    refine ⟨sf :: sv :: next :: rest, ?_⟩
    have := detectFormat_Quake2_run env lg inp en fmt0 pre pt1 pt2 pt3 texture xo yo rot xs ys
      sc (sf :: sv :: next :: rest) fuel hpre h1 h2 h3 htex a1 a2 a3 a4 a5 (Or.inl a6) hfuel
    simpa [FaceSrc.tokens, FaceAttrs.tokens, FaceAttrs.format] using this

theorem faceListTokens_head (env : Env R) (fmt : MapFormat) (fs : List FaceSrc) (c : Token)
    (tail : List Token) (hc : c.type = TokenType.CBrace)
    (hfs : ∀ f ∈ fs, f.WellFormed fmt ∧ f.NonDegenerate env) :
    ∃ next rest, faceListTokens fs ++ c :: tail = next :: rest ∧
      (next.type = TokenType.OParenthesis ∨ next.type = TokenType.CBrace) := by
  cases fs with
  | nil => exact ⟨c, tail, by simp [faceListTokens], Or.inr hc⟩
  | cons g gs =>
    refine ⟨g.pt1.o, g.pt1.x :: g.pt1.y :: g.pt1.z :: g.pt1.c ::
      (g.pt2.tokens ++ (g.pt3.tokens ++ g.texture ::
        (g.attrs.tokens ++ (faceListTokens gs ++ c :: tail)))), ?_,
      Or.inl (hfs g (by simp)).1.1.1⟩
    rw [faceListTokens, List.append_assoc, faceTokens_append]

theorem documentFormat_nil (fmt : MapFormat) : documentFormat fmt [] = MapFormat.Quake := by
  simp [documentFormat]

theorem documentFormat_cons_empty (fmt : MapFormat) (b : BrushSrc) (bs : List BrushSrc)
    (hb : b.faces = []) : documentFormat fmt (b :: bs) = documentFormat fmt bs := by
  simp [documentFormat, hb]

theorem documentFormat_cons_face (fmt : MapFormat) (b : BrushSrc) (bs : List BrushSrc)
    (f : FaceSrc) (fs : List FaceSrc) (hb : b.faces = f :: fs) :
    documentFormat fmt (b :: bs) = fmt := by
  simp [documentFormat, hb]

/-- `detectFormat` on a document whose brushes are well-formed in one dialect. -/
theorem detectFormat_brushes (env : Env R) (lg : Option (List LogEntry)) (inp : List Token)
    (l c : Nat) (fmt0 fmt : MapFormat) (post : List Token) (fuel : Nat)
    (hpost : ∀ x ∈ post, x.type ≠ TokenType.OParenthesis ∧ x.type ≠ TokenType.Eof) :
    ∀ (bs : List BrushSrc) (pre : List Token),
      (∀ x ∈ pre, x.type ≠ TokenType.OParenthesis ∧ x.type ≠ TokenType.Eof) →
      (∀ b ∈ bs, b.WellFormedNonDegenerate env fmt) →
      (pre ++ (brushListTokens bs ++ post)).length < fuel →
      ∃ ts, detectFormat env fuel
          ⟨lg, ⟨inp, Ending.eof l c, pre ++ (brushListTokens bs ++ post), none⟩, fmt0⟩ =
        (Result.ok (documentFormat fmt bs), ⟨lg, ⟨inp, Ending.eof l c, ts, none⟩, fmt0⟩) := by
  intro bs
  induction bs with
  | nil =>
    intro pre hpre _ hfuel
    refine ⟨[], ?_⟩
    rw [documentFormat_nil]
    refine detectFormat_noParenthesis env lg inp l c fmt0 _ fuel ?_ hfuel
    intro x hx
    simp only [brushListTokens, List.nil_append, List.mem_append] at hx
    rcases hx with h | h
    · exact hpre x h
    · exact hpost x h
  | cons b bs ih =>
    intro pre hpre hbs hfuel
    have hb := hbs b (by simp)
    have hrest : ∀ x ∈ bs, x.WellFormedNonDegenerate env fmt :=
      fun x hx => hbs x (List.mem_cons_of_mem _ hx)
    cases hfaces : b.faces with
    | nil =>
      have hlist : pre ++ (brushListTokens (b :: bs) ++ post) =
          (pre ++ [b.o, b.c]) ++ (brushListTokens bs ++ post) := by
        simp [brushListTokens, BrushSrc.tokens, hfaces, faceListTokens]
      have hpre2 : ∀ x ∈ pre ++ [b.o, b.c],
          x.type ≠ TokenType.OParenthesis ∧ x.type ≠ TokenType.Eof := by
        intro x hx
        simp only [List.mem_append, List.mem_cons, List.mem_singleton, List.not_mem_nil,
          or_false] at hx
        rcases hx with h | h | h
        · exact hpre x h
        · rw [h, hb.1]; decide
        · rw [h, hb.2.1]; decide
      rw [hlist] at hfuel ⊢
      rw [documentFormat_cons_empty fmt b bs hfaces]
      exact ih _ hpre2 hrest hfuel
    | cons f fs =>
      have hfs : ∀ g ∈ f :: fs, g.WellFormed fmt ∧ g.NonDegenerate env := by
        intro g hg; exact hb.2.2 g (by rw [hfaces]; exact hg)
      obtain ⟨next, rest, hnr, hnext⟩ := faceListTokens_head env fmt fs b.c
        (brushListTokens bs ++ post) hb.2.1 (fun g hg => hfs g (List.mem_cons_of_mem _ hg))
      have hlist : pre ++ (brushListTokens (b :: bs) ++ post) =
          (pre ++ [b.o]) ++ (f.tokens ++ next :: rest) := by
        rw [← hnr]
        simp [brushListTokens, BrushSrc.tokens, hfaces, faceListTokens]
      have hpre2 : ∀ x ∈ pre ++ [b.o],
          x.type ≠ TokenType.OParenthesis ∧ x.type ≠ TokenType.Eof := by
        intro x hx
        simp only [List.mem_append, List.mem_singleton] at hx
        rcases hx with h | h
        · exact hpre x h
        · rw [h, hb.1]; decide
      rw [documentFormat_cons_face fmt b bs f fs hfaces]
      rw [hlist] at hfuel ⊢
      exact detectFormat_firstFace env lg inp (Ending.eof l c) fmt0 fmt _ f next rest fuel hpre2
        (hfs f (by simp)).1 hnext (by simp at hfuel ⊢; omega)

theorem faceListTokens_length (fs : List FaceSrc) : fs.length ≤ (faceListTokens fs).length := by
  induction fs with
  | nil => simp [faceListTokens]
  | cons f fs ih =>
    simp only [faceListTokens, List.length_append, List.length_cons, FaceSrc.tokens,
      PointSrc.tokens]
    omega

theorem brushListTokens_length (bs : List BrushSrc) :
    bs.length ≤ (brushListTokens bs).length ∧
      ∀ b ∈ bs, b.faces.length + 2 ≤ (brushListTokens bs).length := by
  induction bs with
  | nil => simp [brushListTokens]
  | cons b bs ih =>
    have hb := faceListTokens_length b.faces
    constructor
    · simp only [brushListTokens, BrushSrc.tokens, List.length_append, List.length_cons,
        List.length_nil]
      omega
    · intro x hx
      simp only [brushListTokens, BrushSrc.tokens, List.length_append, List.length_cons,
        List.length_nil]
      rcases List.mem_cons.mp hx with h | h
      · rw [h]; omega
      · have := ih.2 x h; omega

theorem entityTokens_length (eo ec : Token) (props : List (Token × Token))
    (bs : List BrushSrc) :
    (entityTokens eo props bs ec).length =
      2 * props.length + (brushListTokens bs).length + 2 := by
  simp [entityTokens, propertyTokens_length]
  omega

theorem wellFormed_documentFormat (env : Env R) (fmt : MapFormat) (bs : List BrushSrc)
    (hbs : ∀ b ∈ bs, b.WellFormedNonDegenerate env fmt) :
    ∀ b ∈ bs, b.WellFormedNonDegenerate env (documentFormat fmt bs) := by
  unfold documentFormat
  split
  · rename_i hall
    intro b hb
    have he : b.faces = [] := by
      have := List.all_eq_true.mp hall b hb
      simpa using this
    refine ⟨(hbs b hb).1, (hbs b hb).2.1, ?_⟩
    intro f hf
    rw [he] at hf
    exact absurd hf (List.not_mem_nil f)
  · exact hbs

/-- `doParseMap` on a document made of one well-formed entity: the Document holds the entity
with the brushes the kernel accepts, and the rejected brushes are logged. -/
theorem doParseMap_entity_run (env : Env R) (fuel : Nat) (wb : BBox3 R)
    (lg : Option (List LogEntry)) (l c : Nat) (fmt : MapFormat)
    (eo ec : Token) (props : List (Token × Token)) (bs : List BrushSrc)
    (heo : eo.type = TokenType.OBrace) (hec : ec.type = TokenType.CBrace)
    (hprops : ∀ kv ∈ props, kv.1.type = TokenType.String ∧ kv.2.type = TokenType.String)
    (hbs : ∀ b ∈ bs, b.WellFormedNonDegenerate env fmt)
    (hfuel : (entityTokens eo props bs ec).length < fuel) :
    doParseMap env fuel wb (QuakeMapParser.new (entityTokens eo props bs ec) (Ending.eof l c) lg) =
      (Result.ok { format := documentFormat fmt bs
                   entities := [parsedEntity env wb eo props bs ec] },
        ⟨logAfter env wb lg bs, ⟨entityTokens eo props bs ec, Ending.eof l c, [], none⟩,
          documentFormat fmt bs⟩) := by
  have hlen := entityTokens_length eo ec props bs
  have hblen := brushListTokens_length bs
  have hpre : ∀ x ∈ eo :: propertyTokens props,
      x.type ≠ TokenType.OParenthesis ∧ x.type ≠ TokenType.Eof := by
    intro x hx
    rcases List.mem_cons.mp hx with h | h
    · rw [h, heo]; decide
    · rw [propertyTokens_types props hprops x h]; decide
  have hpost : ∀ x ∈ [ec], x.type ≠ TokenType.OParenthesis ∧ x.type ≠ TokenType.Eof := by
    intro x hx
    rw [List.mem_singleton.mp hx, hec]; decide
  have htoks : entityTokens eo props bs ec =
      (eo :: propertyTokens props) ++ (brushListTokens bs ++ [ec]) := by
    simp [entityTokens]
  obtain ⟨ts, hd⟩ := detectFormat_brushes env lg (entityTokens eo props bs ec) l c
    MapFormat.Unknown fmt [ec] fuel hpost bs (eo :: propertyTokens props) hpre hbs
    (by rw [← htoks]; exact hfuel)
  rw [← htoks] at hd
  have hwf := wellFormed_documentFormat env fmt bs hbs
  have he := parseEntity_run env fuel wb lg (entityTokens eo props bs ec) (Ending.eof l c)
    (documentFormat fmt bs) eo ec props bs [] heo hec hprops
    (fun x hx => ⟨hwf x hx, by have := hblen.2 x hx; omega⟩) (by omega) (by omega)
  rw [List.append_nil] at he
  have hd2 : detectFormat env fuel
      (QuakeMapParser.new (entityTokens eo props bs ec) (Ending.eof l c) lg) = _ := hd
  obtain ⟨k, hk⟩ : ∃ k, fuel = k + 2 := ⟨fuel - 2, by omega⟩
  simp only [doParseMap, M.bind_apply, hd2, setFormat_apply, reset_apply, tryCatchAll_rethrow,
    he]
  rw [hk]
  simp [doParseMapLoop, parseEntity_eof, Map.addEntity]

omit [CommRing R] [DecidableEq R] in
theorem addOrUpdateProperty_brushes (e : Entity R) (key value : String) :
    (e.addOrUpdateProperty key value).brushes = e.brushes ∧
      (e.addOrUpdateProperty key value).filePosition = e.filePosition := by
  unfold Entity.addOrUpdateProperty
  split <;> simp

omit [CommRing R] [DecidableEq R] in
theorem addProperties_brushes (props : List (Token × Token)) :
    ∀ e : Entity R, (addProperties e props).brushes = e.brushes ∧
      (addProperties e props).filePosition = e.filePosition := by
  induction props with
  | nil => intro e; simp [addProperties]
  | cons kv props ih =>
    intro e
    have h1 := ih (e.addOrUpdateProperty kv.1.data kv.2.data)
    have h2 := addOrUpdateProperty_brushes e kv.1.data kv.2.data
    simp only [addProperties, List.foldl_cons] at h1 ⊢
    exact ⟨h1.1.trans h2.1, h1.2.trans h2.2⟩

end Brushes

/-! ## Inputs on which the code departs from the spec -/

section General

variable {R : Type} [CommRing R] [DecidableEq R]

/-- `parseFace` on a face whose points and texture name are well-formed but whose points are
collinear: it returns NULL right after the texture name, whatever follows. -/
theorem parseFace_degenerate_pushed (env : Env R) (wb : BBox3 R) (lg : Option (List LogEntry))
    (inp : List Token) (en : Ending) (fmt : MapFormat) (pt1 pt2 pt3 : PointSrc) (texture : Token)
    (rest : List Token)
    (h1 : pt1.WellFormed) (h2 : pt2.WellFormed) (h3 : pt3.WellFormed)
    (htex : texture.type = TokenType.String)
    (hdeg : (crossed ((env.corrected (pt3.vec env)).sub (env.corrected (pt1.vec env)))
      ((env.corrected (pt2.vec env)).sub (env.corrected (pt1.vec env)))).null = true) :
    parseFace env wb ⟨lg, ⟨inp, en,
        pt1.x :: pt1.y :: pt1.z :: pt1.c :: (pt2.tokens ++ (pt3.tokens ++ texture :: rest)),
        some pt1.o⟩, fmt⟩ =
      (Result.ok none, ⟨lg, ⟨inp, en, rest, none⟩, fmt⟩) := by
  have hnull := env.normalized_null (crossed
    ((env.corrected (pt3.vec env)).sub (env.corrected (pt1.vec env)))
    ((env.corrected (pt2.vec env)).sub (env.corrected (pt1.vec env))))
  rw [hdeg] at hnull
  have ho1 : pt1.o.type ≠ TokenType.Eof := by rw [h1.1]; decide
  simp [parseFace, ho1, expect_ok (List.mem_singleton.mpr h1.1),
    parseVector_point env lg inp en _ pt1 h1, parseVector_point env lg inp en _ pt2 h2,
    parseVector_point env lg inp en _ pt3 h3, PointSrc.tokens,
    expect_ok (List.mem_singleton.mpr h1.2.2.2.2),
    expect_ok (List.mem_singleton.mpr h2.1), expect_ok (List.mem_singleton.mpr h2.2.2.2.2),
    expect_ok (List.mem_singleton.mpr h3.1), expect_ok (List.mem_singleton.mpr h3.2.2.2.2),
    expect_ok (List.mem_singleton.mpr htex), hnull]

/-- The loop of `parseBrush` reads a run of well-formed, non-degenerate faces and goes on
with what follows them. -/
theorem parseBrushLoop_faces_then (env : Env R) (wb : BBox3 R) (firstLine : Nat)
    (lg : Option (List LogEntry)) (inp : List Token) (en : Ending) (fmt : MapFormat)
    (rest : List Token) :
    ∀ (fs : List FaceSrc) (acc : List (BrushFace R)) (n : Nat),
      (∀ f ∈ fs, f.WellFormed fmt ∧ f.NonDegenerate env) →
      parseBrushLoop env wb firstLine (fs.length + n) acc
          ⟨lg, ⟨inp, en, faceListTokens fs ++ rest, none⟩, fmt⟩ =
        parseBrushLoop env wb firstLine n (acc ++ fs.map (FaceSrc.face env))
          ⟨lg, ⟨inp, en, rest, none⟩, fmt⟩ := by
  intro fs
  induction fs with
  | nil => intro acc n _; simp [faceListTokens]
  | cons f fs ih =>
    intro acc n hfs
    have hf := hfs f (by simp)
    have hrest : ∀ g ∈ fs, g.WellFormed fmt ∧ g.NonDegenerate env :=
      fun g hg => hfs g (List.mem_cons_of_mem _ hg)
    have ho : f.pt1.o.type = TokenType.OParenthesis := hf.1.1.1
    have hlist : faceListTokens (f :: fs) ++ rest =
        f.pt1.o :: f.pt1.x :: f.pt1.y :: f.pt1.z :: f.pt1.c ::
          (f.pt2.tokens ++ (f.pt3.tokens ++ f.texture ::
            (f.attrs.tokens ++ (faceListTokens fs ++ rest)))) := by
      rw [faceListTokens, List.append_assoc, faceTokens_append]
    have hface := parseFace_pushed env wb lg inp en fmt f (faceListTokens fs ++ rest) hf.1 hf.2
    have hih := ih (acc ++ [f.face env]) n hrest
    have hn : (f :: fs).length + n = (fs.length + n) + 1 := by simp; omega
    rw [hlist, hn]
    simp only [parseBrushLoop, M.bind_apply, nextToken_cons, ho, pushToken_apply]
    simp only [reduceCtorEq, if_false, if_true, M.bind_apply, pushToken_apply]
    rw [hface]
    simp [hih]

/-- A brush body that holds a well-formed face with collinear points, after any number of
well-formed, non-degenerate faces: `parseBrush` raises `UnexpectedToken` on the first token
after the texture name of that face. -/
theorem parseBrush_collinear_face (env : Env R) (fuel : Nat) (wb : BBox3 R)
    (lg : Option (List LogEntry)) (inp : List Token) (en : Ending) (fmt : MapFormat)
    (o : Token) (fs : List FaceSrc) (d : FaceSrc) (t : Token) (ts rest : List Token)
    (ho : o.type = TokenType.OBrace)
    (hfs : ∀ f ∈ fs, f.WellFormed fmt ∧ f.NonDegenerate env)
    (hd : d.WellFormed fmt) (hdeg : (d.cross env).null = true)
    (ht : d.attrs.tokens = t :: ts) (hfuel : fs.length + 1 < fuel) :
    parseBrush env fuel wb
        ⟨lg, ⟨inp, en, o :: (faceListTokens fs ++ (d.tokens ++ rest)), none⟩, fmt⟩ =
      (Result.thrown (Exception.unexpectedToken t.line t.column
          [TokenType.OParenthesis, TokenType.CParenthesis] t.type),
        ⟨lg, ⟨inp, en, ts ++ rest, none⟩, fmt⟩) := by
  obtain ⟨m, hm⟩ : ∃ m, fuel = fs.length + (m + 2) := ⟨fuel - fs.length - 2, by omega⟩
  have hloop := parseBrushLoop_faces_then env wb o.line lg inp en fmt (d.tokens ++ rest) fs []
    (m + 2) hfs
  rw [← hm] at hloop
  obtain ⟨h1, h2, h3, htex, hfmt, hattrs⟩ := hd
  have htype : t.type ∉ [TokenType.OParenthesis, TokenType.CParenthesis] ∧
      t.type ≠ TokenType.Eof ∧ t.type ≠ TokenType.OParenthesis ∧ t.type ≠ TokenType.CBrace := by
    rcases d with ⟨pt1, pt2, pt3, texture, attrs⟩
    cases attrs with
    | quake xo yo rot xs ys =>
      simp only [FaceAttrs.tokens, List.cons.injEq] at ht
      rw [← ht.1]
      rcases hattrs.1 with h | h <;> simp [h]
    | valve o1 x1 y1 z1 xo c1 o2 x2 y2 z2 yo c2 rot xs ys =>
      simp only [FaceAttrs.tokens, List.cons.injEq] at ht
      rw [← ht.1]
      simp [hattrs.1]
    | quake2 xo yo rot xs ys sc sf sv =>
      simp only [FaceAttrs.tokens, List.cons.injEq] at ht
      rw [← ht.1]
      rcases hattrs.1 with h | h <;> simp [h]
  have hface := parseFace_degenerate_pushed env wb lg inp en fmt d.pt1 d.pt2 d.pt3 d.texture
    (t :: (ts ++ rest)) h1 h2 h3 htex hdeg
  have hlist : d.tokens ++ rest =
      d.pt1.o :: d.pt1.x :: d.pt1.y :: d.pt1.z :: d.pt1.c ::
        (d.pt2.tokens ++ (d.pt3.tokens ++ d.texture :: (t :: (ts ++ rest)))) := by
    rw [faceTokens_append, ht]; rfl
  have hstep : parseBrushLoop env wb o.line (m + 2) ([] ++ fs.map (FaceSrc.face env))
      ⟨lg, ⟨inp, en, d.tokens ++ rest, none⟩, fmt⟩ =
      (Result.thrown (Exception.unexpectedToken t.line t.column
          [TokenType.OParenthesis, TokenType.CParenthesis] t.type),
        ⟨lg, ⟨inp, en, ts ++ rest, none⟩, fmt⟩) := by
    rw [hlist]
    simp only [parseBrushLoop, M.bind_apply, nextToken_cons, h1.1, pushToken_apply]
    simp only [reduceCtorEq, if_false, if_true, M.bind_apply, pushToken_apply]
    rw [hface]
    simp [htype.2.1, htype.2.2.1, htype.2.2.2, expect_fail htype.1]
  simp only [List.nil_append] at hloop hstep
  simp [parseBrush, ho, expect, hloop, hstep]

theorem brushListTokens_append (bs1 bs2 : List BrushSrc) :
    brushListTokens (bs1 ++ bs2) = brushListTokens bs1 ++ brushListTokens bs2 := by
  induction bs1 with
  | nil => rfl
  | cons b bs ih => simp [brushListTokens, ih]

theorem logAfter_accepted (env : Env R) (wb : BBox3 R) (lg : Option (List LogEntry))
    (b : BrushSrc) (h : env.geometry wb (b.sortedFaces env) = none) :
    logAfter env wb lg [b] = lg ∧ b.brush env wb = some (b.accepted env) := by
  constructor
  · cases lg <;> simp [logAfter, BrushSrc.diagnostic, h]
  · simp [BrushSrc.brush, h]

theorem logAfter_rejected (env : Env R) (wb : BBox3 R) (lg : Option (List LogEntry))
    (b : BrushSrc) (what : String) (h : env.geometry wb (b.sortedFaces env) = some what) :
    logAfter env wb lg [b] =
        lg.map (fun entries => entries ++ [{ line := b.o.line, what := what }]) ∧
      b.brush env wb = none := by
  constructor
  · cases lg <;> simp [logAfter, BrushSrc.diagnostic, h]
  · simp [BrushSrc.brush, h]

/-- The loop of `doParseBrushes` collects the brushes the kernel accepts up to the first
brush it rejects, and stops there. -/
theorem collectLoop_brushes (env : Env R) (fuel : Nat) (wb : BBox3 R) (inp : List Token)
    (en : Ending) (fmt : MapFormat) (bad : BrushSrc) (rest : List Token) (what : String)
    (hbad : bad.WellFormedNonDegenerate env fmt ∧ bad.faces.length < fuel)
    (hrej : env.geometry wb (bad.sortedFaces env) = some what) :
    ∀ (pre : List BrushSrc) (acc : List (Brush R)) (n : Nat) (lg : Option (List LogEntry)),
      (∀ b ∈ pre, (b.WellFormedNonDegenerate env fmt ∧ b.faces.length < fuel) ∧
        env.geometry wb (b.sortedFaces env) = none) →
      pre.length < n →
      (parseBrush env fuel wb >>= fun item =>
          collectLoop (parseBrush env fuel wb) n item acc)
          ⟨lg, ⟨inp, en, brushListTokens pre ++ (bad.tokens ++ rest), none⟩, fmt⟩ =
        (Result.ok (acc ++ pre.map (BrushSrc.accepted env)),
          ⟨lg.map (fun entries => entries ++ [{ line := bad.o.line, what := what }]),
            ⟨inp, en, rest, none⟩, fmt⟩) := by
  intro pre
  induction pre with
  | nil =>
    intro acc n lg _ hn
    obtain ⟨k, rfl⟩ : ∃ k, n = k + 1 := ⟨n - 1, by simp at hn; omega⟩
    have h := parseBrush_run env fuel wb lg inp en fmt bad rest hbad.1 hbad.2
    have hr := logAfter_rejected env wb lg bad what hrej
    rw [hr.1, hr.2] at h
    simp [brushListTokens, h, collectLoop]
  | cons b pre ih =>
    intro acc n lg hpre hn
    obtain ⟨k, rfl⟩ : ∃ k, n = k + 1 := ⟨n - 1, by simp at hn; omega⟩
    have hb := hpre b (by simp)
    have hrest : ∀ x ∈ pre, (x.WellFormedNonDegenerate env fmt ∧ x.faces.length < fuel) ∧
        env.geometry wb (x.sortedFaces env) = none :=
      fun x hx => hpre x (List.mem_cons_of_mem _ hx)
    have h := parseBrush_run env fuel wb lg inp en fmt b
      (brushListTokens pre ++ (bad.tokens ++ rest)) hb.1.1 hb.1.2
    have ha := logAfter_accepted env wb lg b hb.2
    rw [ha.1, ha.2] at h
    have hlist : brushListTokens (b :: pre) ++ (bad.tokens ++ rest) =
        b.tokens ++ (brushListTokens pre ++ (bad.tokens ++ rest)) := by
      simp [brushListTokens]
    have hih := ih (acc ++ [b.accepted env]) k lg hrest (by simp at hn; omega)
    rw [hlist, M.bind_apply, h]
    simp only [collectLoop]
    rw [hih]
    simp

/-- `doParseBrushes` on a sequence of well-formed brushes of which the kernel accepts the
first ones (`pre`) and rejects the next (`bad`): it returns the brushes of `pre` only, and the
brushes `post` after the rejected one stay unread. -/
theorem doParseBrushes_rejected (env : Env R) (fuel : Nat) (wb : BBox3 R)
    (lg : Option (List LogEntry)) (l c : Nat) (fmt : MapFormat)
    (pre : List BrushSrc) (bad : BrushSrc) (post : List BrushSrc) (what : String)
    (hwf : ∀ b ∈ pre ++ bad :: post, b.WellFormedNonDegenerate env fmt)
    (hacc : ∀ b ∈ pre, env.geometry wb (b.sortedFaces env) = none)
    (hrej : env.geometry wb (bad.sortedFaces env) = some what)
    (hfuel : (brushListTokens (pre ++ bad :: post)).length < fuel) :
    doParseBrushes env fuel wb
        (QuakeMapParser.new (brushListTokens (pre ++ bad :: post)) (Ending.eof l c) lg) =
      (Result.ok (pre.map (BrushSrc.accepted env)),
        ⟨lg.map (fun entries => entries ++ [{ line := bad.o.line, what := what }]),
          ⟨brushListTokens (pre ++ bad :: post), Ending.eof l c, brushListTokens post, none⟩,
          documentFormat fmt (pre ++ bad :: post)⟩) := by
  have hblen := brushListTokens_length (pre ++ bad :: post)
  have hwf2 := wellFormed_documentFormat env fmt _ hwf
  obtain ⟨ts, hd⟩ := detectFormat_brushes env lg (brushListTokens (pre ++ bad :: post)) l c
    MapFormat.Unknown fmt [] fuel (by simp) (pre ++ bad :: post) [] (by simp) hwf
    (by simpa using hfuel)
  simp only [List.nil_append, List.append_nil] at hd
  have hd2 : detectFormat env fuel
      (QuakeMapParser.new (brushListTokens (pre ++ bad :: post)) (Ending.eof l c) lg) = _ := hd
  have hne := detectFormat_ne_Unknown env fuel hd2
  have hsplit : brushListTokens (pre ++ bad :: post) =
      brushListTokens pre ++ (bad.tokens ++ brushListTokens post) := by
    rw [brushListTokens_append]; rfl
  have hloop := collectLoop_brushes env fuel wb (brushListTokens (pre ++ bad :: post))
    (Ending.eof l c) (documentFormat fmt (pre ++ bad :: post)) bad (brushListTokens post) what
    ⟨hwf2 bad (by simp), by have := hblen.2 bad (by simp); omega⟩ hrej pre [] fuel lg
    (fun b hb => ⟨⟨hwf2 b (by simp [hb]), by have := hblen.2 b (by simp [hb]); omega⟩,
      hacc b hb⟩)
    (by have := hblen.1; simp at this; omega)
  rw [← hsplit] at hloop
  simp only [doParseBrushes, doParseList, tryCatchAll, M.bind_apply, hd2, setFormat_apply, hne,
    if_false, reset_apply]
  rw [M.bind_apply] at hloop
  rw [hloop]
  simp

/-- `doParseFaces` on an input that consists of one well-formed StandardA face: format
detection raises at the end of the input and the call returns the empty list. -/
theorem doParseFaces_lone_face (env : Env R) (fuel : Nat) (wb : BBox3 R)
    (lg : Option (List LogEntry)) (l c : Nat) (f : FaceSrc)
    (hf : f.WellFormed MapFormat.Quake) (hfuel : 0 < fuel) :
    doParseFaces env fuel wb (QuakeMapParser.new f.tokens (Ending.eof l c) lg) =
      (Result.ok [], ⟨lg, ⟨f.tokens, Ending.eof l c, [], none⟩, MapFormat.Unknown⟩) := by
  obtain ⟨h1, h2, h3, htex, hfmt, hattrs⟩ := hf
  rcases f with ⟨pt1, pt2, pt3, texture, attrs⟩
  simp only at h1 h2 h3 htex hfmt hattrs
  cases attrs with
  | quake xo yo rot xs ys =>
    obtain ⟨a1, a2, a3, a4, a5⟩ := hattrs
    have hhead := detectFormat_faceHead env lg
      (FaceSrc.tokens ⟨pt1, pt2, pt3, texture, FaceAttrs.quake xo yo rot xs ys⟩)
      (Ending.eof l c) MapFormat.Unknown [] pt1 pt2 pt3 texture xo [yo, rot, xs, ys] fuel
      (by simp) h1 h2 h3 htex a1 (by simpa using hfuel)
    have hd : detectFormat env fuel (QuakeMapParser.new
        (FaceSrc.tokens ⟨pt1, pt2, pt3, texture, FaceAttrs.quake xo yo rot xs ys⟩)
        (Ending.eof l c) lg) =
        (Result.thrown (Exception.unexpectedToken l c
          [TokenType.Integer, TokenType.Decimal, TokenType.OParenthesis, TokenType.CBrace]
          TokenType.Eof),
          ⟨lg, ⟨FaceSrc.tokens ⟨pt1, pt2, pt3, texture, FaceAttrs.quake xo yo rot xs ys⟩,
            Ending.eof l c, [], none⟩, MapFormat.Unknown⟩) := by
      have hx : QuakeMapParser.new
          (FaceSrc.tokens ⟨pt1, pt2, pt3, texture, FaceAttrs.quake xo yo rot xs ys⟩)
          (Ending.eof l c) lg =
          ⟨lg, ⟨FaceSrc.tokens ⟨pt1, pt2, pt3, texture, FaceAttrs.quake xo yo rot xs ys⟩,
            Ending.eof l c,
            [] ++ (pt1.tokens ++ (pt2.tokens ++ (pt3.tokens ++ texture :: xo ::
              [yo, rot, xs, ys]))), none⟩, MapFormat.Unknown⟩ := by
        simp [QuakeMapParser.new, FaceSrc.tokens, FaceAttrs.tokens]
      rw [hx, hhead]
      simp only [M.bind_apply, nextToken_cons, expect_ok (mem_numberMask a2),
        expect_ok (mem_numberMask a3), expect_ok (mem_numberMask a4),
        expect_ok (mem_numberMask a5), nextToken_eof]
      simp [expect, throwException]
    simp [doParseFaces, doParseList, tryCatchAll, hd]
  | valve o1 x1 y1 z1 xo c1 o2 x2 y2 z2 yo c2 rot xs ys => simp [FaceAttrs.format] at hfmt
  | quake2 xo yo rot xs ys sc sf sv => simp [FaceAttrs.format] at hfmt

end General

/-! ## Claims about brushes -/

/-- Where what C4 says holds: a document with one entity (properties, then two brushes that
are well-formed in one dialect and have no degenerate face) of which the geometry kernel
rejects `bad` and accepts `good`, in either order: `doParseMap` raises nothing and returns a
Document whose one entity holds exactly the accepted brush, and a logger, when present,
receives exactly one diagnostic, carrying the first line of the rejected brush. -/
theorem doParseMap_skips_rejected_brush {R : Type} [CommRing R] [DecidableEq R]
    (env : Env R) (fuel : Nat) (wb : BBox3 R) (lg : Option (List LogEntry)) (l c : Nat)
    (fmt : MapFormat) (eo ec : Token) (props : List (Token × Token)) (good bad : BrushSrc)
    (badFirst : Bool) (what : String)
    (heo : eo.type = TokenType.OBrace) (hec : ec.type = TokenType.CBrace)
    (hprops : ∀ kv ∈ props, kv.1.type = TokenType.String ∧ kv.2.type = TokenType.String)
    (hgood : good.WellFormedNonDegenerate env fmt) (hbad : bad.WellFormedNonDegenerate env fmt)
    (hacc : env.geometry wb (good.sortedFaces env) = none)
    (hrej : env.geometry wb (bad.sortedFaces env) = some what)
    (hfuel : (entityTokens eo props (if badFirst then [bad, good] else [good, bad]) ec).length <
      fuel) :
    doParseMap env fuel wb
        (QuakeMapParser.new
          (entityTokens eo props (if badFirst then [bad, good] else [good, bad]) ec)
          (Ending.eof l c) lg) =
      (Result.ok
          { format := documentFormat fmt (if badFirst then [bad, good] else [good, bad])
            entities :=
              [{ properties := (addProperties (Entity.new : Entity R) props).properties
                 brushes := [good.accepted env]
                 filePosition := (eo.line, ec.line - eo.line) }] },
        ⟨lg.map (fun entries => entries ++ [{ line := bad.o.line, what := what }]),
          ⟨entityTokens eo props (if badFirst then [bad, good] else [good, bad]) ec,
            Ending.eof l c, [], none⟩,
          documentFormat fmt (if badFirst then [bad, good] else [good, bad])⟩) := by
  have hbs : ∀ b ∈ (if badFirst then [bad, good] else [good, bad]), b.WellFormedNonDegenerate env fmt := by
    intro b hb
    cases badFirst <;> simp at hb <;> rcases hb with h | h <;> rw [h] <;> assumption
  rw [doParseMap_entity_run env fuel wb lg l c fmt eo ec props _ heo hec hprops hbs hfuel]
  have hp := addProperties_brushes props (Entity.new : Entity R)
  have hgb : good.brush env wb = some (good.accepted env) := by
    simp [BrushSrc.brush, hacc]
  have hbb : bad.brush env wb = none := by simp [BrushSrc.brush, hrej]
  have hgd : good.diagnostic env wb = none := by simp [BrushSrc.diagnostic, hacc]
  have hbd : bad.diagnostic env wb = some { line := bad.o.line, what := what } := by
    simp [BrushSrc.diagnostic, hrej]
  have hent : ∀ bs : List BrushSrc,
      bs.filterMap (BrushSrc.brush env wb) = [good.accepted env] →
      parsedEntity env wb eo props bs ec =
        { properties := (addProperties (Entity.new : Entity R) props).properties,
          brushes := [good.accepted env],
          filePosition := (eo.line, ec.line - eo.line) } := by
    intro bs h
    have hp1 : (addProperties (Entity.new : Entity R) props).brushes = [] := hp.1
    simp [parsedEntity, h, addBrushes, Entity.addBrush, Entity.setFilePosition, hp1]
  cases badFirst
  · have h1 := hent [good, bad] (by simp [hgb, hbb])
    simp only [Bool.false_eq_true, if_false] at h1 ⊢
    rw [h1]
    simp [logAfter, hgd, hbd]
  · have h1 := hent [bad, good] (by simp [hgb, hbb])
    simp only [if_true] at h1 ⊢
    rw [h1]
    simp [logAfter, hgd, hbd]


/-- The case without a degenerate face, at an entity on lines 1 to 14 with the property
`"classname" "worldspawn"`, a one-face brush on lines 3 to 5, which the example kernel
rejects, and the six-face box on lines 6 to 13, which it accepts. -/
theorem doParseMap_skips_rejected_brush_witness :
    doParseMap exampleEnv 200 exampleBounds
        (QuakeMapParser.new
          (entityTokens (sym TokenType.OBrace 1) [(str "classname" 2, str "worldspawn" 2)]
            [exampleOpenBrush 3, exampleClosedBrush 6] (sym TokenType.CBrace 14))
          (Ending.eof 14 1) (some [])) =
      (Result.ok
          { format := MapFormat.Quake
            entities :=
              [{ properties := [("classname", "worldspawn")]
                 brushes := [{ faces := (cubeFaces 7).map (FaceSrc.face exampleEnv)
                               filePosition := (6, 7) }]
                 filePosition := (1, 13) }] },
        ⟨some [{ line := 3, what := "brush is not closed" }],
          ⟨entityTokens (sym TokenType.OBrace 1) [(str "classname" 2, str "worldspawn" 2)]
            [exampleOpenBrush 3, exampleClosedBrush 6] (sym TokenType.CBrace 14),
            Ending.eof 14 1, [], none⟩,
          MapFormat.Quake⟩) :=
  doParseMap_skips_rejected_brush exampleEnv 200 exampleBounds (some []) 14 1 MapFormat.Quake
    (sym TokenType.OBrace 1) (sym TokenType.CBrace 14)
    [(str "classname" 2, str "worldspawn" 2)] (exampleClosedBrush 6) (exampleOpenBrush 3) true
    "brush is not closed" (by decide) (by decide) (by decide) (by decide!) (by decide!)
    (by decide!) (by decide!) (by decide!)

/-- C1 (the code departs from the claim): when a brush body holds a well-formed face whose
points are collinear or coincide (after any number of well-formed, non-degenerate faces, and
whatever follows it), `parseBrush` raises `UnexpectedToken` on the first token after the
texture name of that face, which `parseFace` has left unread.  So it does on the brush whose
first face is `( 0 0 0 ) ( 0 0 0 ) ( 1 0 0 ) TEXTURE 0 0 0 1 1` and whose other faces are the
six faces of a box, although without the degenerate face the brush is built from these
six. -/
theorem parseBrush_degenerate_face_raises :
    (∀ (R : Type) [CommRing R] [DecidableEq R] (env : Env R) (fuel : Nat) (wb : BBox3 R)
        (lg : Option (List LogEntry)) (inp : List Token) (en : Ending) (fmt : MapFormat)
        (o : Token) (fs : List FaceSrc) (d : FaceSrc) (t : Token) (ts rest : List Token),
      o.type = TokenType.OBrace → (∀ f ∈ fs, f.WellFormed fmt ∧ f.NonDegenerate env) →
      d.WellFormed fmt → (d.cross env).null = true → d.attrs.tokens = t :: ts →
      fs.length + 1 < fuel →
      parseBrush env fuel wb
          ⟨lg, ⟨inp, en, o :: (faceListTokens fs ++ (d.tokens ++ rest)), none⟩, fmt⟩ =
        (Result.thrown (Exception.unexpectedToken t.line t.column
            [TokenType.OParenthesis, TokenType.CParenthesis] t.type),
          ⟨lg, ⟨inp, en, ts ++ rest, none⟩, fmt⟩)) ∧
    (detectFormat exampleEnv 8
        (freshParser (exampleBrushWith [degenerateFaceSrc 2]).tokens 9)).1 =
      Result.ok MapFormat.Quake ∧
    parseFace exampleEnv exampleBounds
        ⟨some [], ⟨[], Ending.eof 2 1, degenerateFace 2, none⟩, MapFormat.Quake⟩ =
      (Result.ok none, ⟨some [], ⟨[], Ending.eof 2 1,
        [num "0" 2, num "0" 2, num "0" 2, num "1" 2, num "1" 2], none⟩, MapFormat.Quake⟩) ∧
    (parseBrush exampleEnv 8 exampleBounds
        ((freshParser (exampleBrushWith [degenerateFaceSrc 2]).tokens 9).startOfParse
          MapFormat.Quake)).1 =
      Result.thrown (Exception.unexpectedToken 2 1
        [TokenType.OParenthesis, TokenType.CParenthesis] TokenType.Integer) ∧
    (parseBrush exampleEnv 8 exampleBounds
        ((freshParser (exampleBrushWith []).tokens 9).startOfParse MapFormat.Quake)).1 =
      Result.ok (some { faces := (cubeFaces 3).map (FaceSrc.face exampleEnv)
                        filePosition := (1, 8) }) :=
  ⟨fun _ _ _ env fuel wb lg inp en fmt o fs d t ts rest ho hfs hd hdeg ht hfuel =>
      parseBrush_collinear_face env fuel wb lg inp en fmt o fs d t ts rest ho hfs hd hdeg ht
        hfuel,
    by decide!, by decide!, by decide!, by decide!⟩

/-- C5 (the code departs from the claim): on a sequence of well-formed brushes,
`doParseBrushes` returns only the brushes before the first one the kernel rejects: it logs
the rejection and stops, and the brushes after the rejected one stay unread.  So it does on
a one-face brush, which the example kernel rejects, followed by the six-face box, which it
accepts (`parseBrush` called where `doParseBrushes` stopped returns the box). -/
theorem doParseBrushes_stops_at_rejected_brush :
    (∀ (R : Type) [CommRing R] [DecidableEq R] (env : Env R) (fuel : Nat) (wb : BBox3 R)
        (lg : Option (List LogEntry)) (l c : Nat) (fmt : MapFormat)
        (pre : List BrushSrc) (bad : BrushSrc) (post : List BrushSrc) (what : String),
      (∀ b ∈ pre ++ bad :: post, b.WellFormedNonDegenerate env fmt) →
      (∀ b ∈ pre, env.geometry wb (b.sortedFaces env) = none) →
      env.geometry wb (bad.sortedFaces env) = some what →
      (brushListTokens (pre ++ bad :: post)).length < fuel →
      doParseBrushes env fuel wb
          (QuakeMapParser.new (brushListTokens (pre ++ bad :: post)) (Ending.eof l c) lg) =
        (Result.ok (pre.map (BrushSrc.accepted env)),
          ⟨lg.map (fun entries => entries ++ [{ line := bad.o.line, what := what }]),
            ⟨brushListTokens (pre ++ bad :: post), Ending.eof l c, brushListTokens post, none⟩,
            documentFormat fmt (pre ++ bad :: post)⟩)) ∧
    doParseBrushes exampleEnv 8 exampleBounds
        (freshParser ((exampleOpenBrush 1).tokens ++ (exampleClosedBrush 4).tokens) 11) =
      (Result.ok [],
        ⟨some [{ line := 1, what := "brush is not closed" }],
          ⟨(exampleOpenBrush 1).tokens ++ (exampleClosedBrush 4).tokens, Ending.eof 11 1,
            (exampleClosedBrush 4).tokens, none⟩,
          MapFormat.Quake⟩) ∧
    (parseBrush exampleEnv 8 exampleBounds
        ⟨some [{ line := 1, what := "brush is not closed" }],
          ⟨(exampleOpenBrush 1).tokens ++ (exampleClosedBrush 4).tokens, Ending.eof 11 1,
            (exampleClosedBrush 4).tokens, none⟩,
          MapFormat.Quake⟩).1 =
      Result.ok (some { faces := (cubeFaces 5).map (FaceSrc.face exampleEnv)
                        filePosition := (4, 7) }) :=
  ⟨fun _ _ _ env fuel wb lg l c fmt pre bad post what hwf hacc hrej hfuel =>
      doParseBrushes_rejected env fuel wb lg l c fmt pre bad post what hwf hacc hrej hfuel,
    by decide!, by decide!⟩

/-- C9 (the code departs from the claim): on an input that consists of exactly one
well-formed StandardA face, `doParseFaces` returns the empty list, because format detection
raises at the end of the input: after the fifth number it expects a number, an opening
parenthesis or a closing brace.  So it does on the spec's face
`( 0 0 0 ) ( 0 1 0 ) ( 1 0 0 ) TEXTURE 0 0 0 1 1`, whereas two such faces in a row are both
returned. -/
theorem doParseFaces_single_face_is_empty :
    (∀ (R : Type) [CommRing R] [DecidableEq R] (env : Env R) (fuel : Nat) (wb : BBox3 R)
        (lg : Option (List LogEntry)) (l c : Nat) (f : FaceSrc),
      f.WellFormed MapFormat.Quake → 0 < fuel →
      doParseFaces env fuel wb (QuakeMapParser.new f.tokens (Ending.eof l c) lg) =
        (Result.ok [], ⟨lg, ⟨f.tokens, Ending.eof l c, [], none⟩, MapFormat.Unknown⟩)) ∧
    (detectFormat exampleEnv 2 (freshParser (exampleFace 1) 1)).1 =
      Result.thrown (Exception.unexpectedToken 1 1
        [TokenType.Integer, TokenType.Decimal, TokenType.OParenthesis, TokenType.CBrace]
        TokenType.Eof) ∧
    (doParseFaces exampleEnv 2 exampleBounds (freshParser (exampleFace 1) 1)).1 =
      Result.ok [] ∧
    (doParseFaces exampleEnv 4 exampleBounds (freshParser (exampleFace 1 ++ exampleFace 2) 2)).1 =
      Result.ok [(exampleFaceSrc 1).face exampleEnv, (exampleFaceSrc 2).face exampleEnv] :=
  ⟨fun _ _ _ env fuel wb lg l c f hf hfuel => doParseFaces_lone_face env fuel wb lg l c f hf
      hfuel,
    by decide!, by decide!, by decide!⟩

/-! ## Claims about the first face and the empty input -/

/-- C11: if the tokens up to the first opening parenthesis are followed by three parenthesised
numeric triples, a String texture name and an opening bracket, `detectFormat` returns `Valve`
(StandardB), whatever the tokens `rest` after the bracket and however the input ends; it has
then read up to and including the bracket, and `rest` is still unread. -/
theorem detectFormat_bracket_is_Valve {R : Type} [CommRing R] [DecidableEq R]
    (env : Env R) (lg : Option (List LogEntry)) (inp : List Token)
    (en : Ending) (fmt : MapFormat) (pre : List Token) (pt1 pt2 pt3 : PointSrc)
    (tex o1 : Token) (rest : List Token) (fuel : Nat)
    (hpre : ∀ x ∈ pre, x.type ≠ TokenType.OParenthesis ∧ x.type ≠ TokenType.Eof)
    (h1 : pt1.WellFormed) (h2 : pt2.WellFormed) (h3 : pt3.WellFormed)
    (htex : tex.type = TokenType.String) (ho1 : o1.type = TokenType.OBracket)
    (hfuel : pre.length < fuel) :
    detectFormat env fuel ⟨lg, ⟨inp, en,
        pre ++ (pt1.tokens ++ (pt2.tokens ++ (pt3.tokens ++ tex :: o1 :: rest))), none⟩, fmt⟩ =
      (Result.ok MapFormat.Valve, ⟨lg, ⟨inp, en, rest, none⟩, fmt⟩) :=
  detectFormat_Valve_run env lg inp en fmt pre pt1 pt2 pt3 tex o1 rest fuel hpre h1 h2 h3 htex
    ho1 hfuel

/-- C11 at `{ ( 0 0 0 ) ( 0 1 0 ) ( 1 0 0 ) TEXTURE [ } "x"`, an input that ends with a
character the tokenizer cannot read: the answer is `Valve` and the two tokens after the
bracket are unread. -/
theorem detectFormat_bracket_is_Valve_witness :
    detectFormat exampleEnv 2
        (QuakeMapParser.new exampleBracketOnly (Ending.unexpectedCharacter 3 7 "?") (some [])) =
      (Result.ok MapFormat.Valve,
        ⟨some [], ⟨exampleBracketOnly, Ending.unexpectedCharacter 3 7 "?",
          [sym TokenType.CBrace 3, str "x" 3], none⟩, MapFormat.Unknown⟩) :=
  detectFormat_bracket_is_Valve exampleEnv (some []) exampleBracketOnly
    (Ending.unexpectedCharacter 3 7 "?") MapFormat.Unknown [sym TokenType.OBrace 1]
    (examplePoint "0" "0" "0" 2) (examplePoint "0" "1" "0" 2) (examplePoint "1" "0" "0" 2)
    (str "TEXTURE" 2) (sym TokenType.OBracket 2) [sym TokenType.CBrace 3, str "x" 3] 2
    (by decide) (by decide) (by decide) (by decide) (by decide) (by decide) (by decide)

/-- C12: on an input without tokens (the tokenizer is at the end of the input from the
start), with at least one unit of fuel, `detectFormat` returns `Quake` (StandardA),
`doParseEntities`, `doParseBrushes` and `doParseFaces` each return the empty list and raise
nothing, and `doParseMap` returns a Document of format `Quake` without entities. -/
theorem empty_input_gives_empty_Quake {R : Type} [CommRing R] [DecidableEq R]
    (env : Env R) (fuel : Nat) (wb : BBox3 R) (lg : Option (List LogEntry)) (l c : Nat)
    (fmt : MapFormat) (hfuel : 0 < fuel) :
    detectFormat env fuel ⟨lg, ⟨[], Ending.eof l c, [], none⟩, fmt⟩ =
      (Result.ok MapFormat.Quake, ⟨lg, ⟨[], Ending.eof l c, [], none⟩, fmt⟩) ∧
    doParseEntities env fuel wb ⟨lg, ⟨[], Ending.eof l c, [], none⟩, fmt⟩ =
      (Result.ok [], ⟨lg, ⟨[], Ending.eof l c, [], none⟩, MapFormat.Quake⟩) ∧
    doParseBrushes env fuel wb ⟨lg, ⟨[], Ending.eof l c, [], none⟩, fmt⟩ =
      (Result.ok [], ⟨lg, ⟨[], Ending.eof l c, [], none⟩, MapFormat.Quake⟩) ∧
    doParseFaces env fuel wb ⟨lg, ⟨[], Ending.eof l c, [], none⟩, fmt⟩ =
      (Result.ok [], ⟨lg, ⟨[], Ending.eof l c, [], none⟩, MapFormat.Quake⟩) ∧
    doParseMap env fuel wb ⟨lg, ⟨[], Ending.eof l c, [], none⟩, fmt⟩ =
      (Result.ok { format := MapFormat.Quake, entities := [] },
        ⟨lg, ⟨[], Ending.eof l c, [], none⟩, MapFormat.Quake⟩) := by
  obtain ⟨k, rfl⟩ : ∃ k, fuel = k + 1 := ⟨fuel - 1, by omega⟩
  have hd := detectFormat_noParenthesis env lg [] l c fmt [] (k + 1) (by simp) (by simp)
  refine ⟨hd, ?_, ?_, ?_, ?_⟩
  · simp [doParseEntities, doParseList, tryCatchAll, hd, parseEntity_eof, collectLoop]
  · simp [doParseBrushes, doParseList, tryCatchAll, hd, parseBrush, collectLoop]
  · simp [doParseFaces, doParseList, tryCatchAll, hd, parseFace, collectLoop]
  · simp [doParseMap, hd, parseEntity_eof, doParseMapLoop]

/-- C12 for a new parser without logger on the empty input, with one unit of fuel. -/
theorem empty_input_gives_empty_Quake_witness :
    detectFormat exampleEnv 1 ⟨none, ⟨[], Ending.eof 1 1, [], none⟩, MapFormat.Unknown⟩ =
      (Result.ok MapFormat.Quake, ⟨none, ⟨[], Ending.eof 1 1, [], none⟩, MapFormat.Unknown⟩) ∧
    doParseEntities exampleEnv 1 exampleBounds
        ⟨none, ⟨[], Ending.eof 1 1, [], none⟩, MapFormat.Unknown⟩ =
      (Result.ok [], ⟨none, ⟨[], Ending.eof 1 1, [], none⟩, MapFormat.Quake⟩) ∧
    doParseBrushes exampleEnv 1 exampleBounds
        ⟨none, ⟨[], Ending.eof 1 1, [], none⟩, MapFormat.Unknown⟩ =
      (Result.ok [], ⟨none, ⟨[], Ending.eof 1 1, [], none⟩, MapFormat.Quake⟩) ∧
    doParseFaces exampleEnv 1 exampleBounds
        ⟨none, ⟨[], Ending.eof 1 1, [], none⟩, MapFormat.Unknown⟩ =
      (Result.ok [], ⟨none, ⟨[], Ending.eof 1 1, [], none⟩, MapFormat.Quake⟩) ∧
    doParseMap exampleEnv 1 exampleBounds
        ⟨none, ⟨[], Ending.eof 1 1, [], none⟩, MapFormat.Unknown⟩ =
      (Result.ok { format := MapFormat.Quake, entities := [] },
        ⟨none, ⟨[], Ending.eof 1 1, [], none⟩, MapFormat.Quake⟩) :=
  empty_input_gives_empty_Quake exampleEnv 1 exampleBounds none 1 1 MapFormat.Unknown
    (by decide)

/-! ## Claims about stray tokens in a brush or an entity -/

section Stray

variable {R : Type} [CommRing R] [DecidableEq R]

/-- The loop of `parseBrush` on a closing parenthesis: the default case accepts it and the
loop goes on with the next token. -/
theorem parseBrushLoop_skips (env : Env R) (wb : BBox3 R) (firstLine : Nat)
    (lg : Option (List LogEntry)) (inp : List Token) (en : Ending) (fmt : MapFormat)
    (t : Token) (rest : List Token) (n : Nat) (faces : List (BrushFace R))
    (ht : t.type = TokenType.CParenthesis) :
    parseBrushLoop env wb firstLine (n + 1) faces ⟨lg, ⟨inp, en, t :: rest, none⟩, fmt⟩ =
      parseBrushLoop env wb firstLine n faces ⟨lg, ⟨inp, en, rest, none⟩, fmt⟩ := by
  simp [parseBrushLoop, ht, expect]

/-- The loop of `parseBrush` on a token that is no parenthesis, no closing brace and not the
end of the input: the default case raises `UnexpectedToken`. -/
theorem parseBrushLoop_raises (env : Env R) (wb : BBox3 R) (firstLine : Nat)
    (lg : Option (List LogEntry)) (inp : List Token) (en : Ending) (fmt : MapFormat)
    (t : Token) (rest : List Token) (n : Nat) (faces : List (BrushFace R))
    (h1 : t.type ≠ TokenType.OParenthesis) (h2 : t.type ≠ TokenType.CParenthesis)
    (h3 : t.type ≠ TokenType.CBrace) (h4 : t.type ≠ TokenType.Eof) :
    parseBrushLoop env wb firstLine (n + 1) faces ⟨lg, ⟨inp, en, t :: rest, none⟩, fmt⟩ =
      (Result.thrown (Exception.unexpectedToken t.line t.column
          [TokenType.OParenthesis, TokenType.CParenthesis] t.type),
        ⟨lg, ⟨inp, en, rest, none⟩, fmt⟩) := by
  simp [parseBrushLoop, h1, h2, h3, h4, expect, throwException]

end Stray

/-- C14 (the code departs from the claim): in a brush body a closing parenthesis is skipped,
not rejected: the loop of `parseBrush` goes on with the token after it, as if it were not
there.  A token of any other kind that starts no face and is not the closing brace (and not
the end of the input) does raise `UnexpectedToken`, and the kinds it names as expected are the
two parentheses.  So a brush whose `{` is followed by a `)` and then by the six faces of a
box and `}` gives the same brush as without the `)`, whereas a `]` at that place raises. -/
theorem parseBrush_skips_closing_parenthesis :
    (∀ (R : Type) [CommRing R] [DecidableEq R] (env : Env R) (wb : BBox3 R) (firstLine : Nat)
        (lg : Option (List LogEntry)) (inp : List Token) (en : Ending) (fmt : MapFormat)
        (t : Token) (rest : List Token) (n : Nat) (faces : List (BrushFace R)),
      t.type = TokenType.CParenthesis →
      parseBrushLoop env wb firstLine (n + 1) faces ⟨lg, ⟨inp, en, t :: rest, none⟩, fmt⟩ =
        parseBrushLoop env wb firstLine n faces ⟨lg, ⟨inp, en, rest, none⟩, fmt⟩) ∧
    (∀ (R : Type) [CommRing R] [DecidableEq R] (env : Env R) (wb : BBox3 R) (firstLine : Nat)
        (lg : Option (List LogEntry)) (inp : List Token) (en : Ending) (fmt : MapFormat)
        (t : Token) (rest : List Token) (n : Nat) (faces : List (BrushFace R)),
      t.type ≠ TokenType.OParenthesis → t.type ≠ TokenType.CParenthesis →
      t.type ≠ TokenType.CBrace → t.type ≠ TokenType.Eof →
      parseBrushLoop env wb firstLine (n + 1) faces ⟨lg, ⟨inp, en, t :: rest, none⟩, fmt⟩ =
        (Result.thrown (Exception.unexpectedToken t.line t.column
            [TokenType.OParenthesis, TokenType.CParenthesis] t.type),
          ⟨lg, ⟨inp, en, rest, none⟩, fmt⟩)) ∧
    (parseBrush exampleEnv 8 exampleBounds
        ⟨some [], ⟨[], Ending.eof 9 1,
          sym TokenType.OBrace 1 :: sym TokenType.CParenthesis 2 ::
            (faceListTokens (cubeFaces 3) ++ [sym TokenType.CBrace 9]), none⟩,
          MapFormat.Quake⟩).1 =
      Result.ok (some { faces := (cubeFaces 3).map (FaceSrc.face exampleEnv)
                        filePosition := (1, 8) }) ∧
    (parseBrush exampleEnv 8 exampleBounds
        ⟨some [], ⟨[], Ending.eof 9 1,
          sym TokenType.OBrace 1 :: (faceListTokens (cubeFaces 3) ++ [sym TokenType.CBrace 9]),
          none⟩, MapFormat.Quake⟩).1 =
      Result.ok (some { faces := (cubeFaces 3).map (FaceSrc.face exampleEnv)
                        filePosition := (1, 8) }) ∧
    (parseBrush exampleEnv 8 exampleBounds
        ⟨some [], ⟨[], Ending.eof 9 1,
          sym TokenType.OBrace 1 :: sym TokenType.CBracket 2 ::
            (faceListTokens (cubeFaces 3) ++ [sym TokenType.CBrace 9]), none⟩,
          MapFormat.Quake⟩).1 =
      Result.thrown (Exception.unexpectedToken 2 1
        [TokenType.OParenthesis, TokenType.CParenthesis] TokenType.CBracket) :=
  ⟨fun _ _ _ env wb firstLine lg inp en fmt t rest n faces ht =>
      parseBrushLoop_skips env wb firstLine lg inp en fmt t rest n faces ht,
    fun _ _ _ env wb firstLine lg inp en fmt t rest n faces h1 h2 h3 h4 =>
      parseBrushLoop_raises env wb firstLine lg inp en fmt t rest n faces h1 h2 h3 h4,
    by decide!, by decide!, by decide!⟩

section StrayEntity

variable {R : Type} [CommRing R] [DecidableEq R]

end StrayEntity

section Properties

variable {R : Type}

theorem lookup_updated (k v k2 : String) (l : List (String × String)) :
    ((l.map (fun kv => if kv.1 == k then (k, v) else kv)).find? (fun kv => kv.1 == k2)).map
        (fun kv => kv.2) =
      if k2 = k then (if l.any (fun kv => kv.1 == k) then some v else none)
      else (l.find? (fun kv => kv.1 == k2)).map (fun kv => kv.2) := by
  induction l with
  | nil => simp
  | cons a l ih =>
    simp only [List.map_cons, List.find?_cons, List.any_cons]
    by_cases h1 : a.1 = k <;> by_cases h2 : k2 = k
    · subst h2; simp [h1]
    · have h5 : (k == k2) = false := by simpa using fun h => h2 h.symm
      have h6 : (a.1 == k) = true := by simpa using h1
      rw [if_neg h2] at ih ⊢
      simp only [h1, beq_self_eq_true, if_true, h5]
      exact ih
    · have h6 : (a.1 == k) = false := by simpa using h1
      have h7 : (a.1 == k2) = false := by rw [h2]; exact h6
      rw [if_pos h2] at ih ⊢
      simp only [h6, h7, Bool.false_or, if_false, Bool.false_eq_true]
      exact ih
    · have h6 : (a.1 == k) = false := by simpa using h1
      rw [if_neg h2] at ih ⊢
      simp only [h6, if_false, Bool.false_eq_true]
      cases h7 : (a.1 == k2)
      · exact ih
      · rfl

theorem lookup_appended (k v k2 : String) (l : List (String × String))
    (h : l.any (fun kv => kv.1 == k) = false) :
    ((l ++ [(k, v)]).find? (fun kv => kv.1 == k2)).map (fun kv => kv.2) =
      if k2 = k then some v else (l.find? (fun kv => kv.1 == k2)).map (fun kv => kv.2) := by
  induction l with
  | nil =>
    by_cases h2 : k2 = k
    · simp [h2]
    · have h3 : ¬ k = k2 := fun h => h2 h.symm
      simp [List.find?_cons, h2, h3]
  | cons a l ih =>
    simp only [List.any_cons, Bool.or_eq_false_iff] at h
    have ih2 := ih h.2
    simp only [List.cons_append, List.find?_cons]
    by_cases h2 : k2 = k
    · have h7 : (a.1 == k2) = false := by rw [h2]; exact h.1
      rw [if_pos h2] at ih2 ⊢
      simp only [h7]
      exact ih2
    · rw [if_neg h2] at ih2 ⊢
      cases h7 : (a.1 == k2)
      · exact ih2
      · rfl

/-- Looking up a key after `addOrUpdateProperty`: the new value under the key just set, the
old value under any other key. -/
theorem property_addOrUpdateProperty (e : Entity R) (k v k2 : String) :
    (e.addOrUpdateProperty k v).property k2 =
      if k2 = k then some v else e.property k2 := by
  unfold Entity.addOrUpdateProperty Entity.property
  by_cases h : e.properties.any (fun kv => kv.1 == k) = true
  · rw [if_pos h]
    simp only
    rw [lookup_updated, h]
    simp
  · rw [if_neg h]
    simp only
    rw [lookup_appended _ _ _ _ (Bool.eq_false_iff.mpr h)]

theorem addProperties_append (e : Entity R) (pairs : List (Token × Token)) (kv : Token × Token) :
    addProperties e (pairs ++ [kv]) =
      (addProperties e pairs).addOrUpdateProperty kv.1.data kv.2.data := by
  simp [addProperties, List.foldl_append]

/-- After the pairs were stored in source order, each key has the value of its last
occurrence. -/
theorem property_addProperties (pairs : List (Token × Token)) (key : String) :
    (addProperties (Entity.new : Entity R) pairs).property key = lastValue pairs key := by
  induction pairs using List.reverseRecOn with
  | nil => simp [addProperties, Entity.new, Entity.property, lastValue]
  | append_singleton pairs kv ih =>
    rw [addProperties_append, property_addOrUpdateProperty, ih]
    by_cases h : key = kv.1.data
    · simp [lastValue, h]
    · have h2 : ¬ kv.1.data = key := fun x => h x.symm
      simp [lastValue, h, h2]

theorem keys_addOrUpdateProperty (e : Entity R) (k v : String) :
    (e.addOrUpdateProperty k v).properties.map Prod.fst =
      if k ∈ e.properties.map Prod.fst then e.properties.map Prod.fst
      else e.properties.map Prod.fst ++ [k] := by
  unfold Entity.addOrUpdateProperty
  by_cases h : e.properties.any (fun kv => kv.1 == k) = true
  · have hm : k ∈ e.properties.map Prod.fst := by
      simp only [List.any_eq_true, beq_iff_eq] at h
      obtain ⟨x, hx, rfl⟩ := h
      exact List.mem_map_of_mem _ hx
    rw [if_pos h, if_pos hm]
    simp only [List.map_map]
    apply List.map_congr_left
    intro a _
    by_cases ha : a.1 = k <;> simp [ha]
  · have hm : ¬ k ∈ e.properties.map Prod.fst := by
      intro hk
      apply h
      obtain ⟨x, hx, rfl⟩ := List.mem_map.mp hk
      simp only [List.any_eq_true, beq_iff_eq]
      exact ⟨x, hx, rfl⟩
    rw [if_neg h, if_neg hm]
    simp

/-- The property mapping holds each key once. -/
theorem keys_addProperties_nodup (pairs : List (Token × Token)) :
    ((addProperties (Entity.new : Entity R) pairs).properties.map Prod.fst).Nodup := by
  induction pairs using List.reverseRecOn with
  | nil => simp [addProperties, Entity.new]
  | append_singleton pairs kv ih =>
    rw [addProperties_append, keys_addOrUpdateProperty]
    split
    · exact ih
    · rename_i h
      rw [List.nodup_append]
      refine ⟨ih, List.nodup_singleton _, ?_⟩
      intro a ha hb
      rw [List.mem_singleton] at hb
      subst hb
      exact h ha

end Properties
section MissingValue

variable {R : Type} [CommRing R] [DecidableEq R]

/-- `parseEntity` on an entity whose pairs are followed by a key and a token that is no
String: the `expect` for the value raises `UnexpectedToken` on that token. -/
theorem parseEntity_value_not_String (env : Env R) (fuel : Nat) (wb : BBox3 R)
    (lg : Option (List LogEntry)) (inp : List Token) (en : Ending) (fmt : MapFormat)
    (eo k t : Token) (pairs : List (Token × Token)) (rest : List Token)
    (heo : eo.type = TokenType.OBrace)
    (hpairs : ∀ kv ∈ pairs, kv.1.type = TokenType.String ∧ kv.2.type = TokenType.String)
    (hk : k.type = TokenType.String) (ht : t.type ≠ TokenType.String)
    (hfuel : pairs.length < fuel) :
    parseEntity env fuel wb
        ⟨lg, ⟨inp, en, eo :: (propertyTokens pairs ++ k :: t :: rest), none⟩, fmt⟩ =
      (Result.thrown (Exception.unexpectedToken t.line t.column [TokenType.String] t.type),
        ⟨lg, ⟨inp, en, rest, none⟩, fmt⟩) := by
  obtain ⟨m, hm⟩ : ∃ m, fuel = pairs.length + (m + 1) := ⟨fuel - pairs.length - 1, by omega⟩
  have hloop := parseEntityLoop_properties env fuel wb eo.line lg inp en fmt
    (k :: t :: rest) pairs (m + 1) Entity.new hpairs
  rw [← hm] at hloop
  have ht2 : t.type ∉ [TokenType.String] := by simpa using ht
  have hstep : parseEntityLoop env fuel wb eo.line (m + 1) (addProperties Entity.new pairs)
      ⟨lg, ⟨inp, en, k :: t :: rest, none⟩, fmt⟩ =
      (Result.thrown (Exception.unexpectedToken t.line t.column [TokenType.String] t.type),
        ⟨lg, ⟨inp, en, rest, none⟩, fmt⟩) := by
    simp only [parseEntityLoop, M.bind_apply, nextToken_cons, hk]
    simp only [reduceCtorEq, if_false, if_true, M.bind_apply, nextToken_cons]
    rw [expect_fail ht2]
  simp [parseEntity, heo, expect, hloop, hstep]

/-- `parseEntity` on an entity whose pairs are followed by a key and the end of the input: the
`expect` for the value raises `UnexpectedToken` at the end of the input. -/
theorem parseEntity_value_missing (env : Env R) (fuel : Nat) (wb : BBox3 R)
    (lg : Option (List LogEntry)) (inp : List Token) (l c : Nat) (fmt : MapFormat)
    (eo k : Token) (pairs : List (Token × Token))
    (heo : eo.type = TokenType.OBrace)
    (hpairs : ∀ kv ∈ pairs, kv.1.type = TokenType.String ∧ kv.2.type = TokenType.String)
    (hk : k.type = TokenType.String) (hfuel : pairs.length < fuel) :
    parseEntity env fuel wb
        ⟨lg, ⟨inp, Ending.eof l c, eo :: (propertyTokens pairs ++ [k]), none⟩, fmt⟩ =
      (Result.thrown (Exception.unexpectedToken l c [TokenType.String] TokenType.Eof),
        ⟨lg, ⟨inp, Ending.eof l c, [], none⟩, fmt⟩) := by
  obtain ⟨m, hm⟩ : ∃ m, fuel = pairs.length + (m + 1) := ⟨fuel - pairs.length - 1, by omega⟩
  have hloop := parseEntityLoop_properties env fuel wb eo.line lg inp (Ending.eof l c) fmt
    [k] pairs (m + 1) Entity.new hpairs
  rw [← hm] at hloop
  have hstep : parseEntityLoop env fuel wb eo.line (m + 1) (addProperties Entity.new pairs)
      ⟨lg, ⟨inp, Ending.eof l c, [k], none⟩, fmt⟩ =
      (Result.thrown (Exception.unexpectedToken l c [TokenType.String] TokenType.Eof),
        ⟨lg, ⟨inp, Ending.eof l c, [], none⟩, fmt⟩) := by
    simp [parseEntityLoop, hk, expect, throwException]
  simp [parseEntity, heo, expect, hloop, hstep]

/-- `parseEntity` on an entity whose pairs are followed by a key and a character the
tokenizer cannot read: the tokenizer raises its lexical error. -/
theorem parseEntity_value_unreadable (env : Env R) (fuel : Nat) (wb : BBox3 R)
    (lg : Option (List LogEntry)) (inp : List Token) (l c : Nat) (ch : String)
    (fmt : MapFormat) (eo k : Token) (pairs : List (Token × Token))
    (heo : eo.type = TokenType.OBrace)
    (hpairs : ∀ kv ∈ pairs, kv.1.type = TokenType.String ∧ kv.2.type = TokenType.String)
    (hk : k.type = TokenType.String) (hfuel : pairs.length < fuel) :
    parseEntity env fuel wb
        ⟨lg, ⟨inp, Ending.unexpectedCharacter l c ch, eo :: (propertyTokens pairs ++ [k]), none⟩,
          fmt⟩ =
      (Result.thrown (Exception.lexError l c ch),
        ⟨lg, ⟨inp, Ending.unexpectedCharacter l c ch, [], none⟩, fmt⟩) := by
  obtain ⟨m, hm⟩ : ∃ m, fuel = pairs.length + (m + 1) := ⟨fuel - pairs.length - 1, by omega⟩
  have hloop := parseEntityLoop_properties env fuel wb eo.line lg inp
    (Ending.unexpectedCharacter l c ch) fmt [k] pairs (m + 1) Entity.new hpairs
  rw [← hm] at hloop
  have hstep : parseEntityLoop env fuel wb eo.line (m + 1) (addProperties Entity.new pairs)
      ⟨lg, ⟨inp, Ending.unexpectedCharacter l c ch, [k], none⟩, fmt⟩ =
      (Result.thrown (Exception.lexError l c ch),
        ⟨lg, ⟨inp, Ending.unexpectedCharacter l c ch, [], none⟩, fmt⟩) := by
    simp [parseEntityLoop, hk, nextToken]
  simp [parseEntity, heo, expect, hloop, hstep]

end MissingValue
/-! ## Claims about properties -/

/-- C15: for an entity body made only of key / value String pairs, `parseEntity` returns an
entity whose property mapping holds each key once and sends it to the value of its last
occurrence in the source; when a key is followed by a token that is no String, or by the end
of the input, `parseEntity` raises (`UnexpectedToken` expecting a String, or the tokenizer's
lexical error). -/
theorem parseEntity_properties_last_value {R : Type} [CommRing R] [DecidableEq R]
    (env : Env R) (fuel : Nat) (wb : BBox3 R)
    (lg : Option (List LogEntry)) (inp : List Token) (en : Ending) (fmt : MapFormat)
    (eo ec k t : Token) (pairs : List (Token × Token)) (rest after : List Token)
    (heo : eo.type = TokenType.OBrace) (hec : ec.type = TokenType.CBrace)
    (hpairs : ∀ kv ∈ pairs, kv.1.type = TokenType.String ∧ kv.2.type = TokenType.String)
    (hk : k.type = TokenType.String) (ht : t.type ≠ TokenType.String)
    (hfuel : pairs.length + 2 ≤ fuel) :
    parseEntity env fuel wb ⟨lg, ⟨inp, en, entityTokens eo pairs [] ec ++ rest, none⟩, fmt⟩ =
      (Result.ok (some (parsedEntity env wb eo pairs [] ec)),
        ⟨lg, ⟨inp, en, rest, none⟩, fmt⟩) ∧
    (∀ key : String, (parsedEntity env wb eo pairs [] ec).property key = lastValue pairs key) ∧
    ((parsedEntity env wb eo pairs [] ec).properties.map Prod.fst).Nodup ∧
    parseEntity env fuel wb
        ⟨lg, ⟨inp, en, eo :: (propertyTokens pairs ++ k :: t :: after), none⟩, fmt⟩ =
      (Result.thrown (Exception.unexpectedToken t.line t.column [TokenType.String] t.type),
        ⟨lg, ⟨inp, en, after, none⟩, fmt⟩) ∧
    (∀ l c : Nat, parseEntity env fuel wb
        ⟨lg, ⟨inp, Ending.eof l c, eo :: (propertyTokens pairs ++ [k]), none⟩, fmt⟩ =
      (Result.thrown (Exception.unexpectedToken l c [TokenType.String] TokenType.Eof),
        ⟨lg, ⟨inp, Ending.eof l c, [], none⟩, fmt⟩)) ∧
    (∀ (l c : Nat) (ch : String), parseEntity env fuel wb
        ⟨lg, ⟨inp, Ending.unexpectedCharacter l c ch, eo :: (propertyTokens pairs ++ [k]), none⟩,
          fmt⟩ =
      (Result.thrown (Exception.lexError l c ch),
        ⟨lg, ⟨inp, Ending.unexpectedCharacter l c ch, [], none⟩, fmt⟩)) := by
  have hrun := parseEntity_run env fuel wb lg inp en fmt eo ec pairs [] rest heo hec hpairs
    (by simp) hfuel (by simp)
  rw [logAfter_nil] at hrun
  have hprops : (parsedEntity env wb eo pairs [] ec).properties =
      (addProperties (Entity.new : Entity R) pairs).properties := by
    simp [parsedEntity, addBrushes, Entity.setFilePosition]
  refine ⟨hrun, ?_, ?_, ?_, ?_, ?_⟩
  · intro key
    have h := @property_addProperties R pairs key
    rw [← h]
    simp only [Entity.property, hprops]
  · rw [hprops]
    exact keys_addProperties_nodup pairs
  · exact parseEntity_value_not_String env fuel wb lg inp en fmt eo k t pairs after heo hpairs
      hk ht (by omega)
  · intro l c
    exact parseEntity_value_missing env fuel wb lg inp l c fmt eo k pairs heo hpairs hk
      (by omega)
  · intro l c ch
    exact parseEntity_value_unreadable env fuel wb lg inp l c ch fmt eo k pairs heo hpairs hk
      (by omega)

/-- C15 at `{ "k" "a" "k" "b" }`, whose entity has the one property `k = b`, and at
`{ "k" "a" "k" "b" "x" }`, whose key `"x"` has no value. -/
theorem parseEntity_properties_last_value_witness :
    (parseEntity exampleEnv 4 exampleBounds
        ⟨none, ⟨[], Ending.eof 1 1,
          entityTokens (sym TokenType.OBrace 1)
            [(str "k" 1, str "a" 1), (str "k" 1, str "b" 1)] [] (sym TokenType.CBrace 1) ++ [],
          none⟩, MapFormat.Quake⟩ =
      (Result.ok (some (parsedEntity exampleEnv exampleBounds (sym TokenType.OBrace 1)
          [(str "k" 1, str "a" 1), (str "k" 1, str "b" 1)] [] (sym TokenType.CBrace 1))),
        ⟨none, ⟨[], Ending.eof 1 1, [], none⟩, MapFormat.Quake⟩) ∧
    (∀ key : String, (parsedEntity exampleEnv exampleBounds (sym TokenType.OBrace 1)
        [(str "k" 1, str "a" 1), (str "k" 1, str "b" 1)] [] (sym TokenType.CBrace 1)).property
          key =
      lastValue [(str "k" 1, str "a" 1), (str "k" 1, str "b" 1)] key) ∧
    ((parsedEntity exampleEnv exampleBounds (sym TokenType.OBrace 1)
        [(str "k" 1, str "a" 1), (str "k" 1, str "b" 1)] []
        (sym TokenType.CBrace 1)).properties.map Prod.fst).Nodup ∧
    parseEntity exampleEnv 4 exampleBounds
        ⟨none, ⟨[], Ending.eof 1 1,
          sym TokenType.OBrace 1 ::
            (propertyTokens [(str "k" 1, str "a" 1), (str "k" 1, str "b" 1)] ++
              str "x" 1 :: sym TokenType.CBrace 1 :: []), none⟩, MapFormat.Quake⟩ =
      (Result.thrown (Exception.unexpectedToken (sym TokenType.CBrace 1).line
          (sym TokenType.CBrace 1).column [TokenType.String] (sym TokenType.CBrace 1).type),
        ⟨none, ⟨[], Ending.eof 1 1, [], none⟩, MapFormat.Quake⟩) ∧
    (∀ l c : Nat, parseEntity exampleEnv 4 exampleBounds
        ⟨none, ⟨[], Ending.eof l c,
          sym TokenType.OBrace 1 ::
            (propertyTokens [(str "k" 1, str "a" 1), (str "k" 1, str "b" 1)] ++ [str "x" 1]),
          none⟩, MapFormat.Quake⟩ =
      (Result.thrown (Exception.unexpectedToken l c [TokenType.String] TokenType.Eof),
        ⟨none, ⟨[], Ending.eof l c, [], none⟩, MapFormat.Quake⟩)) ∧
    (∀ (l c : Nat) (ch : String), parseEntity exampleEnv 4 exampleBounds
        ⟨none, ⟨[], Ending.unexpectedCharacter l c ch,
          sym TokenType.OBrace 1 ::
            (propertyTokens [(str "k" 1, str "a" 1), (str "k" 1, str "b" 1)] ++ [str "x" 1]),
          none⟩, MapFormat.Quake⟩ =
      (Result.thrown (Exception.lexError l c ch),
        ⟨none, ⟨[], Ending.unexpectedCharacter l c ch, [], none⟩, MapFormat.Quake⟩))) ∧
    parsedEntity exampleEnv exampleBounds (sym TokenType.OBrace 1)
        [(str "k" 1, str "a" 1), (str "k" 1, str "b" 1)] [] (sym TokenType.CBrace 1) =
      { properties := [("k", "b")], brushes := [], filePosition := (1, 0) } :=
  ⟨parseEntity_properties_last_value exampleEnv 4 exampleBounds none [] (Ending.eof 1 1)
    MapFormat.Quake (sym TokenType.OBrace 1) (sym TokenType.CBrace 1) (str "x" 1)
    (sym TokenType.CBrace 1) [(str "k" 1, str "a" 1), (str "k" 1, str "b" 1)] [] []
    (by decide) (by decide) (by decide) (by decide) (by decide) (by decide), by decide⟩

/-! ## The fields of a face -/

section FaceFields

variable {R : Type} [CommRing R] [DecidableEq R]

/-- `parseFace` reads its first token from the pushback slot or from the input alike. -/
theorem parseFace_unpushed (env : Env R) (wb : BBox3 R) (lg : Option (List LogEntry))
    (inp : List Token) (en : Ending) (fmt : MapFormat) (t : Token) (ts : List Token) :
    parseFace env wb ⟨lg, ⟨inp, en, t :: ts, none⟩, fmt⟩ =
      parseFace env wb ⟨lg, ⟨inp, en, ts, some t⟩, fmt⟩ := by
  simp only [parseFace, M.bind_apply, nextToken_cons, nextToken_pushed]

/-- Lines 361 to 378 on well-formed offsets: they are read and nothing else. -/
theorem parseFaceOffsets_run (env : Env R) (lg : Option (List LogEntry)) (inp : List Token)
    (en : Ending) (fmt : MapFormat) (o : OffsetsSrc) (rest : List Token)
    (ho : o.WellFormed fmt) :
    parseFaceOffsets env ⟨lg, ⟨inp, en, o.tokens ++ rest, none⟩, fmt⟩ =
      (Result.ok (o.values env), ⟨lg, ⟨inp, en, rest, none⟩, fmt⟩) := by
  cases o with
  | bare xo yo =>
    obtain ⟨hfmt, a1, a2⟩ := ho
    simp [parseFaceOffsets, hfmt, OffsetsSrc.tokens, OffsetsSrc.values,
      expect_ok (mem_numberMask a1), expect_ok (mem_numberMask a2)]
  | axes o1 x1 y1 z1 xo c1 o2 x2 y2 z2 yo c2 =>
    obtain ⟨hfmt, a1, a2, a3, a4, a5, a6, a7, a8, a9, a10, a11, a12⟩ := ho
    subst hfmt
    simp [parseFaceOffsets, OffsetsSrc.tokens, OffsetsSrc.values,
      expect_ok (List.mem_singleton.mpr a1),
      parseVector_run env lg inp en _ _ _ _ _ a2 a3 a4, expect_ok (mem_numberMask a5),
      expect_ok (List.mem_singleton.mpr a6), expect_ok (List.mem_singleton.mpr a7),
      parseVector_run env lg inp en _ _ _ _ _ a8 a9 a10, expect_ok (mem_numberMask a11),
      expect_ok (List.mem_singleton.mpr a12)]

/-- Lines 374 to 377 when `m_format` is not `Valve`: a token that is no number where the x
offset should stand raises `UnexpectedToken`. -/
theorem parseFaceOffsets_stray (env : Env R) (lg : Option (List LogEntry)) (inp : List Token)
    (en : Ending) (fmt : MapFormat) (t : Token) (rest : List Token)
    (hfmt : fmt ≠ MapFormat.Valve) (ht : ¬ t.isNumber) :
    parseFaceOffsets env ⟨lg, ⟨inp, en, t :: rest, none⟩, fmt⟩ =
      (Result.thrown (Exception.unexpectedToken t.line t.column
          [TokenType.Integer, TokenType.Decimal] t.type),
        ⟨lg, ⟨inp, en, rest, none⟩, fmt⟩) := by
  have ht2 : t.type ∉ numberMask := by simpa [numberMask, Token.isNumber] using ht
  simp only [parseFaceOffsets, M.bind_apply, getFormat_apply, hfmt, if_false, nextToken_cons]
  rw [expect_fail ht2]
  rfl

/-- Lines 393 to 408 on well-formed surface fields: they are read and nothing else. -/
theorem parseFaceSurface_run (env : Env R) (lg : Option (List LogEntry)) (inp : List Token)
    (en : Ending) (fmt : MapFormat) (s : SurfaceSrc) (yScale : Token) (rest : List Token)
    (hs : s.WellFormed fmt) :
    parseFaceSurface env yScale ⟨lg, ⟨inp, en, s.tokens ++ rest, none⟩, fmt⟩ =
      (Result.ok (s.values env yScale), ⟨lg, ⟨inp, en, rest, none⟩, fmt⟩) := by
  cases s with
  | absent =>
    obtain ⟨h1, h2⟩ := hs
    simp [parseFaceSurface, h1, h2, SurfaceSrc.tokens, SurfaceSrc.values]
  | flag t =>
    obtain ⟨hfmt, a1⟩ := hs
    subst hfmt
    simp [parseFaceSurface, SurfaceSrc.tokens, SurfaceSrc.values, expect_ok (mem_numberMask a1)]
  | attrs sc sf sv =>
    obtain ⟨hfmt, a1, a2, a3⟩ := hs
    subst hfmt
    simp [parseFaceSurface, SurfaceSrc.tokens, SurfaceSrc.values,
      expect_ok (List.mem_singleton.mpr a1), expect_ok (List.mem_singleton.mpr a2),
      expect_ok (mem_numberMask a3)]

/-- Line 394 when `m_format` is `Quake2`: a token that is no Integer where the surface
contents should stand raises `UnexpectedToken`. -/
theorem parseFaceSurface_contents_stray (env : Env R) (lg : Option (List LogEntry))
    (inp : List Token) (en : Ending) (yScale t : Token) (rest : List Token)
    (ht : t.type ≠ TokenType.Integer) :
    parseFaceSurface env yScale ⟨lg, ⟨inp, en, t :: rest, none⟩, MapFormat.Quake2⟩ =
      (Result.thrown (Exception.unexpectedToken t.line t.column [TokenType.Integer] t.type),
        ⟨lg, ⟨inp, en, rest, none⟩, MapFormat.Quake2⟩) := by
  have ht2 : t.type ∉ [TokenType.Integer] := by simpa using ht
  simp only [parseFaceSurface, M.bind_apply, getFormat_apply, if_true, nextToken_cons]
  rw [expect_fail ht2]

/-- Line 396 when `m_format` is `Quake2`: a token that is no Integer where the surface flags
should stand raises `UnexpectedToken`. -/
theorem parseFaceSurface_flags_stray (env : Env R) (lg : Option (List LogEntry))
    (inp : List Token) (en : Ending) (yScale sc t : Token) (rest : List Token)
    (hsc : sc.type = TokenType.Integer) (ht : t.type ≠ TokenType.Integer) :
    parseFaceSurface env yScale ⟨lg, ⟨inp, en, sc :: t :: rest, none⟩, MapFormat.Quake2⟩ =
      (Result.thrown (Exception.unexpectedToken t.line t.column [TokenType.Integer] t.type),
        ⟨lg, ⟨inp, en, rest, none⟩, MapFormat.Quake2⟩) := by
  have ht2 : t.type ∉ [TokenType.Integer] := by simpa using ht
  simp only [parseFaceSurface, M.bind_apply, getFormat_apply, if_true, nextToken_cons,
    expect_ok (List.mem_singleton.mpr hsc)]
  rw [expect_fail ht2]

end FaceFields
section FaceSteps

variable {R : Type} [CommRing R] [DecidableEq R]

/-- `parseFace` on a well-formed head with collinear points: it returns NULL right after the
texture name. -/
theorem parseFace_head_degenerate (env : Env R) (wb : BBox3 R) (lg : Option (List LogEntry))
    (inp : List Token) (en : Ending) (fmt : MapFormat) (h : FaceHead) (rest : List Token)
    (hh : h.WellFormed) (hdeg : (h.cross env).null = true) :
    parseFace env wb ⟨lg, ⟨inp, en, h.tokens ++ rest, none⟩, fmt⟩ =
      (Result.ok none, ⟨lg, ⟨inp, en, rest, none⟩, fmt⟩) := by
  have := parseFace_degenerate_pushed env wb lg inp en fmt h.pt1 h.pt2 h.pt3 h.texture rest
    hh.1 hh.2.1 hh.2.2.1 hh.2.2.2 hdeg
  rw [← this, ← parseFace_unpushed]
  simp [FaceHead.tokens, PointSrc.tokens]

/-- `parseFace` on a well-formed head with non-collinear points, when the offsets, the
rotation, the scales and the surface fields are read without error: it returns the face built
from what was read. -/
theorem parseFace_steps (env : Env R) (wb : BBox3 R) (lg : Option (List LogEntry))
    (inp : List Token) (en : Ending) (fmt : MapFormat) (h : FaceHead)
    (rest0 rest1 : List Token) (rot xs ys : Token) (off : Option (Vec3 R × Vec3 R) × R × R)
    (s : Nat × Nat × R × Token) (p2 : QuakeMapParser)
    (hh : h.WellFormed) (hn : (h.cross env).null = false)
    (hoff : parseFaceOffsets env ⟨lg, ⟨inp, en, rest0, none⟩, fmt⟩ =
      (Result.ok off, ⟨lg, ⟨inp, en, rot :: xs :: ys :: rest1, none⟩, fmt⟩))
    (hrot : rot.isNumber) (hxs : xs.isNumber) (hys : ys.isNumber)
    (hsurf : parseFaceSurface env ys ⟨lg, ⟨inp, en, rest1, none⟩, fmt⟩ = (Result.ok s, p2)) :
    parseFace env wb ⟨lg, ⟨inp, en, h.tokens ++ rest0, none⟩, fmt⟩ =
      (Result.ok (some (buildFace (env.corrected (h.pt1.vec env))
          (env.corrected (h.pt2.vec env)) (env.corrected (h.pt3.vec env))
          (env.normalized (h.cross env))
          (if h.texture.data = NoTextureName then "" else h.texture.data)
          (if fmt = MapFormat.Valve then off.1 else none) off.2.1 off.2.2
          (env.toFloat rot) (env.toFloat xs) (env.toFloat ys) s)), p2) := by
  obtain ⟨h1, h2, h3, htex⟩ := hh
  have hnull : (env.normalized (h.cross env)).null = false := by
    rw [env.normalized_null]; exact hn
  have ho1 : h.pt1.o.type ≠ TokenType.Eof := by rw [h1.1]; decide
  rcases h with ⟨pt1, pt2, pt3, texture⟩
  simp only at h1 h2 h3 htex hnull ho1
  unfold FaceHead.cross at hnull
  simp only at hnull
  obtain ⟨axes, xo, yo⟩ := off
  obtain ⟨sc, sf, sv, tk⟩ := s
  simp only [parseFace, M.bind_apply, FaceHead.tokens, PointSrc.tokens, List.cons_append,
    List.nil_append, List.append_assoc, nextToken_cons, ho1, if_false,
    expect_ok (List.mem_singleton.mpr h1.1),
    parseVector_point env lg inp en _ pt1 h1, parseVector_point env lg inp en _ pt2 h2,
    parseVector_point env lg inp en _ pt3 h3,
    expect_ok (List.mem_singleton.mpr h1.2.2.2.2),
    expect_ok (List.mem_singleton.mpr h2.1), expect_ok (List.mem_singleton.mpr h2.2.2.2.2),
    expect_ok (List.mem_singleton.mpr h3.1), expect_ok (List.mem_singleton.mpr h3.2.2.2.2),
    expect_ok (List.mem_singleton.mpr htex), hnull, Bool.false_eq_true]
  rw [hoff]
  simp only [nextToken_cons, M.bind_apply, expect_ok (mem_numberMask hrot),
    expect_ok (mem_numberMask hxs), expect_ok (mem_numberMask hys), getFormat_apply]
  rw [hsurf]
  by_cases hv : fmt = MapFormat.Valve
  · subst hv
    cases axes <;> simp [buildFace, FaceHead.cross]
  · cases axes <;> simp [buildFace, FaceHead.cross, hv]

end FaceSteps
section FaceRaises

variable {R : Type} [CommRing R] [DecidableEq R]

/-- `parseFace` on a well-formed head with non-collinear points, when reading the offsets
raises: `parseFace` raises the same exception. -/
theorem parseFace_offsets_raise (env : Env R) (wb : BBox3 R) (lg : Option (List LogEntry))
    (inp : List Token) (en : Ending) (fmt : MapFormat) (h : FaceHead)
    (rest0 : List Token) (e : Exception) (q : QuakeMapParser)
    (hh : h.WellFormed) (hn : (h.cross env).null = false)
    (hoff : parseFaceOffsets env ⟨lg, ⟨inp, en, rest0, none⟩, fmt⟩ = (Result.thrown e, q)) :
    parseFace env wb ⟨lg, ⟨inp, en, h.tokens ++ rest0, none⟩, fmt⟩ = (Result.thrown e, q) := by
  obtain ⟨h1, h2, h3, htex⟩ := hh
  have hnull : (env.normalized (h.cross env)).null = false := by
    rw [env.normalized_null]; exact hn
  have ho1 : h.pt1.o.type ≠ TokenType.Eof := by rw [h1.1]; decide
  rcases h with ⟨pt1, pt2, pt3, texture⟩
  simp only at h1 h2 h3 htex hnull ho1
  unfold FaceHead.cross at hnull
  simp only at hnull
  simp only [parseFace, M.bind_apply, FaceHead.tokens, PointSrc.tokens, List.cons_append,
    List.nil_append, List.append_assoc, nextToken_cons, ho1, if_false,
    expect_ok (List.mem_singleton.mpr h1.1),
    parseVector_point env lg inp en _ pt1 h1, parseVector_point env lg inp en _ pt2 h2,
    parseVector_point env lg inp en _ pt3 h3,
    expect_ok (List.mem_singleton.mpr h1.2.2.2.2),
    expect_ok (List.mem_singleton.mpr h2.1), expect_ok (List.mem_singleton.mpr h2.2.2.2.2),
    expect_ok (List.mem_singleton.mpr h3.1), expect_ok (List.mem_singleton.mpr h3.2.2.2.2),
    expect_ok (List.mem_singleton.mpr htex), hnull, Bool.false_eq_true]
  rw [hoff]

/-- `parseFace` on a well-formed head with non-collinear points, well-read offsets, rotation
and scales, when reading the surface fields raises: `parseFace` raises the same exception. -/
theorem parseFace_surface_raise (env : Env R) (wb : BBox3 R) (lg : Option (List LogEntry))
    (inp : List Token) (en : Ending) (fmt : MapFormat) (h : FaceHead)
    (rest0 rest1 : List Token) (rot xs ys : Token) (off : Option (Vec3 R × Vec3 R) × R × R)
    (e : Exception) (q : QuakeMapParser)
    (hh : h.WellFormed) (hn : (h.cross env).null = false)
    (hoff : parseFaceOffsets env ⟨lg, ⟨inp, en, rest0, none⟩, fmt⟩ =
      (Result.ok off, ⟨lg, ⟨inp, en, rot :: xs :: ys :: rest1, none⟩, fmt⟩))
    (hrot : rot.isNumber) (hxs : xs.isNumber) (hys : ys.isNumber)
    (hsurf : parseFaceSurface env ys ⟨lg, ⟨inp, en, rest1, none⟩, fmt⟩ =
      (Result.thrown e, q)) :
    parseFace env wb ⟨lg, ⟨inp, en, h.tokens ++ rest0, none⟩, fmt⟩ = (Result.thrown e, q) := by
  obtain ⟨h1, h2, h3, htex⟩ := hh
  have hnull : (env.normalized (h.cross env)).null = false := by
    rw [env.normalized_null]; exact hn
  have ho1 : h.pt1.o.type ≠ TokenType.Eof := by rw [h1.1]; decide
  rcases h with ⟨pt1, pt2, pt3, texture⟩
  simp only at h1 h2 h3 htex hnull ho1
  unfold FaceHead.cross at hnull
  simp only at hnull
  obtain ⟨axes, xo, yo⟩ := off
  simp only [parseFace, M.bind_apply, FaceHead.tokens, PointSrc.tokens, List.cons_append,
    List.nil_append, List.append_assoc, nextToken_cons, ho1, if_false,
    expect_ok (List.mem_singleton.mpr h1.1),
    parseVector_point env lg inp en _ pt1 h1, parseVector_point env lg inp en _ pt2 h2,
    parseVector_point env lg inp en _ pt3 h3,
    expect_ok (List.mem_singleton.mpr h1.2.2.2.2),
    expect_ok (List.mem_singleton.mpr h2.1), expect_ok (List.mem_singleton.mpr h2.2.2.2.2),
    expect_ok (List.mem_singleton.mpr h3.1), expect_ok (List.mem_singleton.mpr h3.2.2.2.2),
    expect_ok (List.mem_singleton.mpr htex), hnull, Bool.false_eq_true]
  rw [hoff]
  simp only [nextToken_cons, M.bind_apply, expect_ok (mem_numberMask hrot),
    expect_ok (mem_numberMask hxs), expect_ok (mem_numberMask hys), getFormat_apply]
  rw [hsurf]

omit [CommRing R] [DecidableEq R] in
theorem faceText_tokens_append (f : FaceText) (rest : List Token) :
    f.tokens ++ rest =
      f.head.tokens ++ (f.offsets.tokens ++
        f.rotation :: f.xScale :: f.yScale :: (f.surface.tokens ++ rest)) := by
  simp [FaceText.tokens]

/-- `parseFace` on a well-formed, non-degenerate face: it returns the face and has read
exactly the tokens of the face. -/
theorem parseFace_text (env : Env R) (wb : BBox3 R) (lg : Option (List LogEntry))
    (inp : List Token) (en : Ending) (fmt : MapFormat) (f : FaceText) (rest : List Token)
    (hf : f.WellFormed fmt) (hn : (f.head.cross env).null = false) :
    parseFace env wb ⟨lg, ⟨inp, en, f.tokens ++ rest, none⟩, fmt⟩ =
      (Result.ok (some (f.face env)), ⟨lg, ⟨inp, en, rest, none⟩, fmt⟩) := by
  obtain ⟨hh, ho, hrot, hxs, hys, hs⟩ := hf
  have hoff := parseFaceOffsets_run env lg inp en fmt f.offsets
    (f.rotation :: f.xScale :: f.yScale :: (f.surface.tokens ++ rest)) ho
  have hsurf := parseFaceSurface_run env lg inp en fmt f.surface f.yScale rest hs
  have hstep := parseFace_steps env wb lg inp en fmt f.head _ _ _ _ _ _ _ _ hh hn hoff hrot hxs
    hys hsurf
  rw [faceText_tokens_append, hstep]
  have hax : (if fmt = MapFormat.Valve then (f.offsets.values env).1 else none) =
      (f.offsets.values env).1 := by
    rcases f with ⟨hd, o, r, x, y, s⟩
    cases o with
    | bare xo yo => simp [OffsetsSrc.values]
    | axes o1 x1 y1 z1 xo c1 o2 x2 y2 z2 yo c2 => simp [ho.1]
  rw [hax]
  rfl

end FaceRaises

/-! ## Claims about the fields of a face -/

section NullVector

variable {R : Type} [CommRing R] [DecidableEq R]

/-- `null` holds of the zero vector only. -/
theorem null_iff_zero (v : Vec3 R) : v.null = true ↔ v = ⟨0, 0, 0⟩ := by
  rcases v with ⟨x, y, z⟩
  simp [Vec3.null, and_assoc]

theorem null_false_iff (v : Vec3 R) : v.null = false ↔ v ≠ ⟨0, 0, 0⟩ := by
  rw [ne_eq, ← null_iff_zero]
  cases v.null <;> simp

end NullVector

/-- C16: for a face that is well-formed for the current `m_format` and whose three points
`corrected()` leaves as they are (which models integer coordinates), `parseFace` returns NULL
if and only if `crossed(p3 - p1, p2 - p1)` is the zero vector; otherwise it returns a face
whose points are p1, p2, p3 in source order, having read exactly the tokens of the face; in
neither case does it raise. -/
theorem parseFace_null_iff_cross_zero {R : Type} [CommRing R] [DecidableEq R]
    (env : Env R) (wb : BBox3 R) (lg : Option (List LogEntry)) (inp : List Token)
    (en : Ending) (fmt : MapFormat) (f : FaceText) (rest : List Token)
    (hf : f.WellFormed fmt)
    (hint : env.corrected (f.head.pt1.vec env) = f.head.pt1.vec env ∧
      env.corrected (f.head.pt2.vec env) = f.head.pt2.vec env ∧
      env.corrected (f.head.pt3.vec env) = f.head.pt3.vec env) :
    ((parseFace env wb ⟨lg, ⟨inp, en, f.tokens ++ rest, none⟩, fmt⟩).1 = Result.ok none ↔
      crossed ((f.head.pt3.vec env).sub (f.head.pt1.vec env))
        ((f.head.pt2.vec env).sub (f.head.pt1.vec env)) = ⟨0, 0, 0⟩) ∧
    (crossed ((f.head.pt3.vec env).sub (f.head.pt1.vec env))
        ((f.head.pt2.vec env).sub (f.head.pt1.vec env)) ≠ ⟨0, 0, 0⟩ →
      ∃ face : BrushFace R,
        parseFace env wb ⟨lg, ⟨inp, en, f.tokens ++ rest, none⟩, fmt⟩ =
          (Result.ok (some face), ⟨lg, ⟨inp, en, rest, none⟩, fmt⟩) ∧
        face.p1 = f.head.pt1.vec env ∧ face.p2 = f.head.pt2.vec env ∧
        face.p3 = f.head.pt3.vec env) ∧
    (∀ e : Exception,
      (parseFace env wb ⟨lg, ⟨inp, en, f.tokens ++ rest, none⟩, fmt⟩).1 ≠ Result.thrown e) ∧
    (parseFace env wb ⟨lg, ⟨inp, en, f.tokens ++ rest, none⟩, fmt⟩).1 ≠ Result.outOfFuel := by
  have hcross : f.head.cross env =
      crossed ((f.head.pt3.vec env).sub (f.head.pt1.vec env))
        ((f.head.pt2.vec env).sub (f.head.pt1.vec env)) := by
    simp only [FaceHead.cross, hint.1, hint.2.1, hint.2.2]
  rw [← hcross]
  by_cases hz : f.head.cross env = ⟨0, 0, 0⟩
  · have hdeg := (null_iff_zero _).mpr hz
    have hrun := parseFace_head_degenerate env wb lg inp en fmt f.head
      (f.offsets.tokens ++ f.rotation :: f.xScale :: f.yScale :: (f.surface.tokens ++ rest))
      hf.1 hdeg
    rw [← faceText_tokens_append] at hrun
    rw [hrun]
    exact ⟨⟨fun _ => hz, fun _ => rfl⟩, fun h => absurd hz h, fun e => by simp, by simp⟩
  · have hn := (null_false_iff _).mpr hz
    have hrun := parseFace_text env wb lg inp en fmt f rest hf hn
    rw [hrun]
    refine ⟨⟨fun h => by simp at h, fun h => absurd h hz⟩, fun _ => ⟨f.face env, rfl, ?_, ?_, ?_⟩,
      fun e => by simp, by simp⟩
    · simp only [FaceText.face, buildFace, hint.1]
    · simp only [FaceText.face, buildFace, hint.2.1]
    · simp only [FaceText.face, buildFace, hint.2.2]

/-- C16 at the face `( 0 0 0 ) ( 0 1 0 ) ( 1 0 0 ) TEXTURE 0 0 0 1 1`, whose points are not
collinear: a face with these points, and no error. -/
theorem parseFace_null_iff_cross_zero_witness :
    (∃ face : BrushFace ℤ,
      parseFace exampleEnv exampleBounds
          ⟨none, ⟨[], Ending.eof 1 1, (exampleFaceText "TEXTURE" 1).tokens ++ [], none⟩,
            MapFormat.Quake⟩ =
        (Result.ok (some face), ⟨none, ⟨[], Ending.eof 1 1, [], none⟩, MapFormat.Quake⟩) ∧
      face.p1 = (exampleFaceText "TEXTURE" 1).head.pt1.vec exampleEnv ∧
      face.p2 = (exampleFaceText "TEXTURE" 1).head.pt2.vec exampleEnv ∧
      face.p3 = (exampleFaceText "TEXTURE" 1).head.pt3.vec exampleEnv) ∧
    (parseFace exampleEnv exampleBounds
        ⟨none, ⟨[], Ending.eof 1 1, (degenerateFaceText 1).tokens ++ [], none⟩,
          MapFormat.Quake⟩).1 = Result.ok none :=
  ⟨(parseFace_null_iff_cross_zero exampleEnv exampleBounds none [] (Ending.eof 1 1)
      MapFormat.Quake (exampleFaceText "TEXTURE" 1) [] (by decide) ⟨rfl, rfl, rfl⟩).2.1
      (by decide),
    (parseFace_null_iff_cross_zero exampleEnv exampleBounds none [] (Ending.eof 1 1)
      MapFormat.Quake (degenerateFaceText 1) [] (by decide) ⟨rfl, rfl, rfl⟩).1.mpr
      (by decide)⟩

/-- C17: after the y scale of a face (head, offsets, rotation and scales well-formed for the
current `m_format`, points not collinear) `parseFace` reads exactly the trailing fields of
`m_format`: nothing for `Quake`, `Valve` and `Unknown`, one numeric token, which it discards,
for `Hexen2`, and two Integer tokens and one numeric token for `Quake2`; the tokens `rest`
after them stay unread.  The face's surface contents, flags and value are the three values
read for `Quake2` and 0, 0, 0 for every other format.  For `Quake2` a token that is no Integer
(a Decimal, for one) in the first or the second of the three places raises
`UnexpectedToken`. -/
theorem parseFace_surface_fields {R : Type} [CommRing R] [DecidableEq R]
    (env : Env R) (wb : BBox3 R) (lg : Option (List LogEntry)) (inp : List Token)
    (en : Ending) (fmt : MapFormat) (f : FaceText) (rest : List Token)
    (hh : f.head.WellFormed) (hn : (f.head.cross env).null = false)
    (ho : f.offsets.WellFormed fmt) (hrot : f.rotation.isNumber) (hxs : f.xScale.isNumber)
    (hys : f.yScale.isNumber) :
    (fmt ≠ MapFormat.Quake2 → fmt ≠ MapFormat.Hexen2 →
      ∃ face : BrushFace R,
        parseFace env wb ⟨lg, ⟨inp, en,
            { f with surface := SurfaceSrc.absent }.tokens ++ rest, none⟩, fmt⟩ =
          (Result.ok (some face), ⟨lg, ⟨inp, en, rest, none⟩, fmt⟩) ∧
        face.surfaceContents = 0 ∧ face.surfaceFlags = 0 ∧ face.surfaceValue = 0) ∧
    (fmt = MapFormat.Hexen2 → ∀ t : Token, t.isNumber →
      ∃ face : BrushFace R,
        parseFace env wb ⟨lg, ⟨inp, en,
            { f with surface := SurfaceSrc.flag t }.tokens ++ rest, none⟩, fmt⟩ =
          (Result.ok (some face), ⟨lg, ⟨inp, en, rest, none⟩, fmt⟩) ∧
        face.surfaceContents = 0 ∧ face.surfaceFlags = 0 ∧ face.surfaceValue = 0) ∧
    (fmt = MapFormat.Quake2 → ∀ sc sf sv : Token,
      sc.type = TokenType.Integer → sf.type = TokenType.Integer → sv.isNumber →
      ∃ face : BrushFace R,
        parseFace env wb ⟨lg, ⟨inp, en,
            { f with surface := SurfaceSrc.attrs sc sf sv }.tokens ++ rest, none⟩, fmt⟩ =
          (Result.ok (some face), ⟨lg, ⟨inp, en, rest, none⟩, fmt⟩) ∧
        face.surfaceContents = env.toInteger sc ∧ face.surfaceFlags = env.toInteger sf ∧
        face.surfaceValue = env.toFloat sv) ∧
    (fmt = MapFormat.Quake2 → ∀ sc : Token, sc.type ≠ TokenType.Integer →
      parseFace env wb ⟨lg, ⟨inp, en,
          { f with surface := SurfaceSrc.absent }.tokens ++ sc :: rest, none⟩, fmt⟩ =
        (Result.thrown (Exception.unexpectedToken sc.line sc.column [TokenType.Integer]
            sc.type),
          ⟨lg, ⟨inp, en, rest, none⟩, fmt⟩)) ∧
    (fmt = MapFormat.Quake2 → ∀ sc sf : Token,
      sc.type = TokenType.Integer → sf.type ≠ TokenType.Integer →
      parseFace env wb ⟨lg, ⟨inp, en,
          { f with surface := SurfaceSrc.absent }.tokens ++ sc :: sf :: rest, none⟩, fmt⟩ =
        (Result.thrown (Exception.unexpectedToken sf.line sf.column [TokenType.Integer]
            sf.type),
          ⟨lg, ⟨inp, en, rest, none⟩, fmt⟩)) := by
  have hfront : ∀ tail : List Token,
      { f with surface := SurfaceSrc.absent }.tokens ++ tail =
        f.head.tokens ++ (f.offsets.tokens ++ f.rotation :: f.xScale :: f.yScale :: tail) := by
    intro tail
    simp [FaceText.tokens, SurfaceSrc.tokens]
  refine ⟨?_, ?_, ?_, ?_, ?_⟩
  · intro h1 h2
    refine ⟨_, parseFace_text env wb lg inp en fmt { f with surface := SurfaceSrc.absent } rest
      ⟨hh, ho, hrot, hxs, hys, h1, h2⟩ hn, rfl, rfl, rfl⟩
  · intro h1 t ht
    refine ⟨_, parseFace_text env wb lg inp en fmt { f with surface := SurfaceSrc.flag t } rest
      ⟨hh, ho, hrot, hxs, hys, h1, ht⟩ hn, rfl, rfl, rfl⟩
  · intro h1 sc sf sv hsc hsf hsv
    refine ⟨_, parseFace_text env wb lg inp en fmt
      { f with surface := SurfaceSrc.attrs sc sf sv } rest
      ⟨hh, ho, hrot, hxs, hys, h1, hsc, hsf, hsv⟩ hn, rfl, rfl, rfl⟩
  · intro h1 sc hsc
    subst h1
    rw [hfront]
    exact parseFace_surface_raise env wb lg inp en MapFormat.Quake2 f.head _ _ _ _ _ _ _ _ hh hn
      (parseFaceOffsets_run env lg inp en MapFormat.Quake2 f.offsets _ ho) hrot hxs hys
      (parseFaceSurface_contents_stray env lg inp en f.yScale sc rest hsc)
  · intro h1 sc sf hsc hsf
    subst h1
    rw [hfront]
    exact parseFace_surface_raise env wb lg inp en MapFormat.Quake2 f.head _ _ _ _ _ _ _ _ hh hn
      (parseFaceOffsets_run env lg inp en MapFormat.Quake2 f.offsets _ ho) hrot hxs hys
      (parseFaceSurface_flags_stray env lg inp en f.yScale sc sf rest hsc hsf)

/-- C17 at the StandardD face `( 0 0 0 ) ( 0 1 0 ) ( 1 0 0 ) TEXTURE 0 0 0 1 1 7 3 250`
followed by `}`: contents 7, flags 3, value 250, and the `}` unread; with `7.5` in the place
of the `7` the face is rejected. -/
theorem parseFace_surface_fields_witness :
    (∃ face : BrushFace ℤ,
      parseFace exampleEnv exampleBounds ⟨none, ⟨[], Ending.eof 2 1,
          { exampleFaceText "TEXTURE" 1 with
            surface := SurfaceSrc.attrs (num "7" 1) (num "3" 1) (num "250" 1) }.tokens ++
            [sym TokenType.CBrace 2], none⟩, MapFormat.Quake2⟩ =
        (Result.ok (some face),
          ⟨none, ⟨[], Ending.eof 2 1, [sym TokenType.CBrace 2], none⟩, MapFormat.Quake2⟩) ∧
      face.surfaceContents = exampleEnv.toInteger (num "7" 1) ∧
      face.surfaceFlags = exampleEnv.toInteger (num "3" 1) ∧
      face.surfaceValue = exampleEnv.toFloat (num "250" 1)) ∧
    parseFace exampleEnv exampleBounds ⟨none, ⟨[], Ending.eof 2 1,
        { exampleFaceText "TEXTURE" 1 with surface := SurfaceSrc.absent }.tokens ++
          dec "7.5" 1 :: [sym TokenType.CBrace 2], none⟩, MapFormat.Quake2⟩ =
      (Result.thrown (Exception.unexpectedToken (dec "7.5" 1).line (dec "7.5" 1).column
          [TokenType.Integer] (dec "7.5" 1).type),
        ⟨none, ⟨[], Ending.eof 2 1, [sym TokenType.CBrace 2], none⟩, MapFormat.Quake2⟩) :=
  ⟨(parseFace_surface_fields exampleEnv exampleBounds none [] (Ending.eof 2 1) MapFormat.Quake2
      (exampleFaceText "TEXTURE" 1) [sym TokenType.CBrace 2] (by decide) (by decide) (by decide)
      (by decide) (by decide) (by decide)).2.2.1 rfl (num "7" 1) (num "3" 1) (num "250" 1)
      (by decide) (by decide) (by decide),
    (parseFace_surface_fields exampleEnv exampleBounds none [] (Ending.eof 2 1) MapFormat.Quake2
      (exampleFaceText "TEXTURE" 1) [sym TokenType.CBrace 2] (by decide) (by decide) (by decide)
      (by decide) (by decide) (by decide)).2.2.2.1 rfl (dec "7.5" 1) (by decide)⟩
/-- C18: after the texture name of a face (head, rotation, scales and surface fields
well-formed for the current `m_format`, points not collinear), when `m_format` is `Valve`
`parseFace` reads two groups `[ x y z offset ]` and then rotation, x scale and y scale; the
first group gives the face's X texture axis and x offset, the second its Y texture axis and
y offset.  For every other value of `m_format` it reads two bare numeric offsets instead (the
face has no texture axes), and an opening bracket in the place of the first offset raises
`UnexpectedToken`, expecting a number. -/
theorem parseFace_texture_projection {R : Type} [CommRing R] [DecidableEq R]
    (env : Env R) (wb : BBox3 R) (lg : Option (List LogEntry)) (inp : List Token)
    (en : Ending) (fmt : MapFormat) (f : FaceText) (rest : List Token)
    (hh : f.head.WellFormed) (hn : (f.head.cross env).null = false)
    (hrot : f.rotation.isNumber) (hxs : f.xScale.isNumber) (hys : f.yScale.isNumber)
    (hs : f.surface.WellFormed fmt) :
    (fmt = MapFormat.Valve → ∀ o1 x1 y1 z1 xo c1 o2 x2 y2 z2 yo c2 : Token,
      o1.type = TokenType.OBracket ∧ x1.isNumber ∧ y1.isNumber ∧ z1.isNumber ∧ xo.isNumber ∧
        c1.type = TokenType.CBracket ∧
      o2.type = TokenType.OBracket ∧ x2.isNumber ∧ y2.isNumber ∧ z2.isNumber ∧ yo.isNumber ∧
        c2.type = TokenType.CBracket →
      ∃ face : BrushFace R,
        parseFace env wb ⟨lg, ⟨inp, en,
            { f with offsets := OffsetsSrc.axes o1 x1 y1 z1 xo c1 o2 x2 y2 z2 yo c2 }.tokens ++
              rest, none⟩, fmt⟩ =
          (Result.ok (some face), ⟨lg, ⟨inp, en, rest, none⟩, fmt⟩) ∧
        face.valve = some
          { texAxisX := ⟨env.toFloat x1, env.toFloat y1, env.toFloat z1⟩
            texAxisY := ⟨env.toFloat x2, env.toFloat y2, env.toFloat z2⟩
            normal := env.normalized (f.head.cross env)
            rotation := env.toFloat f.rotation } ∧
        face.xOffset = env.toFloat xo ∧ face.yOffset = env.toFloat yo ∧
        face.rotation = env.toFloat f.rotation ∧ face.xScale = env.toFloat f.xScale ∧
        face.yScale = env.toFloat f.yScale) ∧
    (fmt ≠ MapFormat.Valve → ∀ xo yo : Token, xo.isNumber → yo.isNumber →
      ∃ face : BrushFace R,
        parseFace env wb ⟨lg, ⟨inp, en,
            { f with offsets := OffsetsSrc.bare xo yo }.tokens ++ rest, none⟩, fmt⟩ =
          (Result.ok (some face), ⟨lg, ⟨inp, en, rest, none⟩, fmt⟩) ∧
        face.valve = none ∧
        face.xOffset = env.toFloat xo ∧ face.yOffset = env.toFloat yo ∧
        face.rotation = env.toFloat f.rotation ∧ face.xScale = env.toFloat f.xScale ∧
        face.yScale = env.toFloat f.yScale) ∧
    (fmt ≠ MapFormat.Valve → ∀ b : Token, b.type = TokenType.OBracket →
      parseFace env wb ⟨lg, ⟨inp, en, f.head.tokens ++ b :: rest, none⟩, fmt⟩ =
        (Result.thrown (Exception.unexpectedToken b.line b.column
            [TokenType.Integer, TokenType.Decimal] TokenType.OBracket),
          ⟨lg, ⟨inp, en, rest, none⟩, fmt⟩)) := by
  refine ⟨?_, ?_, ?_⟩
  · intro h1 o1 x1 y1 z1 xo c1 o2 x2 y2 z2 yo c2 hax
    refine ⟨_, parseFace_text env wb lg inp en fmt
      { f with offsets := OffsetsSrc.axes o1 x1 y1 z1 xo c1 o2 x2 y2 z2 yo c2 } rest
      ⟨hh, ⟨h1, hax⟩, hrot, hxs, hys, hs⟩ hn, rfl, rfl, rfl, rfl, rfl, rfl⟩
  · intro h1 xo yo hxo hyo
    refine ⟨_, parseFace_text env wb lg inp en fmt { f with offsets := OffsetsSrc.bare xo yo }
      rest ⟨hh, ⟨h1, hxo, hyo⟩, hrot, hxs, hys, hs⟩ hn, rfl, rfl, rfl, rfl, rfl, rfl⟩
  · intro h1 b hb
    have hnot : ¬ b.isNumber := by
      simp [Token.isNumber, hb]
    have := parseFace_offsets_raise env wb lg inp en fmt f.head (b :: rest) _ _ hh hn
      (parseFaceOffsets_stray env lg inp en fmt b rest h1 hnot)
    rw [this, hb]

/-- C18 at the StandardB face `( 0 0 0 ) ( 0 1 0 ) ( 1 0 0 ) TEXTURE [ 1 0 0 16 ]
[ 0 -1 0 32 ] 0 1 1`: X axis (1, 0, 0) with x offset 16, Y axis (0, -1, 0) with y offset 32;
the same tokens read as StandardA are rejected at the first `[`. -/
theorem parseFace_texture_projection_witness :
    (∃ face : BrushFace ℤ,
      parseFace exampleEnv exampleBounds ⟨none, ⟨[], Ending.eof 1 1,
          { exampleFaceText "TEXTURE" 1 with
            offsets := OffsetsSrc.axes (sym TokenType.OBracket 1) (num "1" 1) (num "0" 1)
              (num "0" 1) (num "16" 1) (sym TokenType.CBracket 1)
              (sym TokenType.OBracket 1) (num "0" 1) (num "-1" 1) (num "0" 1) (num "32" 1)
              (sym TokenType.CBracket 1) }.tokens ++ [], none⟩, MapFormat.Valve⟩ =
        (Result.ok (some face), ⟨none, ⟨[], Ending.eof 1 1, [], none⟩, MapFormat.Valve⟩) ∧
      face.valve = some
        { texAxisX := ⟨exampleEnv.toFloat (num "1" 1), exampleEnv.toFloat (num "0" 1),
            exampleEnv.toFloat (num "0" 1)⟩
          texAxisY := ⟨exampleEnv.toFloat (num "0" 1), exampleEnv.toFloat (num "-1" 1),
            exampleEnv.toFloat (num "0" 1)⟩
          normal := exampleEnv.normalized ((exampleFaceText "TEXTURE" 1).head.cross exampleEnv)
          rotation := exampleEnv.toFloat (exampleFaceText "TEXTURE" 1).rotation } ∧
      face.xOffset = exampleEnv.toFloat (num "16" 1) ∧
      face.yOffset = exampleEnv.toFloat (num "32" 1) ∧
      face.rotation = exampleEnv.toFloat (exampleFaceText "TEXTURE" 1).rotation ∧
      face.xScale = exampleEnv.toFloat (exampleFaceText "TEXTURE" 1).xScale ∧
      face.yScale = exampleEnv.toFloat (exampleFaceText "TEXTURE" 1).yScale) ∧
    parseFace exampleEnv exampleBounds ⟨none, ⟨[], Ending.eof 1 1,
        (exampleFaceText "TEXTURE" 1).head.tokens ++
          sym TokenType.OBracket 1 :: [num "1" 1, num "0" 1], none⟩, MapFormat.Quake⟩ =
      (Result.thrown (Exception.unexpectedToken (sym TokenType.OBracket 1).line
          (sym TokenType.OBracket 1).column [TokenType.Integer, TokenType.Decimal]
          TokenType.OBracket),
        ⟨none, ⟨[], Ending.eof 1 1, [num "1" 1, num "0" 1], none⟩, MapFormat.Quake⟩) :=
  ⟨(parseFace_texture_projection exampleEnv exampleBounds none [] (Ending.eof 1 1)
      MapFormat.Valve (exampleFaceText "TEXTURE" 1) [] (by decide) (by decide) (by decide)
      (by decide) (by decide) (by decide)).1 rfl (sym TokenType.OBracket 1) (num "1" 1)
      (num "0" 1) (num "0" 1) (num "16" 1) (sym TokenType.CBracket 1)
      (sym TokenType.OBracket 1) (num "0" 1) (num "-1" 1) (num "0" 1) (num "32" 1)
      (sym TokenType.CBracket 1) (by decide),
    (parseFace_texture_projection exampleEnv exampleBounds none [] (Ending.eof 1 1)
      MapFormat.Quake (exampleFaceText "TEXTURE" 1) [num "1" 1, num "0" 1] (by decide)
      (by decide) (by decide) (by decide) (by decide) (by decide)).2.2 (by decide)
      (sym TokenType.OBracket 1) rfl⟩
/-- C19: for a face that is well-formed for the current `m_format` and not degenerate,
`parseFace` returns a face whose texture name is the empty string when the text of the
texture token is the no-texture name `NoTextureName` (`"__TB_empty"`), and the text of the
token unchanged otherwise. -/
theorem parseFace_texture_name {R : Type} [CommRing R] [DecidableEq R]
    (env : Env R) (wb : BBox3 R) (lg : Option (List LogEntry)) (inp : List Token)
    (en : Ending) (fmt : MapFormat) (f : FaceText) (rest : List Token)
    (hf : f.WellFormed fmt) (hn : (f.head.cross env).null = false) :
    NoTextureName = "__TB_empty" ∧
    ∃ face : BrushFace R,
      parseFace env wb ⟨lg, ⟨inp, en, f.tokens ++ rest, none⟩, fmt⟩ =
        (Result.ok (some face), ⟨lg, ⟨inp, en, rest, none⟩, fmt⟩) ∧
      (f.head.texture.data = NoTextureName → face.textureName = "") ∧
      (f.head.texture.data ≠ NoTextureName → face.textureName = f.head.texture.data) := by
  refine ⟨rfl, f.face env, parseFace_text env wb lg inp en fmt f rest hf hn, ?_, ?_⟩
  · intro h
    simp [FaceText.face, buildFace, h]
  · intro h
    simp [FaceText.face, buildFace, h]

/-- C19 at `( 0 0 0 ) ( 0 1 0 ) ( 1 0 0 ) __TB_empty 0 0 0 1 1`, whose face has the empty
texture name. -/
theorem parseFace_texture_name_witness :
    NoTextureName = "__TB_empty" ∧
    ∃ face : BrushFace ℤ,
      parseFace exampleEnv exampleBounds
          ⟨none, ⟨[], Ending.eof 1 1, (exampleFaceText "__TB_empty" 1).tokens ++ [], none⟩,
            MapFormat.Quake⟩ =
        (Result.ok (some face), ⟨none, ⟨[], Ending.eof 1 1, [], none⟩, MapFormat.Quake⟩) ∧
      ((exampleFaceText "__TB_empty" 1).head.texture.data = NoTextureName →
        face.textureName = "") ∧
      ((exampleFaceText "__TB_empty" 1).head.texture.data ≠ NoTextureName →
        face.textureName = (exampleFaceText "__TB_empty" 1).head.texture.data) :=
  parseFace_texture_name exampleEnv exampleBounds none [] (Ending.eof 1 1) MapFormat.Quake
    (exampleFaceText "__TB_empty" 1) [] (by decide) (by decide)

/-! ## Calling an entry point again -/

section SecondCall

variable {R : Type} [CommRing R] [DecidableEq R]

omit [CommRing R] [DecidableEq R] in
theorem documentFormat_Quake (bs : List BrushSrc) :
    documentFormat MapFormat.Quake bs = MapFormat.Quake := by
  simp [documentFormat]

/-- `detectFormat` on a StandardA document of one entity, started at the beginning of the
input or at its end: in both cases the answer is `Quake`. -/
theorem detectFormat_entity_Quake (env : Env R) (fuel : Nat)
    (lg : Option (List LogEntry)) (l c : Nat) (fmt0 : MapFormat)
    (eo ec : Token) (props : List (Token × Token)) (bs : List BrushSrc) (atEnd : Bool)
    (heo : eo.type = TokenType.OBrace) (hec : ec.type = TokenType.CBrace)
    (hprops : ∀ kv ∈ props, kv.1.type = TokenType.String ∧ kv.2.type = TokenType.String)
    (hbs : ∀ b ∈ bs, b.WellFormedNonDegenerate env MapFormat.Quake)
    (hfuel : (entityTokens eo props bs ec).length < fuel) :
    ∃ ts, detectFormat env fuel
        ⟨lg, ⟨entityTokens eo props bs ec, Ending.eof l c,
          if atEnd then [] else entityTokens eo props bs ec, none⟩, fmt0⟩ =
      (Result.ok MapFormat.Quake,
        ⟨lg, ⟨entityTokens eo props bs ec, Ending.eof l c, ts, none⟩, fmt0⟩) := by
  cases atEnd with
  | true =>
    exact ⟨[], detectFormat_noParenthesis env lg _ l c fmt0 [] fuel (by simp) (by simp; omega)⟩
  | false =>
    have hpre : ∀ x ∈ eo :: propertyTokens props,
        x.type ≠ TokenType.OParenthesis ∧ x.type ≠ TokenType.Eof := by
      intro x hx
      rcases List.mem_cons.mp hx with h | h
      · rw [h, heo]; decide
      · rw [propertyTokens_types props hprops x h]; decide
    have hpost : ∀ x ∈ [ec], x.type ≠ TokenType.OParenthesis ∧ x.type ≠ TokenType.Eof := by
      intro x hx
      rw [List.mem_singleton.mp hx, hec]; decide
    have htoks : entityTokens eo props bs ec =
        (eo :: propertyTokens props) ++ (brushListTokens bs ++ [ec]) := by
      simp [entityTokens]
    obtain ⟨ts, hd⟩ := detectFormat_brushes env lg (entityTokens eo props bs ec) l c
      fmt0 MapFormat.Quake [ec] fuel hpost bs (eo :: propertyTokens props) hpre hbs
      (by rw [← htoks]; exact hfuel)
    rw [← htoks, documentFormat_Quake] at hd
    exact ⟨ts, hd⟩

/-- `doParseMap` and `doParseEntities` on a StandardA document of one entity, started at the
beginning of the input or at its end: in both cases the result is the entity of the
document. -/
theorem entryPoints_entity_Quake (env : Env R) (fuel : Nat) (wb : BBox3 R)
    (lg : Option (List LogEntry)) (l c : Nat) (fmt0 : MapFormat)
    (eo ec : Token) (props : List (Token × Token)) (bs : List BrushSrc) (atEnd : Bool)
    (heo : eo.type = TokenType.OBrace) (hec : ec.type = TokenType.CBrace)
    (hprops : ∀ kv ∈ props, kv.1.type = TokenType.String ∧ kv.2.type = TokenType.String)
    (hbs : ∀ b ∈ bs, b.WellFormedNonDegenerate env MapFormat.Quake)
    (hfuel : (entityTokens eo props bs ec).length < fuel) :
    doParseMap env fuel wb
        ⟨lg, ⟨entityTokens eo props bs ec, Ending.eof l c,
          if atEnd then [] else entityTokens eo props bs ec, none⟩, fmt0⟩ =
      (Result.ok { format := MapFormat.Quake
                   entities := [parsedEntity env wb eo props bs ec] },
        ⟨logAfter env wb lg bs, ⟨entityTokens eo props bs ec, Ending.eof l c, [], none⟩,
          MapFormat.Quake⟩) ∧
    doParseEntities env fuel wb
        ⟨lg, ⟨entityTokens eo props bs ec, Ending.eof l c,
          if atEnd then [] else entityTokens eo props bs ec, none⟩, fmt0⟩ =
      (Result.ok [parsedEntity env wb eo props bs ec],
        ⟨logAfter env wb lg bs, ⟨entityTokens eo props bs ec, Ending.eof l c, [], none⟩,
          MapFormat.Quake⟩) := by
  have hlen := entityTokens_length eo ec props bs
  have hblen := brushListTokens_length bs
  obtain ⟨ts, hd⟩ := detectFormat_entity_Quake env fuel lg l c fmt0 eo ec props bs atEnd heo hec
    hprops hbs hfuel
  have he := parseEntity_run env fuel wb lg (entityTokens eo props bs ec) (Ending.eof l c)
    MapFormat.Quake eo ec props bs [] heo hec hprops
    (fun x hx => ⟨hbs x hx, by have := hblen.2 x hx; omega⟩) (by omega) (by omega)
  rw [List.append_nil] at he
  obtain ⟨k, hk⟩ : ∃ k, fuel = k + 2 := ⟨fuel - 2, by omega⟩
  constructor
  · simp only [doParseMap, M.bind_apply, hd, setFormat_apply, reset_apply, tryCatchAll_rethrow,
      he]
    rw [hk]
    simp [doParseMapLoop, parseEntity_eof, Map.addEntity]
  · simp only [doParseEntities, doParseList, tryCatchAll, M.bind_apply, hd, setFormat_apply,
      reset_apply, he, reduceCtorEq, if_false]
    rw [hk]
    simp [collectLoop, parseEntity_eof]

end SecondCall
/-- C20, counterexample: on a StandardB document (one entity whose brush is a six-face box
with bracketed texture axes) the first call of `doParseMap` detects `Valve` and returns the
Document; the second call on the same parser starts its detection at the end of the input,
where the first call left the tokenizer, detects `Quake`, and raises `UnexpectedToken` at the
first `[`.  Likewise `doParseEntities` returns the entity the first time and the empty list
the second time. -/
theorem doParseMap_second_call_differs :
    (detectFormat exampleEnv 300 (freshParser exampleValveDocument 10)).1 =
      Result.ok MapFormat.Valve ∧
    (doParseMap exampleEnv 300 exampleBounds (freshParser exampleValveDocument 10)).1 =
      Result.ok { format := MapFormat.Valve, entities := [exampleValveEntity] } ∧
    (detectFormat exampleEnv 300
        (doParseMap exampleEnv 300 exampleBounds (freshParser exampleValveDocument 10)).2).1 =
      Result.ok MapFormat.Quake ∧
    (doParseMap exampleEnv 300 exampleBounds
        (doParseMap exampleEnv 300 exampleBounds (freshParser exampleValveDocument 10)).2).1 =
      Result.thrown (Exception.unexpectedToken 3 1 [TokenType.Integer, TokenType.Decimal]
        TokenType.OBracket) ∧
    (doParseEntities exampleEnv 300 exampleBounds (freshParser exampleValveDocument 10)).1 =
      Result.ok [exampleValveEntity] ∧
    (doParseEntities exampleEnv 300 exampleBounds
        (doParseEntities exampleEnv 300 exampleBounds
          (freshParser exampleValveDocument 10)).2).1 =
      Result.ok [] := by
  refine ⟨by decide!, by decide!, by decide!, by decide!, by decide!, by decide!⟩
/-- The values of two calls in a row on a StandardA document of one entity, made of
properties and of brushes without degenerate faces: on a parser whose tokenizer is at the
end of the input (where a call that has read the whole input leaves it) `detectFormat`
returns `Quake`, and the second call of `doParseMap`, or of `doParseEntities`, returns the
Document, or the list, that the first call returned. -/
theorem second_call_detects_at_end_of_input {R : Type} [CommRing R] [DecidableEq R]
    (env : Env R) (fuel : Nat) (wb : BBox3 R)
    (lg : Option (List LogEntry)) (l c : Nat)
    (eo ec : Token) (props : List (Token × Token)) (bs : List BrushSrc)
    (heo : eo.type = TokenType.OBrace) (hec : ec.type = TokenType.CBrace)
    (hprops : ∀ kv ∈ props, kv.1.type = TokenType.String ∧ kv.2.type = TokenType.String)
    (hbs : ∀ b ∈ bs, b.WellFormedNonDegenerate env MapFormat.Quake)
    (hfuel : (entityTokens eo props bs ec).length < fuel) :
    (∀ (lg2 : Option (List LogEntry)) (inp : List Token) (l2 c2 : Nat) (fmt0 : MapFormat),
      detectFormat env fuel ⟨lg2, ⟨inp, Ending.eof l2 c2, [], none⟩, fmt0⟩ =
        (Result.ok MapFormat.Quake, ⟨lg2, ⟨inp, Ending.eof l2 c2, [], none⟩, fmt0⟩)) ∧
    (doParseMap env fuel wb
        (QuakeMapParser.new (entityTokens eo props bs ec) (Ending.eof l c) lg)).1 =
      Result.ok { format := MapFormat.Quake
                  entities := [parsedEntity env wb eo props bs ec] } ∧
    (doParseMap env fuel wb
        (doParseMap env fuel wb
          (QuakeMapParser.new (entityTokens eo props bs ec) (Ending.eof l c) lg)).2).1 =
      Result.ok { format := MapFormat.Quake
                  entities := [parsedEntity env wb eo props bs ec] } ∧
    (doParseEntities env fuel wb
        (QuakeMapParser.new (entityTokens eo props bs ec) (Ending.eof l c) lg)).1 =
      Result.ok [parsedEntity env wb eo props bs ec] ∧
    (doParseEntities env fuel wb
        (doParseEntities env fuel wb
          (QuakeMapParser.new (entityTokens eo props bs ec) (Ending.eof l c) lg)).2).1 =
      Result.ok [parsedEntity env wb eo props bs ec] := by
  have h1 := entryPoints_entity_Quake env fuel wb lg l c MapFormat.Unknown eo ec props bs false
    heo hec hprops hbs hfuel
  have h2 := entryPoints_entity_Quake env fuel wb (logAfter env wb lg bs) l c MapFormat.Quake
    eo ec props bs true heo hec hprops hbs hfuel
  simp only [Bool.false_eq_true, if_false] at h1
  simp only [if_true] at h2
  have hnew : QuakeMapParser.new (entityTokens eo props bs ec) (Ending.eof l c) lg =
      ⟨lg, ⟨entityTokens eo props bs ec, Ending.eof l c, entityTokens eo props bs ec, none⟩,
        MapFormat.Unknown⟩ := rfl
  rw [hnew, h1.1, h1.2]
  refine ⟨?_, rfl, ?_, rfl, ?_⟩
  · intro lg2 inp l2 c2 fmt0
    exact detectFormat_noParenthesis env lg2 inp l2 c2 fmt0 [] fuel (by simp)
      (by simp; omega)
  · simp only [h2.1]
  · simp only [h2.2]

/-- The values of two calls in a row of `doParseMap` at the StandardA document of one
entity with the property `"classname" "worldspawn"`, a one-face brush, which the example
kernel rejects, and the six-face box, which it accepts: the second call returns the same
Document as the first. -/
theorem second_call_detects_at_end_of_input_witness :
    (doParseMap exampleEnv 200 exampleBounds
        (QuakeMapParser.new
          (entityTokens (sym TokenType.OBrace 1) [(str "classname" 2, str "worldspawn" 2)]
            [exampleOpenBrush 3, exampleClosedBrush 6] (sym TokenType.CBrace 14))
          (Ending.eof 14 1) (some []))).1 =
      Result.ok { format := MapFormat.Quake
                  entities := [parsedEntity exampleEnv exampleBounds (sym TokenType.OBrace 1)
                    [(str "classname" 2, str "worldspawn" 2)]
                    [exampleOpenBrush 3, exampleClosedBrush 6] (sym TokenType.CBrace 14)] } ∧
    (doParseMap exampleEnv 200 exampleBounds
        (doParseMap exampleEnv 200 exampleBounds
          (QuakeMapParser.new
            (entityTokens (sym TokenType.OBrace 1) [(str "classname" 2, str "worldspawn" 2)]
              [exampleOpenBrush 3, exampleClosedBrush 6] (sym TokenType.CBrace 14))
            (Ending.eof 14 1) (some []))).2).1 =
      Result.ok { format := MapFormat.Quake
                  entities := [parsedEntity exampleEnv exampleBounds (sym TokenType.OBrace 1)
                    [(str "classname" 2, str "worldspawn" 2)]
                    [exampleOpenBrush 3, exampleClosedBrush 6] (sym TokenType.CBrace 14)] } :=
  ⟨(second_call_detects_at_end_of_input exampleEnv 200 exampleBounds (some []) 14 1
      (sym TokenType.OBrace 1) (sym TokenType.CBrace 14)
      [(str "classname" 2, str "worldspawn" 2)] [exampleOpenBrush 3, exampleClosedBrush 6]
      (by decide) (by decide) (by decide) (by decide!) (by decide!)).2.1,
    (second_call_detects_at_end_of_input exampleEnv 200 exampleBounds (some []) 14 1
      (sym TokenType.OBrace 1) (sym TokenType.CBrace 14)
      [(str "classname" 2, str "worldspawn" 2)] [exampleOpenBrush 3, exampleClosedBrush 6]
      (by decide) (by decide) (by decide) (by decide!) (by decide!)).2.2.1⟩

/-! ## Claims about the order of the two sorts and about a stray closing brace -/

/-- C25, counterexample: with a comparator that orders by surface contents when the flag is
on and by surface flags when it is off, `createBrush` on the faces (contents 1, flags 2) and
(contents 2, flags 1) hands the kernel the second face first: it has sorted with the flag on
and then with the flag off.  Sorting with the flag off first and then with the flag on, as
the claim says, would hand over the first face first. -/
theorem createBrush_sorts_flag_on_first :
    (createBrush twoKeyEnv exampleBounds [faceWithKeys 1 2, faceWithKeys 2 1] 1 0
        (freshParser [] 1)).1 =
      Result.ok (some { faces := [faceWithKeys 2 1, faceWithKeys 1 2], filePosition := (1, 0) }) ∧
    twoKeyEnv.sortFaces false (twoKeyEnv.sortFaces true [faceWithKeys 1 2, faceWithKeys 2 1]) =
      [faceWithKeys 2 1, faceWithKeys 1 2] ∧
    twoKeyEnv.sortFaces true (twoKeyEnv.sortFaces false [faceWithKeys 1 2, faceWithKeys 2 1]) =
      [faceWithKeys 1 2, faceWithKeys 2 1] := by
  refine ⟨by decide!, by decide!, by decide!⟩

/-- C25, amended: `createBrush` sorts the face list twice before handing it to the geometry
kernel, first with the comparator `PlaneWeightOrder(true)` (deterministic flag on) and then
with `PlaneWeightOrder(false)` (flag off): the kernel is given
`sortFaces false (sortFaces true faces)`; when it accepts, the brush holds the faces in that
order, and when it rejects, the diagnostic is logged and the result is NULL. -/
theorem createBrush_sort_order :
    ∀ (R : Type) [CommRing R] [DecidableEq R] (env : Env R) (wb : BBox3 R)
      (faces : List (BrushFace R)) (firstLine lineCount : Nat) (p : QuakeMapParser),
      (env.geometry wb (env.sortFaces false (env.sortFaces true faces)) = none →
        createBrush env wb faces firstLine lineCount p =
          (Result.ok (some { faces := env.sortFaces false (env.sortFaces true faces)
                             filePosition := (firstLine, lineCount) }), p)) ∧
      (∀ what : String,
        env.geometry wb (env.sortFaces false (env.sortFaces true faces)) = some what →
        createBrush env wb faces firstLine lineCount p =
          (Result.ok none,
            ⟨p.m_logger.map (fun entries => entries ++ [{ line := firstLine, what := what }]),
              p.m_tokenizer, p.m_format⟩)) := by
  intro R _ _ env wb faces firstLine lineCount p
  constructor
  · intro h
    simp [createBrush, h]
  · intro what h
    rcases p with ⟨lg, tk, fmt⟩
    cases lg <;> simp [createBrush, h, logError]
section StrayBrace

variable {R : Type} [CommRing R] [DecidableEq R]

/-- `parseEntity` on a closing brace: it returns NULL and has read the brace. -/
theorem parseEntity_closing_brace (env : Env R) (fuel : Nat) (wb : BBox3 R)
    (lg : Option (List LogEntry)) (inp : List Token) (en : Ending) (fmt : MapFormat)
    (t : Token) (rest : List Token) (ht : t.type = TokenType.CBrace) :
    parseEntity env fuel wb ⟨lg, ⟨inp, en, t :: rest, none⟩, fmt⟩ =
      (Result.ok none, ⟨lg, ⟨inp, en, rest, none⟩, fmt⟩) := by
  simp [parseEntity, ht, expect]

/-- The loop of a list entry point returns the items parsed until `parseItem` returns
NULL. -/
theorem collectLoop_stops {α : Type} (parseItem : M (Option α))
    {p p2 q : QuakeMapParser} {items : List α}
    (hitems : Collects parseItem p items p2) (hstop : parseItem p2 = (Result.ok none, q)) :
    ∀ (n : Nat) (first : α) (acc : List α), items.length + 1 < n →
      collectLoop parseItem n (some first) acc p = (Result.ok (acc ++ first :: items), q) := by
  induction hitems with
  | nil p =>
    intro n first acc hn
    obtain ⟨k, rfl⟩ : ∃ k, n = k + 2 := ⟨n - 2, by simp at hn; omega⟩
    simp [collectLoop, hstop]
  | cons hitem _ ih =>
    intro n first acc hn
    obtain ⟨k, rfl⟩ : ∃ k, n = k + 1 := ⟨n - 1, by omega⟩
    simp only [List.length_cons] at hn
    simp [collectLoop, hitem, ih hstop k _ _ (by omega)]

/-- The loop of `doParseMap` adds the entities parsed until `parseEntity` returns NULL. -/
theorem doParseMapLoop_stops (env : Env R) (fuel : Nat) (wb : BBox3 R)
    {p p2 q : QuakeMapParser} {ents : List (Entity R)}
    (hents : Collects (parseEntity env fuel wb) p ents p2)
    (hstop : parseEntity env fuel wb p2 = (Result.ok none, q)) :
    ∀ (n : Nat) (first : Entity R) (map : Map R), ents.length + 1 < n →
      doParseMapLoop env fuel wb n (some first) map p =
        (Result.ok { map with entities := map.entities ++ first :: ents }, q) := by
  induction hents with
  | nil p =>
    intro n first map hn
    obtain ⟨k, rfl⟩ : ∃ k, n = k + 2 := ⟨n - 2, by simp at hn; omega⟩
    simp [doParseMapLoop, hstop, Map.addEntity]
  | cons hitem _ ih =>
    intro n first map hn
    obtain ⟨k, rfl⟩ : ∃ k, n = k + 1 := ⟨n - 1, by omega⟩
    simp only [List.length_cons] at hn
    simp [doParseMapLoop, hitem, ih hstop k _ _ (by omega), Map.addEntity]

/-- `doParseMap` and `doParseEntities` return the entities parsed until `parseEntity` returns
NULL. -/
theorem entryPoints_stop (env : Env R) (fuel : Nat) (wb : BBox3 R)
    {p p1 p2 q : QuakeMapParser} {format : MapFormat} {ents : List (Entity R)}
    (hdetect : detectFormat env fuel p = (Result.ok format, p1))
    (hents : Collects (parseEntity env fuel wb) (p1.startOfParse format) ents p2)
    (hstop : parseEntity env fuel wb p2 = (Result.ok none, q))
    (hfuel : ents.length < fuel) :
    doParseMap env fuel wb p = (Result.ok { format := format, entities := ents }, q) ∧
    doParseEntities env fuel wb p = (Result.ok ents, q) := by
  have hfmt := detectFormat_ne_Unknown env fuel hdetect
  cases hents with
  | nil =>
    obtain ⟨k, rfl⟩ : ∃ k, fuel = k + 1 := ⟨fuel - 1, by simp at hfuel; omega⟩
    constructor
    · simp [doParseMap, hdetect, setFormat_run, reset_after_setFormat, hstop, doParseMapLoop]
    · simp [doParseEntities, doParseList, tryCatchAll, hdetect, hfmt, setFormat_run,
        reset_after_setFormat, hstop, collectLoop]
  | cons hitem hrest =>
    simp only [List.length_cons] at hfuel
    constructor
    · simp [doParseMap, hdetect, setFormat_run, reset_after_setFormat, hitem,
        doParseMapLoop_stops env fuel wb hrest hstop fuel _ _ (by omega)]
    · simp [doParseEntities, doParseList, tryCatchAll, hdetect, hfmt, setFormat_run,
        reset_after_setFormat, hitem,
        collectLoop_stops (parseEntity env fuel wb) hrest hstop fuel _ _ (by omega)]

end StrayBrace

/-- C26: when, after the entities `ents` have been parsed, the next token is a closing brace
where an entity is expected, `parseEntity` returns NULL without raising, and `doParseMap` and
`doParseEntities` stop there: they return exactly `ents` and raise nothing, and the tokens
`rest` after the brace, whatever they are, stay unread. -/
theorem stray_closing_brace_ends_parse {R : Type} [CommRing R] [DecidableEq R]
    (env : Env R) (fuel : Nat) (wb : BBox3 R) (p p1 : QuakeMapParser) (format : MapFormat)
    (ents : List (Entity R)) (lg : Option (List LogEntry)) (inp : List Token) (en : Ending)
    (fmt : MapFormat) (t : Token) (rest : List Token)
    (hdetect : detectFormat env fuel p = (Result.ok format, p1))
    (hents : Collects (parseEntity env fuel wb) (p1.startOfParse format) ents
      ⟨lg, ⟨inp, en, t :: rest, none⟩, fmt⟩)
    (ht : t.type = TokenType.CBrace) (hfuel : ents.length < fuel) :
    parseEntity env fuel wb ⟨lg, ⟨inp, en, t :: rest, none⟩, fmt⟩ =
      (Result.ok none, ⟨lg, ⟨inp, en, rest, none⟩, fmt⟩) ∧
    doParseMap env fuel wb p =
      (Result.ok { format := format, entities := ents }, ⟨lg, ⟨inp, en, rest, none⟩, fmt⟩) ∧
    doParseEntities env fuel wb p = (Result.ok ents, ⟨lg, ⟨inp, en, rest, none⟩, fmt⟩) := by
  have hstop := parseEntity_closing_brace env fuel wb lg inp en fmt t rest ht
  exact ⟨hstop, entryPoints_stop env fuel wb hdetect hents hstop hfuel⟩

/-- C26 at `} { "a" "b" }`, which yields no entity and no error, and at
`{ "a" "b" } } { "c" "d" }`, which yields the first entity only. -/
theorem stray_closing_brace_ends_parse_witness :
    (parseEntity exampleEnv 12 exampleBounds
        ⟨some [], ⟨exampleStrayBrace, Ending.eof 1 1,
          sym TokenType.CBrace 1 ::
            [sym TokenType.OBrace 1, str "a" 1, str "b" 1, sym TokenType.CBrace 1], none⟩,
          MapFormat.Quake⟩ =
      (Result.ok none, ⟨some [], ⟨exampleStrayBrace, Ending.eof 1 1,
        [sym TokenType.OBrace 1, str "a" 1, str "b" 1, sym TokenType.CBrace 1], none⟩,
        MapFormat.Quake⟩) ∧
    doParseMap exampleEnv 12 exampleBounds (freshParser exampleStrayBrace 1) =
      (Result.ok { format := MapFormat.Quake, entities := [] },
        ⟨some [], ⟨exampleStrayBrace, Ending.eof 1 1,
          [sym TokenType.OBrace 1, str "a" 1, str "b" 1, sym TokenType.CBrace 1], none⟩,
          MapFormat.Quake⟩) ∧
    doParseEntities exampleEnv 12 exampleBounds (freshParser exampleStrayBrace 1) =
      (Result.ok [], ⟨some [], ⟨exampleStrayBrace, Ending.eof 1 1,
        [sym TokenType.OBrace 1, str "a" 1, str "b" 1, sym TokenType.CBrace 1], none⟩,
        MapFormat.Quake⟩)) ∧
    doParseMap exampleEnv 12 exampleBounds (freshParser exampleEntityThenBrace 3) =
      (Result.ok { format := MapFormat.Quake, entities := [exampleFirstEntity] },
        ⟨some [], ⟨exampleEntityThenBrace, Ending.eof 3 1,
          [sym TokenType.OBrace 3, str "c" 3, str "d" 3, sym TokenType.CBrace 3], none⟩,
          MapFormat.Quake⟩) :=
  ⟨stray_closing_brace_ends_parse exampleEnv 12 exampleBounds (freshParser exampleStrayBrace 1)
      ⟨some [], ⟨exampleStrayBrace, Ending.eof 1 1, [], none⟩, MapFormat.Unknown⟩
      MapFormat.Quake [] (some []) exampleStrayBrace (Ending.eof 1 1)
      MapFormat.Quake (sym TokenType.CBrace 1)
      [sym TokenType.OBrace 1, str "a" 1, str "b" 1, sym TokenType.CBrace 1]
      (by decide) (Collects.nil _) (by decide) (by decide),
    (stray_closing_brace_ends_parse exampleEnv 12 exampleBounds
      (freshParser exampleEntityThenBrace 3)
      ⟨some [], ⟨exampleEntityThenBrace, Ending.eof 3 1, [], none⟩, MapFormat.Unknown⟩
      MapFormat.Quake [exampleFirstEntity] (some []) exampleEntityThenBrace (Ending.eof 3 1)
      MapFormat.Quake (sym TokenType.CBrace 2)
      [sym TokenType.OBrace 3, str "c" 3, str "d" 3, sym TokenType.CBrace 3]
      (by decide)
      (@Collects.cons _ _ _
        ⟨some [], ⟨exampleEntityThenBrace, Ending.eof 3 1,
          sym TokenType.CBrace 2 ::
            [sym TokenType.OBrace 3, str "c" 3, str "d" 3, sym TokenType.CBrace 3], none⟩,
          MapFormat.Quake⟩ _ _ _ (by decide) (Collects.nil _))
      (by decide) (by decide)).2.1⟩

/-! ## Facts about the command processor -/

section ProcessorLemmas

variable {W : Type}

@[simp] theorem P.bind_run {α β : Type} (m : P W α) (f : α → P W β) (s : CommandProcessor)
    (w : W) :
    (m >>= f) s w = match m s w with
      | (Outcome.returned a, s1, w1) => f a s1 w1
      | (Outcome.raised what, s1, w1) => (Outcome.raised what, s1, w1)
      | (Outcome.assertionFailed, s1, w1) => (Outcome.assertionFailed, s1, w1)
      | (Outcome.outOfFuel, s1, w1) => (Outcome.outOfFuel, s1, w1) := rfl

@[simp] theorem P.pure_run {α : Type} (a : α) (s : CommandProcessor) (w : W) :
    (pure a : P W α) s w = (Outcome.returned a, s, w) := rfl

@[simp] theorem getProcessor_apply (s : CommandProcessor) (w : W) :
    getProcessor s w = (Outcome.returned s, s, w) := rfl

@[simp] theorem modifyProcessor_apply (f : CommandProcessor → CommandProcessor)
    (s : CommandProcessor) (w : W) :
    modifyProcessor f s w = (Outcome.returned (), f s, w) := rfl

@[simp] theorem raise_apply {α : Type} (what : String) (s : CommandProcessor) (w : W) :
    (raise what : P W α) s w = (Outcome.raised what, s, w) := rfl

@[simp] theorem assertThat_true (s : CommandProcessor) (w : W) :
    assertThat true s w = (Outcome.returned (), s, w) := rfl

@[simp] theorem assertThat_false (s : CommandProcessor) (w : W) :
    assertThat false s w = (Outcome.assertionFailed, s, w) := rfl

@[simp] theorem callOut_apply {α : Type} (f : W → α × W) (s : CommandProcessor) (w : W) :
    callOut f s w = (Outcome.returned (f w).1, s, (f w).2) := rfl

@[simp] theorem callCommand_apply (f : W → Outcome Bool × W) (s : CommandProcessor) (w : W) :
    callCommand f s w = ((f w).1, s, (f w).2) := rfl

/-- The members other than `m_nextRepeatableCommand` are not touched by
`updateNextRepeatableCommand`. -/
theorem updateNextRepeatableCommand_apply (s : CommandProcessor) (w : W) :
    updateNextRepeatableCommand s w =
      (Outcome.returned (),
        { s with m_nextRepeatableCommand :=
            findNextRepeatableLoop s.m_lastCommandStack s.m_lastCommandStack.length }, w) := by
  simp [updateNextRepeatableCommand, findFirstRepeatableCommand, findNextRepeatableCommand]

end ProcessorLemmas
section UndoRedo

variable {W : Type}

theorem notifyUnlessGroup_apply (env : CommandEnv W) (notifier : Notifier) (command : Command)
    (s : CommandProcessor) (w : W) :
    notifyUnlessGroup env notifier command s w =
      (Outcome.returned (), s, notified env notifier command w) := by
  unfold notifyUnlessGroup notified
  split <;> rfl

/-- `undoCommand` returns what `performUndo` returns and leaves the processor as it is. -/
theorem undoCommand_apply (env : CommandEnv W) (command : Command) (s : CommandProcessor)
    (w : W) (b : Bool)
    (h : (env.performUndo command (notified env Notifier.commandUndo command w)).1 =
      Outcome.returned b) :
    undoCommand env command s w =
      (Outcome.returned b, s,
        notified env (if b then Notifier.commandUndone else Notifier.commandUndoFailed) command
          (env.performUndo command (notified env Notifier.commandUndo command w)).2) := by
  cases b <;> simp [undoCommand, notifyUnlessGroup_apply, h]

/-- `doCommand` returns what `performDo` returns and leaves the processor as it is. -/
theorem doCommand_apply (env : CommandEnv W) (command : Command) (s : CommandProcessor)
    (w : W) (b : Bool)
    (h : (env.performDo command (notified env Notifier.commandDo command w)).1 =
      Outcome.returned b) :
    doCommand env command s w =
      (Outcome.returned b, s,
        notified env (if b then Notifier.commandDone else Notifier.commandDoFailed) command
          (env.performDo command (notified env Notifier.commandDo command w)).2) := by
  cases b <;> simp [doCommand, notifyUnlessGroup_apply, h]

theorem popLastCommand_apply (s : CommandProcessor) (w : W) (stack : List Command)
    (c : Command) (hlevel : s.m_groupLevel = 0) (hstack : s.m_lastCommandStack = stack ++ [c]) :
    popLastCommand s w = (Outcome.returned c, { s with m_lastCommandStack := stack }, w) := by
  simp [popLastCommand, hlevel, hstack]

theorem popNextCommand_apply (s : CommandProcessor) (w : W) (stack : List Command)
    (c : Command) (hlevel : s.m_groupLevel = 0) (hstack : s.m_nextCommandStack = stack ++ [c]) :
    popNextCommand s w = (Outcome.returned c, { s with m_nextCommandStack := stack }, w) := by
  simp [popNextCommand, hlevel, hstack]

/-- `undoLastCommand` with no group open, when `performUndo` of the top command returns `b`:
the command leaves the undo stack, and joins the redo stack when `b` is true. -/
theorem undoLastCommand_apply (env : CommandEnv W) (s : CommandProcessor) (w : W)
    (stack : List Command) (c : Command) (b : Bool)
    (hlevel : s.m_groupLevel = 0) (hstack : s.m_lastCommandStack = stack ++ [c])
    (h : (env.performUndo c (notified env Notifier.commandUndo c w)).1 = Outcome.returned b) :
    (undoLastCommand env s w).1 = Outcome.returned b ∧
    (undoLastCommand env s w).2.1.m_lastCommandStack = stack ∧
    (undoLastCommand env s w).2.1.m_nextCommandStack =
      (if b then s.m_nextCommandStack ++ [c] else s.m_nextCommandStack) ∧
    (undoLastCommand env s w).2.1.m_groupLevel = 0 ∧
    (undoLastCommand env s w).2.2 =
      notified env (if b then Notifier.commandUndone else Notifier.commandUndoFailed) c
        (env.performUndo c (notified env Notifier.commandUndo c w)).2 := by
  cases b <;>
    simp [undoLastCommand, hlevel, popLastCommand_apply s w stack c hlevel hstack,
      undoCommand_apply env c _ w _ h, pushNextCommand, updateNextRepeatableCommand_apply]

/-- `redoNextCommand` with no group open, when `performDo` of the top command of the redo
stack returns `b`: the command leaves the redo stack, and joins the undo stack when `b` is
true. -/
theorem redoNextCommand_apply (env : CommandEnv W) (s : CommandProcessor) (w : W)
    (stack : List Command) (c : Command) (b : Bool)
    (hlevel : s.m_groupLevel = 0) (hstack : s.m_nextCommandStack = stack ++ [c])
    (h : (env.performDo c (notified env Notifier.commandDo c w)).1 = Outcome.returned b) :
    (redoNextCommand env s w).1 = Outcome.returned b ∧
    (redoNextCommand env s w).2.1.m_nextCommandStack = stack ∧
    (redoNextCommand env s w).2.1.m_lastCommandStack =
      (if b then s.m_lastCommandStack ++ [c] else s.m_lastCommandStack) := by
  cases b
  · simp [redoNextCommand, hlevel, popNextCommand_apply s w stack c hlevel hstack,
      doCommand_apply env c _ w _ h]
  · simp only [redoNextCommand, P.bind_run, getProcessor_apply, hlevel, lt_irrefl,
      decide_False, Bool.false_eq_true, if_false,
      popNextCommand_apply s w stack c hlevel hstack, doCommand_apply env c _ w _ h, if_true,
      pushLastCommand, beq_self_eq_true, assertThat_true, callOut_apply,
      updateNextRepeatableCommand_apply]
    cases hl : s.m_lastCommandStack.getLast? <;>
      simp [hl, updateNextRepeatableCommand_apply]

end UndoRedo
/-! ## Claims about undo and redo -/

/-- C28: with no group open and the command `c` on top of the undo stack, if `performUndo` of
`c` and then `performDo` of `c` both return true, `undoLastCommand` followed by
`redoNextCommand` both return true and leave the undo stack and the redo stack as they were
before the two calls. -/
theorem undo_then_redo_restores_stacks {W : Type} (env : CommandEnv W) (s : CommandProcessor)
    (w : W) (stack : List Command) (c : Command)
    (hlevel : s.m_groupLevel = 0) (hstack : s.m_lastCommandStack = stack ++ [c])
    (hundo : (env.performUndo c (notified env Notifier.commandUndo c w)).1 =
      Outcome.returned true)
    (hredo : (env.performDo c (notified env Notifier.commandDo c
      (notified env Notifier.commandUndone c
        (env.performUndo c (notified env Notifier.commandUndo c w)).2))).1 =
      Outcome.returned true) :
    (undoLastCommand env s w).1 = Outcome.returned true ∧
    (redoNextCommand env (undoLastCommand env s w).2.1 (undoLastCommand env s w).2.2).1 =
      Outcome.returned true ∧
    (redoNextCommand env (undoLastCommand env s w).2.1
      (undoLastCommand env s w).2.2).2.1.m_lastCommandStack = s.m_lastCommandStack ∧
    (redoNextCommand env (undoLastCommand env s w).2.1
      (undoLastCommand env s w).2.2).2.1.m_nextCommandStack = s.m_nextCommandStack := by
  obtain ⟨h1, h2, h3, h4, h5⟩ := undoLastCommand_apply env s w stack c true hlevel hstack hundo
  simp only [if_true] at h3 h5
  rw [← h5] at hredo
  obtain ⟨r1, r2, r3⟩ := redoNextCommand_apply env (undoLastCommand env s w).2.1
    (undoLastCommand env s w).2.2 s.m_nextCommandStack c true h4 h3 hredo
  simp only [if_true] at r3
  exact ⟨h1, r1, by rw [r3, h2, hstack], r2⟩

/-- C28 at the undo stack `[a, b]` and an empty redo stack. -/
theorem undo_then_redo_restores_stacks_witness :
    (undoLastCommand exampleCommandEnv
        (processorWith [Command.simple 1 "a" true false, Command.simple 2 "b" true false])
        0).1 = Outcome.returned true ∧
    (redoNextCommand exampleCommandEnv
      (undoLastCommand exampleCommandEnv
        (processorWith [Command.simple 1 "a" true false, Command.simple 2 "b" true false])
        0).2.1
      (undoLastCommand exampleCommandEnv
        (processorWith [Command.simple 1 "a" true false, Command.simple 2 "b" true false])
        0).2.2).1 = Outcome.returned true ∧
    (redoNextCommand exampleCommandEnv
      (undoLastCommand exampleCommandEnv
        (processorWith [Command.simple 1 "a" true false, Command.simple 2 "b" true false])
        0).2.1
      (undoLastCommand exampleCommandEnv
        (processorWith [Command.simple 1 "a" true false, Command.simple 2 "b" true false])
        0).2.2).2.1.m_lastCommandStack =
      (processorWith [Command.simple 1 "a" true false,
        Command.simple 2 "b" true false]).m_lastCommandStack ∧
    (redoNextCommand exampleCommandEnv
      (undoLastCommand exampleCommandEnv
        (processorWith [Command.simple 1 "a" true false, Command.simple 2 "b" true false])
        0).2.1
      (undoLastCommand exampleCommandEnv
        (processorWith [Command.simple 1 "a" true false, Command.simple 2 "b" true false])
        0).2.2).2.1.m_nextCommandStack =
      (processorWith [Command.simple 1 "a" true false,
        Command.simple 2 "b" true false]).m_nextCommandStack :=
  undo_then_redo_restores_stacks exampleCommandEnv
    (processorWith [Command.simple 1 "a" true false, Command.simple 2 "b" true false]) 0
    [Command.simple 1 "a" true false] (Command.simple 2 "b" true false) rfl rfl
    (by decide) (by decide)

/-- C29: with no group open and the command `c` on top of the undo stack, if `performUndo` of
`c` returns false, `undoLastCommand` returns false, `c` has left the undo stack and the redo
stack is as it was; with a group open, `undoLastCommand` throws and leaves the processor as it
was. -/
theorem undoLastCommand_failure {W : Type} (env : CommandEnv W) (s : CommandProcessor)
    (w : W) (stack : List Command) (c : Command)
    (hlevel : s.m_groupLevel = 0) (hstack : s.m_lastCommandStack = stack ++ [c])
    (hundo : (env.performUndo c (notified env Notifier.commandUndo c w)).1 =
      Outcome.returned false) :
    ((undoLastCommand env s w).1 = Outcome.returned false ∧
      (undoLastCommand env s w).2.1.m_lastCommandStack = stack ∧
      (undoLastCommand env s w).2.1.m_nextCommandStack = s.m_nextCommandStack) ∧
    (∀ (s2 : CommandProcessor) (w2 : W), 0 < s2.m_groupLevel →
      undoLastCommand env s2 w2 =
        (Outcome.raised "Cannot undo individual commands of a command group", s2, w2)) := by
  obtain ⟨h1, h2, h3, _, _⟩ := undoLastCommand_apply env s w stack c false hlevel hstack hundo
  refine ⟨⟨h1, h2, by simpa using h3⟩, ?_⟩
  intro s2 w2 h
  simp [undoLastCommand, h]

/-- C29 at the undo stack `[a, oneway]`, whose top command cannot be undone: afterwards the
undo stack is `[a]` and the redo stack is empty. -/
theorem undoLastCommand_failure_witness :
    (undoLastCommand exampleCommandEnv
        (processorWith [Command.simple 1 "a" true false, Command.simple 2 "oneway" true false])
        0).1 = Outcome.returned false ∧
    (undoLastCommand exampleCommandEnv
        (processorWith [Command.simple 1 "a" true false, Command.simple 2 "oneway" true false])
        0).2.1.m_lastCommandStack = [Command.simple 1 "a" true false] ∧
    (undoLastCommand exampleCommandEnv
        (processorWith [Command.simple 1 "a" true false, Command.simple 2 "oneway" true false])
        0).2.1.m_nextCommandStack =
      (processorWith [Command.simple 1 "a" true false,
        Command.simple 2 "oneway" true false]).m_nextCommandStack :=
  (undoLastCommand_failure exampleCommandEnv
    (processorWith [Command.simple 1 "a" true false, Command.simple 2 "oneway" true false]) 0
    [Command.simple 1 "a" true false] (Command.simple 2 "oneway" true false) rfl rfl
    (by decide)).1
section Submit

variable {W : Type}

/-- `pushLastCommand` with no group open returns normally and leaves the redo stack, the
grouped commands and the group level as they are. -/
theorem pushLastCommand_frame (env : CommandEnv W) (command : Command) (collate : Bool)
    (s : CommandProcessor) (w : W) (hlevel : s.m_groupLevel = 0) :
    (pushLastCommand env command collate s w).1 = Outcome.returned () ∧
    (pushLastCommand env command collate s w).2.1.m_nextCommandStack = s.m_nextCommandStack ∧
    (pushLastCommand env command collate s w).2.1.m_groupedCommands = s.m_groupedCommands ∧
    (pushLastCommand env command collate s w).2.1.m_groupLevel = s.m_groupLevel := by
  simp only [pushLastCommand, P.bind_run, getProcessor_apply, hlevel, beq_self_eq_true,
    assertThat_true, callOut_apply]
  cases hl : s.m_lastCommandStack.getLast? with
  | none => simp [hlevel]
  | some lastCommand =>
    simp only []
    split
    · cases hm : (env.collateWith lastCommand command (env.wxGetLocalTimeMillis w).2).1 <;>
        simp [hm, hlevel]
    · simp [hlevel]

/-- `pushGroupedCommand` of an undoable command with a group open returns normally and leaves
the two stacks and the group level as they are. -/
theorem pushGroupedCommand_frame (env : CommandEnv W) (command : Command)
    (s : CommandProcessor) (w : W) (hlevel : s.m_groupLevel ≠ 0)
    (hundoable : command.undoable = true) :
    (pushGroupedCommand env command s w).1 = Outcome.returned () ∧
    (pushGroupedCommand env command s w).2.1.m_nextCommandStack = s.m_nextCommandStack ∧
    (pushGroupedCommand env command s w).2.1.m_lastCommandStack = s.m_lastCommandStack ∧
    (pushGroupedCommand env command s w).2.1.m_groupLevel = s.m_groupLevel := by
  have hpos : 0 < s.m_groupLevel := Nat.pos_of_ne_zero hlevel
  simp only [pushGroupedCommand, P.bind_run, getProcessor_apply, hpos, decide_True,
    assertThat_true, hundoable, Bool.not_true, Bool.and_false, Bool.false_eq_true, if_false]
  cases hl : s.m_groupedCommands.getLast? with
  | none => simp
  | some lastCommand =>
    simp only [P.bind_run, callOut_apply]
    cases hm : (env.collateWith lastCommand command w).1 <;> simp [hm]

end Submit
section SubmitStacks

variable {W : Type}

/-- `doCommand` ends as `performDo` does, and leaves the processor as it is. -/
theorem doCommand_outcome (env : CommandEnv W) (command : Command) (s : CommandProcessor)
    (w : W) :
    (doCommand env command s w).1 =
        (env.performDo command (notified env Notifier.commandDo command w)).1 ∧
      (doCommand env command s w).2.1 = s := by
  cases h : (env.performDo command (notified env Notifier.commandDo command w)).1 with
  | returned b => rw [doCommand_apply env command s w b h]; exact ⟨rfl, rfl⟩
  | raised what => simp [doCommand, notifyUnlessGroup_apply, h]
  | assertionFailed => simp [doCommand, notifyUnlessGroup_apply, h]
  | outOfFuel => simp [doCommand, notifyUnlessGroup_apply, h]

/-- `storeCommand` of an undoable command returns normally and leaves the redo stack and the
group level as they are; with a group open it leaves the undo stack as it is, too. -/
theorem storeCommand_frame (env : CommandEnv W) (command : Command) (collate : Bool)
    (s : CommandProcessor) (w : W) (hundoable : command.undoable = true) :
    (storeCommand env command collate s w).1 = Outcome.returned () ∧
    (storeCommand env command collate s w).2.1.m_nextCommandStack = s.m_nextCommandStack ∧
    (storeCommand env command collate s w).2.1.m_groupLevel = s.m_groupLevel := by
  by_cases hlevel : s.m_groupLevel = 0
  · have h := pushLastCommand_frame env command collate s w hlevel
    simp only [storeCommand, P.bind_run, getProcessor_apply, hlevel, beq_self_eq_true, if_true]
    exact ⟨h.1, h.2.1, by rw [h.2.2.2, hlevel]⟩
  · have h := pushGroupedCommand_frame env command s w hlevel hundoable
    have hb : (s.m_groupLevel == 0) = false := by simpa using hlevel
    simp only [storeCommand, P.bind_run, getProcessor_apply, hb, Bool.false_eq_true, if_false]
    exact ⟨h.1, h.2.1, h.2.2.2⟩

/-- What `submitCommand` does, by the outcome of `performDo`. -/
theorem submitCommand_apply (env : CommandEnv W) (command : Command) (s : CommandProcessor)
    (w : W) :
    (submitCommand env command s w).1 =
        (env.performDo command (notified env Notifier.commandDo command w)).1 ∧
    ((submitCommand env command s w).1 ≠ Outcome.returned true →
      (submitCommand env command s w).2.1 = s) ∧
    ((submitCommand env command s w).1 = Outcome.returned true → command.undoable = true →
      (submitCommand env command s w).2.1 = s) ∧
    ((submitCommand env command s w).1 = Outcome.returned true → command.undoable = false →
      (submitCommand env command s w).2.1.m_lastCommandStack = [] ∧
      (submitCommand env command s w).2.1.m_nextCommandStack = [] ∧
      (submitCommand env command s w).2.1.m_groupLevel = s.m_groupLevel) := by
  cases h : (env.performDo command (notified env Notifier.commandDo command w)).1 with
  | returned b =>
    cases b
    · simp [submitCommand, doCommand_apply env command s w _ h]
    · cases hu : command.undoable <;>
        simp [submitCommand, doCommand_apply env command s w _ h, hu,
          updateNextRepeatableCommand_apply]
  | raised what => simp [submitCommand, doCommand, notifyUnlessGroup_apply, h]
  | assertionFailed => simp [submitCommand, doCommand, notifyUnlessGroup_apply, h]
  | outOfFuel => simp [submitCommand, doCommand, notifyUnlessGroup_apply, h]

end SubmitStacks
section SubmitAndStore

variable {W : Type}

/-- What `submitAndStoreCommand(command, collate)` does to the two stacks, by its result. -/
theorem submitAndStoreCommandCollate_stacks (env : CommandEnv W) (command : Command)
    (collate : Bool) (s : CommandProcessor) (w : W) :
    ((submitAndStoreCommandCollate env command collate s w).1 = Outcome.returned true →
      (env.performDo command (notified env Notifier.commandDo command w)).1 =
        Outcome.returned true ∧
      (submitAndStoreCommandCollate env command collate s w).2.1.m_nextCommandStack = [] ∧
      (submitAndStoreCommandCollate env command collate s w).2.1.m_groupLevel =
        s.m_groupLevel ∧
      (command.undoable = false →
        (submitAndStoreCommandCollate env command collate s w).2.1.m_lastCommandStack = [])) ∧
    ((submitAndStoreCommandCollate env command collate s w).1 = Outcome.returned false →
      (env.performDo command (notified env Notifier.commandDo command w)).1 =
        Outcome.returned false ∧
      (submitAndStoreCommandCollate env command collate s w).2.1 = s) := by
  obtain ⟨h1, h2, h3, h4⟩ := submitCommand_apply env command s w
  rcases hsub : submitCommand env command s w with ⟨r, s1, w1⟩
  rw [hsub] at h1 h2 h3 h4
  simp only at h1 h2 h3 h4
  simp only [submitAndStoreCommandCollate, P.bind_run, hsub]
  cases r with
  | returned b =>
    cases b
    · have hs := h2 (by simp)
      simp [hs, ← h1]
    · cases hu : command.undoable
      · obtain ⟨a1, a2, a3⟩ := h4 rfl hu
        simp [a1, a2, a3, ← h1]
      · have hs := h3 rfl hu
        subst hs
        obtain ⟨b1, b2, b3⟩ := storeCommand_frame env command collate s1 w1 hu
        rcases hst : storeCommand env command collate s1 w1 with ⟨r2, s2, w2⟩
        rw [hst] at b1 b2 b3
        simp only at b1 b2 b3
        subst b1
        simp only [Bool.not_true, Bool.false_eq_true, if_false, if_true, P.bind_run,
          getProcessor_apply, hst]
        cases hn : s2.m_nextCommandStack <;> simp [hn, b3, ← h1]
  | raised what => simp
  | assertionFailed => simp
  | outOfFuel => simp

end SubmitAndStore

/-! ## Claims about submitting a command -/

/-- C30: whenever `submitAndStoreCommand` returns true (then `performDo` of the command has
returned true), the redo stack is empty afterwards, and the undo stack is empty as well if
the command is not undoable; whenever it returns false (then `performDo` has returned false),
the two stacks, and all of the processor, are as before. -/
theorem submitAndStoreCommand_stacks :
    ∀ (W : Type) (env : CommandEnv W) (command : Command) (s : CommandProcessor) (w : W),
      ((submitAndStoreCommand env command s w).1 = Outcome.returned true →
        (env.performDo command (notified env Notifier.commandDo command w)).1 =
          Outcome.returned true ∧
        (submitAndStoreCommand env command s w).2.1.m_nextCommandStack = [] ∧
        (command.undoable = false →
          (submitAndStoreCommand env command s w).2.1.m_lastCommandStack = [])) ∧
      ((submitAndStoreCommand env command s w).1 = Outcome.returned false →
        (env.performDo command (notified env Notifier.commandDo command w)).1 =
          Outcome.returned false ∧
        (submitAndStoreCommand env command s w).2.1 = s) ∧
      ((env.performDo command (notified env Notifier.commandDo command w)).1 =
          Outcome.returned false →
        submitAndStoreCommand env command s w =
          (Outcome.returned false, s,
            notified env Notifier.commandDoFailed command
              (env.performDo command (notified env Notifier.commandDo command w)).2)) := by
  intro W env command s w
  obtain ⟨h1, h2⟩ := submitAndStoreCommandCollate_stacks env command true s w
  rcases hsub : submitAndStoreCommandCollate env command true s w with ⟨r, s1, w1⟩
  rw [hsub] at h1 h2
  simp only at h1 h2
  refine ⟨?_, ?_, ?_⟩
  · simp only [submitAndStoreCommand, P.bind_run, hsub]
    cases r with
    | returned b =>
      cases b
      · simp
      · obtain ⟨a1, a2, a3, a4⟩ := h1 rfl
        simp only [if_true, P.bind_run, getProcessor_apply]
        split <;> simpa [updateNextRepeatableCommand_apply, a1, a2] using a4
    | raised what => simp
    | assertionFailed => simp
    | outOfFuel => simp
  · simp only [submitAndStoreCommand, P.bind_run, hsub]
    cases r with
    | returned b =>
      cases b
      · obtain ⟨a1, a2⟩ := h2 rfl
        simp [a1, a2]
      · simp only [if_true, P.bind_run, getProcessor_apply]
        split <;> simp [updateNextRepeatableCommand_apply]
    | raised what => simp
    | assertionFailed => simp
    | outOfFuel => simp
  · intro h
    simp [submitAndStoreCommand, submitAndStoreCommandCollate, submitCommand,
      doCommand_apply env command s w false h]
/-! ## The group level and the grouped commands -/

section GroupInvariant

variable {W : Type}

theorem KeepsGroup.refl (s : CommandProcessor) : KeepsGroup s s := ⟨rfl, fun _ => rfl⟩

theorem KeepsGroup.trans {s s1 s2 : CommandProcessor} (h1 : KeepsGroup s s1)
    (h2 : KeepsGroup s1 s2) : KeepsGroup s s2 :=
  ⟨h2.1.trans h1.1, fun h => (h2.2 (h1.1.trans h)).trans (h1.2 h)⟩

theorem submitCommand_keeps (env : CommandEnv W) (command : Command) (s : CommandProcessor)
    (w : W) : KeepsGroup s (submitCommand env command s w).2.1 := by
  obtain ⟨_, h2, h3, _⟩ := submitCommand_apply env command s w
  by_cases hr : (submitCommand env command s w).1 = Outcome.returned true
  · cases hu : command.undoable
    · have hd := (doCommand_outcome env command s w)
      rcases hdo : doCommand env command s w with ⟨r, s1, w1⟩
      rw [hdo] at hd
      simp only at hd
      obtain ⟨_, hs⟩ := hd
      subst hs
      simp only [submitCommand, P.bind_run, hdo, hu]
      cases r with
      | returned b =>
        cases b <;> simp [KeepsGroup, updateNextRepeatableCommand_apply]
      | raised what => simp [KeepsGroup]
      | assertionFailed => simp [KeepsGroup]
      | outOfFuel => simp [KeepsGroup]
    · rw [h3 hr hu]; exact KeepsGroup.refl s
  · rw [h2 hr]; exact KeepsGroup.refl s

theorem pushGroupedCommand_keeps (env : CommandEnv W) (command : Command)
    (s : CommandProcessor) (w : W) :
    KeepsGroup s (pushGroupedCommand env command s w).2.1 := by
  by_cases hlevel : s.m_groupLevel = 0
  · simp [pushGroupedCommand, hlevel, KeepsGroup]
  · have hpos : 0 < s.m_groupLevel := Nat.pos_of_ne_zero hlevel
    simp only [pushGroupedCommand, P.bind_run, getProcessor_apply, hpos, decide_True,
      assertThat_true]
    split
    · simp [KeepsGroup]
    · cases hl : s.m_groupedCommands.getLast? with
      | none => simp [KeepsGroup, hlevel]
      | some lastCommand =>
        simp only [P.bind_run, callOut_apply]
        cases hm : (env.collateWith lastCommand command w).1 <;> simp [hm, KeepsGroup, hlevel]

theorem pushLastCommand_keeps (env : CommandEnv W) (command : Command) (collate : Bool)
    (s : CommandProcessor) (w : W) :
    KeepsGroup s (pushLastCommand env command collate s w).2.1 := by
  by_cases hlevel : s.m_groupLevel = 0
  · obtain ⟨_, _, h3, h4⟩ := pushLastCommand_frame env command collate s w hlevel
    exact ⟨h4, fun _ => h3⟩
  · have hb : (s.m_groupLevel == 0) = false := by simpa using hlevel
    simp [pushLastCommand, hb, KeepsGroup]

theorem storeCommand_keeps (env : CommandEnv W) (command : Command) (collate : Bool)
    (s : CommandProcessor) (w : W) :
    KeepsGroup s (storeCommand env command collate s w).2.1 := by
  by_cases hlevel : s.m_groupLevel = 0
  · simp only [storeCommand, P.bind_run, getProcessor_apply, hlevel, beq_self_eq_true,
      if_true]
    exact pushLastCommand_keeps env command collate s w
  · have hb : (s.m_groupLevel == 0) = false := by simpa using hlevel
    simp only [storeCommand, P.bind_run, getProcessor_apply, hb, Bool.false_eq_true,
      if_false]
    exact pushGroupedCommand_keeps env command s w

theorem submitAndStoreCommandCollate_keeps (env : CommandEnv W) (command : Command)
    (collate : Bool) (s : CommandProcessor) (w : W) :
    KeepsGroup s (submitAndStoreCommandCollate env command collate s w).2.1 := by
  have h1 := submitCommand_keeps env command s w
  rcases hsub : submitCommand env command s w with ⟨r, s1, w1⟩
  rw [hsub] at h1
  simp only at h1
  simp only [submitAndStoreCommandCollate, P.bind_run, hsub]
  cases r with
  | returned b =>
    cases b
    · simpa using h1
    · cases hu : command.undoable
      · simp only [Bool.not_true, Bool.false_eq_true, if_false, P.bind_run, P.pure_run,
          getProcessor_apply]
        split <;> simpa [KeepsGroup] using h1
      · have h2 := storeCommand_keeps env command collate s1 w1
        rcases hst : storeCommand env command collate s1 w1 with ⟨r2, s2, w2⟩
        rw [hst] at h2
        simp only at h2
        have h12 := h1.trans h2
        simp only [Bool.not_true, Bool.false_eq_true, if_false, if_true, P.bind_run, hst]
        cases r2 with
        | returned u =>
          simp only [getProcessor_apply]
          split <;> simpa [KeepsGroup] using h12
        | raised what => simpa using h12
        | assertionFailed => simpa using h12
        | outOfFuel => simpa using h12
  | raised what => simpa using h1
  | assertionFailed => simpa using h1
  | outOfFuel => simpa using h1

end GroupInvariant

section GroupInvariantOperations

variable {W : Type}

theorem updateNextRepeatableCommand_keeps (s : CommandProcessor) (w : W) :
    KeepsGroup s (updateNextRepeatableCommand s w).2.1 := by
  rw [updateNextRepeatableCommand_apply]
  exact ⟨rfl, fun _ => rfl⟩

theorem submitAndStoreCommand_keeps (env : CommandEnv W) (command : Command)
    (s : CommandProcessor) (w : W) :
    KeepsGroup s (submitAndStoreCommand env command s w).2.1 := by
  have h1 := submitAndStoreCommandCollate_keeps env command true s w
  rcases hsub : submitAndStoreCommandCollate env command true s w with ⟨r, s1, w1⟩
  rw [hsub] at h1
  simp only at h1
  simp only [submitAndStoreCommand, P.bind_run, hsub]
  cases r with
  | returned b =>
    cases b
    · simpa using h1
    · simp only [if_true, P.bind_run, getProcessor_apply]
      split
      · simpa [updateNextRepeatableCommand_apply, KeepsGroup] using h1
      · simpa using h1
  | raised what => simpa using h1
  | assertionFailed => simpa using h1
  | outOfFuel => simpa using h1

theorem undoCommand_outcome (env : CommandEnv W) (command : Command) (s : CommandProcessor)
    (w : W) : (undoCommand env command s w).2.1 = s := by
  cases h : (env.performUndo command (notified env Notifier.commandUndo command w)).1 with
  | returned b => rw [undoCommand_apply env command s w b h]
  | raised what => simp [undoCommand, notifyUnlessGroup_apply, h]
  | assertionFailed => simp [undoCommand, notifyUnlessGroup_apply, h]
  | outOfFuel => simp [undoCommand, notifyUnlessGroup_apply, h]

theorem undoLastCommand_keeps (env : CommandEnv W) (s : CommandProcessor) (w : W) :
    KeepsGroup s (undoLastCommand env s w).2.1 := by
  by_cases hlevel : s.m_groupLevel = 0
  · simp only [undoLastCommand, P.bind_run, getProcessor_apply, hlevel, lt_irrefl,
      decide_False, Bool.false_eq_true, if_false, popLastCommand, beq_self_eq_true,
      assertThat_true]
    cases hl : s.m_lastCommandStack.getLast? with
    | none => simp [KeepsGroup]
    | some c =>
      simp only [P.bind_run, modifyProcessor_apply, P.pure_run]
      have hu := undoCommand_outcome env c
        { s with m_lastCommandStack := s.m_lastCommandStack.dropLast } w
      rcases hun : undoCommand env c
        { s with m_lastCommandStack := s.m_lastCommandStack.dropLast } w with ⟨r, s1, w1⟩
      rw [hun] at hu
      simp only at hu
      subst hu
      cases r with
      | returned b =>
        cases b <;>
          simp [KeepsGroup, pushNextCommand, hlevel, updateNextRepeatableCommand_apply]
      | raised what => simp [KeepsGroup]
      | assertionFailed => simp [KeepsGroup]
      | outOfFuel => simp [KeepsGroup]
  · have hpos : 0 < s.m_groupLevel := Nat.pos_of_ne_zero hlevel
    simp [undoLastCommand, hpos, KeepsGroup]

theorem redoNextCommand_keeps (env : CommandEnv W) (s : CommandProcessor) (w : W) :
    KeepsGroup s (redoNextCommand env s w).2.1 := by
  by_cases hlevel : s.m_groupLevel = 0
  · simp only [redoNextCommand, P.bind_run, getProcessor_apply, hlevel, lt_irrefl,
      decide_False, Bool.false_eq_true, if_false, popNextCommand, beq_self_eq_true,
      assertThat_true]
    cases hl : s.m_nextCommandStack.getLast? with
    | none => simp [KeepsGroup]
    | some c =>
      simp only [P.bind_run, modifyProcessor_apply, P.pure_run]
      have hu := (doCommand_outcome env c
        { s with m_nextCommandStack := s.m_nextCommandStack.dropLast } w).2
      rcases hun : doCommand env c
        { s with m_nextCommandStack := s.m_nextCommandStack.dropLast } w with ⟨r, s1, w1⟩
      rw [hun] at hu
      simp only at hu
      subst hu
      cases r with
      | returned b =>
        cases b
        · simp [KeepsGroup]
        · have hp := pushLastCommand_keeps env c false
            { s with m_nextCommandStack := s.m_nextCommandStack.dropLast } w1
          rcases hpu : pushLastCommand env c false
            { s with m_nextCommandStack := s.m_nextCommandStack.dropLast } w1 with ⟨r2, s2, w2⟩
          rw [hpu] at hp
          simp only [if_true, P.bind_run, hpu]
          cases r2 with
          | returned u =>
            simpa [updateNextRepeatableCommand_apply, KeepsGroup] using hp
          | raised what => simpa [KeepsGroup] using hp
          | assertionFailed => simpa [KeepsGroup] using hp
          | outOfFuel => simpa [KeepsGroup] using hp
      | raised what => simp [KeepsGroup]
      | assertionFailed => simp [KeepsGroup]
      | outOfFuel => simp [KeepsGroup]
  · have hpos : 0 < s.m_groupLevel := Nat.pos_of_ne_zero hlevel
    simp [redoNextCommand, hpos, KeepsGroup]

theorem findNextRepeatableCommand_keeps (fromIndex : Nat) (s : CommandProcessor) (w : W) :
    (findNextRepeatableCommand fromIndex s w).2.1 = s := by
  simp only [findNextRepeatableCommand, P.bind_run, getProcessor_apply]
  by_cases h : fromIndex ≤ s.m_lastCommandStack.length <;> simp [h]

theorem repeatLastCommand_keeps (env : CommandEnv W) (s : CommandProcessor) (w : W) :
    KeepsGroup s (repeatLastCommand env s w).2.1 := by
  simp only [repeatLastCommand, P.bind_run, getProcessor_apply]
  by_cases ha : s.m_nextRepeatableCommand < s.m_lastCommandStack.length
  · simp only [ha, decide_True, assertThat_true]
    cases hc : s.m_lastCommandStack[s.m_nextRepeatableCommand]? with
    | none => simp [KeepsGroup]
    | some command =>
      simp only []
      cases hr : command.isRepeatable
      · simp [KeepsGroup]
      · simp only [assertThat_true, P.bind_run, callOut_apply]
        have h1 := submitAndStoreCommandCollate_keeps env (env.repeatCommand command w).1 false
          s (env.repeatCommand command w).2
        rcases hsub : submitAndStoreCommandCollate env (env.repeatCommand command w).1 false
          s (env.repeatCommand command w).2 with ⟨r, s1, w1⟩
        rw [hsub] at h1
        simp only at h1
        cases r with
        | returned b =>
          cases b
          · simpa using h1
          · simp only [if_true, P.bind_run, getProcessor_apply]
            have hf := findNextRepeatableCommand_keeps s1.m_nextRepeatableCommand s1 w1
            rcases hfi : findNextRepeatableCommand s1.m_nextRepeatableCommand s1 w1 with
              ⟨r2, s2, w2⟩
            rw [hfi] at hf
            simp only at hf
            subst hf
            cases r2 with
            | returned index =>
              simp only [modifyProcessor_apply, P.bind_run, getProcessor_apply]
              split
              · simp only [P.bind_run, modifyProcessor_apply, P.pure_run]
                exact ⟨h1.1, h1.2⟩
              · simp only [P.bind_run, P.pure_run]
                exact ⟨h1.1, h1.2⟩
            | raised what => simpa using h1
            | assertionFailed => simpa using h1
            | outOfFuel => simpa using h1
        | raised what => simpa using h1
        | assertionFailed => simpa using h1
        | outOfFuel => simpa using h1
  · simp [ha, KeepsGroup]

end GroupInvariantOperations

section GroupInvariantClaim

variable {W : Type}

theorem beginGroup_level (name : String) (undoable : Bool) (s : CommandProcessor) (w : W) :
    (beginGroup name undoable s w).2.1.m_groupLevel = s.m_groupLevel + 1 := by
  simp only [beginGroup, P.bind_run, getProcessor_apply]
  split <;> rfl

/-- The loop of `undoGroup` leaves the group level as it is, and an empty list of grouped
commands empty. -/
theorem undoGroupLoop_keeps (env : CommandEnv W) :
    ∀ (fuel : Nat) (s : CommandProcessor) (w : W),
      (undoGroupLoop env fuel s w).2.1.m_groupLevel = s.m_groupLevel ∧
        (s.m_groupedCommands = [] → (undoGroupLoop env fuel s w).2.1.m_groupedCommands = []) := by
  intro fuel
  induction fuel with
  | zero => intro s w; exact ⟨rfl, fun h => h⟩
  | succ n ih =>
    intro s w
    simp only [undoGroupLoop, P.bind_run, getProcessor_apply]
    cases hg : s.m_groupedCommands with
    | nil => simp [hg]
    | cons a rest =>
      simp only [List.isEmpty_cons, Bool.false_eq_true, if_false, popGroupedCommand,
        P.bind_run, getProcessor_apply]
      by_cases hpos : 0 < s.m_groupLevel
      · simp only [hpos, decide_True, assertThat_true, hg]
        cases hl : (a :: rest).getLast? with
        | none => simp
        | some c =>
          simp only [P.bind_run, modifyProcessor_apply, P.pure_run, callCommand_apply]
          cases hp : (env.performUndo c w).1 with
          | returned b =>
            simp only []
            exact ⟨(ih _ _).1, fun h => by simp at h⟩
          | raised what => simp
          | assertionFailed => simp
          | outOfFuel => simp
      · simp [hpos]

/-- `createAndStoreCommandGroup` with no group open leaves no grouped command and the group
level at 0. -/
theorem createAndStoreCommandGroup_clears (env : CommandEnv W) (s : CommandProcessor) (w : W)
    (hlevel : s.m_groupLevel = 0) :
    (createAndStoreCommandGroup env s w).2.1.m_groupedCommands = [] ∧
      (createAndStoreCommandGroup env s w).2.1.m_groupLevel = 0 := by
  simp only [createAndStoreCommandGroup, P.bind_run, getProcessor_apply]
  cases hg : s.m_groupedCommands with
  | nil => simp [hg, hlevel]
  | cons front rest =>
    simp only [List.head?_cons, P.bind_run, modifyProcessor_apply]
    obtain ⟨p1, _, p3, p4⟩ := pushLastCommand_frame env
      (Command.group (if s.m_groupName.isEmpty = true then front.name else s.m_groupName)
        s.m_groupUndoable (front :: rest)) false
      { s with m_groupName := if s.m_groupName.isEmpty = true then front.name else s.m_groupName
               m_groupedCommands := [] } w hlevel
    rcases hpu : pushLastCommand env
      (Command.group (if s.m_groupName.isEmpty = true then front.name else s.m_groupName)
        s.m_groupUndoable (front :: rest)) false
      { s with m_groupName := if s.m_groupName.isEmpty = true then front.name else s.m_groupName
               m_groupedCommands := [] } w with ⟨r, s1, w1⟩
    rw [hpu] at p1 p3 p4
    simp only at p1 p3 p4
    subst p1
    simp only [hpu]
    exact ⟨p3, by rw [p4, hlevel]⟩

end GroupInvariantClaim

section GroupInvariantReachable

variable {W : Type}

theorem KeepsGroup.invariant {s s1 : CommandProcessor} (h : KeepsGroup s s1)
    (hs : s.m_groupLevel = 0 → s.m_groupedCommands = []) :
    s1.m_groupLevel = 0 → s1.m_groupedCommands = [] := by
  intro h0
  have hl : s.m_groupLevel = 0 := by rw [← h.1]; exact h0
  rw [h.2 hl]
  exact hs hl

theorem closeGroup_invariant (env : CommandEnv W) (s : CommandProcessor) (w : W)
    (hs : s.m_groupLevel = 0 → s.m_groupedCommands = []) :
    (closeGroup env s w).2.1.m_groupLevel = 0 → (closeGroup env s w).2.1.m_groupedCommands = [] := by
  simp only [closeGroup, P.bind_run, getProcessor_apply]
  by_cases hlevel : s.m_groupLevel = 0
  · simp only [hlevel, beq_self_eq_true, if_true, raise_apply]
    intro _
    exact hs hlevel
  · have hb : (s.m_groupLevel == 0) = false := by simpa using hlevel
    simp only [hb, Bool.false_eq_true, if_false, P.bind_run, modifyProcessor_apply,
      getProcessor_apply]
    by_cases h1 : s.m_groupLevel - 1 = 0
    · have hb1 : (s.m_groupLevel - 1 == 0) = true := by simpa using h1
      simp only [hb1, if_true, P.bind_run]
      obtain ⟨c1, c2⟩ := createAndStoreCommandGroup_clears env
        { s with m_groupLevel := s.m_groupLevel - 1 } w h1
      rcases hc : createAndStoreCommandGroup env { s with m_groupLevel := s.m_groupLevel - 1 } w
        with ⟨r, s1, w1⟩
      rw [hc] at c1 c2
      simp only at c1 c2
      cases r with
      | returned u =>
        simp only []
        intro _
        have hk := updateNextRepeatableCommand_keeps s1 w1
        rw [hk.2 c2]
        exact c1
      | raised what => intro _; exact c1
      | assertionFailed => intro _; exact c1
      | outOfFuel => intro _; exact c1
    · have hb1 : (s.m_groupLevel - 1 == 0) = false := by simpa using h1
      simp only [hb1, Bool.false_eq_true, if_false, P.pure_run]
      intro h0
      exact absurd h0 h1

theorem undoGroup_invariant (env : CommandEnv W) (s : CommandProcessor) (w : W)
    (hs : s.m_groupLevel = 0 → s.m_groupedCommands = []) :
    (undoGroup env s w).2.1.m_groupLevel = 0 → (undoGroup env s w).2.1.m_groupedCommands = [] := by
  simp only [undoGroup, P.bind_run, getProcessor_apply]
  obtain ⟨h1, h2⟩ := undoGroupLoop_keeps env (s.m_groupedCommands.length + 1) s w
  intro h0
  exact h2 (hs (by rw [← h1]; exact h0))

end GroupInvariantReachable

section GroupInvariantTheorem

variable {W : Type}

theorem Reachable.afterOperations (env : CommandEnv W) :
    ∀ (ops : List Operation) (s : CommandProcessor) (w : W), Reachable env s →
      Reachable env (TrenchBroom.afterOperations env ops (s, w)).1 := by
  intro ops
  induction ops with
  | nil => intro s w h; exact h
  | cons op rest ih =>
    intro s w h
    exact ih _ _ (Reachable.step op w h)

/-- Claim C27.  In every state of the processor that is reachable from its construction by
calls of `beginUndoableGroup`, `beginOneShotGroup`, `closeGroup`, `undoGroup`,
`submitCommand`, `submitAndStoreCommand`, `undoLastCommand`, `redoNextCommand` and
`repeatLastCommand`, however each call ends and whatever the commands and the observers do
to the rest of the program, a group level of 0 implies that there are no grouped commands. -/
theorem reachable_level_zero_no_grouped_commands (env : CommandEnv W) (s : CommandProcessor)
    (h : Reachable env s) : s.m_groupLevel = 0 → s.m_groupedCommands = [] := by
  induction h with
  | init => intro _; rfl
  | step op w _ ih =>
    rename_i s0 _
    cases op with
    | beginUndoableGroup name =>
      intro h0
      have hl := beginGroup_level name true s0 w
      simp only [Operation.after, beginUndoableGroup] at h0
      omega
    | beginOneShotGroup name =>
      intro h0
      have hl := beginGroup_level name false s0 w
      simp only [Operation.after, beginOneShotGroup] at h0
      omega
    | closeGroup => exact closeGroup_invariant env s0 w ih
    | undoGroup => exact undoGroup_invariant env s0 w ih
    | submitCommand command => exact (submitCommand_keeps env command s0 w).invariant ih
    | submitAndStoreCommand command =>
      exact (submitAndStoreCommand_keeps env command s0 w).invariant ih
    | undoLastCommand => exact (undoLastCommand_keeps env s0 w).invariant ih
    | redoNextCommand => exact (redoNextCommand_keeps env s0 w).invariant ih
    | repeatLastCommand => exact (repeatLastCommand_keeps env s0 w).invariant ih

/-- The invariant at the end of the example session: the group has been stored as one
command on the undo stack, the group level is 0 and no grouped command is left. -/
theorem reachable_level_zero_no_grouped_commands_witness :
    Reachable exampleCommandEnv
        (afterOperations exampleCommandEnv exampleGroupSession (CommandProcessor.new, 0)).1 ∧
      ((afterOperations exampleCommandEnv exampleGroupSession
            (CommandProcessor.new, 0)).1.m_groupLevel = 0 →
        (afterOperations exampleCommandEnv exampleGroupSession
            (CommandProcessor.new, 0)).1.m_groupedCommands = []) ∧
      (afterOperations exampleCommandEnv exampleGroupSession
          (CommandProcessor.new, 0)).1.m_groupLevel = 0 ∧
      ((afterOperations exampleCommandEnv exampleGroupSession
          (CommandProcessor.new, 0)).1.m_lastCommandStack.map Command.name) = ["move"] ∧
      ((afterOperations exampleCommandEnv (exampleGroupSession.take 3)
          (CommandProcessor.new, 0)).1.m_groupedCommands.map Command.name) =
        ["first", "second"] :=
  ⟨Reachable.afterOperations exampleCommandEnv exampleGroupSession CommandProcessor.new 0
      Reachable.init,
    reachable_level_zero_no_grouped_commands exampleCommandEnv _
      (Reachable.afterOperations exampleCommandEnv exampleGroupSession CommandProcessor.new 0
        Reachable.init),
    by decide!, by decide!, by decide!⟩

end GroupInvariantTheorem

/-! ## The tokenizer at the level of characters: facts -/

section CharacterLevel

theorem Cursor.advance_cons (c : Char) (rest : List Char) (line column : Nat) :
    (Cursor.mk (c :: rest) line column).advance =
      if c = '\n' then ⟨rest, line + 1, 1⟩ else ⟨rest, line, column + 1⟩ := rfl

theorem Cursor.advance_rest (t : Cursor) : t.advance.rest = t.rest.tail := by
  rcases t with ⟨rest, line, column⟩
  cases rest with
  | nil => rfl
  | cons c rest => rw [Cursor.advance_cons]; split <;> rfl

theorem Cursor.advance_shiftLine (k : Nat) (t : Cursor) :
    (t.shiftLine k).advance = t.advance.shiftLine k := by
  rcases t with ⟨rest, line, column⟩
  cases rest with
  | nil => rfl
  | cons c rest =>
    simp only [Cursor.shiftLine, Cursor.advance_cons]
    split
    · simp only [Cursor.mk.injEq, true_and, and_true]; omega
    · rfl

theorem Cursor.advanceBy_shiftLine (k : Nat) :
    ∀ (n : Nat) (t : Cursor), (t.shiftLine k).advanceBy n = (t.advanceBy n).shiftLine k := by
  intro n
  induction n with
  | zero => intro t; rfl
  | succ n ih => intro t; simp only [Cursor.advanceBy, Cursor.advance_shiftLine, ih]

theorem discardWhileLoop_length (allow : List Char) :
    ∀ (fuel : Nat) (t : Cursor), (discardWhileLoop allow fuel t).rest.length ≤ t.rest.length := by
  intro fuel
  induction fuel with
  | zero => intro t; exact le_refl _
  | succ n ih =>
    intro t
    rcases t with ⟨rest, line, column⟩
    cases rest with
    | nil => exact le_refl _
    | cons c rest =>
      simp only [discardWhileLoop]
      split
      · refine le_trans (ih _) ?_
        rw [Cursor.advance_rest]
        simp
      · exact le_refl _

theorem discardUntilLoop_length (delims : List Char) :
    ∀ (fuel : Nat) (t : Cursor), (discardUntilLoop delims fuel t).rest.length ≤ t.rest.length := by
  intro fuel
  induction fuel with
  | zero => intro t; exact le_refl _
  | succ n ih =>
    intro t
    rcases t with ⟨rest, line, column⟩
    cases rest with
    | nil => exact le_refl _
    | cons c rest =>
      simp only [discardUntilLoop]
      split
      · exact le_refl _
      · refine le_trans (ih _) ?_
        rw [Cursor.advance_rest]
        simp

theorem discardWhileLoop_shiftLine (allow : List Char) (k : Nat) :
    ∀ (fuel : Nat) (t : Cursor),
      discardWhileLoop allow fuel (t.shiftLine k) = (discardWhileLoop allow fuel t).shiftLine k := by
  intro fuel
  induction fuel with
  | zero => intro t; rfl
  | succ n ih =>
    intro t
    rcases t with ⟨rest, line, column⟩
    cases rest with
    | nil => rfl
    | cons c rest =>
      have h : (Cursor.mk (c :: rest) line column).shiftLine k = ⟨c :: rest, line + k, column⟩ := rfl
      simp only [h, discardWhileLoop]
      split
      · rw [← h, Cursor.advance_shiftLine, ih]
      · rfl

theorem discardUntilLoop_shiftLine (delims : List Char) (k : Nat) :
    ∀ (fuel : Nat) (t : Cursor),
      discardUntilLoop delims fuel (t.shiftLine k) =
        (discardUntilLoop delims fuel t).shiftLine k := by
  intro fuel
  induction fuel with
  | zero => intro t; rfl
  | succ n ih =>
    intro t
    rcases t with ⟨rest, line, column⟩
    cases rest with
    | nil => rfl
    | cons c rest =>
      have h : (Cursor.mk (c :: rest) line column).shiftLine k = ⟨c :: rest, line + k, column⟩ := rfl
      simp only [h, discardUntilLoop]
      split
      · rfl
      · rw [← h, Cursor.advance_shiftLine, ih]

theorem discardWhile_shiftLine (allow : List Char) (k : Nat) (t : Cursor) :
    discardWhile allow (t.shiftLine k) = (discardWhile allow t).shiftLine k :=
  discardWhileLoop_shiftLine allow k t.rest.length t

theorem discardUntil_shiftLine (delims : List Char) (k : Nat) (t : Cursor) :
    discardUntil delims (t.shiftLine k) = (discardUntil delims t).shiftLine k :=
  discardUntilLoop_shiftLine delims k t.rest.length t

end CharacterLevel

section CharacterLevelTokens

theorem Cursor.shiftLine_rest (k : Nat) (t : Cursor) : (t.shiftLine k).rest = t.rest := rfl

theorem Cursor.token_shiftLine (k : Nat) (start t : Cursor) (type : TokenType) (n : Nat) :
    (start.shiftLine k).token type (t.shiftLine k) n = (start.token type t n).shiftLine k := rfl

theorem emitTokenTurn_shiftLine (sc : Scanner) (k : Nat) (c : Char) (t : Cursor) :
    emitTokenTurn sc c (t.shiftLine k) = (emitTokenTurn sc c t).shiftLine k := by
  simp only [emitTokenTurn, Cursor.advance_shiftLine, discardUntil_shiftLine,
    discardWhile_shiftLine, Cursor.curChar, Cursor.shiftLine_rest, Cursor.token_shiftLine,
    Cursor.advanceBy_shiftLine]
  by_cases h1 : c = '/'
  · simp only [h1, if_true]
    split <;> rfl
  by_cases h2 : c = '{'
  · simp only [h2, if_true]; rfl
  by_cases h3 : c = '}'
  · simp only [h3, if_true]; rfl
  by_cases h4 : c = '('
  · simp only [h4, if_true]; rfl
  by_cases h5 : c = ')'
  · simp only [h5, if_true]; rfl
  by_cases h6 : c = '['
  · simp only [h6, if_true]; rfl
  by_cases h7 : c = ']'
  · simp only [h7, if_true]; rfl
  by_cases h8 : c = '"'
  · simp only [h8, if_true]
    cases sc.readQuotedString t.advance.rest <;> rfl
  simp only [h1, h2, h3, h4, h5, h6, h7, h8, if_false]
  split
  · rfl
  · cases sc.readInteger sc.Whitespace t.rest <;>
      cases sc.readDecimal sc.Whitespace t.rest <;>
      cases sc.readString sc.Whitespace t.rest <;> rfl

end CharacterLevelTokens

section CharacterLevelLoop

theorem emitTokenLoop_shiftLine (sc : Scanner) (k : Nat) :
    ∀ (fuel : Nat) (t : Cursor),
      emitTokenLoop sc fuel (t.shiftLine k) =
        (shiftResult k (emitTokenLoop sc fuel t).1, (emitTokenLoop sc fuel t).2.shiftLine k) := by
  intro fuel
  induction fuel with
  | zero => intro t; rfl
  | succ n ih =>
    intro t
    rcases t with ⟨rest, line, column⟩
    cases rest with
    | nil => rfl
    | cons c rest =>
      have h : (Cursor.mk (c :: rest) line column).shiftLine k = ⟨c :: rest, line + k, column⟩ := rfl
      rw [h]
      simp only [emitTokenLoop]
      rw [← h, emitTokenTurn_shiftLine]
      cases emitTokenTurn sc c ⟨c :: rest, line, column⟩ with
      | again t1 => exact ih t1
      | leave result t1 => rfl

theorem emitToken_shiftLine (sc : Scanner) (k : Nat) (t : Cursor) :
    emitToken sc (t.shiftLine k) =
      (shiftResult k (emitToken sc t).1, (emitToken sc t).2.shiftLine k) :=
  emitTokenLoop_shiftLine sc k (t.rest.length + 1) t

theorem discardWhile_cons (allow : List Char) (c : Char) (rest : List Char) (line column : Nat) :
    discardWhile allow ⟨c :: rest, line, column⟩ =
      if c ∈ allow then discardWhile allow (Cursor.mk (c :: rest) line column).advance
      else ⟨c :: rest, line, column⟩ := by
  simp only [discardWhile, List.length_cons, discardWhileLoop, Cursor.advance_rest, List.tail_cons]

theorem discardUntil_cons (delims : List Char) (c : Char) (rest : List Char)
    (line column : Nat) :
    discardUntil delims ⟨c :: rest, line, column⟩ =
      if c ∈ delims then ⟨c :: rest, line, column⟩
      else discardUntil delims (Cursor.mk (c :: rest) line column).advance := by
  simp only [discardUntil, List.length_cons, discardUntilLoop, Cursor.advance_rest, List.tail_cons]

theorem emitTokenTurn_blank (sc : Scanner) (c : Char) (t : Cursor) (h : isBlank c) :
    emitTokenTurn sc c t = Turn.again (discardWhile sc.Whitespace t) := by
  rcases h with rfl | rfl | rfl | rfl <;> simp [emitTokenTurn]

/-- A turn of the loop that ends with `break` has moved over at least one character. -/
theorem emitTokenTurn_again (sc : Scanner) (hws : ∀ c, isBlank c → c ∈ sc.Whitespace)
    (c : Char) (rest : List Char) (line column : Nat) (t1 : Cursor)
    (h : emitTokenTurn sc c ⟨c :: rest, line, column⟩ = Turn.again t1) :
    t1.rest.length ≤ rest.length := by
  have hadv : (Cursor.mk (c :: rest) line column).advance.rest.length = rest.length := by
    rw [Cursor.advance_rest]; rfl
  by_cases hb : isBlank c
  · rw [emitTokenTurn_blank sc c _ hb, discardWhile_cons, if_pos (hws c hb)] at h
    injection h with h
    rw [← h, ← hadv]
    exact discardWhileLoop_length _ _ _
  · simp only [emitTokenTurn] at h
    by_cases h1 : c = '/'
    · simp only [h1, if_true] at h
      split at h
      · injection h with h
        rw [← h, ← hadv, h1]
        exact discardUntilLoop_length _ _ _
      · injection h with h
        rw [← h, ← hadv, h1]
    · have hb2 : ¬ (c = ' ' ∨ c = '\t' ∨ c = '\n' ∨ c = '\r') := hb
      simp only [h1, hb2, if_false] at h
      repeat (first | split at h | cases h)

end CharacterLevelLoop

section CharacterLevelFuel

/-- The result of the loop of `emitToken` does not depend on the counter once the counter
exceeds the number of characters left. -/
theorem emitTokenLoop_fuel (sc : Scanner) (hws : ∀ c, isBlank c → c ∈ sc.Whitespace) :
    ∀ (fuel fuel2 : Nat) (t : Cursor), t.rest.length < fuel → t.rest.length < fuel2 →
      emitTokenLoop sc fuel t = emitTokenLoop sc fuel2 t := by
  intro fuel
  induction fuel with
  | zero => intro fuel2 t h; exact absurd h (Nat.not_lt_zero _)
  | succ n ih =>
    intro fuel2 t h h2
    cases fuel2 with
    | zero => exact absurd h2 (Nat.not_lt_zero _)
    | succ m =>
      rcases t with ⟨rest, line, column⟩
      cases rest with
      | nil => rfl
      | cons c rest =>
        simp only [emitTokenLoop]
        cases ht : emitTokenTurn sc c ⟨c :: rest, line, column⟩ with
        | again t1 =>
          have hl := emitTokenTurn_again sc hws c rest line column t1 ht
          simp only [List.length_cons] at h h2
          exact ih m t1 (by omega) (by omega)
        | leave result t1 => rfl

/-- A turn of the loop that leaves `emitToken` does so with a token of a kind other than
`Comment`, or with the exception for a character that cannot be read. -/
theorem emitTokenTurn_leave (sc : Scanner) (c : Char) (t t1 : Cursor) (result : Result Token)
    (h : emitTokenTurn sc c t = Turn.leave result t1) :
    (∃ token, result = Result.ok token ∧ token.type ≠ TokenType.Comment) ∨
      (∃ line column ch, result = Result.thrown (Exception.lexError line column ch)) := by
  simp only [emitTokenTurn] at h
  by_cases h1 : c = '/'
  · simp only [h1, if_true] at h
    split at h <;> cases h
  by_cases h2 : c = '{'
  · simp only [h2, if_true] at h; cases h; exact Or.inl ⟨_, rfl, by intro hc; cases hc⟩
  by_cases h3 : c = '}'
  · simp only [h3, if_true] at h; cases h; exact Or.inl ⟨_, rfl, by intro hc; cases hc⟩
  by_cases h4 : c = '('
  · simp only [h4, if_true] at h; cases h; exact Or.inl ⟨_, rfl, by intro hc; cases hc⟩
  by_cases h5 : c = ')'
  · simp only [h5, if_true] at h; cases h; exact Or.inl ⟨_, rfl, by intro hc; cases hc⟩
  by_cases h6 : c = '['
  · simp only [h6, if_true] at h; cases h; exact Or.inl ⟨_, rfl, by intro hc; cases hc⟩
  by_cases h7 : c = ']'
  · simp only [h7, if_true] at h; cases h; exact Or.inl ⟨_, rfl, by intro hc; cases hc⟩
  by_cases h8 : c = '"'
  · simp only [h8, if_true] at h
    cases hq : sc.readQuotedString t.advance.rest <;> rw [hq] at h <;> cases h
    · exact Or.inr ⟨_, _, _, rfl⟩
    · exact Or.inl ⟨_, rfl, by intro hc; cases hc⟩
  simp only [h1, h2, h3, h4, h5, h6, h7, h8, if_false] at h
  split at h
  · cases h
  · cases hi : sc.readInteger sc.Whitespace t.rest <;> rw [hi] at h
    · cases hd : sc.readDecimal sc.Whitespace t.rest <;> rw [hd] at h
      · cases hs : sc.readString sc.Whitespace t.rest <;> rw [hs] at h <;> cases h
        · exact Or.inr ⟨_, _, _, rfl⟩
        · exact Or.inl ⟨_, rfl, by intro hc; cases hc⟩
      · cases h; exact Or.inl ⟨_, rfl, by intro hc; cases hc⟩
    · cases h; exact Or.inl ⟨_, rfl, by intro hc; cases hc⟩

/-- The loop of `emitToken` comes to an end: with a counter above the number of characters
left it returns a token or throws. -/
theorem emitTokenLoop_ends (sc : Scanner) (hws : ∀ c, isBlank c → c ∈ sc.Whitespace) :
    ∀ (fuel : Nat) (t : Cursor), t.rest.length < fuel →
      (∃ token, (emitTokenLoop sc fuel t).1 = Result.ok token) ∨
        (∃ line column c,
          (emitTokenLoop sc fuel t).1 = Result.thrown (Exception.lexError line column c)) := by
  intro fuel
  induction fuel with
  | zero => intro t h; exact absurd h (Nat.not_lt_zero _)
  | succ n ih =>
    intro t h
    rcases t with ⟨rest, line, column⟩
    cases rest with
    | nil => exact Or.inl ⟨_, rfl⟩
    | cons c rest =>
      simp only [emitTokenLoop]
      cases ht : emitTokenTurn sc c ⟨c :: rest, line, column⟩ with
      | again t1 =>
        have hl := emitTokenTurn_again sc hws c rest line column t1 ht
        simp only [List.length_cons] at h
        exact ih t1 (by omega)
      | leave result t1 =>
        simp only []
        rcases emitTokenTurn_leave sc c _ t1 result ht with ⟨token, h1, _⟩ | h1
        · exact Or.inl ⟨token, h1⟩
        · exact Or.inr h1

theorem emitTokenLoop_no_Comment (sc : Scanner) :
    ∀ (fuel : Nat) (t : Cursor) (token : Token),
      (emitTokenLoop sc fuel t).1 = Result.ok token → token.type ≠ TokenType.Comment := by
  intro fuel
  induction fuel with
  | zero => intro t token h; cases h
  | succ n ih =>
    intro t token h
    rcases t with ⟨rest, line, column⟩
    cases rest with
    | nil =>
      simp only [emitTokenLoop] at h
      cases h
      intro hc; cases hc
    | cons c rest =>
      simp only [emitTokenLoop] at h
      cases ht : emitTokenTurn sc c ⟨c :: rest, line, column⟩ with
      | again t1 => rw [ht] at h; exact ih t1 token h
      | leave result t1 =>
        rw [ht] at h
        simp only at h
        subst h
        rcases emitTokenTurn_leave sc c _ t1 _ ht with ⟨token2, h1, h2⟩ | ⟨_, _, _, h1⟩
        · cases h1; exact h2
        · cases h1

theorem emitToken_cons (sc : Scanner) (hws : ∀ c, isBlank c → c ∈ sc.Whitespace)
    (c : Char) (rest : List Char) (line column : Nat) :
    emitToken sc ⟨c :: rest, line, column⟩ =
      match emitTokenTurn sc c ⟨c :: rest, line, column⟩ with
      | Turn.again t1 => emitToken sc t1
      | Turn.leave result t1 => (result, t1) := by
  simp only [emitToken, List.length_cons, emitTokenLoop]
  cases ht : emitTokenTurn sc c ⟨c :: rest, line, column⟩ with
  | again t1 =>
    have hl := emitTokenTurn_again sc hws c rest line column t1 ht
    exact emitTokenLoop_fuel sc hws (rest.length + 1) (t1.rest.length + 1) t1 (by omega) (by omega)
  | leave result t1 => rfl

/-- Whitespace before a token changes nothing but the position: `emitToken` gives the same
after `discardWhile(Whitespace)` as before it. -/
theorem emitToken_discardWhile (sc : Scanner) (hws : ∀ c, c ∈ sc.Whitespace ↔ isBlank c)
    (t : Cursor) : emitToken sc (discardWhile sc.Whitespace t) = emitToken sc t := by
  rcases t with ⟨rest, line, column⟩
  cases rest with
  | nil => rfl
  | cons c rest =>
    by_cases hc : c ∈ sc.Whitespace
    · rw [emitToken_cons sc (fun c h => (hws c).2 h) c rest line column,
        emitTokenTurn_blank sc c _ ((hws c).1 hc)]
    · rw [discardWhile_cons, if_neg hc]

end CharacterLevelFuel

section LineComments

theorem discardUntil_line (c s : List Char) :
    ∀ (line column : Nat), '\n' ∉ c → '\r' ∉ c →
      discardUntil ['\n', '\r'] ⟨c ++ '\n' :: s, line, column⟩ =
        ⟨'\n' :: s, line, column + c.length⟩ := by
  induction c with
  | nil =>
    intro line column _ _
    simp [discardUntil_cons]
  | cons x c ih =>
    intro line column h1 h2
    simp only [List.mem_cons, not_or] at h1 h2
    have hx1 : x ≠ '\n' := fun h => h1.1 h.symm
    have hx2 : x ≠ '\r' := fun h => h2.1 h.symm
    rw [List.cons_append, discardUntil_cons, if_neg (by simp [hx1, hx2]), Cursor.advance_cons,
      if_neg hx1, ih line (column + 1) h1.2 h2.2]
    simp only [List.length_cons, Cursor.mk.injEq, true_and]
    omega

/-- A line comment and the line feed that ends it are skipped: `emitToken` gives before
`"//" + c + "\n"` what it gives at the start of the next line. -/
theorem emitToken_line_comment (sc : Scanner) (hws : ∀ c, c ∈ sc.Whitespace ↔ isBlank c)
    (c s : List Char) (line column : Nat) (h1 : '\n' ∉ c) (h2 : '\r' ∉ c) :
    emitToken sc ⟨'/' :: '/' :: (c ++ '\n' :: s), line, column⟩ =
      emitToken sc ⟨s, line + 1, 1⟩ := by
  have hws2 : ∀ c, isBlank c → c ∈ sc.Whitespace := fun c h => (hws c).2 h
  have hn : isBlank '\n' := Or.inr (Or.inr (Or.inl rfl))
  have hturn : emitTokenTurn sc '/' ⟨'/' :: '/' :: (c ++ '\n' :: s), line, column⟩ =
      Turn.again ⟨'\n' :: s, line, column + 1 + (c.length + 1)⟩ := by
    have hd := discardUntil_line ('/' :: c) s line (column + 1)
      (by simp only [List.mem_cons, not_or]; exact ⟨by decide, h1⟩)
      (by simp only [List.mem_cons, not_or]; exact ⟨by decide, h2⟩)
    simp only [List.cons_append, List.length_cons] at hd
    simp [emitTokenTurn, Cursor.advance_cons, Cursor.curChar, hd]
  rw [emitToken_cons sc hws2, hturn]
  simp only []
  rw [emitToken_cons sc hws2, emitTokenTurn_blank sc _ _ hn]
  simp only []
  rw [discardWhile_cons, if_pos (hws2 _ hn), Cursor.advance_cons, if_pos rfl]
  exact emitToken_discardWhile sc hws _

theorem tokensFrom_congr (sc : Scanner) (count : Nat) (t t2 : Cursor)
    (h : emitToken sc t = emitToken sc t2) : tokensFrom sc count t = tokensFrom sc count t2 := by
  cases count with
  | zero => rfl
  | succ n => simp only [tokensFrom, h]

theorem tokensFrom_shiftLine (sc : Scanner) (k : Nat) :
    ∀ (count : Nat) (t : Cursor),
      tokensFrom sc count (t.shiftLine k) = shiftTokens k (tokensFrom sc count t) := by
  intro count
  induction count with
  | zero => intro t; rfl
  | succ n ih =>
    intro t
    simp only [tokensFrom, emitToken_shiftLine]
    rcases emitToken sc t with ⟨result, t1⟩
    cases result with
    | ok token =>
      simp only [shiftResult]
      have hty : (token.shiftLine k).type = token.type := rfl
      rw [hty, ih]
      split <;> rfl
    | thrown e => cases e <;> rfl
    | outOfFuel => rfl

/-- Once the tokens have come to an end, further calls of `emitToken` are not made. -/
theorem tokensFrom_mono (sc : Scanner) :
    ∀ (count more : Nat) (t : Cursor), (tokensFrom sc count t).2 ≠ none →
      tokensFrom sc (count + more) t = tokensFrom sc count t := by
  intro count
  induction count with
  | zero => intro more t h; exact absurd rfl h
  | succ n ih =>
    intro more t h
    rw [Nat.add_right_comm]
    simp only [tokensFrom] at h ⊢
    rcases he : emitToken sc t with ⟨result, t1⟩
    rw [he] at h
    cases result with
    | ok token =>
      simp only at h ⊢
      split
      · rfl
      · rename_i hty
        rw [if_neg hty] at h
        rw [ih more t1 h]
    | thrown e => cases e <;> rfl
    | outOfFuel => rfl

end LineComments

section LineCommentClaim

theorem tokensFrom_no_Comment (sc : Scanner) :
    ∀ (count : Nat) (t : Cursor) (token : Token),
      token ∈ (tokensFrom sc count t).1 → token.type ≠ TokenType.Comment := by
  intro count
  induction count with
  | zero => intro t token h; cases h
  | succ n ih =>
    intro t token h
    simp only [tokensFrom] at h
    rcases he : emitToken sc t with ⟨result, t1⟩
    rw [he] at h
    cases result with
    | ok first =>
      simp only at h
      split at h
      · cases h
      · rcases List.mem_cons.1 h with h1 | h1
        · rw [h1]
          exact emitTokenLoop_no_Comment sc _ t first (by rw [← emitToken, he])
        · exact ih t1 token h1
    | thrown e => cases e <;> cases h
    | outOfFuel => cases h

theorem specScanner_Whitespace (c : Char) : c ∈ specScanner.Whitespace ↔ isBlank c := by
  simp [specScanner, isBlank]

theorem kindsAndTexts_shiftTokens (k : Nat) (tokens : List Token × Option Ending) :
    kindsAndTexts (shiftTokens k tokens).1 = kindsAndTexts tokens.1 := by
  simp [kindsAndTexts, shiftTokens, Token.shiftLine, Function.comp_def]

/-- Claim C22.  For every input `s` and every comment text `c` without a line feed or a
carriage return, the tokens of `"//" + c + "\n" + s` are the tokens of `s` with their lines
moved down by one: the same kinds, texts and columns, whatever number of tokens is asked
for, and the same end (end of input, or the same unreadable character).  Every call of
`emitToken` comes to an end, and no token of kind `Comment` is ever emitted.  The scanner
is any whose `Whitespace` holds the four characters of the case labels of `emitToken`. -/
theorem line_comment_is_skipped (sc : Scanner) (hws : ∀ c, c ∈ sc.Whitespace ↔ isBlank c)
    (c s : List Char) (h1 : '\n' ∉ c) (h2 : '\r' ∉ c) :
    (∀ count, tokensFrom sc count (Cursor.start ('/' :: '/' :: (c ++ '\n' :: s))) =
      shiftTokens 1 (tokensFrom sc count (Cursor.start s))) ∧
    (∀ count,
      kindsAndTexts (tokensFrom sc count (Cursor.start ('/' :: '/' :: (c ++ '\n' :: s)))).1 =
        kindsAndTexts (tokensFrom sc count (Cursor.start s)).1) ∧
    ((tokenize sc (String.mk s)).2 ≠ none →
      tokenize sc (String.mk ('/' :: '/' :: (c ++ '\n' :: s))) =
        shiftTokens 1 (tokenize sc (String.mk s))) ∧
    (∀ t, (∃ token, (emitToken sc t).1 = Result.ok token) ∨
      (∃ line column ch,
        (emitToken sc t).1 = Result.thrown (Exception.lexError line column ch))) ∧
    (∀ count t token, token ∈ (tokensFrom sc count t).1 → token.type ≠ TokenType.Comment) := by
  have hmain : ∀ count, tokensFrom sc count (Cursor.start ('/' :: '/' :: (c ++ '\n' :: s))) =
      shiftTokens 1 (tokensFrom sc count (Cursor.start s)) := by
    intro count
    rw [← tokensFrom_shiftLine]
    exact tokensFrom_congr sc count _ _ (emitToken_line_comment sc hws c s 1 1 h1 h2)
  refine ⟨hmain, ?_, ?_, ?_, tokensFrom_no_Comment sc⟩
  · intro count
    rw [hmain, kindsAndTexts_shiftTokens]
  · intro hend
    have hlen : (String.mk ('/' :: '/' :: (c ++ '\n' :: s))).length + 1 =
        ((String.mk s).length + 1) + (c.length + 3) := by
      simp only [String.length, List.length_cons, List.length_append]
      omega
    simp only [tokenize] at hend ⊢
    rw [hmain, hlen, tokensFrom_mono sc _ _ _ hend]
  · intro t
    exact emitTokenLoop_ends sc (fun c h => (hws c).2 h) _ t (Nat.lt_succ_self _)

/-- C22 at the comment `// brushes` before a line with six tokens. -/
theorem line_comment_is_skipped_witness :
    tokenize specScanner
        (String.mk ('/' :: '/' :: (" brushes".data ++ '\n' :: "( 1 -2 2.5 ) x".data))) =
      shiftTokens 1 (tokenize specScanner (String.mk "( 1 -2 2.5 ) x".data)) ∧
    tokenize specScanner "// brushes\n( 1 -2 2.5 ) x" =
      ([⟨TokenType.OParenthesis, "(", 2, 1⟩, ⟨TokenType.Integer, "1", 2, 3⟩,
        ⟨TokenType.Integer, "-2", 2, 5⟩, ⟨TokenType.Decimal, "2.5", 2, 8⟩,
        ⟨TokenType.CParenthesis, ")", 2, 12⟩, ⟨TokenType.String, "x", 2, 14⟩],
        some (Ending.eof 2 15)) :=
  ⟨(line_comment_is_skipped specScanner specScanner_Whitespace " brushes".data
    "( 1 -2 2.5 ) x".data (by decide) (by decide)).2.2.1 (by decide!), by decide!⟩

end LineCommentClaim

section BareWords

/-- The default case of `emitToken` (lines 82 to 95) when the text is no Integer and no
Decimal: the token is a String with the text `readString(Whitespace)` has read. -/
theorem emitToken_word (sc : Scanner) (hws : ∀ c, isBlank c → c ∈ sc.Whitespace)
    (c : Char) (run : List Char) (line column n : Nat)
    (hslash : c ≠ '/') (hblank : ¬ isBlank c)
    (hpunct : c ∉ ['{', '}', '(', ')', '[', ']', '"'])
    (hinteger : sc.readInteger sc.Whitespace (c :: run) = none)
    (hdecimal : sc.readDecimal sc.Whitespace (c :: run) = none)
    (hstring : sc.readString sc.Whitespace (c :: run) = some n) :
    emitToken sc ⟨c :: run, line, column⟩ =
      (Result.ok ⟨TokenType.String, String.mk ((c :: run).take n), line, column⟩,
        (Cursor.mk (c :: run) line column).advanceBy n) := by
  have hb : ¬ (c = ' ' ∨ c = '\t' ∨ c = '\n' ∨ c = '\r') := hblank
  simp only [List.mem_cons, List.mem_singleton, not_or, List.not_mem_nil, not_false_eq_true,
    and_true] at hpunct
  obtain ⟨p1, p2, p3, p4, p5, p6, p7⟩ := hpunct
  rw [emitToken_cons sc hws]
  simp only [emitTokenTurn, hslash, p1, p2, p3, p4, p5, p6, p7, hb, if_false, hinteger,
    hdecimal, hstring, Cursor.token]

/-- A `/` that is not followed by a second `/` is moved over and the loop goes on with the
next character (lines 47 to 51). -/
theorem emitToken_lone_slash (sc : Scanner) (hws : ∀ c, isBlank c → c ∈ sc.Whitespace)
    (rest : List Char) (line column : Nat) (h : rest.head? ≠ some '/') :
    emitToken sc ⟨'/' :: rest, line, column⟩ = emitToken sc ⟨rest, line, column + 1⟩ := by
  rw [emitToken_cons sc hws]
  simp [emitTokenTurn, Cursor.advance_cons, Cursor.curChar, h]

end BareWords

section BareWordClaim

/-- Claim C23.  A run of characters that starts at a token boundary with a character `c`
other than `/`, whitespace, a brace, a parenthesis, a bracket and a double quote, and is no
Integer and no Decimal, is emitted as one String token with the text that
`readString(Whitespace)` reads.  A `/` in front of such a run is not kept: `emitToken` moves
over it and emits the same String token, one column further, so that the text of the token
for `/abc` is `abc`. -/
theorem leading_slash_is_dropped (sc : Scanner) (hws : ∀ c, isBlank c → c ∈ sc.Whitespace)
    (c : Char) (run : List Char) (line column n : Nat)
    (hslash : c ≠ '/') (hblank : ¬ isBlank c)
    (hpunct : c ∉ ['{', '}', '(', ')', '[', ']', '"'])
    (hinteger : sc.readInteger sc.Whitespace (c :: run) = none)
    (hdecimal : sc.readDecimal sc.Whitespace (c :: run) = none)
    (hstring : sc.readString sc.Whitespace (c :: run) = some n) :
    emitToken sc ⟨c :: run, line, column⟩ =
      (Result.ok ⟨TokenType.String, String.mk ((c :: run).take n), line, column⟩,
        (Cursor.mk (c :: run) line column).advanceBy n) ∧
    emitToken sc ⟨'/' :: c :: run, line, column⟩ =
      (Result.ok ⟨TokenType.String, String.mk ((c :: run).take n), line, column + 1⟩,
        (Cursor.mk (c :: run) line (column + 1)).advanceBy n) := by
  refine ⟨emitToken_word sc hws c run line column n hslash hblank hpunct hinteger hdecimal
    hstring, ?_⟩
  rw [emitToken_lone_slash sc hws (c :: run) line column
    (by simp only [List.head?_cons, ne_eq, Option.some.injEq]; exact hslash)]
  exact emitToken_word sc hws c run line (column + 1) n hslash hblank hpunct hinteger hdecimal
    hstring

/-- C23 at `abc d` and `/abc d`: both give the String token `abc`; the text `/abc` as a
whole gives the one token `abc`, a `/` alone gives no token, and a `/` inside a word is
kept. -/
theorem leading_slash_is_dropped_witness :
    (emitToken specScanner ⟨'a' :: "bc d".data, 1, 1⟩ =
      (Result.ok ⟨TokenType.String, String.mk (('a' :: "bc d".data).take 3), 1, 1⟩,
        (Cursor.mk ('a' :: "bc d".data) 1 1).advanceBy 3) ∧
    emitToken specScanner ⟨'/' :: 'a' :: "bc d".data, 1, 1⟩ =
      (Result.ok ⟨TokenType.String, String.mk (('a' :: "bc d".data).take 3), 1, 1 + 1⟩,
        (Cursor.mk ('a' :: "bc d".data) 1 (1 + 1)).advanceBy 3)) ∧
    tokenize specScanner "/abc" = ([⟨TokenType.String, "abc", 1, 2⟩], some (Ending.eof 1 5)) ∧
    tokenize specScanner "/" = ([], some (Ending.eof 1 2)) ∧
    tokenize specScanner "a/bc" = ([⟨TokenType.String, "a/bc", 1, 1⟩], some (Ending.eof 1 5)) :=
  ⟨leading_slash_is_dropped specScanner (fun c h => (specScanner_Whitespace c).2 h) 'a'
    "bc d".data 1 1 3 (by decide) (by simp [isBlank]) (by decide) (by decide) (by decide)
    (by decide), by decide!, by decide!, by decide!⟩

end BareWordClaim

section ExampleDocument

variable {R : Type} [CommRing R] [DecidableEq R]

theorem standardAFace_face (env : Env R)
    (hzero : ∀ t : Token, t.data = "0" → env.toFloat t = 0)
    (hone : ∀ t : Token, t.data = "1" → env.toFloat t = 1)
    (hp1 : env.corrected ⟨0, 0, 0⟩ = ⟨0, 0, 0⟩) (hp2 : env.corrected ⟨0, 1, 0⟩ = ⟨0, 1, 0⟩)
    (hp3 : env.corrected ⟨1, 0, 0⟩ = ⟨1, 0, 0⟩) :
    standardAFace.face env = standardAParsedFace R ∧
      standardAFace.cross env = ⟨0, 0, 1⟩ := by
  have z : ∀ (line column : Nat), env.toFloat ⟨TokenType.Integer, "0", line, column⟩ = 0 :=
    fun _ _ => hzero _ rfl
  have o : ∀ (line column : Nat), env.toFloat ⟨TokenType.Integer, "1", line, column⟩ = 1 :=
    fun _ _ => hone _ rfl
  constructor
  · simp only [FaceSrc.face, standardAFace, standardAPoint, PointSrc.vec, z, o, hp1, hp2, hp3,
      standardAParsedFace]
    rfl
  · simp only [FaceSrc.cross, standardAFace, standardAPoint, PointSrc.vec, z, o, hp1, hp2, hp3,
      crossed, Vec3.sub]
    simp

end ExampleDocument

section ExampleDocumentClaim

variable {R : Type} [CommRing R] [DecidableEq R]

/-- Claim C21.  Parsing the spec's literal StandardA example document gives a Document of
format `Quake` (StandardA) with exactly one entity, whose only property is
`classname = worldspawn`; the face list handed to the geometry kernel for its one brush is
exactly one face with the points (0,0,0), (0,1,0), (1,0,0), the texture name `TEXTURE`,
offsets 0 and 0, rotation 0 and scales 1 and 1.  The entity holds that brush when the kernel
accepts the face list, and no brush (with one diagnostic for line 3) when it rejects it.
The numbers `0` and `1` are read as 0 and 1, `corrected` leaves the three points as they
are, and sorting a list of one face leaves it as it is. -/
theorem doParseMap_standardA_example (sc : Scanner) (env : Env R) (fuel : Nat) (wb : BBox3 R)
    (lg : Option (List LogEntry))
    (htokens : tokenize sc exampleStandardA = (standardATokens, some (Ending.eof 7 1)))
    (hzero : ∀ t : Token, t.data = "0" → env.toFloat t = 0)
    (hone : ∀ t : Token, t.data = "1" → env.toFloat t = 1)
    (hnontrivial : (1 : R) ≠ 0)
    (hp1 : env.corrected ⟨0, 0, 0⟩ = ⟨0, 0, 0⟩) (hp2 : env.corrected ⟨0, 1, 0⟩ = ⟨0, 1, 0⟩)
    (hp3 : env.corrected ⟨1, 0, 0⟩ = ⟨1, 0, 0⟩)
    (hsort : ∀ (d : Bool) (face : BrushFace R), env.sortFaces d [face] = [face])
    (hfuel : 27 < fuel) :
    (doParseMap env fuel wb (QuakeMapParser.ofText sc exampleStandardA lg)).1 =
      Result.ok
        { format := MapFormat.Quake
          entities :=
            [{ properties := [("classname", "worldspawn")]
               brushes :=
                 match env.geometry wb [standardAParsedFace R] with
                 | none => [{ faces := [standardAParsedFace R], filePosition := (3, 2) }]
                 | some _ => []
               filePosition := (1, 5) }] } ∧
    (doParseMap env fuel wb (QuakeMapParser.ofText sc exampleStandardA lg)).2.m_logger =
      lg.map (fun entries => entries ++
        match env.geometry wb [standardAParsedFace R] with
        | none => []
        | some what => [{ line := 3, what := what }]) ∧
    standardABrush.sortedFaces env = [standardAParsedFace R] := by
  obtain ⟨hface, hcross⟩ := standardAFace_face env hzero hone hp1 hp2 hp3
  have hsorted : standardABrush.sortedFaces env = [standardAParsedFace R] := by
    simp only [BrushSrc.sortedFaces, standardABrush, List.map_cons, List.map_nil, hsort, hface]
  have hwf : ∀ b ∈ [standardABrush], b.WellFormedNonDegenerate env MapFormat.Quake := by
    intro b hb
    rw [List.mem_singleton.1 hb]
    refine ⟨rfl, rfl, ?_⟩
    intro f hf
    have hf2 : f = standardAFace := by simpa [standardABrush] using hf
    rw [hf2]
    refine ⟨by decide, ?_⟩
    simp only [FaceSrc.NonDegenerate, hcross, Vec3.null]
    simp [hnontrivial]
  have hrun := doParseMap_entity_run env fuel wb lg 7 1 MapFormat.Quake
    ⟨TokenType.OBrace, "\x7b", 1, 1⟩ ⟨TokenType.CBrace, "\x7d", 6, 1⟩
    [(⟨TokenType.String, "classname", 2, 1⟩, ⟨TokenType.String, "worldspawn", 2, 13⟩)]
    [standardABrush] rfl rfl (by decide) hwf (by
      have : (entityTokens ⟨TokenType.OBrace, "\x7b", 1, 1⟩
        [(⟨TokenType.String, "classname", 2, 1⟩, ⟨TokenType.String, "worldspawn", 2, 13⟩)]
        [standardABrush] ⟨TokenType.CBrace, "\x7d", 6, 1⟩).length = 27 := by decide
      omega)
  have hparser : QuakeMapParser.ofText sc exampleStandardA lg =
      QuakeMapParser.new standardATokens (Ending.eof 7 1) lg := by
    simp only [QuakeMapParser.ofText, htokens, Option.getD_some]
  rw [hparser]
  simp only [standardATokens]
  rw [hrun]
  refine ⟨?_, ?_, hsorted⟩
  · have hfmt : documentFormat MapFormat.Quake [standardABrush] = MapFormat.Quake := by decide
    simp only [hfmt, parsedEntity, List.filterMap_cons, List.filterMap_nil, BrushSrc.brush,
      hsorted, BrushSrc.accepted]
    cases hg : env.geometry wb [standardAParsedFace R] <;> rfl
  · simp only [logAfter, List.filterMap_cons, List.filterMap_nil, BrushSrc.diagnostic, hsorted]
    cases hg : env.geometry wb [standardAParsedFace R] <;> rfl

/-- C21 with the scanner and the environment of the examples, whose kernel rejects a brush
of fewer than four faces: the Document holds the one entity without a brush, and the logger
has received the diagnostic for the brush of line 3. -/
theorem doParseMap_standardA_example_witness :
    ((doParseMap exampleEnv 28 exampleBounds
        (QuakeMapParser.ofText specScanner exampleStandardA (some []))).1 =
      Result.ok
        { format := MapFormat.Quake
          entities :=
            [{ properties := [("classname", "worldspawn")]
               brushes :=
                 match exampleEnv.geometry exampleBounds [standardAParsedFace ℤ] with
                 | none => [{ faces := [standardAParsedFace ℤ], filePosition := (3, 2) }]
                 | some _ => []
               filePosition := (1, 5) }] } ∧
    (doParseMap exampleEnv 28 exampleBounds
        (QuakeMapParser.ofText specScanner exampleStandardA (some []))).2.m_logger =
      (some []).map (fun entries => entries ++
        match exampleEnv.geometry exampleBounds [standardAParsedFace ℤ] with
        | none => []
        | some what => [{ line := 3, what := what }]) ∧
    standardABrush.sortedFaces exampleEnv = [standardAParsedFace ℤ]) ∧
    doParseMap exampleEnv 28 exampleBounds
        (QuakeMapParser.ofText specScanner exampleStandardA (some [])) =
      (Result.ok
        { format := MapFormat.Quake
          entities :=
            [{ properties := [("classname", "worldspawn")], brushes := []
               filePosition := (1, 5) }] },
        ⟨some [{ line := 3, what := "brush is not closed" }],
          ⟨standardATokens, Ending.eof 7 1, [], none⟩, MapFormat.Quake⟩) :=
  ⟨doParseMap_standardA_example specScanner exampleEnv 28 exampleBounds (some [])
    (by decide!) (fun t h => by show intOfText t.data = 0; rw [h]; rfl)
    (fun t h => by show intOfText t.data = 1; rw [h]; rfl) (by decide) rfl rfl rfl
    (fun _ _ => rfl) (by decide), by decide!⟩

end ExampleDocumentClaim

/-! ## Claim about the release of objects on failure -/

/-- Claim C24.  When `doParseMap` fails with a structural error, the objects allocated
during the call are not all released when the error surfaces.  On a document whose brush
has a stray word after two faces, the call throws `UnexpectedToken` and the two faces are
still allocated; on a document whose face has a Decimal as first surface field, the call
throws and the face created before the surface fields were read is still allocated.  On a
document with a stray number after a complete brush the entity, its brush and the face of
the brush are all released, as everything is whenever the error is raised outside
`parseBrush` and `parseFace`.  In each case the result and the parser are those of
`doParseMap` without the heap. -/
theorem doParseMap_failure_leaves_faces_allocated :
    ((Tracked.doParseMap twoKeyEnv 40 exampleBounds
        (QuakeMapParser.ofText specScanner exampleStrayWord none, Heap.empty)).1 =
      Result.thrown (Exception.unexpectedToken 6 1
        [TokenType.OParenthesis, TokenType.CParenthesis] TokenType.String) ∧
    (Tracked.doParseMap twoKeyEnv 40 exampleBounds
        (QuakeMapParser.ofText specScanner exampleStrayWord none, Heap.empty)).2.2 =
      { Heap.empty with faces := 2 }) ∧
    ((Tracked.doParseMap twoKeyEnv 40 exampleBounds
        (QuakeMapParser.ofText specScanner exampleBadSurface none, Heap.empty)).1 =
      Result.thrown (Exception.unexpectedToken 4 49 [TokenType.Integer] TokenType.Decimal) ∧
    (Tracked.doParseMap twoKeyEnv 40 exampleBounds
        (QuakeMapParser.ofText specScanner exampleBadSurface none, Heap.empty)).2.2 =
      { Heap.empty with faces := 1 }) ∧
    ((Tracked.doParseMap twoKeyEnv 40 exampleBounds
        (QuakeMapParser.ofText specScanner exampleStrayNumber none, Heap.empty)).1 =
      Result.thrown (Exception.unexpectedToken 6 1
        [TokenType.OBrace, TokenType.CBrace] TokenType.Integer) ∧
    (Tracked.doParseMap twoKeyEnv 40 exampleBounds
        (QuakeMapParser.ofText specScanner exampleStrayNumber none, Heap.empty)).2.2 =
      Heap.empty) ∧
    (∀ text ∈ [exampleStrayWord, exampleBadSurface, exampleStrayNumber, exampleStandardA],
      ((Tracked.doParseMap twoKeyEnv 40 exampleBounds
          (QuakeMapParser.ofText specScanner text none, Heap.empty)).1,
        (Tracked.doParseMap twoKeyEnv 40 exampleBounds
          (QuakeMapParser.ofText specScanner text none, Heap.empty)).2.1) =
        doParseMap twoKeyEnv 40 exampleBounds (QuakeMapParser.ofText specScanner text none)) ∧
    (Tracked.doParseMap twoKeyEnv 40 exampleBounds
        (QuakeMapParser.ofText specScanner exampleStandardA none, Heap.empty)).2.2 =
      { Heap.empty with faces := 1, brushes := 1, entities := 1, maps := 1, map := [[1]] } := by
  refine ⟨⟨?_, ?_⟩, ⟨?_, ?_⟩, ⟨?_, ?_⟩, ?_, ?_⟩ <;> decide!

/-! ## Claims about the search for a repeatable command -/

section RepeatableSearch

variable {W : Type}

/-- The loop of `findNextRepeatableCommand` started at `fromIndex` on a stack that has at
least that many commands: either it returns the greatest index below `fromIndex` that holds
a repeatable command, or there is none and it returns the size of the stack. -/
theorem findNextRepeatableLoop_greatest (stack : List Command) :
    ∀ fromIndex : Nat, fromIndex ≤ stack.length →
      (findNextRepeatableLoop stack fromIndex < fromIndex ∧
        (∃ command, stack[findNextRepeatableLoop stack fromIndex]? = some command ∧
          command.isRepeatable = true) ∧
        (∀ (j : Nat) (command : Command), findNextRepeatableLoop stack fromIndex < j →
          j < fromIndex → stack[j]? = some command → command.isRepeatable = false)) ∨
      (findNextRepeatableLoop stack fromIndex = stack.length ∧
        (∀ (j : Nat) (command : Command), j < fromIndex → stack[j]? = some command →
          command.isRepeatable = false)) := by
  intro fromIndex
  induction fromIndex with
  | zero =>
    intro _
    refine Or.inr ⟨rfl, ?_⟩
    intro j command hj
    exact absurd hj (Nat.not_lt_zero j)
  | succ n ih =>
    intro hn
    have hlt : n < stack.length := hn
    simp only [findNextRepeatableLoop, List.getElem?_eq_getElem hlt]
    cases hr : (stack[n]).isRepeatable with
    | true =>
      simp only [if_true]
      refine Or.inl ⟨Nat.lt_succ_self n, ⟨stack[n], List.getElem?_eq_getElem hlt, hr⟩, ?_⟩
      intro j command h1 h2
      omega
    | false =>
      simp only [Bool.false_eq_true, if_false]
      rcases ih (Nat.le_of_lt hlt) with ⟨h1, h2, h3⟩ | ⟨h1, h2⟩
      · refine Or.inl ⟨Nat.lt_succ_of_lt h1, h2, ?_⟩
        intro j command hj1 hj2 hc
        by_cases hjn : j = n
        · rw [hjn, List.getElem?_eq_getElem hlt] at hc
          cases hc
          exact hr
        · exact h3 j command hj1 (by omega) hc
      · refine Or.inr ⟨h1, ?_⟩
        intro j command hj hc
        by_cases hjn : j = n
        · rw [hjn, List.getElem?_eq_getElem hlt] at hc
          cases hc
          exact hr
        · exact h2 j command (by omega) hc

/-- Claim C33.  For every undo stack and every `fromIndex` up to the size of the stack,
`findNextRepeatableCommand(fromIndex)` returns, without changing anything, the greatest
index below `fromIndex` whose command is repeatable (the command at the index is
repeatable and no command between the index and `fromIndex` is), and it returns the size of
the stack when no command below `fromIndex` is repeatable. -/
theorem findNextRepeatableCommand_greatest (s : CommandProcessor) (w : W) (fromIndex : Nat)
    (hfrom : fromIndex ≤ s.m_lastCommandStack.length) :
    ∃ index : Nat,
      findNextRepeatableCommand fromIndex s w = (Outcome.returned index, s, w) ∧
      ((index < fromIndex ∧
          (∃ command, s.m_lastCommandStack[index]? = some command ∧
            command.isRepeatable = true) ∧
          (∀ (j : Nat) (command : Command), index < j → j < fromIndex →
            s.m_lastCommandStack[j]? = some command → command.isRepeatable = false)) ∨
        (index = s.m_lastCommandStack.length ∧
          (∀ (j : Nat) (command : Command), j < fromIndex →
            s.m_lastCommandStack[j]? = some command → command.isRepeatable = false))) := by
  refine ⟨findNextRepeatableLoop s.m_lastCommandStack fromIndex, ?_,
    findNextRepeatableLoop_greatest s.m_lastCommandStack fromIndex hfrom⟩
  simp [findNextRepeatableCommand, hfrom]

/-- C33 on a stack of four commands of which those at the indices 0 and 2 are repeatable:
the search from 4 and from 3 gives 2, from 2 and from 1 gives 0, and from 0 gives the size 4. -/
theorem findNextRepeatableCommand_greatest_witness :
    (∃ index : Nat,
      findNextRepeatableCommand 4 (processorWith exampleRepeatableStack) (0 : Nat) =
        (Outcome.returned index, processorWith exampleRepeatableStack, 0) ∧
      ((index < 4 ∧
          (∃ command, (processorWith exampleRepeatableStack).m_lastCommandStack[index]? =
              some command ∧ command.isRepeatable = true) ∧
          (∀ (j : Nat) (command : Command), index < j → j < 4 →
            (processorWith exampleRepeatableStack).m_lastCommandStack[j]? = some command →
            command.isRepeatable = false)) ∨
        (index = (processorWith exampleRepeatableStack).m_lastCommandStack.length ∧
          (∀ (j : Nat) (command : Command), j < 4 →
            (processorWith exampleRepeatableStack).m_lastCommandStack[j]? = some command →
            command.isRepeatable = false)))) ∧
    (List.range 5).map (fun fromIndex =>
        (findNextRepeatableCommand fromIndex (processorWith exampleRepeatableStack)
          (0 : Nat)).1) =
      [Outcome.returned 4, Outcome.returned 0, Outcome.returned 0, Outcome.returned 2,
        Outcome.returned 2] :=
  ⟨findNextRepeatableCommand_greatest (processorWith exampleRepeatableStack) (0 : Nat) 4
    (by decide), by decide⟩

end RepeatableSearch

/-! ## Opening and closing groups -/

section GroupHeader

variable {W : Type}

theorem KeepsHeader.unchanged (s : CommandProcessor) : KeepsHeader s s := ⟨rfl, rfl, rfl⟩

theorem KeepsHeader.chain {s s1 s2 : CommandProcessor} (h1 : KeepsHeader s s1)
    (h2 : KeepsHeader s1 s2) : KeepsHeader s s2 :=
  ⟨h2.1.trans h1.1, h2.2.1.trans h1.2.1, h2.2.2.trans h1.2.2⟩

theorem submitCommand_header (env : CommandEnv W) (command : Command) (s : CommandProcessor)
    (w : W) : KeepsHeader s (submitCommand env command s w).2.1 := by
  obtain ⟨_, h2, h3, _⟩ := submitCommand_apply env command s w
  by_cases hr : (submitCommand env command s w).1 = Outcome.returned true
  · cases hu : command.undoable
    · have hd := (doCommand_outcome env command s w)
      rcases hdo : doCommand env command s w with ⟨r, s1, w1⟩
      rw [hdo] at hd
      simp only at hd
      obtain ⟨_, hs⟩ := hd
      subst hs
      simp only [submitCommand, P.bind_run, hdo, hu]
      cases r with
      | returned b =>
        cases b <;> simp [KeepsHeader, updateNextRepeatableCommand_apply]
      | raised what => simp [KeepsHeader]
      | assertionFailed => simp [KeepsHeader]
      | outOfFuel => simp [KeepsHeader]
    · rw [h3 hr hu]; exact KeepsHeader.unchanged s
  · rw [h2 hr]; exact KeepsHeader.unchanged s

theorem pushGroupedCommand_header (env : CommandEnv W) (command : Command)
    (s : CommandProcessor) (w : W) :
    KeepsHeader s (pushGroupedCommand env command s w).2.1 := by
  by_cases hlevel : s.m_groupLevel = 0
  · simp [pushGroupedCommand, hlevel, KeepsHeader]
  · have hpos : 0 < s.m_groupLevel := Nat.pos_of_ne_zero hlevel
    simp only [pushGroupedCommand, P.bind_run, getProcessor_apply, hpos, decide_True,
      assertThat_true]
    split
    · simp [KeepsHeader]
    · cases hl : s.m_groupedCommands.getLast? with
      | none => simp [KeepsHeader]
      | some lastCommand =>
        simp only [P.bind_run, callOut_apply]
        cases hm : (env.collateWith lastCommand command w).1 <;> simp [hm, KeepsHeader]

theorem pushLastCommand_header (env : CommandEnv W) (command : Command) (collate : Bool)
    (s : CommandProcessor) (w : W) :
    KeepsHeader s (pushLastCommand env command collate s w).2.1 := by
  by_cases hlevel : s.m_groupLevel = 0
  · simp only [pushLastCommand, P.bind_run, getProcessor_apply, hlevel, beq_self_eq_true,
      assertThat_true, callOut_apply]
    cases hl : s.m_lastCommandStack.getLast? with
    | none => simp [KeepsHeader]
    | some lastCommand =>
      simp only []
      split
      · cases hm : (env.collateWith lastCommand command (env.wxGetLocalTimeMillis w).2).1 <;>
          simp [hm, KeepsHeader]
      · simp [KeepsHeader]
  · have hb : (s.m_groupLevel == 0) = false := by simpa using hlevel
    simp [pushLastCommand, hb, KeepsHeader]

theorem storeCommand_header (env : CommandEnv W) (command : Command) (collate : Bool)
    (s : CommandProcessor) (w : W) :
    KeepsHeader s (storeCommand env command collate s w).2.1 := by
  by_cases hlevel : s.m_groupLevel = 0
  · simp only [storeCommand, P.bind_run, getProcessor_apply, hlevel, beq_self_eq_true,
      if_true]
    exact pushLastCommand_header env command collate s w
  · have hb : (s.m_groupLevel == 0) = false := by simpa using hlevel
    simp only [storeCommand, P.bind_run, getProcessor_apply, hb, Bool.false_eq_true,
      if_false]
    exact pushGroupedCommand_header env command s w

theorem submitAndStoreCommandCollate_header (env : CommandEnv W) (command : Command)
    (collate : Bool) (s : CommandProcessor) (w : W) :
    KeepsHeader s (submitAndStoreCommandCollate env command collate s w).2.1 := by
  have h1 := submitCommand_header env command s w
  rcases hsub : submitCommand env command s w with ⟨r, s1, w1⟩
  rw [hsub] at h1
  simp only at h1
  simp only [submitAndStoreCommandCollate, P.bind_run, hsub]
  cases r with
  | returned b =>
    cases b
    · simpa using h1
    · cases hu : command.undoable
      · simp only [Bool.not_true, Bool.false_eq_true, if_false, P.bind_run, P.pure_run,
          getProcessor_apply]
        split <;> simpa [KeepsHeader] using h1
      · have h2 := storeCommand_header env command collate s1 w1
        rcases hst : storeCommand env command collate s1 w1 with ⟨r2, s2, w2⟩
        rw [hst] at h2
        simp only at h2
        have h12 := h1.chain h2
        simp only [Bool.not_true, Bool.false_eq_true, if_false, if_true, P.bind_run, hst]
        cases r2 with
        | returned u =>
          simp only [getProcessor_apply]
          split <;> simpa [KeepsHeader] using h12
        | raised what => simpa using h12
        | assertionFailed => simpa using h12
        | outOfFuel => simpa using h12
  | raised what => simpa using h1
  | assertionFailed => simpa using h1
  | outOfFuel => simpa using h1

theorem submitAndStoreCommand_header (env : CommandEnv W) (command : Command)
    (s : CommandProcessor) (w : W) :
    KeepsHeader s (submitAndStoreCommand env command s w).2.1 := by
  have h1 := submitAndStoreCommandCollate_header env command true s w
  rcases hsub : submitAndStoreCommandCollate env command true s w with ⟨r, s1, w1⟩
  rw [hsub] at h1
  simp only at h1
  simp only [submitAndStoreCommand, P.bind_run, hsub]
  cases r with
  | returned b =>
    cases b
    · simpa using h1
    · simp only [if_true, P.bind_run, getProcessor_apply]
      split
      · simpa [updateNextRepeatableCommand_apply, KeepsHeader] using h1
      · simpa using h1
  | raised what => simpa using h1
  | assertionFailed => simpa using h1
  | outOfFuel => simpa using h1

theorem afterOperations_submit_header (env : CommandEnv W) :
    ∀ (commands : List Command) (s : CommandProcessor) (w : W),
      KeepsHeader s
        (afterOperations env (commands.map Operation.submitAndStoreCommand) (s, w)).1 := by
  intro commands
  induction commands with
  | nil => intro s w; exact KeepsHeader.unchanged s
  | cons command rest ih =>
    intro s w
    simp only [List.map_cons, afterOperations, Operation.after]
    exact (submitAndStoreCommand_header env command s w).chain (ih _ _)

end GroupHeader

section GroupNesting

variable {W : Type}

theorem beginGroup_apply (name : String) (undoable : Bool) (s : CommandProcessor) (w : W) :
    beginGroup name undoable s w =
      (Outcome.returned (),
        if s.m_groupLevel = 0 then
          { s with m_groupName := name, m_groupUndoable := undoable
                   m_groupLevel := s.m_groupLevel + 1 }
        else { s with m_groupLevel := s.m_groupLevel + 1 }, w) := by
  simp only [beginGroup, P.bind_run, getProcessor_apply]
  by_cases h : s.m_groupLevel = 0
  · simp [h]
  · have hb : (s.m_groupLevel == 0) = false := by simpa using h
    simp [h, hb]

/-- Nested `begin` calls with a group already open only raise the group level. -/
theorem beginGroups_inner :
    ∀ (inner : List (String × Bool)) (s : CommandProcessor) (w : W), s.m_groupLevel ≠ 0 →
      beginGroups inner s w =
        (Outcome.returned (), { s with m_groupLevel := s.m_groupLevel + inner.length }, w) := by
  intro inner
  induction inner with
  | nil => intro s w _; rfl
  | cons pair rest ih =>
    intro s w h
    obtain ⟨name, undoable⟩ := pair
    simp only [beginGroups, P.bind_run, beginGroup_apply, if_neg h]
    rw [ih _ _ (Nat.succ_ne_zero _)]
    simp only [List.length_cons]
    have : s.m_groupLevel + 1 + rest.length = s.m_groupLevel + (rest.length + 1) := by omega
    simp only [this]

/-- Nested `begin` calls from group level 0: the name and the flag of the outermost call are
recorded, and the group level is the number of calls. -/
theorem beginGroups_outer (name : String) (undoable : Bool) (inner : List (String × Bool))
    (s : CommandProcessor) (w : W) (hlevel : s.m_groupLevel = 0) :
    beginGroups ((name, undoable) :: inner) s w =
      (Outcome.returned (),
        { s with m_groupName := name, m_groupUndoable := undoable
                 m_groupLevel := inner.length + 1 }, w) := by
  simp only [beginGroups, P.bind_run, beginGroup_apply, if_pos hlevel]
  rw [beginGroups_inner inner _ _ (Nat.succ_ne_zero _)]
  simp only [hlevel]
  have : 0 + 1 + inner.length = inner.length + 1 := by omega
  simp only [this]

/-- `closeGroup` with no group open throws and changes nothing. -/
theorem closeGroup_level_zero (env : CommandEnv W) (s : CommandProcessor) (w : W)
    (hlevel : s.m_groupLevel = 0) :
    closeGroup env s w = (Outcome.raised "Group stack is empty", s, w) := by
  simp [closeGroup, hlevel]

/-- `closeGroup` inside a nested group only lowers the group level. -/
theorem closeGroup_nested (env : CommandEnv W) (s : CommandProcessor) (w : W) (level : Nat)
    (hlevel : s.m_groupLevel = level + 2) :
    closeGroup env s w = (Outcome.returned (), { s with m_groupLevel := level + 1 }, w) := by
  simp [closeGroup, hlevel]

/-- `pushLastCommand` without collation appends the command to the undo stack. -/
theorem pushLastCommand_append (env : CommandEnv W) (command : Command)
    (s : CommandProcessor) (w : W) (hlevel : s.m_groupLevel = 0) :
    pushLastCommand env command false s w =
      (Outcome.returned (),
        { s with m_lastCommandStack := s.m_lastCommandStack ++ [command]
                 m_lastCommandTimestamp := (env.wxGetLocalTimeMillis w).1 },
        (env.wxGetLocalTimeMillis w).2) := by
  simp only [pushLastCommand, P.bind_run, getProcessor_apply, hlevel, beq_self_eq_true,
    assertThat_true, callOut_apply]
  cases hl : s.m_lastCommandStack.getLast? <;> simp [hlevel]

/-- `closeGroup` of the outermost group: the grouped commands, if there are any, are stored
as one command group on the undo stack, under the name of the group (the name of the first
grouped command when that name is empty) and with its undoable flag; no group is open and no
grouped command is left afterwards. -/
theorem closeGroup_outermost (env : CommandEnv W) (s : CommandProcessor) (w : W)
    (hlevel : s.m_groupLevel = 1) :
    (closeGroup env s w).1 = Outcome.returned () ∧
    (closeGroup env s w).2.1.m_lastCommandStack =
      s.m_lastCommandStack ++
        (match s.m_groupedCommands with
          | [] => []
          | front :: rest =>
            [Command.group (if s.m_groupName.isEmpty then front.name else s.m_groupName)
              s.m_groupUndoable (front :: rest)]) ∧
    (closeGroup env s w).2.1.m_nextCommandStack = s.m_nextCommandStack ∧
    (closeGroup env s w).2.1.m_groupLevel = 0 ∧
    (closeGroup env s w).2.1.m_groupedCommands = [] ∧
    (closeGroup env s w).2.1.m_groupName = "" ∧
    (closeGroup env s w).2.1.m_groupUndoable = false := by
  have hb1 : (s.m_groupLevel == 0) = false := by simp [hlevel]
  have hb2 : (s.m_groupLevel - 1 == 0) = true := by simp [hlevel]
  simp only [closeGroup, P.bind_run, getProcessor_apply, hb1, Bool.false_eq_true, if_false,
    modifyProcessor_apply, hb2, if_true, createAndStoreCommandGroup]
  cases hg : s.m_groupedCommands with
  | nil => simp [updateNextRepeatableCommand_apply, hlevel]
  | cons front rest =>
    simp only [List.head?_cons, P.bind_run, modifyProcessor_apply]
    rw [pushLastCommand_append env _ _ w (by simp [hlevel])]
    simp [updateNextRepeatableCommand_apply, hlevel]

end GroupNesting

section GroupNestingClaim

variable {W : Type}

theorem closeGroups_nested (env : CommandEnv W) :
    ∀ (count : Nat) (s : CommandProcessor) (w : W) (level : Nat),
      s.m_groupLevel = level + count + 1 →
      closeGroups env count s w =
        (Outcome.returned (), { s with m_groupLevel := level + 1 }, w) := by
  intro count
  induction count with
  | zero =>
    intro s w level h
    simp only [closeGroups, P.pure_run]
    rw [← h]
  | succ n ih =>
    intro s w level h
    simp only [closeGroups, P.bind_run]
    rw [closeGroup_nested env s w (level + n) (by omega)]
    simp only []
    rw [ih _ w level rfl]

theorem closeGroups_outermost (env : CommandEnv W) :
    ∀ (count : Nat) (s : CommandProcessor) (w : W), s.m_groupLevel = count + 1 →
      (closeGroups env (count + 1) s w).1 = Outcome.returned () ∧
      (closeGroups env (count + 1) s w).2.1.m_lastCommandStack =
        s.m_lastCommandStack ++
          (match s.m_groupedCommands with
            | [] => []
            | front :: rest =>
              [Command.group (if s.m_groupName.isEmpty then front.name else s.m_groupName)
                s.m_groupUndoable (front :: rest)]) ∧
      (closeGroups env (count + 1) s w).2.1.m_groupLevel = 0 ∧
      (closeGroups env (count + 1) s w).2.1.m_groupedCommands = [] := by
  intro count
  induction count with
  | zero =>
    intro s w h
    obtain ⟨h1, h2, _, h4, h5, _, _⟩ := closeGroup_outermost env s w (by simpa using h)
    rcases hc : closeGroup env s w with ⟨r, s1, w1⟩
    rw [hc] at h1 h2 h4 h5
    simp only at h1 h2 h4 h5
    subst h1
    simp only [closeGroups, P.bind_run, hc, P.pure_run]
    exact ⟨trivial, h2, h4, h5⟩
  | succ n ih =>
    intro s w h
    have hstep : closeGroups env (n + 1 + 1) s w =
        closeGroups env (n + 1) { s with m_groupLevel := n + 1 } w := by
      rw [closeGroups]
      simp only [P.bind_run]
      rw [closeGroup_nested env s w n (by omega)]
    rw [hstep]
    exact ih { s with m_groupLevel := n + 1 } w rfl

/-- Claim C31.  From group level 0, after the nested calls `begin*Group` (the outermost with
`name` and `undoable`, then `inner`) and any calls of `submitAndStoreCommand` inside them,
the group level is the number of `begin` calls and the name and flag recorded are those of
the outermost call.  Each of the first `inner.length` calls of `closeGroup` returns and
changes nothing but the group level, so it pushes nothing onto the undo stack.  The last
call pushes exactly one command group when there are grouped commands, and nothing when
there are none; the group holds the grouped commands and carries `name` (the name of the
first grouped command when `name` is empty) and `undoable`.  A call of `closeGroup` at group
level 0 throws and changes nothing. -/
theorem closeGroup_stores_one_group (env : CommandEnv W) (s : CommandProcessor) (w : W)
    (name : String) (undoable : Bool) (inner : List (String × Bool)) (commands : List Command)
    (hlevel : s.m_groupLevel = 0) :
    ((groupSession env s w ((name, undoable) :: inner) commands).1.m_groupLevel =
        inner.length + 1 ∧
      (groupSession env s w ((name, undoable) :: inner) commands).1.m_groupName = name ∧
      (groupSession env s w ((name, undoable) :: inner) commands).1.m_groupUndoable =
        undoable) ∧
    (∀ count, count ≤ inner.length →
      closeGroups env count (groupSession env s w ((name, undoable) :: inner) commands).1
          (groupSession env s w ((name, undoable) :: inner) commands).2 =
        (Outcome.returned (),
          { (groupSession env s w ((name, undoable) :: inner) commands).1 with
            m_groupLevel := inner.length - count + 1 },
          (groupSession env s w ((name, undoable) :: inner) commands).2)) ∧
    ((closeGroups env (inner.length + 1)
        (groupSession env s w ((name, undoable) :: inner) commands).1
        (groupSession env s w ((name, undoable) :: inner) commands).2).1 =
        Outcome.returned () ∧
      (closeGroups env (inner.length + 1)
        (groupSession env s w ((name, undoable) :: inner) commands).1
        (groupSession env s w ((name, undoable) :: inner) commands).2).2.1.m_lastCommandStack =
        (groupSession env s w ((name, undoable) :: inner) commands).1.m_lastCommandStack ++
          (match (groupSession env s w ((name, undoable) :: inner)
              commands).1.m_groupedCommands with
            | [] => []
            | front :: rest =>
              [Command.group (if name.isEmpty then front.name else name) undoable
                (front :: rest)]) ∧
      (closeGroups env (inner.length + 1)
        (groupSession env s w ((name, undoable) :: inner) commands).1
        (groupSession env s w ((name, undoable) :: inner) commands).2).2.1.m_groupLevel = 0 ∧
      (closeGroups env (inner.length + 1)
        (groupSession env s w ((name, undoable) :: inner) commands).1
        (groupSession env s w ((name, undoable) :: inner) commands).2).2.1.m_groupedCommands =
        []) ∧
    (∀ (s0 : CommandProcessor) (w0 : W), s0.m_groupLevel = 0 →
      closeGroup env s0 w0 = (Outcome.raised "Group stack is empty", s0, w0)) := by
  have hheader : (groupSession env s w ((name, undoable) :: inner) commands).1.m_groupLevel =
        inner.length + 1 ∧
      (groupSession env s w ((name, undoable) :: inner) commands).1.m_groupName = name ∧
      (groupSession env s w ((name, undoable) :: inner) commands).1.m_groupUndoable =
        undoable := by
    have h := afterOperations_submit_header env commands
      (beginGroups ((name, undoable) :: inner) s w).2.1
      (beginGroups ((name, undoable) :: inner) s w).2.2
    rw [beginGroups_outer name undoable inner s w hlevel] at h
    simp only [groupSession]
    rw [beginGroups_outer name undoable inner s w hlevel]
    exact ⟨h.2.2, h.1, h.2.1⟩
  obtain ⟨h1, h2, h3⟩ := hheader
  refine ⟨⟨h1, h2, h3⟩, ?_, ?_, fun s0 w0 h0 => closeGroup_level_zero env s0 w0 h0⟩
  · intro count hcount
    exact closeGroups_nested env count _ _ (inner.length - count) (by omega)
  · have h := closeGroups_outermost env inner.length
      (groupSession env s w ((name, undoable) :: inner) commands).1
      (groupSession env s w ((name, undoable) :: inner) commands).2 h1
    rw [h2, h3] at h
    exact h

/-- C31 with two nested groups, the outer one undoable and named `move`, and two commands:
the first `closeGroup` leaves the undo stack empty, the second stores one undoable group
named `move`; with an empty name the group is named after its first command, without
commands nothing is stored, and a third `closeGroup` throws. -/
theorem closeGroup_stores_one_group_witness :
    ((closeGroups exampleCommandEnv ([("inner", false)].length + 1)
        (groupSession exampleCommandEnv CommandProcessor.new 0
          (("move", true) :: [("inner", false)])
          [Command.simple 1 "first" true true, Command.simple 2 "second" true false]).1
        (groupSession exampleCommandEnv CommandProcessor.new 0
          (("move", true) :: [("inner", false)])
          [Command.simple 1 "first" true true, Command.simple 2 "second" true false]).2).1 =
        Outcome.returned () ∧
      (closeGroups exampleCommandEnv ([("inner", false)].length + 1)
        (groupSession exampleCommandEnv CommandProcessor.new 0
          (("move", true) :: [("inner", false)])
          [Command.simple 1 "first" true true, Command.simple 2 "second" true false]).1
        (groupSession exampleCommandEnv CommandProcessor.new 0
          (("move", true) :: [("inner", false)])
          [Command.simple 1 "first" true true,
            Command.simple 2 "second" true false]).2).2.1.m_lastCommandStack =
        (groupSession exampleCommandEnv CommandProcessor.new 0
          (("move", true) :: [("inner", false)])
          [Command.simple 1 "first" true true,
            Command.simple 2 "second" true false]).1.m_lastCommandStack ++
          (match (groupSession exampleCommandEnv CommandProcessor.new 0
              (("move", true) :: [("inner", false)])
              [Command.simple 1 "first" true true,
                Command.simple 2 "second" true false]).1.m_groupedCommands with
            | [] => []
            | front :: rest =>
              [Command.group (if "move".isEmpty then front.name else "move") true
                (front :: rest)]) ∧
      (closeGroups exampleCommandEnv ([("inner", false)].length + 1)
        (groupSession exampleCommandEnv CommandProcessor.new 0
          (("move", true) :: [("inner", false)])
          [Command.simple 1 "first" true true, Command.simple 2 "second" true false]).1
        (groupSession exampleCommandEnv CommandProcessor.new 0
          (("move", true) :: [("inner", false)])
          [Command.simple 1 "first" true true,
            Command.simple 2 "second" true false]).2).2.1.m_groupLevel = 0 ∧
      (closeGroups exampleCommandEnv ([("inner", false)].length + 1)
        (groupSession exampleCommandEnv CommandProcessor.new 0
          (("move", true) :: [("inner", false)])
          [Command.simple 1 "first" true true, Command.simple 2 "second" true false]).1
        (groupSession exampleCommandEnv CommandProcessor.new 0
          (("move", true) :: [("inner", false)])
          [Command.simple 1 "first" true true,
            Command.simple 2 "second" true false]).2).2.1.m_groupedCommands = []) ∧
    (List.range 4).map (fun count =>
        ((closeGroups exampleCommandEnv count
          (groupSession exampleCommandEnv CommandProcessor.new 0
            [("move", true), ("inner", false)]
            [Command.simple 1 "first" true true, Command.simple 2 "second" true false]).1
          (groupSession exampleCommandEnv CommandProcessor.new 0
            [("move", true), ("inner", false)]
            [Command.simple 1 "first" true true,
              Command.simple 2 "second" true false]).2).2.1.m_lastCommandStack.map
          (fun command => (command.name, command.undoable, command.isGroup)))) =
      [[], [], [("move", true, true)], [("move", true, true)]] ∧
    ((closeGroups exampleCommandEnv 2
        (groupSession exampleCommandEnv CommandProcessor.new 0
          [("", false), ("inner", true)]
          [Command.simple 1 "first" true true, Command.simple 2 "second" true false]).1
        (groupSession exampleCommandEnv CommandProcessor.new 0
          [("", false), ("inner", true)]
          [Command.simple 1 "first" true true,
            Command.simple 2 "second" true false]).2).2.1.m_lastCommandStack.map
        (fun command => (command.name, command.undoable, command.isGroup))) =
      [("first", false, true)] ∧
    (closeGroups exampleCommandEnv 2
        (groupSession exampleCommandEnv CommandProcessor.new 0
          [("move", true), ("inner", false)] []).1
        (groupSession exampleCommandEnv CommandProcessor.new 0
          [("move", true), ("inner", false)] []).2).2.1.m_lastCommandStack.length = 0 ∧
    (closeGroups exampleCommandEnv 3
        (groupSession exampleCommandEnv CommandProcessor.new 0
          [("move", true), ("inner", false)] []).1
        (groupSession exampleCommandEnv CommandProcessor.new 0
          [("move", true), ("inner", false)] []).2).1 =
      Outcome.raised "Group stack is empty" :=
  ⟨(closeGroup_stores_one_group exampleCommandEnv CommandProcessor.new 0 "move" true
    [("inner", false)]
    [Command.simple 1 "first" true true, Command.simple 2 "second" true false] rfl).2.2.1,
    by decide!, by decide!, by decide!, by decide!⟩

end GroupNestingClaim

/-! ## The angle of RotateObjectsCommand::performDo -/

section RotateAngle

variable {K : Type} [LinearOrderedField K]

/-- The loop of lines 35 and 36 comes to an end, having subtracted a whole number of full
turns, with an angle from 0 up to but not including a full turn. -/
theorem reduceAboveLoop_spec (pi : K) :
    ∀ (fuel : Nat) (angle : K), 0 ≤ angle → angle < fuel * (2 * pi) →
      ∃ turns : ℕ, reduceAboveLoop pi fuel angle = some (angle - turns * (2 * pi)) ∧
        0 ≤ angle - turns * (2 * pi) ∧ angle - turns * (2 * pi) < 2 * pi := by
  intro fuel
  induction fuel with
  | zero =>
    intro angle h0 h
    simp only [Nat.cast_zero, zero_mul] at h
    exact absurd h (not_lt.2 h0)
  | succ n ih =>
    intro angle h0 h
    simp only [reduceAboveLoop]
    by_cases hc : angle - 2 * pi ≥ 0
    · simp only [hc, if_true]
      have hlt : angle - 2 * pi < n * (2 * pi) := by
        push_cast at h
        linarith
      obtain ⟨turns, h1, h2, h3⟩ := ih (angle - 2 * pi) hc hlt
      refine ⟨turns + 1, ?_, ?_, ?_⟩
      · rw [h1]
        congr 1
        push_cast
        ring
      · push_cast
        linarith
      · push_cast
        linarith
    · simp only [hc, if_false]
      refine ⟨0, by simp, by simpa using h0, ?_⟩
      simp only [Nat.cast_zero, zero_mul, sub_zero]
      linarith [not_le.1 hc]

/-- The loop of lines 38 and 39 comes to an end, having added a whole number of full turns,
with an angle above minus a full turn and up to 0. -/
theorem reduceBelowLoop_spec (pi : K) :
    ∀ (fuel : Nat) (angle : K), angle ≤ 0 → -angle < fuel * (2 * pi) →
      ∃ turns : ℕ, reduceBelowLoop pi fuel angle = some (angle + turns * (2 * pi)) ∧
        angle + turns * (2 * pi) ≤ 0 ∧ -(2 * pi) < angle + turns * (2 * pi) := by
  intro fuel
  induction fuel with
  | zero =>
    intro angle h0 h
    simp only [Nat.cast_zero, zero_mul] at h
    linarith
  | succ n ih =>
    intro angle h0 h
    simp only [reduceBelowLoop]
    by_cases hc : angle + 2 * pi ≤ 0
    · simp only [hc, if_true]
      have hlt : -(angle + 2 * pi) < n * (2 * pi) := by
        push_cast at h
        linarith
      obtain ⟨turns, h1, h2, h3⟩ := ih (angle + 2 * pi) hc hlt
      refine ⟨turns + 1, ?_, ?_, ?_⟩
      · rw [h1]
        congr 1
        push_cast
        ring
      · push_cast
        linarith
      · push_cast
        linarith
    · simp only [hc, if_false]
      refine ⟨0, by simp, by simpa using h0, ?_⟩
      simp only [Nat.cast_zero, zero_mul, add_zero]
      linarith [not_le.1 hc]

/-- Lines 34 to 40 come to an end with an angle that differs from the signed angle by a
whole number of full turns, lies strictly between minus a full turn and a full turn, and has
the sign of the signed angle or is 0. -/
theorem reduceAngle_spec (pi : K) (hpi : 0 < pi) (fuel : Nat) (angle : K)
    (hfuel : |angle| < fuel * (2 * pi)) :
    ∃ (reduced : K) (turns : ℤ), reduceAngle pi fuel angle = some reduced ∧
      reduced = angle - turns * (2 * pi) ∧ -(2 * pi) < reduced ∧ reduced < 2 * pi ∧
      (0 < angle → 0 ≤ reduced) ∧ (angle < 0 → reduced ≤ 0) ∧ (angle = 0 → reduced = 0) := by
  simp only [reduceAngle]
  rcases lt_trichotomy angle 0 with hneg | hzero | hpos
  · have habs : |angle| = -angle := abs_of_neg hneg
    rw [habs] at hfuel
    obtain ⟨turns, h1, h2, h3⟩ := reduceBelowLoop_spec pi fuel angle (le_of_lt hneg) hfuel
    refine ⟨angle + turns * (2 * pi), -(turns : ℤ), ?_, ?_, h3, ?_, ?_, ?_, ?_⟩
    · simp only [gt_iff_lt, not_lt.2 (le_of_lt hneg), if_false, hneg, if_true]
      exact h1
    · push_cast
      ring
    · linarith
    · intro h; linarith
    · intro _; exact h2
    · intro h; linarith
  · refine ⟨angle, 0, ?_, by simp, ?_, ?_, ?_, ?_, ?_⟩
    · simp [hzero]
    · rw [hzero]; linarith
    · rw [hzero]; linarith
    · intro h; linarith
    · intro h; linarith
    · intro h; exact h
  · have habs : |angle| = angle := abs_of_pos hpos
    rw [habs] at hfuel
    obtain ⟨turns, h1, h2, h3⟩ := reduceAboveLoop_spec pi fuel angle (le_of_lt hpos) hfuel
    refine ⟨angle - turns * (2 * pi), (turns : ℤ), ?_, ?_, ?_, h3, ?_, ?_, ?_⟩
    · simp only [gt_iff_lt, hpos, if_true]
      exact h1
    · push_cast
      ring
    · linarith
    · intro _; exact h2
    · intro h; linarith
    · intro h; linarith

/-- A whole multiple of a full turn that lies strictly between minus a full turn and a full
turn is 0. -/
theorem multiple_of_turn_eq_zero (pi : K) (hpi : 0 < pi) (turns : ℤ)
    (h1 : -(2 * pi) < turns * (2 * pi)) (h2 : (turns : K) * (2 * pi) < 2 * pi) : turns = 0 := by
  have h2pi : (0 : K) < 2 * pi := by linarith
  have ha : (-1 : K) < turns := by
    by_contra hc
    have hle : (turns : K) ≤ -1 := not_lt.1 hc
    have := mul_le_mul_of_nonneg_right hle (le_of_lt h2pi)
    linarith
  have hb : (turns : K) < 1 := by
    by_contra hc
    have hle : (1 : K) ≤ turns := not_lt.1 hc
    have := mul_le_mul_of_nonneg_right hle (le_of_lt h2pi)
    linarith
  have ha2 : (-1 : ℤ) < turns := by exact_mod_cast ha
  have hb2 : turns < (1 : ℤ) := by exact_mod_cast hb
  omega

theorem abs_signedAngle (cmd : RotateObjectsCommand K) : |signedAngle cmd| = |cmd.m_angle| := by
  simp only [signedAngle]
  split
  · rfl
  · rw [mul_neg_one, abs_neg]

end RotateAngle

section RotateClaim

variable {K : Type} [LinearOrderedField K] [FloorRing K]

/-- What `performDo` returns, by the angle that lines 34 to 40 give. -/
theorem performDo_reduced (env : RotateEnv K) (fuel : Nat) (cmd : RotateObjectsCommand K)
    (hpi : 0 < env.Pi) (reduced : K)
    (hred : reduceAngle env.Pi fuel (signedAngle cmd) = some reduced) :
    (reduced = 0 → performDo env fuel cmd = (Outcome.returned false, [])) ∧
    (reduced ≠ 0 → (performDo env fuel cmd).1 = Outcome.returned true) ∧
    (reduced < 0 → isPrincipal env cmd.m_axis = false →
      performDo env fuel cmd =
        (Outcome.returned true, rotateCalls cmd (2 * env.Pi - reduced))) := by
  refine ⟨?_, ?_, ?_⟩
  · intro hz
    simp only [performDo, hred, hz, if_true]
  · intro hz
    have hangle : (if reduced < 0 then 2 * env.Pi - reduced else reduced) > 0 := by
      split
      · linarith
      · rename_i hn
        exact lt_of_le_of_ne (not_lt.1 hn) (Ne.symm hz)
    simp only [performDo, hred, hz, if_false, hangle, if_true]
    split
    · split <;> rfl
    · rfl
  · intro hneg hprincipal
    have hz : reduced ≠ 0 := ne_of_lt hneg
    have hangle : 2 * env.Pi - reduced > 0 := by linarith
    simp only [performDo, hred, hz, if_false, hneg, if_true, hangle, hprincipal,
      Bool.false_eq_true]

/-- A counter-clockwise rotation by an angle between 0 and two `Pi` about an axis that is
none of the coordinate axes: line 32 makes the angle `-m_angle`, the loop of lines 38 and 39
leaves it, line 46 replaces it by `2 * Pi + m_angle`, and lines 78 to 91 rotate by that. -/
theorem performDo_counterclockwise (env : RotateEnv K) (fuel : Nat)
    (cmd : RotateObjectsCommand K) (hpi : 0 < env.Pi) (hfuel : 0 < fuel)
    (hccw : cmd.m_clockwise = false) (hm0 : 0 < cmd.m_angle)
    (hm1 : cmd.m_angle < 2 * env.Pi) (hprincipal : isPrincipal env cmd.m_axis = false) :
    performDo env fuel cmd =
      (Outcome.returned true, rotateCalls cmd (2 * env.Pi + cmd.m_angle)) := by
  have hsigned : signedAngle cmd = cmd.m_angle * -1 := by
    simp [signedAngle, hccw]
  obtain ⟨n, hn⟩ : ∃ n, fuel = n + 1 := ⟨fuel - 1, by omega⟩
  have hred2 : reduceAngle env.Pi fuel (signedAngle cmd) = some (cmd.m_angle * -1) := by
    have h1 : ¬ (cmd.m_angle * -1 > 0) := by simp only [gt_iff_lt, not_lt]; linarith
    have h2 : cmd.m_angle * -1 < 0 := by linarith
    have h3 : ¬ (cmd.m_angle * -1 + 2 * env.Pi ≤ 0) := by simp only [not_le]; linarith
    simp only [reduceAngle, hsigned, h1, if_false, h2, if_true, hn, reduceBelowLoop, h3]
  obtain ⟨_, _, q3⟩ := performDo_reduced env fuel cmd hpi (cmd.m_angle * -1) hred2
  have hval : 2 * env.Pi - cmd.m_angle * -1 = 2 * env.Pi + cmd.m_angle := by ring
  rw [q3 (by linarith) hprincipal, hval]

/-- Claim C32, amended.  Over exact numbers, with `Math::Pi` positive and enough turns
allowed to the two loops: `performDo` returns, with false or with true; it returns false
exactly when the
signed angle (`m_angle`, negated for a counter-clockwise rotation) is an integer multiple of
two `Pi`, and then it has made no call on any object.  For a counter-clockwise rotation
with `0 < m_angle < 2 Pi` about an axis that is none of the six coordinate axes it returns
true after rotating every entity and every brush by the angle `2 Pi + m_angle`: more than a
full turn, one full turn away from `+m_angle`, different from `2 Pi - m_angle`, and a whole
number of full turns away from `-m_angle` only for the half turn `m_angle = Pi`. -/
theorem performDo_angle (env : RotateEnv K) (fuel : Nat) (cmd : RotateObjectsCommand K)
    (hpi : 0 < env.Pi) (hfuel : |cmd.m_angle| < fuel * (2 * env.Pi)) :
    ((performDo env fuel cmd).1 = Outcome.returned false ∨
      (performDo env fuel cmd).1 = Outcome.returned true) ∧
    ((performDo env fuel cmd).1 = Outcome.returned false ↔
      ∃ turns : ℤ, signedAngle cmd = turns * (2 * env.Pi)) ∧
    ((performDo env fuel cmd).1 = Outcome.returned false → (performDo env fuel cmd).2 = []) ∧
    (cmd.m_clockwise = false → 0 < cmd.m_angle → cmd.m_angle < 2 * env.Pi →
      isPrincipal env cmd.m_axis = false →
      performDo env fuel cmd =
          (Outcome.returned true, rotateCalls cmd (2 * env.Pi + cmd.m_angle)) ∧
        2 * env.Pi < 2 * env.Pi + cmd.m_angle ∧
        (2 * env.Pi + cmd.m_angle) - cmd.m_angle = 1 * (2 * env.Pi) ∧
        2 * env.Pi + cmd.m_angle ≠ 2 * env.Pi - cmd.m_angle ∧
        ((∃ turns : ℤ, (2 * env.Pi + cmd.m_angle) - (-cmd.m_angle) = turns * (2 * env.Pi)) ↔
          cmd.m_angle = env.Pi)) := by
  obtain ⟨reduced, turns, hred, heq, hlo, hhi, hpos, hneg, hzero⟩ :=
    reduceAngle_spec env.Pi hpi fuel (signedAngle cmd) (by rw [abs_signedAngle]; exact hfuel)
  obtain ⟨p1, p2, _⟩ := performDo_reduced env fuel cmd hpi reduced hred
  have hiff : reduced = 0 ↔ ∃ k : ℤ, signedAngle cmd = k * (2 * env.Pi) := by
    constructor
    · intro hz
      exact ⟨turns, by rw [hz] at heq; linarith⟩
    · rintro ⟨k, hk⟩
      have hr : reduced = ((k - turns : ℤ) : K) * (2 * env.Pi) := by
        rw [heq, hk]
        push_cast
        ring
      have h0 := multiple_of_turn_eq_zero env.Pi hpi (k - turns) (by rw [← hr]; exact hlo)
        (by rw [← hr]; exact hhi)
      rw [hr, h0]
      simp
  refine ⟨?_, ?_, ?_, ?_⟩
  · by_cases hz : reduced = 0
    · exact Or.inl (by rw [p1 hz])
    · exact Or.inr (p2 hz)
  · rw [← hiff]
    constructor
    · intro hf
      by_contra hz
      rw [p2 hz] at hf
      cases hf
    · intro hz
      rw [p1 hz]
  · intro hf
    by_cases hz : reduced = 0
    · rw [p1 hz]
    · rw [p2 hz] at hf
      cases hf
  · intro hccw hm0 hm1 hprincipal
    have hfuelpos : 0 < fuel := by
      rcases Nat.eq_zero_or_pos fuel with h | h
      · rw [h] at hfuel
        simp only [Nat.cast_zero, zero_mul] at hfuel
        exact absurd hfuel (not_lt.2 (abs_nonneg _))
      · exact h
    refine ⟨performDo_counterclockwise env fuel cmd hpi hfuelpos hccw hm0 hm1 hprincipal,
      by linarith, by ring, ?_, ?_⟩
    · intro h
      linarith
    · constructor
      · rintro ⟨k, hk⟩
        have hk2 : cmd.m_angle = ((k - 1 : ℤ) : K) * env.Pi := by
          push_cast
          linarith
        have ha : (0 : K) < ((k - 1 : ℤ) : K) := by
          by_contra hc
          have := mul_le_mul_of_nonneg_right (not_lt.1 hc) (le_of_lt hpi)
          rw [← hk2] at this
          linarith
        have hb : ((k - 1 : ℤ) : K) < 2 := by
          by_contra hc
          have := mul_le_mul_of_nonneg_right (not_lt.1 hc) (le_of_lt hpi)
          rw [← hk2] at this
          linarith
        have ha2 : (0 : ℤ) < k - 1 := by exact_mod_cast ha
        have hb2 : (k - 1 : ℤ) < 2 := by exact_mod_cast hb
        have hk1 : k - 1 = 1 := by omega
        rw [hk2, hk1]
        simp
      · intro h
        exact ⟨2, by rw [h]; push_cast; ring⟩

/-- C32 with `22/7` for `Math::Pi`: the counter-clockwise rotation by 1 about (1, 1, 0)
rotates the entity and the two brushes by `2 * 22/7 + 1 = 51/7`; the same command with the
angle `88/7`, two full turns, returns false and makes no call, clockwise or not. -/
theorem performDo_angle_witness :
    performDo exampleRotateEnv 1 exampleRotation =
      (Outcome.returned true,
        rotateCalls exampleRotation (2 * exampleRotateEnv.Pi + exampleRotation.m_angle)) ∧
    performDo exampleRotateEnv 1 exampleRotation =
      (Outcome.returned true,
        [RotateCall.entityRotate 1 (51 / 7) ⟨1, 1, 0⟩ ⟨0, 0, 0⟩ false,
          RotateCall.updateEntity 1,
          RotateCall.brushRotate 2 (51 / 7) ⟨1, 1, 0⟩ ⟨0, 0, 0⟩ false,
          RotateCall.updateBrush 2,
          RotateCall.brushRotate 3 (51 / 7) ⟨1, 1, 0⟩ ⟨0, 0, 0⟩ false,
          RotateCall.updateBrush 3]) ∧
    performDo exampleRotateEnv 3 { exampleRotation with m_angle := 88 / 7 } =
      (Outcome.returned false, []) ∧
    performDo exampleRotateEnv 3
        { exampleRotation with m_angle := 88 / 7, m_clockwise := true } =
      (Outcome.returned false, []) :=
  ⟨((performDo_angle exampleRotateEnv 1 exampleRotation (by decide!) (by decide!)).2.2.2 rfl
      (by decide!) (by decide!) (by decide)).1,
    by decide!, by decide!, by decide!⟩

end RotateClaim

/-- C32, counterexample: the half turn.  With `22/7` for `Math::Pi`, the counter-clockwise
rotation by `m_angle = 22/7`, an angle between 0 and two `Pi`, about the axis (1, 1, 0)
rotates the entity and the two brushes by `66/7 = 2 * Pi + m_angle`, and that angle differs
from `-m_angle` by exactly two full turns: it is congruent to `-m_angle` modulo two `Pi`.
The same holds for every positive `Math::Pi`, the real one included: at `m_angle = Pi` the
angle used is three `Pi`, and `3 * Pi - (-Pi)` is twice two `Pi`. -/
theorem performDo_half_turn_congruent :
    ((0 : ℚ) < 22 / 7 ∧ (22 / 7 : ℚ) < 2 * exampleRotateEnv.Pi) ∧
    performDo exampleRotateEnv 1 { exampleRotation with m_angle := 22 / 7 } =
      (Outcome.returned true,
        [RotateCall.entityRotate 1 (66 / 7) ⟨1, 1, 0⟩ ⟨0, 0, 0⟩ false,
          RotateCall.updateEntity 1,
          RotateCall.brushRotate 2 (66 / 7) ⟨1, 1, 0⟩ ⟨0, 0, 0⟩ false,
          RotateCall.updateBrush 2,
          RotateCall.brushRotate 3 (66 / 7) ⟨1, 1, 0⟩ ⟨0, 0, 0⟩ false,
          RotateCall.updateBrush 3]) ∧
    (66 / 7 : ℚ) = 2 * exampleRotateEnv.Pi + 22 / 7 ∧
    (66 / 7 : ℚ) - (-(22 / 7)) = ((2 : ℤ) : ℚ) * (2 * exampleRotateEnv.Pi) ∧
    (∀ (K : Type) [LinearOrderedField K] [FloorRing K] (env : RotateEnv K)
        (cmd : RotateObjectsCommand K),
      0 < env.Pi → cmd.m_angle = env.Pi → cmd.m_clockwise = false →
      isPrincipal env cmd.m_axis = false →
      performDo env 1 cmd = (Outcome.returned true, rotateCalls cmd (3 * env.Pi)) ∧
        3 * env.Pi - (-cmd.m_angle) = ((2 : ℤ) : K) * (2 * env.Pi)) := by
  refine ⟨⟨by decide!, by decide!⟩, by decide!, by decide!, by decide!, ?_⟩
  intro K _ _ env cmd hpi hm hccw hprincipal
  have h := performDo_counterclockwise env 1 cmd hpi Nat.one_pos hccw (by rw [hm]; exact hpi)
    (by rw [hm]; linarith) hprincipal
  have hval : 2 * env.Pi + cmd.m_angle = 3 * env.Pi := by rw [hm]; ring
  rw [hval] at h
  refine ⟨h, ?_⟩
  rw [hm]
  push_cast
  ring

section EndOfInput

variable {R : Type} [CommRing R] [DecidableEq R]

/-- The loop `while (moreBrushes)` of `parseEntity` on a run of well-formed brushes followed
by the end of the input: the `expect` after the last brush (line 279) raises
`UnexpectedToken` on the `Eof` token. -/
theorem parseEntityBrushes_eof (env : Env R) (fuel : Nat) (wb : BBox3 R)
    (inp : List Token) (l c : Nat) (fmt : MapFormat) :
    ∀ (bs : List BrushSrc) (b : BrushSrc) (n : Nat) (entity : Entity R)
      (lg : Option (List LogEntry)),
      (∀ x ∈ b :: bs, x.WellFormedNonDegenerate env fmt ∧ x.faces.length < fuel) →
      bs.length < n →
      parseEntityBrushes env fuel wb n entity
          ⟨lg, ⟨inp, Ending.eof l c, faceListTokens b.faces ++ b.c :: brushListTokens bs,
            some b.o⟩, fmt⟩ =
        (Result.thrown (Exception.unexpectedToken l c
            [TokenType.OBrace, TokenType.CBrace] TokenType.Eof),
          ⟨logAfter env wb lg (b :: bs), ⟨inp, Ending.eof l c, [], none⟩, fmt⟩) := by
  intro bs
  induction bs with
  | nil =>
    intro b n entity lg hbs hn
    obtain ⟨k, rfl⟩ : ∃ k, n = k + 1 := ⟨n - 1, by simp at hn; omega⟩
    have hb := hbs b (by simp)
    have h := parseBrush_pushed env fuel wb lg inp (Ending.eof l c) fmt b [] hb.1 hb.2
    have ht : (⟨TokenType.Eof, "", l, c⟩ : Token).type ∉
        [TokenType.OBrace, TokenType.CBrace] := by simp
    simp only [parseEntityBrushes, M.bind_apply, brushListTokens, h, nextToken_eof,
      expect_fail ht]
  | cons b2 bs ih =>
    intro b n entity lg hbs hn
    obtain ⟨k, rfl⟩ : ∃ k, n = k + 1 := ⟨n - 1, by simp at hn; omega⟩
    have hb := hbs b (by simp)
    have hb2 := hbs b2 (by simp)
    have hrest : ∀ x ∈ b2 :: bs,
        x.WellFormedNonDegenerate env fmt ∧ x.faces.length < fuel :=
      fun x hx => hbs x (List.mem_cons_of_mem _ hx)
    have hlist : brushListTokens (b2 :: bs) =
        b2.o :: (faceListTokens b2.faces ++ b2.c :: brushListTokens bs) := by
      simp [brushListTokens, BrushSrc.tokens]
    have h := parseBrush_pushed env fuel wb lg inp (Ending.eof l c) fmt b
      (b2.o :: (faceListTokens b2.faces ++ b2.c :: brushListTokens bs)) hb.1 hb.2
    have ho2 : b2.o.type ∈ [TokenType.OBrace, TokenType.CBrace] := by simp [hb2.1.1]
    rw [hlist]
    simp only [parseEntityBrushes, M.bind_apply, h, nextToken_cons, expect_ok ho2,
      pushToken_apply, hb2.1.1, if_true]
    refine (ih b2 k _ _ hrest (by simp at hn; omega)).trans ?_
    rw [logAfter_cons]

/-- `parseEntity` on an entity that breaks off after one or more brushes: it raises
`UnexpectedToken` at the end of the input, expecting `{` or `}`. -/
theorem parseEntity_brushes_eof (env : Env R) (fuel : Nat) (wb : BBox3 R)
    (lg : Option (List LogEntry)) (inp : List Token) (l c : Nat) (fmt : MapFormat)
    (eo : Token) (props : List (Token × Token)) (b : BrushSrc) (bs : List BrushSrc)
    (heo : eo.type = TokenType.OBrace)
    (hprops : ∀ kv ∈ props, kv.1.type = TokenType.String ∧ kv.2.type = TokenType.String)
    (hbs : ∀ x ∈ b :: bs, x.WellFormedNonDegenerate env fmt ∧ x.faces.length < fuel)
    (hfuel1 : props.length + 2 ≤ fuel) (hfuel2 : bs.length + 1 ≤ fuel) :
    parseEntity env fuel wb
        ⟨lg, ⟨inp, Ending.eof l c, eo :: (propertyTokens props ++ brushListTokens (b :: bs)),
          none⟩, fmt⟩ =
      (Result.thrown (Exception.unexpectedToken l c
          [TokenType.OBrace, TokenType.CBrace] TokenType.Eof),
        ⟨logAfter env wb lg (b :: bs), ⟨inp, Ending.eof l c, [], none⟩, fmt⟩) := by
  obtain ⟨m, hm⟩ : ∃ m, fuel = props.length + (m + 2) := ⟨fuel - props.length - 2, by omega⟩
  have hloop := parseEntityLoop_properties env fuel wb eo.line lg inp (Ending.eof l c) fmt
    (brushListTokens (b :: bs)) props (m + 2) Entity.new hprops
  rw [← hm] at hloop
  have hstep : parseEntityLoop env fuel wb eo.line (m + 2) (addProperties Entity.new props)
      ⟨lg, ⟨inp, Ending.eof l c, brushListTokens (b :: bs), none⟩, fmt⟩ =
      (Result.thrown (Exception.unexpectedToken l c
          [TokenType.OBrace, TokenType.CBrace] TokenType.Eof),
        ⟨logAfter env wb lg (b :: bs), ⟨inp, Ending.eof l c, [], none⟩, fmt⟩) := by
    have hb := hbs b (by simp)
    have hrun := parseEntityBrushes_eof env fuel wb inp l c fmt bs b fuel
      (addProperties Entity.new props) lg hbs (by omega)
    have hlist : brushListTokens (b :: bs) =
        b.o :: (faceListTokens b.faces ++ b.c :: brushListTokens bs) := by
      simp [brushListTokens, BrushSrc.tokens]
    rw [hlist]
    simp only [parseEntityLoop, M.bind_apply, nextToken_cons, hb.1.1, pushToken_apply]
    simp only [reduceCtorEq, if_false, if_true, M.bind_apply, pushToken_apply]
    rw [hrun]
  simp [parseEntity, heo, expect, hloop, hstep]

/-- `doParseMap` on a document whose one entity breaks off after one or more brushes: it
raises `UnexpectedToken` at the end of the input, expecting `{` or `}`. -/
theorem doParseMap_brushes_eof (env : Env R) (fuel : Nat) (wb : BBox3 R)
    (lg : Option (List LogEntry)) (l c : Nat) (fmt : MapFormat)
    (eo : Token) (props : List (Token × Token)) (b : BrushSrc) (bs : List BrushSrc)
    (heo : eo.type = TokenType.OBrace)
    (hprops : ∀ kv ∈ props, kv.1.type = TokenType.String ∧ kv.2.type = TokenType.String)
    (hbs : ∀ x ∈ b :: bs, x.WellFormedNonDegenerate env fmt)
    (hfuel : (eo :: (propertyTokens props ++ brushListTokens (b :: bs))).length < fuel) :
    doParseMap env fuel wb
        (QuakeMapParser.new (eo :: (propertyTokens props ++ brushListTokens (b :: bs)))
          (Ending.eof l c) lg) =
      (Result.thrown (Exception.unexpectedToken l c
          [TokenType.OBrace, TokenType.CBrace] TokenType.Eof),
        ⟨logAfter env wb lg (b :: bs),
          ⟨eo :: (propertyTokens props ++ brushListTokens (b :: bs)), Ending.eof l c, [], none⟩,
          documentFormat fmt (b :: bs)⟩) := by
  have hblen := brushListTokens_length (b :: bs)
  have hplen := propertyTokens_length props
  simp only [List.length_cons, List.length_append] at hfuel
  have hpre : ∀ x ∈ eo :: propertyTokens props,
      x.type ≠ TokenType.OParenthesis ∧ x.type ≠ TokenType.Eof := by
    intro x hx
    rcases List.mem_cons.mp hx with h | h
    · rw [h, heo]; decide
    · rw [propertyTokens_types props hprops x h]; decide
  have htoks : eo :: (propertyTokens props ++ brushListTokens (b :: bs)) =
      (eo :: propertyTokens props) ++ (brushListTokens (b :: bs) ++ []) := by
    simp
  obtain ⟨ts, hd⟩ := detectFormat_brushes env lg
    (eo :: (propertyTokens props ++ brushListTokens (b :: bs))) l c
    MapFormat.Unknown fmt [] fuel (fun x hx => absurd hx (List.not_mem_nil x)) (b :: bs)
    (eo :: propertyTokens props) hpre hbs
    (by simp only [List.length_cons, List.length_append, List.length_nil]; omega)
  rw [← htoks] at hd
  have hwf := wellFormed_documentFormat env fmt (b :: bs) hbs
  have he := parseEntity_brushes_eof env fuel wb lg
    (eo :: (propertyTokens props ++ brushListTokens (b :: bs))) l c
    (documentFormat fmt (b :: bs)) eo props b bs heo hprops
    (fun x hx => ⟨hwf x hx, by have := hblen.2 x hx; omega⟩) (by omega)
    (by have := hblen.1; simp only [List.length_cons] at this; omega)
  have hd2 : detectFormat env fuel
      (QuakeMapParser.new (eo :: (propertyTokens props ++ brushListTokens (b :: bs)))
        (Ending.eof l c) lg) = _ := hd
  simp only [doParseMap, M.bind_apply, hd2, setFormat_apply, reset_apply, tryCatchAll_rethrow,
    he]

end EndOfInput

/-- C2 (the code departs from the claim): when an entity's `{` is followed only by complete
key / value String pairs (none, for the input `{` alone) and then the end of the input,
`parseEntity` raises nothing: the guard of the loop (line 263) ends the loop at the end of
the input and line 298 returns the entity built so far, which has been given no file
position, and `doParseMap` returns a Document that holds this entity.  What the claim says
holds as soon as a brush has been opened: when a `{` stands between the pairs and the end
of the input, and when the end of the input follows one or more complete brushes,
`parseEntity` raises `UnexpectedToken` expecting `{` or `}` at the end of the input
(line 279), and so does `doParseMap`. -/
theorem parseEntity_at_end_of_input {R : Type} [CommRing R] [DecidableEq R]
    (env : Env R) (fuel : Nat) (wb : BBox3 R) (lg : Option (List LogEntry)) (l c : Nat)
    (fmt : MapFormat) (o b : Token) (pairs : List (Token × Token)) (first : BrushSrc)
    (bs : List BrushSrc)
    (ho : o.type = TokenType.OBrace) (hb : b.type = TokenType.OBrace)
    (hp : ∀ kv ∈ pairs, kv.1.type = TokenType.String ∧ kv.2.type = TokenType.String)
    (hbs : ∀ x ∈ first :: bs, x.WellFormedNonDegenerate env fmt)
    (hfuel : (o :: (propertyTokens pairs ++ brushListTokens (first :: bs))).length < fuel) :
    (parseEntity env fuel wb
          (QuakeMapParser.new (o :: propertyTokens pairs) (Ending.eof l c) lg) =
        (Result.ok (some (addProperties Entity.new pairs)),
          ⟨lg, ⟨o :: propertyTokens pairs, Ending.eof l c, [], none⟩, MapFormat.Unknown⟩) ∧
      (addProperties (Entity.new : Entity R) pairs).filePosition = (0, 0) ∧
      doParseMap env fuel wb
          (QuakeMapParser.new (o :: propertyTokens pairs) (Ending.eof l c) lg) =
        (Result.ok { format := MapFormat.Quake, entities := [addProperties Entity.new pairs] },
          ⟨lg, ⟨o :: propertyTokens pairs, Ending.eof l c, [], none⟩, MapFormat.Quake⟩)) ∧
    (parseEntity env fuel wb
          (QuakeMapParser.new (o :: (propertyTokens pairs ++ [b])) (Ending.eof l c) lg) =
        (Result.thrown (Exception.unexpectedToken l c [TokenType.OBrace, TokenType.CBrace]
            TokenType.Eof),
          ⟨lg, ⟨o :: (propertyTokens pairs ++ [b]), Ending.eof l c, [], none⟩,
            MapFormat.Unknown⟩) ∧
      doParseMap env fuel wb
          (QuakeMapParser.new (o :: (propertyTokens pairs ++ [b])) (Ending.eof l c) lg) =
        (Result.thrown (Exception.unexpectedToken l c [TokenType.OBrace, TokenType.CBrace]
            TokenType.Eof),
          ⟨lg, ⟨o :: (propertyTokens pairs ++ [b]), Ending.eof l c, [], none⟩,
            MapFormat.Quake⟩)) ∧
    (parseEntity env fuel wb
          ((QuakeMapParser.new (o :: (propertyTokens pairs ++ brushListTokens (first :: bs)))
            (Ending.eof l c) lg).startOfParse fmt) =
        (Result.thrown (Exception.unexpectedToken l c [TokenType.OBrace, TokenType.CBrace]
            TokenType.Eof),
          ⟨logAfter env wb lg (first :: bs),
            ⟨o :: (propertyTokens pairs ++ brushListTokens (first :: bs)), Ending.eof l c, [],
              none⟩, fmt⟩) ∧
      doParseMap env fuel wb
          (QuakeMapParser.new (o :: (propertyTokens pairs ++ brushListTokens (first :: bs)))
            (Ending.eof l c) lg) =
        (Result.thrown (Exception.unexpectedToken l c [TokenType.OBrace, TokenType.CBrace]
            TokenType.Eof),
          ⟨logAfter env wb lg (first :: bs),
            ⟨o :: (propertyTokens pairs ++ brushListTokens (first :: bs)), Ending.eof l c, [],
              none⟩, documentFormat fmt (first :: bs)⟩)) := by
  have hblen := brushListTokens_length (first :: bs)
  have hplen := propertyTokens_length pairs
  have hfirst := hblen.2 first (by simp)
  simp only [List.length_cons, List.length_append] at hfuel hblen
  have hlen : pairs.length < fuel := by omega
  have hpre : ∀ x ∈ o :: propertyTokens pairs,
      x.type ≠ TokenType.OParenthesis ∧ x.type ≠ TokenType.Eof := by
    intro x hx
    rcases List.mem_cons.mp hx with h | h
    · rw [h, ho]; decide
    · rw [propertyTokens_types pairs hp x h]; decide
  obtain ⟨k, hk⟩ : ∃ k, fuel = k + 2 := ⟨fuel - 2, by omega⟩
  refine ⟨⟨parseEntity_properties_eof env fuel wb lg _ l c _ o pairs ho hp hlen,
    (addProperties_brushes pairs Entity.new).2, ?_⟩,
    ⟨parseEntity_properties_brace_eof env fuel wb lg _ l c _ o b pairs ho hb hp hlen, ?_⟩,
    ⟨?_, doParseMap_brushes_eof env fuel wb lg l c fmt o pairs first bs ho hp hbs
      (by simp only [List.length_cons, List.length_append]; omega)⟩⟩
  · have hd := detectFormat_noParenthesis env lg (o :: propertyTokens pairs) l c
      MapFormat.Unknown (o :: propertyTokens pairs) fuel hpre
      (by simp only [List.length_cons]; omega)
    have he := parseEntity_properties_eof env fuel wb lg (o :: propertyTokens pairs) l c
      MapFormat.Quake o pairs ho hp hlen
    have hd2 : detectFormat env fuel
        (QuakeMapParser.new (o :: propertyTokens pairs) (Ending.eof l c) lg) = _ := hd
    simp only [doParseMap, M.bind_apply, hd2, setFormat_apply, reset_apply,
      tryCatchAll_rethrow, he]
    rw [hk]
    simp [doParseMapLoop, parseEntity_eof, Map.addEntity]
  · have hpre2 : ∀ x ∈ o :: (propertyTokens pairs ++ [b]),
        x.type ≠ TokenType.OParenthesis ∧ x.type ≠ TokenType.Eof := by
      intro x hx
      simp only [List.mem_cons, List.mem_append, List.mem_singleton, List.not_mem_nil,
        or_false] at hx
      rcases hx with h | h | h
      · rw [h, ho]; decide
      · rw [propertyTokens_types pairs hp x h]; decide
      · rw [h, hb]; decide
    have hd := detectFormat_noParenthesis env lg (o :: (propertyTokens pairs ++ [b])) l c
      MapFormat.Unknown (o :: (propertyTokens pairs ++ [b])) fuel hpre2
      (by simp only [List.length_cons, List.length_append, List.length_nil]; omega)
    have he := parseEntity_properties_brace_eof env fuel wb lg
      (o :: (propertyTokens pairs ++ [b])) l c MapFormat.Quake o b pairs ho hb hp hlen
    have hd2 : detectFormat env fuel
        (QuakeMapParser.new (o :: (propertyTokens pairs ++ [b])) (Ending.eof l c) lg) = _ := hd
    simp only [doParseMap, M.bind_apply, hd2, setFormat_apply, reset_apply,
      tryCatchAll_rethrow, he]
  · exact parseEntity_brushes_eof env fuel wb lg _ l c fmt o pairs first bs ho hp
      (fun x hx => ⟨hbs x hx, by have := hblen.2 x hx; omega⟩) (by omega)
      (by have := hblen.1; omega)

/-- C2 at `{ "classname" "worldspawn"`, at `{ "classname" "worldspawn" {` and at
`{ "classname" "worldspawn"` followed by the six-face box and the end of the input. -/
theorem parseEntity_at_end_of_input_witness :
    (parseEntity exampleEnv 200 exampleBounds
          (QuakeMapParser.new
            (sym TokenType.OBrace 1 :: propertyTokens [(str "classname" 2, str "worldspawn" 2)])
            (Ending.eof 11 1) none) =
        (Result.ok (some (addProperties Entity.new [(str "classname" 2, str "worldspawn" 2)])),
          ⟨none, ⟨sym TokenType.OBrace 1 ::
              propertyTokens [(str "classname" 2, str "worldspawn" 2)],
            Ending.eof 11 1, [], none⟩, MapFormat.Unknown⟩) ∧
      (addProperties (Entity.new : Entity ℤ)
          [(str "classname" 2, str "worldspawn" 2)]).filePosition = (0, 0) ∧
      doParseMap exampleEnv 200 exampleBounds
          (QuakeMapParser.new
            (sym TokenType.OBrace 1 :: propertyTokens [(str "classname" 2, str "worldspawn" 2)])
            (Ending.eof 11 1) none) =
        (Result.ok { format := MapFormat.Quake
                     entities := [addProperties Entity.new
                       [(str "classname" 2, str "worldspawn" 2)]] },
          ⟨none, ⟨sym TokenType.OBrace 1 ::
              propertyTokens [(str "classname" 2, str "worldspawn" 2)],
            Ending.eof 11 1, [], none⟩, MapFormat.Quake⟩)) ∧
    (parseEntity exampleEnv 200 exampleBounds
          (QuakeMapParser.new
            (sym TokenType.OBrace 1 ::
              (propertyTokens [(str "classname" 2, str "worldspawn" 2)] ++
                [sym TokenType.OBrace 3]))
            (Ending.eof 11 1) none) =
        (Result.thrown (Exception.unexpectedToken 11 1 [TokenType.OBrace, TokenType.CBrace]
            TokenType.Eof),
          ⟨none, ⟨sym TokenType.OBrace 1 ::
              (propertyTokens [(str "classname" 2, str "worldspawn" 2)] ++
                [sym TokenType.OBrace 3]),
            Ending.eof 11 1, [], none⟩, MapFormat.Unknown⟩) ∧
      doParseMap exampleEnv 200 exampleBounds
          (QuakeMapParser.new
            (sym TokenType.OBrace 1 ::
              (propertyTokens [(str "classname" 2, str "worldspawn" 2)] ++
                [sym TokenType.OBrace 3]))
            (Ending.eof 11 1) none) =
        (Result.thrown (Exception.unexpectedToken 11 1 [TokenType.OBrace, TokenType.CBrace]
            TokenType.Eof),
          ⟨none, ⟨sym TokenType.OBrace 1 ::
              (propertyTokens [(str "classname" 2, str "worldspawn" 2)] ++
                [sym TokenType.OBrace 3]),
            Ending.eof 11 1, [], none⟩, MapFormat.Quake⟩)) ∧
    (parseEntity exampleEnv 200 exampleBounds
          ((QuakeMapParser.new
            (sym TokenType.OBrace 1 ::
              (propertyTokens [(str "classname" 2, str "worldspawn" 2)] ++
                brushListTokens (exampleClosedBrush 3 :: [])))
            (Ending.eof 11 1) none).startOfParse MapFormat.Quake) =
        (Result.thrown (Exception.unexpectedToken 11 1 [TokenType.OBrace, TokenType.CBrace]
            TokenType.Eof),
          ⟨logAfter exampleEnv exampleBounds none (exampleClosedBrush 3 :: []),
            ⟨sym TokenType.OBrace 1 ::
              (propertyTokens [(str "classname" 2, str "worldspawn" 2)] ++
                brushListTokens (exampleClosedBrush 3 :: [])), Ending.eof 11 1, [],
              none⟩, MapFormat.Quake⟩) ∧
      doParseMap exampleEnv 200 exampleBounds
          (QuakeMapParser.new
            (sym TokenType.OBrace 1 ::
              (propertyTokens [(str "classname" 2, str "worldspawn" 2)] ++
                brushListTokens (exampleClosedBrush 3 :: [])))
            (Ending.eof 11 1) none) =
        (Result.thrown (Exception.unexpectedToken 11 1 [TokenType.OBrace, TokenType.CBrace]
            TokenType.Eof),
          ⟨logAfter exampleEnv exampleBounds none (exampleClosedBrush 3 :: []),
            ⟨sym TokenType.OBrace 1 ::
              (propertyTokens [(str "classname" 2, str "worldspawn" 2)] ++
                brushListTokens (exampleClosedBrush 3 :: [])), Ending.eof 11 1, [],
              none⟩, documentFormat MapFormat.Quake (exampleClosedBrush 3 :: [])⟩)) :=
  parseEntity_at_end_of_input exampleEnv 200 exampleBounds none 11 1 MapFormat.Quake
    (sym TokenType.OBrace 1) (sym TokenType.OBrace 3)
    [(str "classname" 2, str "worldspawn" 2)] (exampleClosedBrush 3) []
    (by decide) (by decide) (by decide) (by decide!) (by decide!)

section DegenerateInEntity

variable {R : Type} [CommRing R] [DecidableEq R]

end DegenerateInEntity

section SecondCall

variable {R : Type} [CommRing R] [DecidableEq R]

theorem sameText_same (p : QuakeMapParser) : SameText p p := ⟨rfl, rfl, rfl⟩

theorem sameText_swap {p q : QuakeMapParser} (h : SameText p q) : SameText q p :=
  ⟨h.1.symm, h.2.1.symm, h.2.2.symm⟩

theorem sameText_then {p q r : QuakeMapParser} (h1 : SameText p q) (h2 : SameText q r) :
    SameText p r :=
  ⟨h1.1.trans h2.1, h1.2.1.trans h2.2.1, h1.2.2.trans h2.2.2⟩

theorem sameButLog_startOfParse {p q : QuakeMapParser} (h : SameText p q)
    (format : MapFormat) : SameButLog (p.startOfParse format) (q.startOfParse format) := by
  obtain ⟨h1, h2, h3⟩ := h
  rcases p with ⟨lg, ⟨inp, en, rem, pd⟩, fmt⟩
  rcases q with ⟨lg2, ⟨inp2, en2, rem2, pd2⟩, fmt2⟩
  simp only at h1 h2 h3
  subst h1 h2
  exact ⟨rfl, rfl, h3⟩

theorem regular_pure {α : Type} (a : α) : Regular (pure a : M α) :=
  ⟨fun _ _ h => ⟨rfl, h⟩, fun p => sameText_same p⟩

theorem regular_throwException {α : Type} (e : Exception) :
    Regular (throwException e : M α) :=
  ⟨fun _ _ h => ⟨rfl, h⟩, fun p => sameText_same p⟩

theorem regular_outOfFuel {α : Type} : Regular (outOfFuel : M α) :=
  ⟨fun _ _ h => ⟨rfl, h⟩, fun p => sameText_same p⟩

theorem regular_bind {α β : Type} {m : M α} {f : α → M β} (hm : Regular m)
    (hf : ∀ a, Regular (f a)) : Regular (m >>= f) := by
  constructor
  · intro p q h
    obtain ⟨h1, h2⟩ := hm.1 p q h
    simp only [M.bind_apply]
    rcases hp : m p with ⟨r1, p1⟩
    rcases hq : m q with ⟨r2, q1⟩
    rw [hp, hq] at h1 h2
    simp only at h1 h2
    subst h1
    cases r1 with
    | ok a => exact (hf a).1 p1 q1 h2
    | thrown e => exact ⟨rfl, h2⟩
    | outOfFuel => exact ⟨rfl, h2⟩
  · intro p
    have h1 := hm.2 p
    simp only [M.bind_apply]
    rcases hp : m p with ⟨r1, p1⟩
    rw [hp] at h1
    cases r1 with
    | ok a => exact sameText_then h1 ((hf a).2 p1)
    | thrown e => exact h1
    | outOfFuel => exact h1

theorem regular_tryCatchAll {α : Type} {m : M α} {handler : Exception → M α}
    (hm : Regular m) (hh : ∀ e, Regular (handler e)) : Regular (tryCatchAll m handler) := by
  constructor
  · intro p q h
    obtain ⟨h1, h2⟩ := hm.1 p q h
    unfold TrenchBroom.tryCatchAll
    rcases hp : m p with ⟨r1, p1⟩
    rcases hq : m q with ⟨r2, q1⟩
    rw [hp, hq] at h1 h2
    simp only at h1 h2
    subst h1
    cases r1 with
    | ok a => exact ⟨rfl, h2⟩
    | thrown e => exact (hh e).1 p1 q1 h2
    | outOfFuel => exact ⟨rfl, h2⟩
  · intro p
    have h1 := hm.2 p
    unfold TrenchBroom.tryCatchAll
    rcases hp : m p with ⟨r1, p1⟩
    rw [hp] at h1
    cases r1 with
    | ok a => exact h1
    | thrown e => exact sameText_then h1 ((hh e).2 p1)
    | outOfFuel => exact h1

theorem regular_ite {α : Type} {c : Prop} [Decidable c] {a b : M α} (ha : Regular a)
    (hb : Regular b) : Regular (if c then a else b) := by
  split
  · exact ha
  · exact hb

theorem regular_nextToken : Regular nextToken := by
  constructor
  · intro p q h
    obtain ⟨h1, h2, h3⟩ := h
    rcases p with ⟨lg, ⟨inp, en, rem, pd⟩, fmt⟩
    rcases q with ⟨lg2, tk2, fmt2⟩
    simp only at h1 h2 h3
    subst h1 h2
    unfold TrenchBroom.nextToken
    cases pd with
    | some t => exact ⟨rfl, rfl, rfl, h3⟩
    | none =>
      cases rem with
      | cons t ts => exact ⟨rfl, rfl, rfl, h3⟩
      | nil =>
        cases en with
        | eof l c => exact ⟨rfl, rfl, rfl, h3⟩
        | unexpectedCharacter l c ch => exact ⟨rfl, rfl, rfl, h3⟩
  · intro p
    rcases p with ⟨lg, ⟨inp, en, rem, pd⟩, fmt⟩
    unfold TrenchBroom.nextToken
    cases pd with
    | some t => exact ⟨rfl, rfl, rfl⟩
    | none =>
      cases rem with
      | cons t ts => exact ⟨rfl, rfl, rfl⟩
      | nil =>
        cases en with
        | eof l c => exact ⟨rfl, rfl, rfl⟩
        | unexpectedCharacter l c ch => exact ⟨rfl, rfl, rfl⟩

theorem regular_pushToken (t : Token) : Regular (pushToken t) := by
  constructor
  · intro p q h
    obtain ⟨h1, h2, h3⟩ := h
    exact ⟨rfl, by simp only [TrenchBroom.pushToken, h1], h2, h3⟩
  · intro p
    exact ⟨rfl, rfl, rfl⟩

theorem regular_reset : Regular reset := by
  constructor
  · intro p q h
    obtain ⟨h1, h2, h3⟩ := h
    exact ⟨rfl, by simp only [TrenchBroom.reset, h1], h2, h3⟩
  · intro p
    exact ⟨rfl, rfl, rfl⟩

theorem regular_setFormat (format : MapFormat) : Regular (setFormat format) :=
  ⟨fun _ _ h => ⟨rfl, h.1, rfl, h.2.2⟩, fun _ => ⟨rfl, rfl, rfl⟩⟩

theorem regular_getFormat : Regular getFormat :=
  ⟨fun p q h => ⟨by simp only [TrenchBroom.getFormat, h.2.1], h⟩, fun p => sameText_same p⟩

theorem regular_expect (mask : List TokenType) (token : Token) :
    Regular (expect mask token) := by
  unfold TrenchBroom.expect
  exact regular_ite (regular_pure ()) (regular_throwException _)

theorem regular_logError (entry : LogEntry) : Regular (logError entry) := by
  constructor
  · intro p q h
    obtain ⟨h1, h2, h3⟩ := h
    rcases p with ⟨lg, tk, fmt⟩
    rcases q with ⟨lg2, tk2, fmt2⟩
    simp only at h1 h2 h3
    unfold TrenchBroom.logError
    cases lg <;> cases lg2 <;> simp_all [SameButLog]
  · intro p
    rcases p with ⟨lg, tk, fmt⟩
    unfold TrenchBroom.logError
    cases lg <;> exact ⟨rfl, rfl, rfl⟩

theorem regular_parseVector (env : Env R) : Regular (parseVector env) := by
  unfold TrenchBroom.parseVector
  repeat (first
    | exact regular_nextToken
    | exact regular_expect _ _
    | exact regular_pure _
    | apply regular_bind
    | intro _)

theorem regular_parseFaceOffsets (env : Env R) : Regular (parseFaceOffsets env) := by
  unfold TrenchBroom.parseFaceOffsets
  repeat (first
    | exact regular_nextToken
    | exact regular_getFormat
    | exact regular_parseVector env
    | exact regular_expect _ _
    | exact regular_pure _
    | apply regular_bind
    | apply regular_ite
    | intro _)

theorem regular_parseFaceSurface (env : Env R) (token : Token) :
    Regular (parseFaceSurface env token) := by
  unfold TrenchBroom.parseFaceSurface
  repeat (first
    | exact regular_nextToken
    | exact regular_getFormat
    | exact regular_expect _ _
    | exact regular_pure _
    | apply regular_bind
    | apply regular_ite
    | intro _)

theorem regular_parseFace (env : Env R) (wb : BBox3 R) : Regular (parseFace env wb) := by
  unfold TrenchBroom.parseFace
  repeat (first
    | exact regular_nextToken
    | exact regular_getFormat
    | exact regular_parseVector env
    | exact regular_parseFaceOffsets env
    | exact regular_parseFaceSurface env _
    | exact regular_expect _ _
    | exact regular_pure _
    | apply regular_bind
    | apply regular_ite
    | intro _
    | split)

theorem regular_createBrush (env : Env R) (wb : BBox3 R) (faces : List (BrushFace R))
    (firstLine lineCount : Nat) : Regular (createBrush env wb faces firstLine lineCount) := by
  unfold TrenchBroom.createBrush
  dsimp only
  split
  · exact regular_pure _
  · exact regular_bind (regular_logError _) (fun _ => regular_pure _)

theorem regular_parseBrushLoop (env : Env R) (wb : BBox3 R) (firstLine : Nat) :
    ∀ (fuel : Nat) (faces : List (BrushFace R)),
      Regular (parseBrushLoop env wb firstLine fuel faces) := by
  intro fuel
  induction fuel with
  | zero => intro faces; exact regular_outOfFuel
  | succ n ih =>
    intro faces
    simp only [parseBrushLoop]
    repeat (first
      | exact regular_nextToken
      | exact regular_pushToken _
      | exact regular_parseFace env wb
      | exact regular_createBrush env wb _ _ _
      | exact ih _
      | exact regular_expect _ _
      | exact regular_pure _
      | apply regular_bind
      | apply regular_ite
      | intro _
      | split)

theorem regular_parseBrush (env : Env R) (fuel : Nat) (wb : BBox3 R) :
    Regular (parseBrush env fuel wb) := by
  unfold TrenchBroom.parseBrush
  repeat (first
    | exact regular_nextToken
    | exact regular_parseBrushLoop env wb _ _ _
    | exact regular_expect _ _
    | exact regular_pure _
    | apply regular_bind
    | apply regular_ite
    | intro _)

theorem regular_parseEntityBrushes (env : Env R) (fuel : Nat) (wb : BBox3 R) :
    ∀ (n : Nat) (entity : Entity R), Regular (parseEntityBrushes env fuel wb n entity) := by
  intro n
  induction n with
  | zero => intro entity; exact regular_outOfFuel
  | succ n ih =>
    intro entity
    simp only [parseEntityBrushes]
    repeat (first
      | exact regular_nextToken
      | exact regular_pushToken _
      | exact regular_parseBrush env fuel wb
      | exact ih _
      | exact regular_expect _ _
      | exact regular_pure _
      | apply regular_bind
      | apply regular_ite
      | intro _)

theorem regular_parseEntityLoop (env : Env R) (fuel : Nat) (wb : BBox3 R) (firstLine : Nat) :
    ∀ (n : Nat) (entity : Entity R),
      Regular (parseEntityLoop env fuel wb firstLine n entity) := by
  intro n
  induction n with
  | zero => intro entity; exact regular_outOfFuel
  | succ n ih =>
    intro entity
    simp only [parseEntityLoop]
    repeat (first
      | exact regular_nextToken
      | exact regular_pushToken _
      | exact regular_parseEntityBrushes env fuel wb _ _
      | exact ih _
      | exact regular_expect _ _
      | exact regular_pure _
      | apply regular_bind
      | apply regular_ite
      | intro _)

theorem regular_parseEntity (env : Env R) (fuel : Nat) (wb : BBox3 R) :
    Regular (parseEntity env fuel wb) := by
  unfold TrenchBroom.parseEntity
  repeat (first
    | exact regular_nextToken
    | exact regular_parseEntityLoop env fuel wb _ _ _
    | exact regular_throwException _
    | exact regular_expect _ _
    | exact regular_pure _
    | apply regular_bind
    | apply regular_ite
    | apply regular_tryCatchAll
    | intro _)

theorem regular_doParseMapLoop (env : Env R) (fuel : Nat) (wb : BBox3 R) :
    ∀ (n : Nat) (entity : Option (Entity R)) (map : Map R),
      Regular (doParseMapLoop env fuel wb n entity map) := by
  intro n
  induction n with
  | zero => intro entity map; exact regular_outOfFuel
  | succ n ih =>
    intro entity map
    cases entity with
    | none => exact regular_pure _
    | some e =>
      simp only [doParseMapLoop]
      exact regular_bind (regular_parseEntity env fuel wb) (fun _ => ih _ _)

theorem regular_collectLoop {α : Type} {parseItem : M (Option α)} (hitem : Regular parseItem) :
    ∀ (n : Nat) (item : Option α) (items : List α),
      Regular (collectLoop parseItem n item items) := by
  intro n
  induction n with
  | zero => intro item items; exact regular_outOfFuel
  | succ n ih =>
    intro item items
    cases item with
    | none => exact regular_pure _
    | some e =>
      simp only [collectLoop]
      exact regular_bind hitem (fun _ => ih _ _)

theorem regular_detectFormatSkip :
    ∀ (fuel : Nat) (token : Token), Regular (detectFormatSkip fuel token) := by
  intro fuel
  induction fuel with
  | zero => intro token; exact regular_outOfFuel
  | succ n ih =>
    intro token
    simp only [detectFormatSkip]
    exact regular_ite (regular_bind regular_nextToken (fun _ => ih _)) (regular_pure _)

theorem regular_detectFormatPoint (env : Env R) : Regular (detectFormatPoint env) := by
  unfold TrenchBroom.detectFormatPoint
  repeat (first
    | exact regular_nextToken
    | exact regular_parseVector env
    | exact regular_expect _ _
    | exact regular_pure _
    | apply regular_bind
    | intro _)

theorem regular_detectFormatFace (env : Env R) : Regular (detectFormatFace env) := by
  unfold TrenchBroom.detectFormatFace
  repeat (first
    | exact regular_nextToken
    | exact regular_detectFormatPoint env
    | exact regular_expect _ _
    | exact regular_pure _
    | apply regular_bind
    | apply regular_ite
    | intro _)

theorem regular_detectFormat (env : Env R) (fuel : Nat) : Regular (detectFormat env fuel) := by
  unfold TrenchBroom.detectFormat TrenchBroom.detectFormatFind
  repeat (first
    | exact regular_nextToken
    | exact regular_pushToken _
    | exact regular_detectFormatSkip _ _
    | exact regular_detectFormatFace env
    | exact regular_pure _
    | apply regular_bind
    | apply regular_ite
    | intro _)

theorem regular_doParseMap (env : Env R) (fuel : Nat) (wb : BBox3 R) :
    Regular (doParseMap env fuel wb) := by
  unfold TrenchBroom.doParseMap
  repeat (first
    | exact regular_detectFormat env fuel
    | exact regular_setFormat _
    | exact regular_reset
    | exact regular_parseEntity env fuel wb
    | exact regular_doParseMapLoop env fuel wb _ _ _
    | exact regular_throwException _
    | exact regular_pure _
    | apply regular_bind
    | apply regular_tryCatchAll
    | intro _)

theorem regular_doParseList {α : Type} (env : Env R) (fuel : Nat) {parseItem : M (Option α)}
    (hitem : Regular parseItem) : Regular (doParseList env fuel parseItem) := by
  unfold TrenchBroom.doParseList
  repeat (first
    | exact regular_detectFormat env fuel
    | exact regular_setFormat _
    | exact regular_reset
    | exact hitem
    | exact regular_collectLoop hitem _ _ _
    | exact regular_pure _
    | apply regular_bind
    | apply regular_ite
    | apply regular_tryCatchAll
    | intro _)

/-- After `m_format = format; m_tokenizer.reset();` two states on the same text differ in
the logged diagnostics only, so what follows gives the same result on both. -/
theorem after_reset {α : Type} (format : MapFormat) {rest : M α} (hrest : Regular rest)
    (p q : QuakeMapParser) (h : SameText p q) :
    ((setFormat format >>= fun _ => reset >>= fun _ => rest) p).1 =
        ((setFormat format >>= fun _ => reset >>= fun _ => rest) q).1 ∧
      SameButLog ((setFormat format >>= fun _ => reset >>= fun _ => rest) p).2
        ((setFormat format >>= fun _ => reset >>= fun _ => rest) q).2 := by
  have hstart : ∀ s, (setFormat format >>= fun _ => reset >>= fun _ => rest) s =
      rest (s.startOfParse format) := fun s => rfl
  rw [hstart p, hstart q]
  exact hrest.1 _ _ (sameButLog_startOfParse h format)

theorem tryCatchAll_agree {α : Type} (m : M α) {handler : Exception → M α}
    (hh : ∀ e, Regular (handler e)) (p q : QuakeMapParser)
    (h : (m p).1 = (m q).1 ∧ SameButLog (m p).2 (m q).2) :
    (tryCatchAll m handler p).1 = (tryCatchAll m handler q).1 ∧
      SameButLog (tryCatchAll m handler p).2 (tryCatchAll m handler q).2 := by
  obtain ⟨h1, h2⟩ := h
  unfold TrenchBroom.tryCatchAll
  rcases hp : m p with ⟨r1, p1⟩
  rcases hq : m q with ⟨r2, q1⟩
  rw [hp, hq] at h1 h2
  simp only at h1 h2
  subst h1
  cases r1 with
  | ok a => exact ⟨rfl, h2⟩
  | thrown e => exact (hh e).1 p1 q1 h2
  | outOfFuel => exact ⟨rfl, h2⟩

/-- At the end of the input `detectFormat` answers `Quake` and leaves the state as it is. -/
theorem detectFormat_atEnd (env : Env R) (fuel : Nat) (hfuel : 0 < fuel) (q : QuakeMapParser)
    (hq : q.m_tokenizer.atEnd = true) :
    detectFormat env fuel q = (Result.ok MapFormat.Quake, q) := by
  rcases q with ⟨lg, ⟨inp, en, rem, pd⟩, fmt⟩
  simp only [Tokenizer.atEnd, Bool.and_eq_true, List.isEmpty_iff, Option.isNone_iff_eq_none]
    at hq
  obtain ⟨⟨h1, h2⟩, h3⟩ := hq
  subst h1 h2
  cases en with
  | eof l c =>
    exact detectFormat_noParenthesis env lg inp l c fmt [] fuel
      (fun x hx => absurd hx (List.not_mem_nil x)) hfuel
  | unexpectedCharacter l c ch => simp at h3

theorem detectFormat_ok_fuel (env : Env R) (fuel : Nat) (p : QuakeMapParser)
    (format : MapFormat) (h : (detectFormat env fuel p).1 = Result.ok format) : 0 < fuel := by
  rcases Nat.eq_zero_or_pos fuel with h0 | h0
  · subst h0
    exfalso
    simp only [detectFormat, detectFormatFind, M.bind_apply, detectFormatSkip] at h
    rcases hn : nextToken p with ⟨r, p1⟩
    rw [hn] at h
    cases r <;> simp [TrenchBroom.outOfFuel] at h
  · exact h0

/-- The shape shared by the four entry points, detection first and what follows it next:
when the two detections agree, or the first call has read the input to its end after
detecting `Quake`, the second call returns what the first one returned. -/
theorem secondCallAgrees_of_shape {α : Type} (env : Env R) (fuel : Nat) (entry : M α)
    (follow : MapFormat → M α)
    (hshape : ∀ p f, (detectFormat env fuel p).1 = Result.ok f →
      entry p = follow f (detectFormat env fuel p).2)
    (hfollow : ∀ f p q, SameText p q →
      (follow f p).1 = (follow f q).1 ∧ (follow f p).2.m_format = (follow f q).2.m_format)
    (htext : ∀ f p, SameText p (follow f p).2)
    (p : QuakeMapParser) (format : MapFormat)
    (hfirst : (detectFormat env fuel p).1 = Result.ok format) :
    SecondCallAgrees (detectFormat env fuel) entry format p := by
  intro hsecond
  have hfuel := detectFormat_ok_fuel env fuel p format hfirst
  have hsecond2 : (detectFormat env fuel (entry p).2).1 = Result.ok format := by
    rcases hsecond with h | ⟨h1, h2⟩
    · exact h
    · rw [detectFormat_atEnd env fuel hfuel _ h2, h1]
  have e1 := hshape p format hfirst
  have e2 := hshape (entry p).2 format hsecond2
  have t1 : SameText (detectFormat env fuel p).2 (entry p).2 := by
    rw [e1]
    exact htext format _
  have t2 : SameText (entry p).2 (detectFormat env fuel (entry p).2).2 :=
    (regular_detectFormat env fuel).2 _
  have := hfollow format _ _ (sameText_swap (sameText_then t1 t2))
  rw [e2]
  rw [e1] at this ⊢
  exact this

theorem doParseMap_shape (env : Env R) (fuel : Nat) (wb : BBox3 R) (p : QuakeMapParser)
    (f : MapFormat) (h : (detectFormat env fuel p).1 = Result.ok f) :
    doParseMap env fuel wb p =
      (setFormat f >>= fun _ => reset >>= fun _ =>
        tryCatchAll
          (parseEntity env fuel wb >>= fun entity =>
            doParseMapLoop env fuel wb fuel entity { format := f, entities := [] })
          (fun e => throwException e)) (detectFormat env fuel p).2 := by
  rcases hd : detectFormat env fuel p with ⟨r, p1⟩
  rw [hd] at h
  simp only at h
  subst h
  show (detectFormat env fuel >>= _) p = _
  rw [M.bind_apply, hd]

theorem doParseList_shape {α : Type} (env : Env R) (fuel : Nat) (parseItem : M (Option α))
    (p : QuakeMapParser) (f : MapFormat) (h : (detectFormat env fuel p).1 = Result.ok f) :
    doParseList env fuel parseItem p =
      tryCatchAll
        (setFormat f >>= fun _ =>
          if f = MapFormat.Unknown then pure []
          else reset >>= fun _ => parseItem >>= fun item => collectLoop parseItem fuel item [])
        (fun _ => pure []) (detectFormat env fuel p).2 := by
  rcases hd : detectFormat env fuel p with ⟨r, p1⟩
  rw [hd] at h
  simp only at h
  subst h
  show tryCatchAll (detectFormat env fuel >>= _) _ p = _
  unfold TrenchBroom.tryCatchAll
  rw [M.bind_apply, hd]

theorem doParseList_agrees {α : Type} (env : Env R) (fuel : Nat) {parseItem : M (Option α)}
    (hitem : Regular parseItem) (p : QuakeMapParser) (format : MapFormat)
    (hfirst : (detectFormat env fuel p).1 = Result.ok format) :
    SecondCallAgrees (detectFormat env fuel) (doParseList env fuel parseItem) format p := by
  refine secondCallAgrees_of_shape env fuel _ _ (doParseList_shape env fuel parseItem) ?_ ?_
    p format hfirst
  · intro f s t hst
    by_cases hf : f = MapFormat.Unknown
    · subst hf
      exact ⟨rfl, rfl⟩
    · have hrest : Regular (parseItem >>= fun item => collectLoop parseItem fuel item []) :=
        regular_bind hitem (fun _ => regular_collectLoop hitem _ _ _)
      have h1 := after_reset f hrest s t hst
      simp only [hf, if_false]
      have h2 := tryCatchAll_agree _ (fun _ => regular_pure ([] : List α)) s t h1
      exact ⟨h2.1, h2.2.2.1⟩
  · intro f s
    refine (regular_tryCatchAll (regular_bind (regular_setFormat f) (fun _ => ?_))
      (fun _ => regular_pure _)).2 s
    exact regular_ite (regular_pure _) (regular_bind regular_reset (fun _ =>
      regular_bind hitem (fun _ => regular_collectLoop hitem _ _ _)))

theorem doParseMap_agrees (env : Env R) (fuel : Nat) (wb : BBox3 R) (p : QuakeMapParser)
    (format : MapFormat) (hfirst : (detectFormat env fuel p).1 = Result.ok format) :
    SecondCallAgrees (detectFormat env fuel) (doParseMap env fuel wb) format p := by
  refine secondCallAgrees_of_shape env fuel _ _ (doParseMap_shape env fuel wb) ?_ ?_
    p format hfirst
  · intro f s t hst
    have hrest : Regular (tryCatchAll
        (parseEntity env fuel wb >>= fun entity =>
          doParseMapLoop env fuel wb fuel entity { format := f, entities := [] })
        (fun e => throwException e)) :=
      regular_tryCatchAll (regular_bind (regular_parseEntity env fuel wb)
        (fun _ => regular_doParseMapLoop env fuel wb _ _ _)) (fun _ => regular_throwException _)
    have h1 := after_reset f hrest s t hst
    exact ⟨h1.1, h1.2.2.1⟩
  · intro f s
    exact (regular_bind (regular_setFormat f) (fun _ => regular_bind regular_reset (fun _ =>
      regular_tryCatchAll (regular_bind (regular_parseEntity env fuel wb)
        (fun _ => regular_doParseMapLoop env fuel wb _ _ _))
        (fun _ => regular_throwException _)))).2 s

end SecondCall

/-! ## Claims settled with the lemmas above: C4, C13 and C20 -/

/-- C4 (the code departs from the claim): beside a brush that the geometry kernel rejects, a
brush that holds a face with collinear points makes `doParseMap` raise.  On
`exampleDegenerateDocument` (one entity; a one-face brush, which the example kernel rejects;
a brush made of a degenerate face and the six faces of a box, which the kernel accepts, every
face well-formed StandardA) `doParseMap` logs the rejected brush and then raises
`UnexpectedToken` on the first number after the texture name of the degenerate face, on
line 7: `parseFace` has returned NULL before reading the rest of the face (lines 357 to 359)
and the loop of `parseBrush` expects a parenthesis (line 326).  Without the degenerate face
(`exampleTwoBrushDocument`) `doParseMap` returns the Document whose entity holds exactly the
box, and the logger holds exactly one diagnostic, for line 3.  In general what the claim
says holds when no face of the two brushes is degenerate and all faces are written in one
of the dialects StandardA, StandardB and StandardD, in either order of the two brushes. -/
theorem doParseMap_rejected_brush_beside_degenerate_face :
    doParseMap exampleEnv 300 exampleBounds (freshParser exampleDegenerateDocument 15) =
      (Result.thrown (Exception.unexpectedToken 7 1
        [TokenType.OParenthesis, TokenType.CParenthesis] TokenType.Integer),
        ⟨some [{ line := 3, what := "brush is not closed" }],
          ⟨exampleDegenerateDocument, Ending.eof 15 1,
            [num "0" 7, num "0" 7, num "1" 7, num "1" 7] ++
              (faceListTokens (cubeFaces 8) ++
                [sym TokenType.CBrace 14, sym TokenType.CBrace 15]), none⟩,
          MapFormat.Quake⟩) ∧
    (exampleEnv.geometry exampleBounds ((exampleOpenBrush 3).sortedFaces exampleEnv) =
        some "brush is not closed" ∧
      exampleEnv.geometry exampleBounds ((exampleClosedBrush 6).sortedFaces exampleEnv) =
        none ∧
      (exampleDegenerateBox 6).faces = degenerateFaceSrc 7 :: (exampleClosedBrush 7).faces ∧
      (∀ f ∈ (exampleOpenBrush 3).faces ++ (exampleDegenerateBox 6).faces,
        f.WellFormed MapFormat.Quake) ∧
      ((degenerateFaceSrc 7).cross exampleEnv).null = true) ∧
    doParseMap exampleEnv 300 exampleBounds (freshParser exampleTwoBrushDocument 14) =
      (Result.ok
          { format := MapFormat.Quake
            entities :=
              [{ properties := [("classname", "worldspawn")]
                 brushes := [{ faces := (cubeFaces 7).map (FaceSrc.face exampleEnv)
                               filePosition := (6, 7) }]
                 filePosition := (1, 13) }] },
        ⟨some [{ line := 3, what := "brush is not closed" }],
          ⟨exampleTwoBrushDocument, Ending.eof 14 1, [], none⟩, MapFormat.Quake⟩) ∧
    (∀ (R : Type) [CommRing R] [DecidableEq R] (env : Env R) (fuel : Nat) (wb : BBox3 R)
        (lg : Option (List LogEntry)) (l c : Nat) (fmt : MapFormat) (eo ec : Token)
        (props : List (Token × Token)) (good bad : BrushSrc) (badFirst : Bool) (what : String),
      eo.type = TokenType.OBrace → ec.type = TokenType.CBrace →
      (∀ kv ∈ props, kv.1.type = TokenType.String ∧ kv.2.type = TokenType.String) →
      good.WellFormedNonDegenerate env fmt → bad.WellFormedNonDegenerate env fmt →
      env.geometry wb (good.sortedFaces env) = none →
      env.geometry wb (bad.sortedFaces env) = some what →
      (entityTokens eo props (if badFirst then [bad, good] else [good, bad]) ec).length <
        fuel →
      doParseMap env fuel wb
          (QuakeMapParser.new
            (entityTokens eo props (if badFirst then [bad, good] else [good, bad]) ec)
            (Ending.eof l c) lg) =
        (Result.ok
            { format := documentFormat fmt (if badFirst then [bad, good] else [good, bad])
              entities :=
                [{ properties := (addProperties (Entity.new : Entity R) props).properties
                   brushes := [good.accepted env]
                   filePosition := (eo.line, ec.line - eo.line) }] },
          ⟨lg.map (fun entries => entries ++ [{ line := bad.o.line, what := what }]),
            ⟨entityTokens eo props (if badFirst then [bad, good] else [good, bad]) ec,
              Ending.eof l c, [], none⟩,
            documentFormat fmt (if badFirst then [bad, good] else [good, bad])⟩)) :=
  ⟨by decide!, ⟨by decide!, by decide!, by decide!, by decide!, by decide!⟩, by decide!,
    fun _ _ _ env fuel wb lg l c fmt eo ec props good bad badFirst what heo hec hprops hgood
        hbad hacc hrej hfuel =>
      doParseMap_skips_rejected_brush env fuel wb lg l c fmt eo ec props good bad badFirst what
        heo hec hprops hgood hbad hacc hrej hfuel⟩

/-- C20, the input of claim C9 called twice: on one well-formed StandardA face the first
`doParseFaces` returns the empty list, because its detection raises at the end of the
input, and the second one, whose detection starts at the end of the input and answers
`Quake`, returns the face. -/
theorem doParseFaces_lone_face_second_call :
    (detectFormat exampleEnv 4 (freshParser (exampleFace 1) 1)).1 =
      Result.thrown (Exception.unexpectedToken 1 1
        [TokenType.Integer, TokenType.Decimal, TokenType.OParenthesis, TokenType.CBrace]
        TokenType.Eof) ∧
    (doParseFaces exampleEnv 4 exampleBounds (freshParser (exampleFace 1) 1)).1 =
      Result.ok [] ∧
    (doParseFaces exampleEnv 4 exampleBounds
        (doParseFaces exampleEnv 4 exampleBounds (freshParser (exampleFace 1) 1)).2).1 =
      Result.ok [(exampleFaceSrc 1).face exampleEnv] := by
  refine ⟨by decide!, by decide!, by decide!⟩

/-- Claim C20, amended.  Let an entry point be called in any parser state `p`, on any input,
and let the format detection of this first call return `format`.  The format detection of
a second call of the same entry point starts where the first call has left the tokenizer,
because the rewind comes after the detection (lines 140 and 141, 160 and 164, 180 and 184,
200 and 204).  When it returns `format` again, the second call returns what the first call
returned and leaves the same `m_format`; this holds for each of the four entry points.  At
the end of the input `detectFormat` returns `Quake` whatever the document, so the two
detections agree whenever the first call has detected `Quake` and has read the input to its
end. -/
theorem second_call_same_detection {R : Type} [CommRing R] [DecidableEq R]
    (env : Env R) (fuel : Nat) (wb : BBox3 R) (p : QuakeMapParser) (format : MapFormat)
    (hfirst : (detectFormat env fuel p).1 = Result.ok format) :
    (∀ q : QuakeMapParser, q.m_tokenizer.atEnd = true →
      detectFormat env fuel q = (Result.ok MapFormat.Quake, q)) ∧
    SecondCallAgrees (detectFormat env fuel) (doParseMap env fuel wb) format p ∧
    SecondCallAgrees (detectFormat env fuel) (doParseEntities env fuel wb) format p ∧
    SecondCallAgrees (detectFormat env fuel) (doParseBrushes env fuel wb) format p ∧
    SecondCallAgrees (detectFormat env fuel) (doParseFaces env fuel wb) format p :=
  ⟨fun q hq => detectFormat_atEnd env fuel (detectFormat_ok_fuel env fuel p format hfirst) q hq,
    doParseMap_agrees env fuel wb p format hfirst,
    doParseList_agrees env fuel (regular_parseEntity env fuel wb) p format hfirst,
    doParseList_agrees env fuel (regular_parseBrush env fuel wb) p format hfirst,
    doParseList_agrees env fuel (regular_parseFace env wb) p format hfirst⟩

/-- Claim C20, amended, at the StandardA document `exampleTwoBrushDocument` read by
`doParseMap` and at two StandardA faces read by `doParseFaces`: the first call detects
`Quake` and leaves the tokenizer at the end of the input, and the second call returns the
same Document, or the same two faces, as the first. -/
theorem second_call_same_detection_witness :
    ((detectFormat exampleEnv 200 (freshParser exampleTwoBrushDocument 14)).1 =
        Result.ok MapFormat.Quake ∧
      (doParseMap exampleEnv 200 exampleBounds
        (freshParser exampleTwoBrushDocument 14)).2.m_tokenizer.atEnd = true ∧
      (doParseMap exampleEnv 200 exampleBounds
          (freshParser exampleTwoBrushDocument 14)).1 =
        Result.ok
          { format := MapFormat.Quake
            entities :=
              [{ properties := [("classname", "worldspawn")]
                 brushes := [{ faces := (cubeFaces 7).map (FaceSrc.face exampleEnv)
                               filePosition := (6, 7) }]
                 filePosition := (1, 13) }] } ∧
      ((doParseMap exampleEnv 200 exampleBounds
          (doParseMap exampleEnv 200 exampleBounds
            (freshParser exampleTwoBrushDocument 14)).2).1 =
        (doParseMap exampleEnv 200 exampleBounds
          (freshParser exampleTwoBrushDocument 14)).1 ∧
      (doParseMap exampleEnv 200 exampleBounds
          (doParseMap exampleEnv 200 exampleBounds
            (freshParser exampleTwoBrushDocument 14)).2).2.m_format =
        (doParseMap exampleEnv 200 exampleBounds
          (freshParser exampleTwoBrushDocument 14)).2.m_format)) ∧
    ((detectFormat exampleEnv 50 (freshParser (exampleFace 1 ++ exampleFace 2) 2)).1 =
        Result.ok MapFormat.Quake ∧
      (doParseFaces exampleEnv 50 exampleBounds
          (freshParser (exampleFace 1 ++ exampleFace 2) 2)).1 =
        Result.ok [(exampleFaceSrc 1).face exampleEnv, (exampleFaceSrc 2).face exampleEnv] ∧
      ((doParseFaces exampleEnv 50 exampleBounds
          (doParseFaces exampleEnv 50 exampleBounds
            (freshParser (exampleFace 1 ++ exampleFace 2) 2)).2).1 =
        (doParseFaces exampleEnv 50 exampleBounds
          (freshParser (exampleFace 1 ++ exampleFace 2) 2)).1 ∧
      (doParseFaces exampleEnv 50 exampleBounds
          (doParseFaces exampleEnv 50 exampleBounds
            (freshParser (exampleFace 1 ++ exampleFace 2) 2)).2).2.m_format =
        (doParseFaces exampleEnv 50 exampleBounds
          (freshParser (exampleFace 1 ++ exampleFace 2) 2)).2.m_format)) :=
  ⟨⟨by decide!, by decide!, by decide!,
      (second_call_same_detection exampleEnv 200 exampleBounds
        (freshParser exampleTwoBrushDocument 14) MapFormat.Quake (by decide!)).2.1
        (Or.inr ⟨rfl, by decide!⟩)⟩,
    ⟨by decide!, by decide!,
      (second_call_same_detection exampleEnv 50 exampleBounds
        (freshParser (exampleFace 1 ++ exampleFace 2) 2) MapFormat.Quake (by decide!)).2.2.2.2
        (Or.inr ⟨rfl, by decide!⟩)⟩⟩

/-- The conversion of line 54 with `22/7` for `Math::Pi`: the angle 1 gives no quarter turn,
the angle `22/7` gives two, and the negative angle `-22/7`, for which C++ leaves the
conversion undefined, gives `2 ^ 32 - 2` on a machine that wraps. -/
theorem quarters_examples :
    quarters exampleRotateEnv exampleRotation = 0 ∧
    quarters exampleRotateEnv { exampleRotation with m_angle := 22 / 7 } = 2 ∧
    quarters exampleRotateEnv { exampleRotation with m_angle := -(22 / 7) } = 2 ^ 32 - 2 := by
  refine ⟨by decide!, by decide!, by decide!⟩

end TrenchBroom
